import Mathlib

/-!
# ODE Triggers: a shallow embedding of `DslOdeTrigger.cpp`

The C++ classes of `src/DslOdeTrigger.cpp` are embedded as pure functions over an
explicit state record.

* `OdeTrigger` holds the members of the C++ base class (same names), the state of the
  concrete subclass (`variant`), and the part of the host the code talks to: the GLib
  timer sources the trigger created, the name services, the wall clock and a `log` of
  every outward call (Action dispatch, listener callback, timer call, name lookup).
* A C++ `float` or `double` value is the rational it stands for. The `float` operations
  on bounding boxes (areas, percent bounds, test points) are rounded to the nearest
  `float` by `float32`, and a conversion to `uint` keeps 32 bits. `uint` counters are
  unbounded naturals (the products `1000*m_resetTimeout` are reduced modulo `2^32` as in
  the source).
* A call that ends the process (a write through a null pointer) returns `none`.
* A `std::map` is an association list in key order, and a range-for over it is a
  traversal of that list.
* Actions, Areas, listeners and client callbacks are taken not to throw and not to call
  back into the trigger.
-/

namespace DSL

/-! ## Constants declared in headers outside the sources -/

/-- Modelled from the spec: the `ANY_CLASS` sentinel of the class-id filter; its
declaration is in a header that is not part of the sources. -/
def DSL_ODE_ANY_CLASS : Nat := 2147483647

/-- Modelled from the spec: `When` value PRE_OCCURRENCE_CHECK. -/
def DSL_ODE_PRE_OCCURRENCE_CHECK : Nat := 0

/-- Modelled from the spec: `When` value POST_OCCURRENCE_CHECK. -/
def DSL_ODE_POST_OCCURRENCE_CHECK : Nat := 1

/-- Modelled from the spec: `BboxTestPoint` values, in the order the spec lists them. -/
def DSL_BBOX_POINT_CENTER : Nat := 0
def DSL_BBOX_POINT_NORTH_WEST : Nat := 1
def DSL_BBOX_POINT_NORTH : Nat := 2
def DSL_BBOX_POINT_NORTH_EAST : Nat := 3
def DSL_BBOX_POINT_EAST : Nat := 4
def DSL_BBOX_POINT_SOUTH_EAST : Nat := 5
def DSL_BBOX_POINT_SOUTH : Nat := 6
def DSL_BBOX_POINT_SOUTH_WEST : Nat := 7
def DSL_BBOX_POINT_WEST : Nat := 8
def DSL_BBOX_POINT_ANY : Nat := 9

/-- Modelled from the spec: `DistanceMethod` values, in the order the spec lists them. -/
def DSL_DISTANCE_METHOD_FIXED_PIXELS : Nat := 0
def DSL_DISTANCE_METHOD_PERCENT_WIDTH_A : Nat := 1
def DSL_DISTANCE_METHOD_PERCENT_WIDTH_B : Nat := 2
def DSL_DISTANCE_METHOD_PERCENT_HEIGHT_A : Nat := 3
def DSL_DISTANCE_METHOD_PERCENT_HEIGHT_B : Nat := 4

/-- The three limit events delivered to limit-event listeners. -/
inductive LimitEvent where
  | DSL_ODE_TRIGGER_LIMIT_EVENT_LIMIT_REACHED
  | DSL_ODE_TRIGGER_LIMIT_EVENT_COUNT_RESET
  | DSL_ODE_TRIGGER_LIMIT_EVENT_LIMIT_CHANGED
  deriving DecidableEq, Repr

open LimitEvent

/-! ## External metadata (read by the triggers) -/

/-- Bounding box of an object (`NvOSD_RectParams`, the fields the code reads). -/
structure NvOSD_RectParams where
  left : ℚ
  top : ℚ
  width : ℚ
  height : ℚ
  deriving DecidableEq

/-- Object metadata. `addr` is the address of the structure: the code compares
`NvDsObjectMeta*` pointers. `primary_metric` and `persistence` are the two entries of
`misc_obj_info` the triggers write. -/
structure NvDsObjectMeta where
  addr : Nat
  class_id : Nat
  object_id : Nat
  unique_component_id : Int
  confidence : ℚ
  rect_params : NvOSD_RectParams
  primary_metric : Nat
  persistence : Nat
  deriving DecidableEq

/-- Frame metadata. `occurrences` is `misc_frame_info[DSL_FRAME_INFO_OCCURRENCES]`. -/
structure NvDsFrameMeta where
  source_id : Int
  frame_num : Nat
  source_frame_width : Nat
  source_frame_height : Nat
  bInferDone : Bool
  occurrences : Nat
  deriving DecidableEq

/-- A point of a trace (`dsl_coordinate`). -/
structure dsl_coordinate where
  x : Nat
  y : Nat
  deriving DecidableEq

/-! ## Children: Areas and Actions -/

/-- The concrete class of an Area, as far as `IsType` can tell. -/
inductive AreaType where
  | inclusion
  | exclusion
  | line
  deriving DecidableEq, Repr

/-- An ODE Area as the trigger sees it: the `OdeBase` members a parent reads and assigns
(name, index, parent name), its class, its test point and its two tests. The tests
`CheckForWithin` and `CheckForCross` are implemented in `DslOdeArea.cpp`, outside the
sources, and are parameters here. -/
structure OdeArea where
  name : String
  index : Nat
  parentName : String
  type : AreaType
  bboxTestPoint : Nat
  CheckForWithin : NvOSD_RectParams → Bool
  CheckForCross : List dsl_coordinate → Bool

/-- The `IsType(typeid(OdeExclusionArea))` test. -/
def OdeArea.isExclusionArea (a : OdeArea) : Bool :=
  decide (a.type = AreaType.exclusion)

/-- An ODE Action as the trigger sees it: the `OdeBase` members a parent reads and
assigns. Its `HandleOccurrence` is outside the sources; a call of it is recorded in the
log. -/
structure OdeAction where
  name : String
  index : Nat
  parentName : String
  deriving DecidableEq

/-- An outward call made by a trigger, recorded in order in the log. -/
inductive Effect where
  | HandleOccurrence (action : String) (frame : NvDsFrameMeta)
      (object : Option NvDsObjectMeta)
  | LimitEventListener (listener : Nat) (event : LimitEvent) (limit : Nat)
      (clientData : Nat)
  | g_timeout_add (interval : Nat) (id : Nat)
  | g_source_remove (id : Nat)
  | SourceIdGet (name : String)
  | InferIdGet (name : String)
  | AreaAddMeta (area : String)
  | MultiLineAddMeta (trace : List dsl_coordinate)
  deriving DecidableEq

/-! ## `std::map` as an association list in key order -/

/-- The `find` of a `std::map`: the value stored under `k`, if any. -/
def mapFind {K V : Type} [DecidableEq K] : List (K × V) → K → Option V
  | [], _ => none
  | (k', v) :: rest, k => if k' = k then some v else mapFind rest k

/-- The key order of a `std::map<std::string, ...>`: lexicographic. -/
def stringLt (a b : String) : Bool := decide (a.data < b.data)

/-- The key order of a `std::map<uint, ...>`. -/
def uintLt (a b : Nat) : Bool := decide (a < b)

/-- The `m[k] = v` of a `std::map` with key order `lt`: replaces the value under `k` or
inserts the pair at its place in key order. -/
def mapInsert {K V : Type} [DecidableEq K] (lt : K → K → Bool) :
    List (K × V) → K → V → List (K × V)
  | [], k, v => [(k, v)]
  | (k', v') :: rest, k, v =>
    if k' = k then (k, v) :: rest
    else if lt k k' then (k, v) :: (k', v') :: rest
    else (k', v') :: mapInsert lt rest k v

/-- The `erase(k)` of a `std::map`. -/
def mapErase {K V : Type} [DecidableEq K] (m : List (K × V)) (k : K) : List (K × V) :=
  m.filter (fun p => decide (p.1 ≠ k))

/-! ## The tracked-object store

`TrackedObject` and `TrackedObjects` are implemented in a file outside the sources; the
trigger code only calls them. -/

/-- Modelled from the spec: a trace point of a tracked object, one per observed frame,
with the frame number, the bounding box and the wall-clock time of the observation. -/
structure TracePoint where
  frame_num : Nat
  rect : NvOSD_RectParams
  timeMs : Nat
  deriving DecidableEq

/-- Modelled from the spec: the `TrackedObject` entity: key `(sourceId, objectId)`,
creation timestamp, trace points (oldest first), last-seen frame number, `triggered`
latch and max-trace-points cap. -/
structure TrackedObject where
  sourceId : Int
  objectId : Nat
  creationTimeMs : Nat
  trace : List TracePoint
  frameNumber : Nat
  triggered : Bool
  maxHistory : Nat
  deriving DecidableEq

namespace TrackedObject

/-- Modelled from the spec: `update` appends a trace point, pops the oldest when the
length would exceed a non-zero cap, and updates last-seen. -/
def Update (t : TrackedObject) (frameNumber : Nat) (rect : NvOSD_RectParams) (nowMs : Nat) :
    TrackedObject :=
  let trace := t.trace ++ [{ frame_num := frameNumber, rect := rect, timeMs := nowMs }]
  let trace := if t.maxHistory ≠ 0 ∧ trace.length > t.maxHistory then trace.tail else trace
  { t with trace := trace, frameNumber := frameNumber }

/-- Modelled from the spec: the number of stored trace points. -/
def Size (t : TrackedObject) : Nat := t.trace.length

/-- Modelled from the spec: `getDurationMs`, the wall-clock delta between the first and
the last track point. -/
def GetDurationMs (t : TrackedObject) : Int :=
  match t.trace.head?, t.trace.getLast? with
  | some first, some last => (last.timeMs : Int) - (first.timeMs : Int)
  | _, _ => 0

/-- Modelled from the spec: the `triggered` latch. -/
def GetTriggered (t : TrackedObject) : Bool := t.triggered

/-- Modelled from the spec: sets the `triggered` latch. -/
def SetTriggered (t : TrackedObject) : TrackedObject := { t with triggered := true }

end TrackedObject

/-! ## Floating-point arithmetic

The bounding box of an object is four `float` values. An arithmetic operation on `float`
operands gives the `float` nearest to the exact result; `float32` is that rounding, applied
here to the exact result of each operation the code performs. -/

/-- The power `2^k` of an integer exponent, as a rational. -/
def pow2 (k : Int) : ℚ :=
  if 0 ≤ k then ((2 ^ k.toNat : Nat) : ℚ) else 1 / ((2 ^ (-k).toNat : Nat) : ℚ)

/-- The number of times a natural number can be halved before it is below 2, that is the
position of its leading binary digit; `fuel` bounds the number of halvings, and the number
itself is enough fuel. -/
def log2Fuel : Nat → Nat → Nat
  | 0, _ => 0
  | fuel + 1, n => if n < 2 then 0 else log2Fuel fuel (n / 2) + 1

/-- The exponent `e` of the binade of a rational other than 0: `2^e ≤ |q| < 2^(e+1)`. The
difference `k` of the positions of the leading digits of numerator and denominator is
`e` or `e + 1`. -/
def binade (q : ℚ) : Int :=
  let k : Int := (log2Fuel q.num.natAbs q.num.natAbs : Int) - (log2Fuel q.den q.den : Int)
  if pow2 k ≤ (if q < 0 then -q else q) then k else k - 1

/-- Rounding of a rational to the nearest integer, a tie to the even one. -/
def roundHalfEven (q : ℚ) : Int :=
  let f := Int.floor q
  if q - f < 1 / 2 then f
  else if 1 / 2 < q - f then f + 1
  else if f % 2 = 0 then f else f + 1

/-- The C++ `float` (IEEE 754 binary32) nearest to a real value, a tie going to the even
significand: 24 significant binary digits, and below `2^-126` the fixed spacing `2^-149`
of the subnormal numbers. It is the result of a `float` operation whose exact result is
`q`, and of the conversion of `q` to `float`. Above the largest `float`, where the C++
result is an infinity, the value is rounded to 24 digits in the same way. -/
def float32 (q : ℚ) : ℚ :=
  if q = 0 then 0
  else
    let ulp := pow2 (max (binade q) (-126) - 23)
    (roundHalfEven (q / ulp) : ℚ) * ulp

/-- The value of `round` for a C++ floating value, halfway cases away from zero, converted
to `uint`. For a value that is not in the range of `uint` the conversion is undefined in
C++; the low 32 bits of the integer are kept here, as by a conversion through a 64-bit
integer. -/
def roundToUint (q : ℚ) : Nat :=
  ((if 0 ≤ q then Int.floor (q + 1 / 2) else -Int.floor (-q + 1 / 2)) % 4294967296).toNat

/-- The conversion of a C++ floating value to `uint`: the fractional part is discarded.
For a value whose integral part is not in the range of `uint` the conversion is undefined
in C++; the low 32 bits of the integral part are kept here, as by a conversion through a
64-bit integer. -/
def truncToUint (q : ℚ) : Nat :=
  ((if 0 ≤ q then Int.floor q else -Int.floor (-q)) % 4294967296).toNat

/-- The coordinate of a bounding box at a test point: the nine-way `switch` that
`OdeHeatMapper::getCoordinate` and `DistanceOdeTrigger::CheckDistance` share; `none` is
the `default` branch. The sums and the halves are `float` operations. -/
def getCoordinate (testPoint : Nat) (r : NvOSD_RectParams) : Option dsl_coordinate :=
  if testPoint = DSL_BBOX_POINT_CENTER then
    some { x := roundToUint (float32 (r.left + float32 (r.width / 2)))
           y := roundToUint (float32 (r.top + float32 (r.height / 2))) }
  else if testPoint = DSL_BBOX_POINT_NORTH_WEST then
    some { x := roundToUint r.left, y := roundToUint r.top }
  else if testPoint = DSL_BBOX_POINT_NORTH then
    some { x := roundToUint (float32 (r.left + float32 (r.width / 2)))
           y := roundToUint r.top }
  else if testPoint = DSL_BBOX_POINT_NORTH_EAST then
    some { x := roundToUint (float32 (r.left + r.width)), y := roundToUint r.top }
  else if testPoint = DSL_BBOX_POINT_EAST then
    some { x := roundToUint (float32 (r.left + r.width))
           y := roundToUint (float32 (r.top + float32 (r.height / 2))) }
  else if testPoint = DSL_BBOX_POINT_SOUTH_EAST then
    some { x := roundToUint (float32 (r.left + r.width))
           y := roundToUint (float32 (r.top + r.height)) }
  else if testPoint = DSL_BBOX_POINT_SOUTH then
    some { x := roundToUint (float32 (r.left + float32 (r.width / 2)))
           y := roundToUint (float32 (r.top + r.height)) }
  else if testPoint = DSL_BBOX_POINT_SOUTH_WEST then
    some { x := roundToUint r.left, y := roundToUint (float32 (r.top + r.height)) }
  else if testPoint = DSL_BBOX_POINT_WEST then
    some { x := roundToUint r.left
           y := roundToUint (float32 (r.top + float32 (r.height / 2))) }
  else none

/-- Modelled from the spec: `getTrace(testPoint, method)`, the stored sequence of
coordinates of the test point in insertion order; method `0` keeps the end points only
(first and last), any other method the full trace. -/
def TrackedObject.GetTrace (t : TrackedObject) (testPoint : Nat) (method : Nat) :
    List dsl_coordinate :=
  let all := t.trace.filterMap (fun p => getCoordinate testPoint p.rect)
  if method = 0 then
    match all.head?, all.getLast? with
    | some a, some b => if all.length > 1 then [a, b] else [a]
    | _, _ => []
  else all

/-- Modelled from the spec: the `TrackedObjectsStore`, a mapping from
`(sourceId, objectId)` to tracked objects with a `maxHistory` bound. -/
structure TrackedObjects where
  maxHistory : Nat
  objects : List TrackedObject
  deriving DecidableEq

namespace TrackedObjects

/-- Modelled from the spec: `isTracked`. -/
def IsTracked (st : TrackedObjects) (sourceId : Int) (objectId : Nat) : Bool :=
  st.objects.any (fun t => decide (t.sourceId = sourceId ∧ t.objectId = objectId))

/-- Modelled from the spec: `get`. -/
def GetObject (st : TrackedObjects) (sourceId : Int) (objectId : Nat) :
    Option TrackedObject :=
  st.objects.find? (fun t => decide (t.sourceId = sourceId ∧ t.objectId = objectId))

/-- Modelled from the spec: `track` inserts a new tracked object with a single trace
point and last-seen equal to the frame number. -/
def Track (st : TrackedObjects) (pFrameMeta : NvDsFrameMeta) (pObjectMeta : NvDsObjectMeta)
    (nowMs : Nat) : TrackedObjects :=
  { st with objects := st.objects ++ [{
      sourceId := pFrameMeta.source_id
      objectId := pObjectMeta.object_id
      creationTimeMs := nowMs
      trace := [{ frame_num := pFrameMeta.frame_num, rect := pObjectMeta.rect_params,
                  timeMs := nowMs }]
      frameNumber := pFrameMeta.frame_num
      triggered := false
      maxHistory := st.maxHistory }] }

/-- Writes a tracked object back: the C++ code updates it in place through a shared
pointer. -/
def Put (st : TrackedObjects) (u : TrackedObject) : TrackedObjects :=
  let put := fun (t : TrackedObject) =>
    if t.sourceId = u.sourceId ∧ t.objectId = u.objectId then u else t
  { st with objects := st.objects.map put }

/-- Modelled from the spec: `purge(currentFrame)` removes every entry whose last-seen
frame differs from the current frame. -/
def Purge (st : TrackedObjects) (currentFrameNumber : Nat) : TrackedObjects :=
  { st with objects := st.objects.filter (fun t => decide (t.frameNumber = currentFrameNumber)) }

/-- Modelled from the spec: `clear`. -/
def Clear (st : TrackedObjects) : TrackedObjects := { st with objects := [] }

/-- Modelled from the spec: `isEmpty`. -/
def IsEmpty (st : TrackedObjects) : Bool := st.objects.isEmpty

/-- Modelled from the spec: sets the `maxHistory` bound. -/
def SetMaxHistory (st : TrackedObjects) (maxHistory : Nat) : TrackedObjects :=
  { st with maxHistory := maxHistory }

end TrackedObjects

/-! ## The state of the concrete triggers -/

/-- Members of `AccumulationOdeTrigger`. -/
structure AccumulationState where
  m_accumulativeOccurrences : Nat
  m_instances : List (String × Nat)

/-- Members of `CrossOdeTrigger` (with the store of `TrackingOdeTrigger`). -/
structure CrossState where
  m_pTrackedObjectsPerSource : TrackedObjects
  m_minTracePoints : Nat
  m_maxTracePoints : Nat
  m_traceEnabled : Bool
  m_testMethod : Nat
  m_traceLineWidth : Nat

/-- Members of `InstanceOdeTrigger`. -/
structure InstanceState where
  m_instances : List (String × Nat)

/-- Members of `CustomOdeTrigger`: the two client callbacks (`none` is a null pointer; a
callback returns `none` when it throws). -/
structure CustomState where
  m_clientChecker : Option (NvDsFrameMeta → NvDsObjectMeta → Option Bool)
  m_clientPostProcessor : Option (NvDsFrameMeta → Option Bool)

/-- Members of `PersistenceOdeTrigger` (with the store of `TrackingOdeTrigger`). -/
structure PersistenceState where
  m_pTrackedObjectsPerSource : TrackedObjects
  m_minimumMs : Nat
  m_maximumMs : Nat

/-- Members of `CountOdeTrigger`. -/
structure CountState where
  m_minimum : Nat
  m_maximum : Nat

/-- Members of `SmallestOdeTrigger` and of `LargestOdeTrigger`. -/
structure ExtremumState where
  m_occurrenceMetaList : List NvDsObjectMeta

/-- Members of `LatestOdeTrigger` and of `EarliestOdeTrigger` (the selected object and
its tracked time), with the store of `TrackingOdeTrigger`. -/
structure DurationState where
  m_pTrackedObjectsPerSource : TrackedObjects
  m_pObjectMeta : Option NvDsObjectMeta
  m_trackedTimeMs : Int

/-- Members of `NewLowOdeTrigger` and of `NewHighOdeTrigger` (`m_current` is
`m_currentLow`, respectively `m_currentHigh`). -/
structure NewExtremeState where
  m_preset : Nat
  m_current : Nat

/-- Members of `ABOdeTrigger`. -/
structure ABState where
  m_classIdA : Nat
  m_classIdB : Nat
  m_classIdAOnly : Bool
  m_occurrenceMetaListA : List NvDsObjectMeta
  m_occurrenceMetaListB : List NvDsObjectMeta

/-- Members of `DistanceOdeTrigger`. -/
structure DistanceState where
  m_minimum : Nat
  m_maximum : Nat
  m_testPoint : Nat
  m_testMethod : Nat

/-- The concrete class of a trigger with the members it adds to the base class. -/
inductive Variant where
  | Always (m_when : Nat)
  | Occurrence
  | Absence
  | Accumulation (v : AccumulationState)
  | Cross (v : CrossState)
  | Instance (v : InstanceState)
  | Summation
  | Custom (v : CustomState)
  | Persistence (v : PersistenceState)
  | Count (v : CountState)
  | Smallest (v : ExtremumState)
  | Largest (v : ExtremumState)
  | Latest (v : DurationState)
  | Earliest (v : DurationState)
  | NewLow (v : NewExtremeState)
  | NewHigh (v : NewExtremeState)
  | Distance (ab : ABState) (v : DistanceState)
  | Intersection (ab : ABState)

/-! ## The trigger state -/

/-- State of an ODE Trigger: the members of the C++ base class `OdeTrigger` (with
`m_enabled` of `OdeBase`), followed by the host state the code acts on. -/
structure OdeTrigger where
  m_name : String
  m_enabled : Bool
  m_source : String
  m_sourceId : Int
  m_infer : String
  m_inferId : Int
  m_classId : Nat
  m_triggered : Nat
  m_limit : Nat
  m_occurrences : Nat
  m_minConfidence : ℚ
  m_minWidth : ℚ
  m_minHeight : ℚ
  m_maxWidth : ℚ
  m_maxHeight : ℚ
  m_minFrameCountN : Nat
  m_minFrameCountD : Nat
  m_inferDoneOnly : Bool
  m_resetTimeout : Nat
  m_resetTimerId : Nat
  m_interval : Nat
  m_intervalCounter : Nat
  m_skipFrame : Bool
  m_nextAreaIndex : Nat
  m_nextActionIndex : Nat
  /-- Areas by name (`std::map<std::string, ...>`). -/
  m_pOdeAreas : List (String × OdeArea)
  /-- Areas by index (`std::map<uint, ...>`), the map the per-frame code iterates. -/
  m_pOdeAreasIndexed : List (Nat × OdeArea)
  /-- Actions by name. -/
  m_pOdeActions : List (String × OdeAction)
  /-- Actions by index, the map the per-frame code iterates. -/
  m_pOdeActionsIndexed : List (Nat × OdeAction)
  /-- Modelled from the spec: the listener set, a mapping from the limit-event callback
  (its address) to the client data; the member is declared in a header outside the
  sources. The code uses it as a `std::map` keyed by the callback (`find`, `operator[]`,
  `erase`), whose iteration order is the order of the keys. -/
  m_limitEventListeners : List (Nat × Nat)
  /-- Process-wide event counter `s_eventCount`. -/
  s_eventCount : Nat
  /-- The concrete class and its members. -/
  variant : Variant
  /-- Host: `Services::SourceIdGet`, `none` when the name is unknown (the id is then
  left as it was). -/
  SourceIdGet : String → Option Int
  /-- Host: `Services::InferIdGet`. -/
  InferIdGet : String → Option Int
  /-- Host: `GeosRectangle::Distance`, converted to `uint`; the GEOS wrappers are
  outside the sources. -/
  GeosRectangleDistance : NvOSD_RectParams → NvOSD_RectParams → Nat
  /-- Host: `GeosRectangle::Overlaps`. -/
  GeosRectangleOverlaps : NvOSD_RectParams → NvOSD_RectParams → Bool
  /-- Host: `GeosPoint::Distance`, converted to `uint`. -/
  GeosPointDistance : dsl_coordinate → dsl_coordinate → Nat
  /-- Host: the pending GLib timeout sources created by this trigger, `(id, interval)`
  with the interval in milliseconds, oldest first. -/
  timers : List (Nat × Nat)
  /-- Host: the last source id GLib handed out; ids are positive and fresh. -/
  lastSourceId : Nat
  /-- Host: the wall clock in milliseconds. -/
  nowMs : Nat
  /-- Every outward call made so far, oldest first. -/
  log : List Effect

namespace OdeTrigger

/-- The GLib call `g_timeout_add(interval, TriggerResetTimeoutHandler, this)`: a new
pending source with a fresh positive id, which is returned. -/
def g_timeout_add (s : OdeTrigger) (interval : Nat) : Nat × OdeTrigger :=
  let id := s.lastSourceId + 1
  (id, { s with
    lastSourceId := id
    timers := s.timers ++ [(id, interval)]
    log := s.log ++ [Effect.g_timeout_add interval id] })

/-- The GLib call `g_source_remove(id)`: the source is no longer pending. -/
def g_source_remove (s : OdeTrigger) (id : Nat) : OdeTrigger :=
  { s with
    timers := s.timers.filter (fun t => decide (t.1 ≠ id))
    log := s.log ++ [Effect.g_source_remove id] }

/-- The range-for over `m_limitEventListeners` calling each listener with `event`, the
current limit and its client data. -/
def callLimitEventListeners (s : OdeTrigger) (event : LimitEvent) : OdeTrigger :=
  let calls := s.m_limitEventListeners.map
    (fun l => Effect.LimitEventListener l.1 event s.m_limit l.2)
  { s with log := s.log ++ calls }

/-- The range-for over `m_pOdeActionsIndexed` calling `HandleOccurrence` on each Action,
once, with the given frame and object. -/
def callActions (s : OdeTrigger) (frame : NvDsFrameMeta) (object : Option NvDsObjectMeta) :
    OdeTrigger :=
  let calls := s.m_pOdeActionsIndexed.map
    (fun a => Effect.HandleOccurrence a.2.name frame object)
  { s with log := s.log ++ calls }

/-- `OdeTrigger::Reset` (base class). -/
def Reset (s : OdeTrigger) : OdeTrigger :=
  callLimitEventListeners { s with m_triggered := 0 }
    DSL_ODE_TRIGGER_LIMIT_EVENT_COUNT_RESET

/-- `OdeTrigger::IncrementAndCheckTriggerCount`. -/
def IncrementAndCheckTriggerCount (s : OdeTrigger) : OdeTrigger :=
  let s := { s with m_triggered := s.m_triggered + 1 }
  if s.m_triggered ≥ s.m_limit then
    let s := callLimitEventListeners s DSL_ODE_TRIGGER_LIMIT_EVENT_LIMIT_REACHED
    if s.m_resetTimeout ≠ 0 then
      let r := g_timeout_add s (1000 * s.m_resetTimeout % 2 ^ 32)
      { r.2 with m_resetTimerId := r.1 }
    else s
  else s

/-- `OdeTrigger::SetResetTimeout`. -/
def SetResetTimeout (s : OdeTrigger) (timeout : Nat) : OdeTrigger :=
  let s :=
    if s.m_resetTimerId ≠ 0 ∧ timeout = 0 then
      { (g_source_remove s s.m_resetTimerId) with m_resetTimerId := 0 }
    else if s.m_resetTimerId ≠ 0 ∧ timeout ≠ 0 then
      let s := g_source_remove s s.m_resetTimerId
      let r := g_timeout_add s (1000 * s.m_resetTimeout % 2 ^ 32)
      { r.2 with m_resetTimerId := r.1 }
    else if s.m_limit ≠ 0 ∧ s.m_triggered ≥ s.m_limit ∧ timeout ≠ 0 then
      let r := g_timeout_add s (1000 * s.m_resetTimeout % 2 ^ 32)
      { r.2 with m_resetTimerId := r.1 }
    else s
  { s with m_resetTimeout := timeout }

/-- `OdeTrigger::IsResetTimerRunning`. -/
def IsResetTimerRunning (s : OdeTrigger) : Bool :=
  decide (s.m_resetTimerId ≠ 0)

/-- `OdeTrigger::AddLimitEventListener`. -/
def AddLimitEventListener (s : OdeTrigger) (listener clientData : Nat) : Bool × OdeTrigger :=
  if (mapFind s.m_limitEventListeners listener).isSome then (false, s)
  else
    (true, { s with
      m_limitEventListeners := mapInsert uintLt s.m_limitEventListeners listener clientData })

/-- `OdeTrigger::RemoveLimitEventListener`. -/
def RemoveLimitEventListener (s : OdeTrigger) (listener : Nat) : Bool × OdeTrigger :=
  if (mapFind s.m_limitEventListeners listener).isNone then (false, s)
  else (true, { s with m_limitEventListeners := mapErase s.m_limitEventListeners listener })

/-- `OdeTrigger::SetLimit`. -/
def SetLimit (s : OdeTrigger) (limit : Nat) : OdeTrigger :=
  callLimitEventListeners { s with m_limit := limit }
    DSL_ODE_TRIGGER_LIMIT_EVENT_LIMIT_CHANGED

/-- `OdeTrigger::SetInterval`. -/
def SetInterval (s : OdeTrigger) (interval : Nat) : OdeTrigger :=
  { s with m_interval := interval, m_intervalCounter := 0 }

/-- `OdeTrigger::SetSource`. -/
def SetSource (s : OdeTrigger) (source : String) : OdeTrigger :=
  { s with m_source := source }

/-- `OdeTrigger::SetInfer`. -/
def SetInfer (s : OdeTrigger) (name : String) : OdeTrigger :=
  { s with m_infer := name }

/-- `OdeTrigger::SetClassId`. -/
def SetClassId (s : OdeTrigger) (classId : Nat) : OdeTrigger :=
  { s with m_classId := classId }

/-- `OdeTrigger::AddAction`: the result, the state and the child, whose index and parent
name the call assigns. -/
def AddAction (s : OdeTrigger) (pChild : OdeAction) : Bool × OdeTrigger × OdeAction :=
  if (mapFind s.m_pOdeActions pChild.name).isSome then (false, s, pChild)
  else
    let s := { s with m_nextActionIndex := s.m_nextActionIndex + 1 }
    let pChild := { pChild with index := s.m_nextActionIndex, parentName := s.m_name }
    (true,
      { s with
        m_pOdeActions := mapInsert stringLt s.m_pOdeActions pChild.name pChild
        m_pOdeActionsIndexed := mapInsert uintLt s.m_pOdeActionsIndexed s.m_nextActionIndex pChild },
      pChild)

/-- `OdeTrigger::RemoveAction`; the entry erased from the by-index map is the one under
the index the child currently carries. -/
def RemoveAction (s : OdeTrigger) (pChild : OdeAction) : Bool × OdeTrigger × OdeAction :=
  if (mapFind s.m_pOdeActions pChild.name).isNone then (false, s, pChild)
  else
    (true,
      { s with
        m_pOdeActions := mapErase s.m_pOdeActions pChild.name
        m_pOdeActionsIndexed := mapErase s.m_pOdeActionsIndexed pChild.index },
      { pChild with index := 0, parentName := "" })

/-- `OdeTrigger::RemoveAllActions`. -/
def RemoveAllActions (s : OdeTrigger) : OdeTrigger :=
  { s with m_pOdeActions := [], m_pOdeActionsIndexed := [] }

/-- `OdeTrigger::AddArea`: the result, the state and the child, whose index and parent
name the call assigns. -/
def AddArea (s : OdeTrigger) (pChild : OdeArea) : Bool × OdeTrigger × OdeArea :=
  if (mapFind s.m_pOdeAreas pChild.name).isSome then (false, s, pChild)
  else
    let s := { s with m_nextAreaIndex := s.m_nextAreaIndex + 1 }
    let pChild := { pChild with index := s.m_nextAreaIndex, parentName := s.m_name }
    (true,
      { s with
        m_pOdeAreas := mapInsert stringLt s.m_pOdeAreas pChild.name pChild
        m_pOdeAreasIndexed := mapInsert uintLt s.m_pOdeAreasIndexed s.m_nextAreaIndex pChild },
      pChild)

/-- `OdeTrigger::RemoveArea`; the entry erased from the by-index map is the one under the
index the child currently carries. -/
def RemoveArea (s : OdeTrigger) (pChild : OdeArea) : Bool × OdeTrigger × OdeArea :=
  if (mapFind s.m_pOdeAreas pChild.name).isNone then (false, s, pChild)
  else
    (true,
      { s with
        m_pOdeAreas := mapErase s.m_pOdeAreas pChild.name
        m_pOdeAreasIndexed := mapErase s.m_pOdeAreasIndexed pChild.index },
      { pChild with index := 0, parentName := "" })

/-- `OdeTrigger::RemoveAllAreas`. -/
def RemoveAllAreas (s : OdeTrigger) : OdeTrigger :=
  { s with m_pOdeAreas := [], m_pOdeAreasIndexed := [] }

/-- `OdeTrigger::CheckForSourceId`: the result and the state (the id may get cached). -/
def CheckForSourceId (s : OdeTrigger) (sourceId : Int) : Bool × OdeTrigger :=
  if s.m_source.length ≠ 0 then
    let s :=
      if s.m_sourceId = -1 then
        { s with
          m_sourceId := (s.SourceIdGet s.m_source).getD s.m_sourceId
          log := s.log ++ [Effect.SourceIdGet s.m_source] }
      else s
    if s.m_sourceId ≠ sourceId then (false, s) else (true, s)
  else (true, s)

/-- `OdeTrigger::CheckForInferId`. -/
def CheckForInferId (s : OdeTrigger) (inferId : Int) : Bool × OdeTrigger :=
  if s.m_infer.length ≠ 0 then
    let s :=
      if s.m_inferId = -1 then
        { s with
          m_inferId := (s.InferIdGet s.m_infer).getD s.m_inferId
          log := s.log ++ [Effect.InferIdGet s.m_infer] }
      else s
    if s.m_inferId ≠ inferId then (false, s) else (true, s)
  else (true, s)

/-- `OdeTrigger::CheckForMinCriteria`: the tests in the order of the source, each
returning at its first failure. -/
def CheckForMinCriteria (s : OdeTrigger) (pFrameMeta : NvDsFrameMeta)
    (pObjectMeta : NvDsObjectMeta) : Bool × OdeTrigger :=
  if s.m_skipFrame then (false, s)
  else if s.m_limit ≠ 0 ∧ s.m_triggered ≥ s.m_limit then (false, s)
  else
    let r1 := CheckForSourceId s pFrameMeta.source_id
    if !r1.1 then (false, r1.2)
    else
      let r2 := CheckForInferId r1.2 pObjectMeta.unique_component_id
      let s := r2.2
      if !r2.1 then (false, s)
      else if s.m_classId ≠ DSL_ODE_ANY_CLASS ∧ s.m_classId ≠ pObjectMeta.class_id then
        (false, s)
      else if pObjectMeta.confidence > 0 ∧ pObjectMeta.confidence < s.m_minConfidence then
        (false, s)
      else if (s.m_minWidth > 0 ∧ pObjectMeta.rect_params.width < s.m_minWidth) ∨
          (s.m_minHeight > 0 ∧ pObjectMeta.rect_params.height < s.m_minHeight) then
        (false, s)
      else if (s.m_maxWidth > 0 ∧ pObjectMeta.rect_params.width > s.m_maxWidth) ∨
          (s.m_maxHeight > 0 ∧ pObjectMeta.rect_params.height > s.m_maxHeight) then
        (false, s)
      else if s.m_inferDoneOnly ∧ !pFrameMeta.bInferDone then (false, s)
      else (true, s)

/-- The loop of `CheckForWithin` over the Areas in map order: the first Area the
rectangle is within decides. -/
def CheckForWithinLoop (rect : NvOSD_RectParams) : List (Nat × OdeArea) → Bool
  | [] => false
  | (_, pOdeArea) :: rest =>
    if pOdeArea.CheckForWithin rect then !pOdeArea.isExclusionArea
    else CheckForWithinLoop rect rest

/-- `OdeTrigger::CheckForWithin`. -/
def CheckForWithin (s : OdeTrigger) (pObjectMeta : NvDsObjectMeta) : Bool :=
  if s.m_pOdeAreasIndexed.length ≠ 0 then
    CheckForWithinLoop pObjectMeta.rect_params s.m_pOdeAreasIndexed
  else true

/-- The test `CheckForSourceId(..) and CheckForMinCriteria(..) and CheckForWithin(..)`
whose negation opens most `CheckForOccurrence` overrides, evaluated left to right. -/
def CheckGates (s : OdeTrigger) (pFrameMeta : NvDsFrameMeta) (pObjectMeta : NvDsObjectMeta) :
    Bool × OdeTrigger :=
  let r1 := CheckForSourceId s pFrameMeta.source_id
  if !r1.1 then (false, r1.2)
  else
    let r2 := CheckForMinCriteria r1.2 pFrameMeta pObjectMeta
    if !r2.1 then (false, r2.2)
    else (CheckForWithin r2.2 pObjectMeta, r2.2)

/-- The statement `s_eventCount++`. -/
def IncrementEventCount (s : OdeTrigger) : OdeTrigger :=
  { s with s_eventCount := s.s_eventCount + 1 }

/-- `OdeTrigger::PreProcessFrame` (base class). -/
def PreProcessFrame (s : OdeTrigger) (pFrameMeta : NvDsFrameMeta) : OdeTrigger :=
  let s := { s with m_occurrences := 0 }
  if !s.m_enabled then s
  else
    let r := CheckForSourceId s pFrameMeta.source_id
    let s := r.2
    if !r.1 then s
    else
      let calls := s.m_pOdeAreasIndexed.map (fun a => Effect.AreaAddMeta a.2.name)
      let s : OdeTrigger := { s with log := s.log ++ calls }
      if s.m_interval ≠ 0 then
        let s : OdeTrigger :=
          { s with m_intervalCounter := (s.m_intervalCounter + 1) % s.m_interval }
        if s.m_intervalCounter ≠ 0 then { s with m_skipFrame := true }
        else { s with m_skipFrame := false }
      else { s with m_skipFrame := false }

/-- Modelled from the spec: the base-class `CheckForOccurrence`, defined inline in the
header, which the Always trigger inherits: no per-object check. -/
def CheckForOccurrence (s : OdeTrigger) (_pFrameMeta : NvDsFrameMeta)
    (_pObjectMeta : NvDsObjectMeta) : Bool × OdeTrigger :=
  (false, s)

/-- Modelled from the spec: the base-class `PostProcessFrame`, defined inline in the
header, which the Occurrence and Instance triggers inherit: no post-process action, the
frame's occurrences are returned. -/
def PostProcessFrame (s : OdeTrigger) (_pFrameMeta : NvDsFrameMeta) : Nat × OdeTrigger :=
  (s.m_occurrences, s)

end OdeTrigger

open OdeTrigger

/-! ## The concrete triggers -/

/-- `AlwaysOdeTrigger::PreProcessFrame`. -/
def AlwaysOdeTrigger.PreProcessFrame (s : OdeTrigger) (m_when : Nat)
    (pFrameMeta : NvDsFrameMeta) : OdeTrigger :=
  if !s.m_enabled then s
  else
    let r := CheckForSourceId s pFrameMeta.source_id
    if !r.1 ∨ m_when ≠ DSL_ODE_PRE_OCCURRENCE_CHECK then r.2
    else callActions r.2 pFrameMeta none

/-- `AlwaysOdeTrigger::PostProcessFrame`. -/
def AlwaysOdeTrigger.PostProcessFrame (s : OdeTrigger) (m_when : Nat)
    (pFrameMeta : NvDsFrameMeta) : Nat × OdeTrigger :=
  if s.m_skipFrame ∨ !s.m_enabled then (0, s)
  else
    let r := CheckForSourceId s pFrameMeta.source_id
    if !r.1 ∨ m_when ≠ DSL_ODE_POST_OCCURRENCE_CHECK then (0, r.2)
    else (1, callActions r.2 pFrameMeta none)

/-- `OccurrenceOdeTrigger::CheckForOccurrence`. -/
def OccurrenceOdeTrigger.CheckForOccurrence (s : OdeTrigger) (pFrameMeta : NvDsFrameMeta)
    (pObjectMeta : NvDsObjectMeta) : Bool × OdeTrigger :=
  if !s.m_enabled then (false, s)
  else
    let r := CheckGates s pFrameMeta pObjectMeta
    if !r.1 then (false, r.2)
    else
      let s := IncrementAndCheckTriggerCount r.2
      let s := { s with m_occurrences := s.m_occurrences + 1 }
      let s := IncrementEventCount s
      let o := { pObjectMeta with primary_metric := s.m_occurrences }
      (true, callActions s pFrameMeta (some o))

/-- `AbsenceOdeTrigger::CheckForOccurrence`. -/
def AbsenceOdeTrigger.CheckForOccurrence (s : OdeTrigger) (pFrameMeta : NvDsFrameMeta)
    (pObjectMeta : NvDsObjectMeta) : Bool × OdeTrigger :=
  let r := CheckGates s pFrameMeta pObjectMeta
  if !r.1 then (false, r.2)
  else (true, { r.2 with m_occurrences := r.2.m_occurrences + 1 })

/-- `AbsenceOdeTrigger::PostProcessFrame`. -/
def AbsenceOdeTrigger.PostProcessFrame (s : OdeTrigger) (pFrameMeta : NvDsFrameMeta) :
    Nat × OdeTrigger :=
  if !s.m_enabled ∨ (s.m_limit ≠ 0 ∧ s.m_triggered ≥ s.m_limit) ∨ s.m_occurrences ≠ 0 then
    (0, s)
  else
    let s := IncrementAndCheckTriggerCount s
    let s := IncrementEventCount s
    (1, callActions s pFrameMeta none)

/-- The key `to_string(source_id) + "_" + to_string(class_id)` of the instance maps. -/
def sourceAndClassId (pFrameMeta : NvDsFrameMeta) (pObjectMeta : NvDsObjectMeta) : String :=
  toString pFrameMeta.source_id ++ "_" ++ toString pObjectMeta.class_id

/-- The statement `if (m_instances.find(k) == m_instances.end()) m_instances[k] = 0`. -/
def initInstance (m_instances : List (String × Nat)) (k : String) : List (String × Nat) :=
  if (mapFind m_instances k).isNone then mapInsert stringLt m_instances k 0 else m_instances

/-- `AccumulationOdeTrigger::Reset`. -/
def AccumulationOdeTrigger.Reset (s : OdeTrigger) (_v : AccumulationState) : OdeTrigger :=
  let s := { s with
    variant := Variant.Accumulation { m_accumulativeOccurrences := 0, m_instances := [] } }
  OdeTrigger.Reset s

/-- `AccumulationOdeTrigger::CheckForOccurrence`. -/
def AccumulationOdeTrigger.CheckForOccurrence (s : OdeTrigger) (v : AccumulationState)
    (pFrameMeta : NvDsFrameMeta) (pObjectMeta : NvDsObjectMeta) : Bool × OdeTrigger :=
  if !s.m_enabled then (false, s)
  else
    let r := CheckGates s pFrameMeta pObjectMeta
    let s := r.2
    if !r.1 then (false, s)
    else
      let k := sourceAndClassId pFrameMeta pObjectMeta
      let m_instances := initInstance v.m_instances k
      if (mapFind m_instances k).getD 0 < pObjectMeta.object_id then
        let m_instances := mapInsert stringLt m_instances k pObjectMeta.object_id
        let total := v.m_accumulativeOccurrences + 1
        (true, { s with
          m_occurrences := total
          variant := Variant.Accumulation
            { m_accumulativeOccurrences := total, m_instances := m_instances } })
      else
        (false, { s with
          m_occurrences := v.m_accumulativeOccurrences
          variant := Variant.Accumulation { v with m_instances := m_instances } })

/-- `AccumulationOdeTrigger::PostProcessFrame`. -/
def AccumulationOdeTrigger.PostProcessFrame (s : OdeTrigger) (v : AccumulationState)
    (pFrameMeta : NvDsFrameMeta) : Nat × OdeTrigger :=
  if !s.m_enabled ∨ s.m_skipFrame ∨ (s.m_limit ≠ 0 ∧ s.m_triggered ≥ s.m_limit) then (0, s)
  else
    let s := IncrementAndCheckTriggerCount s
    let s := IncrementEventCount s
    let frame := { pFrameMeta with occurrences := s.m_occurrences }
    (v.m_accumulativeOccurrences, callActions s frame none)

/-- The loop of `CrossOdeTrigger::CheckForOccurrence` over the Areas in map order, for
the tracked object just updated; it returns at the first Area reporting a cross. -/
def CrossOdeTrigger.AreaLoop (v : CrossState) (pTrackedObject : TrackedObject)
    (pFrameMeta : NvDsFrameMeta) (pObjectMeta : NvDsObjectMeta) :
    OdeTrigger → List (Nat × OdeArea) → Bool × OdeTrigger
  | s, [] => (false, s)
  | s, (_, pOdeArea) :: rest =>
    let pTrace := pTrackedObject.GetTrace pOdeArea.bboxTestPoint v.m_testMethod
    let s := if v.m_traceEnabled then { s with log := s.log ++ [Effect.MultiLineAddMeta pTrace] }
      else s
    if pTrackedObject.Size ≥ v.m_minTracePoints ∧ !pTrackedObject.GetTriggered ∧
        pOdeArea.CheckForCross pTrace then
      let s := IncrementAndCheckTriggerCount s
      let s := { s with m_occurrences := s.m_occurrences + 1 }
      let s := IncrementEventCount s
      let s := callActions s pFrameMeta (some pObjectMeta)
      let store := v.m_pTrackedObjectsPerSource.Put pTrackedObject.SetTriggered
      (true, { s with variant := Variant.Cross { v with m_pTrackedObjectsPerSource := store } })
    else CrossOdeTrigger.AreaLoop v pTrackedObject pFrameMeta pObjectMeta s rest

/-- `CrossOdeTrigger::CheckForOccurrence`. -/
def CrossOdeTrigger.CheckForOccurrence (s : OdeTrigger) (v : CrossState)
    (pFrameMeta : NvDsFrameMeta) (pObjectMeta : NvDsObjectMeta) : Bool × OdeTrigger :=
  if s.m_pOdeAreasIndexed.length = 0 then (false, s)
  else
    let r1 := CheckForSourceId s pFrameMeta.source_id
    if !r1.1 then (false, r1.2)
    else
      let r2 := CheckForMinCriteria r1.2 pFrameMeta pObjectMeta
      let s := r2.2
      if !r2.1 then (false, s)
      else if !v.m_pTrackedObjectsPerSource.IsTracked pFrameMeta.source_id
          pObjectMeta.object_id then
        let store := v.m_pTrackedObjectsPerSource.Track pFrameMeta pObjectMeta s.nowMs
        (false, { s with variant := Variant.Cross { v with m_pTrackedObjectsPerSource := store } })
      else
        match v.m_pTrackedObjectsPerSource.GetObject pFrameMeta.source_id
            pObjectMeta.object_id with
        | none => (false, s)
        | some pTrackedObject =>
          let pTrackedObject :=
            pTrackedObject.Update pFrameMeta.frame_num pObjectMeta.rect_params s.nowMs
          let v := { v with
            m_pTrackedObjectsPerSource := v.m_pTrackedObjectsPerSource.Put pTrackedObject }
          let s := { s with variant := Variant.Cross v }
          CrossOdeTrigger.AreaLoop v pTrackedObject pFrameMeta pObjectMeta s
            s.m_pOdeAreasIndexed

/-- `CrossOdeTrigger::PostProcessFrame`. -/
def CrossOdeTrigger.PostProcessFrame (s : OdeTrigger) (v : CrossState)
    (pFrameMeta : NvDsFrameMeta) : Nat × OdeTrigger :=
  if s.m_skipFrame then (0, s)
  else if v.m_pTrackedObjectsPerSource.IsEmpty then (0, s)
  else
    let store := v.m_pTrackedObjectsPerSource.Purge pFrameMeta.frame_num
    (s.m_occurrences,
      { s with variant := Variant.Cross { v with m_pTrackedObjectsPerSource := store } })

/-- `CrossOdeTrigger::SetTracePointSettings`. -/
def CrossOdeTrigger.SetTracePointSettings (s : OdeTrigger) (v : CrossState)
    (minTracePoints maxTracePoints testMethod : Nat) : OdeTrigger :=
  { s with variant := Variant.Cross { v with
      m_minTracePoints := minTracePoints
      m_maxTracePoints := maxTracePoints
      m_testMethod := testMethod
      m_pTrackedObjectsPerSource := v.m_pTrackedObjectsPerSource.SetMaxHistory maxTracePoints } }

/-- `InstanceOdeTrigger::Reset`. -/
def InstanceOdeTrigger.Reset (s : OdeTrigger) (_v : InstanceState) : OdeTrigger :=
  OdeTrigger.Reset { s with variant := Variant.Instance { m_instances := [] } }

/-- `InstanceOdeTrigger::CheckForOccurrence`. -/
def InstanceOdeTrigger.CheckForOccurrence (s : OdeTrigger) (v : InstanceState)
    (pFrameMeta : NvDsFrameMeta) (pObjectMeta : NvDsObjectMeta) : Bool × OdeTrigger :=
  if !s.m_enabled then (false, s)
  else
    let r := CheckGates s pFrameMeta pObjectMeta
    let s := r.2
    if !r.1 then (false, s)
    else
      let k := sourceAndClassId pFrameMeta pObjectMeta
      let m_instances := initInstance v.m_instances k
      if (mapFind m_instances k).getD 0 < pObjectMeta.object_id then
        let m_instances := mapInsert stringLt m_instances k pObjectMeta.object_id
        let s := { s with variant := Variant.Instance { m_instances := m_instances } }
        let s := IncrementAndCheckTriggerCount s
        let s := { s with m_occurrences := s.m_occurrences + 1 }
        let s := IncrementEventCount s
        let o := { pObjectMeta with primary_metric := s.m_occurrences }
        (true, callActions s pFrameMeta (some o))
      else (false, { s with variant := Variant.Instance { m_instances := m_instances } })

/-- `SummationOdeTrigger::CheckForOccurrence`; `NewLowOdeTrigger::CheckForOccurrence` and
`NewHighOdeTrigger::CheckForOccurrence` have the same body. -/
def SummationOdeTrigger.CheckForOccurrence (s : OdeTrigger) (pFrameMeta : NvDsFrameMeta)
    (pObjectMeta : NvDsObjectMeta) : Bool × OdeTrigger :=
  if !s.m_enabled then (false, s)
  else
    let r := CheckGates s pFrameMeta pObjectMeta
    if !r.1 then (false, r.2)
    else (true, { r.2 with m_occurrences := r.2.m_occurrences + 1 })

/-- `SummationOdeTrigger::PostProcessFrame`. -/
def SummationOdeTrigger.PostProcessFrame (s : OdeTrigger) (pFrameMeta : NvDsFrameMeta) :
    Nat × OdeTrigger :=
  if !s.m_enabled ∨ s.m_skipFrame ∨ (s.m_limit ≠ 0 ∧ s.m_triggered ≥ s.m_limit) then (0, s)
  else
    let s := IncrementAndCheckTriggerCount s
    let s := IncrementEventCount s
    let frame := { pFrameMeta with occurrences := s.m_occurrences }
    (1, callActions s frame none)

/-- `CustomOdeTrigger::CheckForOccurrence`. -/
def CustomOdeTrigger.CheckForOccurrence (s : OdeTrigger) (v : CustomState)
    (pFrameMeta : NvDsFrameMeta) (pObjectMeta : NvDsObjectMeta) : Bool × OdeTrigger :=
  if !s.m_enabled then (false, s)
  else
    match v.m_clientChecker with
    | none => (false, s)
    | some m_clientChecker =>
      let r := CheckGates s pFrameMeta pObjectMeta
      let s := r.2
      if !r.1 then (false, s)
      else
        match m_clientChecker pFrameMeta pObjectMeta with
        | none => (false, s)
        | some false => (false, s)
        | some true =>
          let s := IncrementAndCheckTriggerCount s
          let s := { s with m_occurrences := s.m_occurrences + 1 }
          let s := IncrementEventCount s
          (true, callActions s pFrameMeta (some pObjectMeta))

/-- `CustomOdeTrigger::PostProcessFrame`. -/
def CustomOdeTrigger.PostProcessFrame (s : OdeTrigger) (v : CustomState)
    (pFrameMeta : NvDsFrameMeta) : Nat × OdeTrigger :=
  if !s.m_enabled then (0, s)
  else
    match v.m_clientPostProcessor with
    | none => (0, s)
    | some m_clientPostProcessor =>
      match m_clientPostProcessor pFrameMeta with
      | none => (0, s)
      | some false => (0, s)
      | some true =>
        let s := IncrementAndCheckTriggerCount s
        let s := IncrementEventCount s
        (1, callActions s pFrameMeta none)

/-- `TrackingOdeTrigger::Reset`, for a store `store` put back by `put`. -/
def TrackingOdeTrigger.Reset (s : OdeTrigger) (store : TrackedObjects)
    (put : TrackedObjects → Variant) : OdeTrigger :=
  OdeTrigger.Reset { s with variant := put store.Clear }

/-- `PersistenceOdeTrigger::SetRange`. -/
def PersistenceOdeTrigger.SetRange (s : OdeTrigger) (v : PersistenceState)
    (minimum maximum : Nat) : OdeTrigger :=
  let v := { v with m_minimumMs := minimum * 1000, m_maximumMs := maximum * 1000 }
  { s with variant := Variant.Persistence v }

/-- `PersistenceOdeTrigger::CheckForOccurrence`. -/
def PersistenceOdeTrigger.CheckForOccurrence (s : OdeTrigger) (v : PersistenceState)
    (pFrameMeta : NvDsFrameMeta) (pObjectMeta : NvDsObjectMeta) : Bool × OdeTrigger :=
  let r := CheckGates s pFrameMeta pObjectMeta
  let s := r.2
  if !r.1 then (false, s)
  else if !v.m_pTrackedObjectsPerSource.IsTracked pFrameMeta.source_id
      pObjectMeta.object_id then
    let store := v.m_pTrackedObjectsPerSource.Track pFrameMeta pObjectMeta s.nowMs
    (true, { s with
      variant := Variant.Persistence { v with m_pTrackedObjectsPerSource := store } })
  else
    match v.m_pTrackedObjectsPerSource.GetObject pFrameMeta.source_id
        pObjectMeta.object_id with
    | none => (true, s)
    | some pTrackedObject =>
      let pTrackedObject :=
        pTrackedObject.Update pFrameMeta.frame_num pObjectMeta.rect_params s.nowMs
      let store := v.m_pTrackedObjectsPerSource.Put pTrackedObject
      let s := { s with
        variant := Variant.Persistence { v with m_pTrackedObjectsPerSource := store } }
      let trackedTimeMs := pTrackedObject.GetDurationMs
      if trackedTimeMs ≥ (v.m_minimumMs : Int) ∧ trackedTimeMs ≤ (v.m_maximumMs : Int) then
        let s := IncrementAndCheckTriggerCount s
        let s := { s with m_occurrences := s.m_occurrences + 1 }
        let s := IncrementEventCount s
        let o := { pObjectMeta with
          persistence := (trackedTimeMs / 1000).toNat
          primary_metric := (trackedTimeMs / 1000).toNat }
        (true, callActions s pFrameMeta (some o))
      else (true, s)

/-- `PersistenceOdeTrigger::PostProcessFrame`. -/
def PersistenceOdeTrigger.PostProcessFrame (s : OdeTrigger) (v : PersistenceState)
    (pFrameMeta : NvDsFrameMeta) : Nat × OdeTrigger :=
  if v.m_pTrackedObjectsPerSource.IsEmpty then (0, s)
  else
    let store := v.m_pTrackedObjectsPerSource.Purge pFrameMeta.frame_num
    (s.m_occurrences,
      { s with variant := Variant.Persistence { v with m_pTrackedObjectsPerSource := store } })

/-- `CountOdeTrigger::SetRange`. -/
def CountOdeTrigger.SetRange (s : OdeTrigger) (minimum maximum : Nat) : OdeTrigger :=
  { s with variant := Variant.Count { m_minimum := minimum, m_maximum := maximum } }

/-- `CountOdeTrigger::CheckForOccurrence`. -/
def CountOdeTrigger.CheckForOccurrence (s : OdeTrigger) (pFrameMeta : NvDsFrameMeta)
    (pObjectMeta : NvDsObjectMeta) : Bool × OdeTrigger :=
  let r := CheckGates s pFrameMeta pObjectMeta
  if !r.1 then (false, r.2)
  else (true, { r.2 with m_occurrences := r.2.m_occurrences + 1 })

/-- `CountOdeTrigger::PostProcessFrame`. -/
def CountOdeTrigger.PostProcessFrame (s : OdeTrigger) (v : CountState)
    (pFrameMeta : NvDsFrameMeta) : Nat × OdeTrigger :=
  if !s.m_enabled ∨ s.m_occurrences < v.m_minimum ∨ s.m_occurrences > v.m_maximum then (0, s)
  else
    let s := IncrementAndCheckTriggerCount s
    let s := IncrementEventCount s
    (s.m_occurrences, callActions s pFrameMeta none)

/-- The constant `UINT32_MAX`. -/
def UINT32_MAX : Nat := 4294967295

/-- The `uint rectArea = width * height` of the Smallest and Largest triggers: the
`float` product, converted to `uint`. -/
def rectArea (o : NvDsObjectMeta) : Nat :=
  truncToUint (float32 (o.rect_params.width * o.rect_params.height))

/-- `SmallestOdeTrigger::CheckForOccurrence`. -/
def SmallestOdeTrigger.CheckForOccurrence (s : OdeTrigger) (v : ExtremumState)
    (pFrameMeta : NvDsFrameMeta) (pObjectMeta : NvDsObjectMeta) : Bool × OdeTrigger :=
  let r := CheckGates s pFrameMeta pObjectMeta
  if !r.1 then (false, r.2)
  else
    let v := { v with m_occurrenceMetaList := v.m_occurrenceMetaList ++ [pObjectMeta] }
    (true, { r.2 with variant := Variant.Smallest v })

/-- One step of the selection loop of `SmallestOdeTrigger::PostProcessFrame`. -/
def SmallestOdeTrigger.select (acc : Nat × Option NvDsObjectMeta) (ivec : NvDsObjectMeta) :
    Nat × Option NvDsObjectMeta :=
  if rectArea ivec < acc.1 then (rectArea ivec, some ivec) else acc

/-- `SmallestOdeTrigger::PostProcessFrame`. The result is `none` when the selection loop
has selected no object: the C++ code then writes the primary metric through the null
pointer `smallestObject`, which ends the process. -/
def SmallestOdeTrigger.PostProcessFrame (s : OdeTrigger) (v : ExtremumState)
    (pFrameMeta : NvDsFrameMeta) : Option (Nat × OdeTrigger) :=
  let s := { s with m_occurrences := 0 }
  if s.m_enabled ∧ v.m_occurrenceMetaList.length ≠ 0 then
    let s := { s with m_occurrences := 1 }
    let s := IncrementAndCheckTriggerCount s
    let s := IncrementEventCount s
    let sel := v.m_occurrenceMetaList.foldl SmallestOdeTrigger.select (UINT32_MAX, none)
    match sel.2 with
    | none => none
    | some smallestObject =>
      let s := callActions s pFrameMeta (some { smallestObject with primary_metric := sel.1 })
      some (s.m_occurrences,
        { s with variant := Variant.Smallest { m_occurrenceMetaList := [] } })
  else
    some (s.m_occurrences, { s with variant := Variant.Smallest { m_occurrenceMetaList := [] } })

/-- `LargestOdeTrigger::CheckForOccurrence`. -/
def LargestOdeTrigger.CheckForOccurrence (s : OdeTrigger) (v : ExtremumState)
    (pFrameMeta : NvDsFrameMeta) (pObjectMeta : NvDsObjectMeta) : Bool × OdeTrigger :=
  let r := CheckGates s pFrameMeta pObjectMeta
  if !r.1 then (false, r.2)
  else
    let v := { v with m_occurrenceMetaList := v.m_occurrenceMetaList ++ [pObjectMeta] }
    (true, { r.2 with variant := Variant.Largest v })

/-- One step of the selection loop of `LargestOdeTrigger::PostProcessFrame`. -/
def LargestOdeTrigger.select (acc : Nat × Option NvDsObjectMeta) (ivec : NvDsObjectMeta) :
    Nat × Option NvDsObjectMeta :=
  if rectArea ivec > acc.1 then (rectArea ivec, some ivec) else acc

/-- `LargestOdeTrigger::PostProcessFrame`. The result is `none` when the selection loop
has selected no object: the C++ code then writes the primary metric through the null
pointer `largestObject`, which ends the process. -/
def LargestOdeTrigger.PostProcessFrame (s : OdeTrigger) (v : ExtremumState)
    (pFrameMeta : NvDsFrameMeta) : Option (Nat × OdeTrigger) :=
  let s := { s with m_occurrences := 0 }
  if s.m_enabled ∧ v.m_occurrenceMetaList.length ≠ 0 then
    let s := { s with m_occurrences := 1 }
    let s := IncrementAndCheckTriggerCount s
    let s := IncrementEventCount s
    let sel := v.m_occurrenceMetaList.foldl LargestOdeTrigger.select (0, none)
    match sel.2 with
    | none => none
    | some largestObject =>
      let s := callActions s pFrameMeta (some { largestObject with primary_metric := sel.1 })
      some (s.m_occurrences,
        { s with variant := Variant.Largest { m_occurrenceMetaList := [] } })
  else
    some (s.m_occurrences, { s with variant := Variant.Largest { m_occurrenceMetaList := [] } })

/-- `LatestOdeTrigger::CheckForOccurrence` and `EarliestOdeTrigger::CheckForOccurrence`:
the two bodies differ in the comparison of the tracked time only (`newer d m` is
`d < m` for Latest and `d > m` for Earliest) . -/
def DurationOdeTrigger.CheckForOccurrence (newer : Int → Int → Bool)
    (put : DurationState → Variant) (s : OdeTrigger) (v : DurationState)
    (pFrameMeta : NvDsFrameMeta) (pObjectMeta : NvDsObjectMeta) : Bool × OdeTrigger :=
  let r := CheckGates s pFrameMeta pObjectMeta
  let s := r.2
  if !r.1 then (false, s)
  else if !v.m_pTrackedObjectsPerSource.IsTracked pFrameMeta.source_id
      pObjectMeta.object_id then
    let store := v.m_pTrackedObjectsPerSource.Track pFrameMeta pObjectMeta s.nowMs
    (true, { s with variant := put { v with m_pTrackedObjectsPerSource := store } })
  else
    match v.m_pTrackedObjectsPerSource.GetObject pFrameMeta.source_id
        pObjectMeta.object_id with
    | none => (true, s)
    | some pTrackedObject =>
      let pTrackedObject :=
        pTrackedObject.Update pFrameMeta.frame_num pObjectMeta.rect_params s.nowMs
      let v := { v with
        m_pTrackedObjectsPerSource := v.m_pTrackedObjectsPerSource.Put pTrackedObject }
      let trackedTimeMs := pTrackedObject.GetDurationMs
      if v.m_pObjectMeta.isNone ∨ newer trackedTimeMs v.m_trackedTimeMs then
        (true, { s with variant := put { v with
          m_pObjectMeta := some pObjectMeta, m_trackedTimeMs := trackedTimeMs } })
      else (true, { s with variant := put v })

/-- `LatestOdeTrigger::PostProcessFrame` and `EarliestOdeTrigger::PostProcessFrame` (the
same body). -/
def DurationOdeTrigger.PostProcessFrame (put : DurationState → Variant) (s : OdeTrigger)
    (v : DurationState) (pFrameMeta : NvDsFrameMeta) : Nat × OdeTrigger :=
  if v.m_pTrackedObjectsPerSource.IsEmpty then (0, s)
  else
    let r : OdeTrigger × DurationState :=
      match v.m_pObjectMeta with
      | some m_pObjectMeta =>
        let s := IncrementAndCheckTriggerCount s
        let s := { s with m_occurrences := s.m_occurrences + 1 }
        let s := IncrementEventCount s
        let o := { m_pObjectMeta with
          persistence := (v.m_trackedTimeMs / 1000).toNat
          primary_metric := (v.m_trackedTimeMs / 1000).toNat }
        (callActions s pFrameMeta (some o),
          { v with m_pObjectMeta := none, m_trackedTimeMs := 0 })
      | none => (s, v)
    let store := r.2.m_pTrackedObjectsPerSource.Purge pFrameMeta.frame_num
    (if r.1.m_occurrences > 0 then 1 else 0,
      { r.1 with variant := put { r.2 with m_pTrackedObjectsPerSource := store } })

/-- `LatestOdeTrigger::CheckForOccurrence`. -/
def LatestOdeTrigger.CheckForOccurrence (s : OdeTrigger) (v : DurationState)
    (pFrameMeta : NvDsFrameMeta) (pObjectMeta : NvDsObjectMeta) : Bool × OdeTrigger :=
  DurationOdeTrigger.CheckForOccurrence (fun d m => decide (d < m)) Variant.Latest s v
    pFrameMeta pObjectMeta

/-- `LatestOdeTrigger::PostProcessFrame`. -/
def LatestOdeTrigger.PostProcessFrame (s : OdeTrigger) (v : DurationState)
    (pFrameMeta : NvDsFrameMeta) : Nat × OdeTrigger :=
  DurationOdeTrigger.PostProcessFrame Variant.Latest s v pFrameMeta

/-- `EarliestOdeTrigger::CheckForOccurrence`. -/
def EarliestOdeTrigger.CheckForOccurrence (s : OdeTrigger) (v : DurationState)
    (pFrameMeta : NvDsFrameMeta) (pObjectMeta : NvDsObjectMeta) : Bool × OdeTrigger :=
  DurationOdeTrigger.CheckForOccurrence (fun d m => decide (d > m)) Variant.Earliest s v
    pFrameMeta pObjectMeta

/-- `EarliestOdeTrigger::PostProcessFrame`. -/
def EarliestOdeTrigger.PostProcessFrame (s : OdeTrigger) (v : DurationState)
    (pFrameMeta : NvDsFrameMeta) : Nat × OdeTrigger :=
  DurationOdeTrigger.PostProcessFrame Variant.Earliest s v pFrameMeta

/-- `NewLowOdeTrigger::Reset`. -/
def NewLowOdeTrigger.Reset (s : OdeTrigger) (v : NewExtremeState) : OdeTrigger :=
  OdeTrigger.Reset { s with variant := Variant.NewLow { v with m_current := v.m_preset } }

/-- `NewLowOdeTrigger::PostProcessFrame`. -/
def NewLowOdeTrigger.PostProcessFrame (s : OdeTrigger) (v : NewExtremeState)
    (pFrameMeta : NvDsFrameMeta) : Nat × OdeTrigger :=
  if !s.m_enabled ∨ s.m_occurrences ≥ v.m_current then (0, s)
  else
    let s := { s with variant := Variant.NewLow { v with m_current := s.m_occurrences } }
    let s := IncrementAndCheckTriggerCount s
    let s := IncrementEventCount s
    let frame := { pFrameMeta with occurrences := s.m_occurrences }
    (1, callActions s frame none)

/-- `NewHighOdeTrigger::Reset`. -/
def NewHighOdeTrigger.Reset (s : OdeTrigger) (v : NewExtremeState) : OdeTrigger :=
  OdeTrigger.Reset { s with variant := Variant.NewHigh { v with m_current := v.m_preset } }

/-- `NewHighOdeTrigger::PostProcessFrame`. -/
def NewHighOdeTrigger.PostProcessFrame (s : OdeTrigger) (v : NewExtremeState)
    (pFrameMeta : NvDsFrameMeta) : Nat × OdeTrigger :=
  if !s.m_enabled ∨ s.m_occurrences ≤ v.m_current then (0, s)
  else
    let s := { s with variant := Variant.NewHigh { v with m_current := s.m_occurrences } }
    let s := IncrementAndCheckTriggerCount s
    let s := IncrementEventCount s
    let frame := { pFrameMeta with occurrences := s.m_occurrences }
    (1, callActions s frame none)

/-- `ABOdeTrigger::SetClassIdAB`. -/
def ABOdeTrigger.SetClassIdAB (s : OdeTrigger) (ab : ABState) (put : ABState → Variant)
    (classIdA classIdB : Nat) : OdeTrigger :=
  { s with variant := put { ab with
      m_classIdA := classIdA
      m_classIdB := classIdB
      m_classIdAOnly := decide (classIdA = classIdB) } }

/-- `ABOdeTrigger::CheckForOccurrence`; `put` rebuilds the concrete trigger (Distance or
Intersection) around the AB members. -/
def ABOdeTrigger.CheckForOccurrence (s : OdeTrigger) (ab : ABState) (put : ABState → Variant)
    (pFrameMeta : NvDsFrameMeta) (pObjectMeta : NvDsObjectMeta) : Bool × OdeTrigger :=
  if !s.m_enabled then (false, s)
  else
    let r := CheckForSourceId s pFrameMeta.source_id
    if !r.1 then (false, r.2)
    else
      let s : OdeTrigger := { r.2 with m_classId := ab.m_classIdA }
      let r1 := CheckForMinCriteria s pFrameMeta pObjectMeta
      let s := r1.2
      if r1.1 ∧ CheckForWithin s pObjectMeta then
        let ab := { ab with m_occurrenceMetaListA := ab.m_occurrenceMetaListA ++ [pObjectMeta] }
        (true, { s with variant := put ab })
      else if !ab.m_classIdAOnly then
        let s : OdeTrigger := { s with m_classId := ab.m_classIdB }
        let r2 := CheckForMinCriteria s pFrameMeta pObjectMeta
        let s := r2.2
        if r2.1 ∧ CheckForWithin s pObjectMeta then
          let ab := { ab with
            m_occurrenceMetaListB := ab.m_occurrenceMetaListB ++ [pObjectMeta] }
          (true, { s with variant := put ab })
        else (false, s)
      else (false, s)

/-- The pairs `(list[i], list[j])`, `i < j`, in the order of the nested loops of
`PostProcessFrameA`. -/
def ABOdeTrigger.pairsA : List NvDsObjectMeta → List (NvDsObjectMeta × NvDsObjectMeta)
  | [] => []
  | a :: rest => rest.map (fun b => (a, b)) ++ ABOdeTrigger.pairsA rest

/-- The pairs `(iterA, iterB)` with `iterA != iterB` (as pointers), in the order of the
nested loops of `PostProcessFrameAB`. -/
def ABOdeTrigger.pairsAB (listA listB : List NvDsObjectMeta) :
    List (NvDsObjectMeta × NvDsObjectMeta) :=
  listA.flatMap (fun a => (listB.filter (fun b => decide (a.addr ≠ b.addr))).map (fun b => (a, b)))

/-- The block the pair loops of the Distance and Intersection triggers run for a pair
that passed the test: one event, each Action invoked twice. -/
def ABOdeTrigger.handlePair (s : OdeTrigger) (pFrameMeta : NvDsFrameMeta)
    (a b : NvDsObjectMeta) : OdeTrigger :=
  let s := { s with m_occurrences := s.m_occurrences + 1 }
  let s := IncrementAndCheckTriggerCount s
  let s := IncrementEventCount s
  let a := { a with primary_metric := s.m_occurrences }
  let b := { b with primary_metric := s.m_occurrences }
  let calls := s.m_pOdeActionsIndexed.flatMap (fun act =>
    [Effect.HandleOccurrence act.2.name pFrameMeta (some a),
     Effect.HandleOccurrence act.2.name pFrameMeta (some b)])
  { s with log := s.log ++ calls }

/-- The nested pair loops of `PostProcessFrameA` and `PostProcessFrameAB`, over the pairs
in iteration order; they return as soon as the limit is reached. A test that ends in the
bare `throw;` of `CheckDistance` (`none`) terminates the process: nothing more is done. -/
def ABOdeTrigger.PairLoop (test : NvDsObjectMeta → NvDsObjectMeta → Option Bool)
    (pFrameMeta : NvDsFrameMeta) :
    OdeTrigger → List (NvDsObjectMeta × NvDsObjectMeta) → OdeTrigger
  | s, [] => s
  | s, (a, b) :: rest =>
    match test a b with
    | none => s
    | some false => ABOdeTrigger.PairLoop test pFrameMeta s rest
    | some true =>
      let s := ABOdeTrigger.handlePair s pFrameMeta a b
      if s.m_limit ≠ 0 ∧ s.m_triggered ≥ s.m_limit then s
      else ABOdeTrigger.PairLoop test pFrameMeta s rest

/-- `DistanceOdeTrigger::PostProcessFrameA` and `IntersectionOdeTrigger::PostProcessFrameA`
(the same body around the pair test). -/
def ABOdeTrigger.PostProcessFrameA (test : NvDsObjectMeta → NvDsObjectMeta → Option Bool)
    (put : ABState → Variant) (s : OdeTrigger) (ab : ABState) (pFrameMeta : NvDsFrameMeta) :
    Nat × OdeTrigger :=
  let s := { s with m_occurrences := 0 }
  let s :=
    if s.m_enabled ∧ ab.m_occurrenceMetaListA.length > 1 then
      ABOdeTrigger.PairLoop test pFrameMeta s (ABOdeTrigger.pairsA ab.m_occurrenceMetaListA)
    else s
  (s.m_occurrences, { s with variant := put { ab with m_occurrenceMetaListA := [] } })

/-- `DistanceOdeTrigger::PostProcessFrameAB` and
`IntersectionOdeTrigger::PostProcessFrameAB` (the same body around the pair test). -/
def ABOdeTrigger.PostProcessFrameAB (test : NvDsObjectMeta → NvDsObjectMeta → Option Bool)
    (put : ABState → Variant) (s : OdeTrigger) (ab : ABState) (pFrameMeta : NvDsFrameMeta) :
    Nat × OdeTrigger :=
  let s := { s with m_occurrences := 0 }
  let s :=
    if s.m_enabled ∧ ab.m_occurrenceMetaListA.length ≠ 0 ∧
        ab.m_occurrenceMetaListB.length ≠ 0 then
      ABOdeTrigger.PairLoop test pFrameMeta s
        (ABOdeTrigger.pairsAB ab.m_occurrenceMetaListA ab.m_occurrenceMetaListB)
    else s
  (s.m_occurrences, { s with variant := put { ab with
      m_occurrenceMetaListA := [], m_occurrenceMetaListB := [] } })

/-- `ABOdeTrigger::PostProcessFrame`. -/
def ABOdeTrigger.PostProcessFrame (test : NvDsObjectMeta → NvDsObjectMeta → Option Bool)
    (put : ABState → Variant) (s : OdeTrigger) (ab : ABState) (pFrameMeta : NvDsFrameMeta) :
    Nat × OdeTrigger :=
  if ab.m_classIdAOnly then ABOdeTrigger.PostProcessFrameA test put s ab pFrameMeta
  else ABOdeTrigger.PostProcessFrameAB test put s ab pFrameMeta

/-- The bound `uint((bound*dimension)/100)` of the percent test methods of
`DistanceOdeTrigger::CheckDistance`: the `uint` bound converted to `float`, the `float`
product, the `float` quotient, converted to `uint`. -/
def DistanceOdeTrigger.percentOf (bound : Nat) (dimension : ℚ) : Nat :=
  truncToUint (float32 (float32 (float32 (bound : ℚ) * dimension) / 100))

/-- `DistanceOdeTrigger::CheckDistance`; `none` is the bare `throw;` of the `default`
branch of the test-point `switch`. -/
def DistanceOdeTrigger.CheckDistance (s : OdeTrigger) (v : DistanceState)
    (pObjectMetaA pObjectMetaB : NvDsObjectMeta) : Option Bool :=
  let measured : Option Nat :=
    if v.m_testPoint = DSL_BBOX_POINT_ANY then
      some (s.GeosRectangleDistance pObjectMetaA.rect_params pObjectMetaB.rect_params)
    else
      match getCoordinate v.m_testPoint pObjectMetaA.rect_params,
          getCoordinate v.m_testPoint pObjectMetaB.rect_params with
      | some pointA, some pointB => some (s.GeosPointDistance pointA pointB)
      | _, _ => none
  measured.map fun distance =>
    let range : Nat × Nat :=
      if v.m_testMethod = DSL_DISTANCE_METHOD_FIXED_PIXELS then (v.m_minimum, v.m_maximum)
      else if v.m_testMethod = DSL_DISTANCE_METHOD_PERCENT_WIDTH_A then
        (DistanceOdeTrigger.percentOf v.m_minimum pObjectMetaA.rect_params.width,
         DistanceOdeTrigger.percentOf v.m_maximum pObjectMetaA.rect_params.width)
      else if v.m_testMethod = DSL_DISTANCE_METHOD_PERCENT_WIDTH_B then
        (DistanceOdeTrigger.percentOf v.m_minimum pObjectMetaB.rect_params.width,
         DistanceOdeTrigger.percentOf v.m_maximum pObjectMetaB.rect_params.width)
      else if v.m_testMethod = DSL_DISTANCE_METHOD_PERCENT_HEIGHT_A then
        (DistanceOdeTrigger.percentOf v.m_minimum pObjectMetaA.rect_params.height,
         DistanceOdeTrigger.percentOf v.m_maximum pObjectMetaA.rect_params.height)
      else if v.m_testMethod = DSL_DISTANCE_METHOD_PERCENT_HEIGHT_B then
        (DistanceOdeTrigger.percentOf v.m_minimum pObjectMetaB.rect_params.height,
         DistanceOdeTrigger.percentOf v.m_maximum pObjectMetaB.rect_params.height)
      else (0, 0)
    decide (range.1 > distance ∨ range.2 < distance)

/-- `DistanceOdeTrigger::SetRange`. -/
def DistanceOdeTrigger.SetRange (s : OdeTrigger) (ab : ABState) (v : DistanceState)
    (minimum maximum : Nat) : OdeTrigger :=
  { s with variant := Variant.Distance ab { v with m_minimum := minimum, m_maximum := maximum } }

/-- `DistanceOdeTrigger::SetTestParams`. -/
def DistanceOdeTrigger.SetTestParams (s : OdeTrigger) (ab : ABState) (v : DistanceState)
    (testPoint testMethod : Nat) : OdeTrigger :=
  { s with variant :=
      Variant.Distance ab { v with m_testPoint := testPoint, m_testMethod := testMethod } }

/-- The pair test of the Intersection trigger: `rectA.Overlaps(rectB)`. -/
def IntersectionOdeTrigger.Overlaps (s : OdeTrigger) (a b : NvDsObjectMeta) : Option Bool :=
  some (s.GeosRectangleOverlaps a.rect_params b.rect_params)

/-! ## Virtual dispatch -/

namespace Trigger

/-- The virtual call `Reset()`. -/
def Reset (s : OdeTrigger) : OdeTrigger :=
  match s.variant with
  | Variant.Accumulation v => AccumulationOdeTrigger.Reset s v
  | Variant.Instance v => InstanceOdeTrigger.Reset s v
  | Variant.NewLow v => NewLowOdeTrigger.Reset s v
  | Variant.NewHigh v => NewHighOdeTrigger.Reset s v
  | Variant.Cross v =>
    TrackingOdeTrigger.Reset s v.m_pTrackedObjectsPerSource
      (fun st => Variant.Cross { v with m_pTrackedObjectsPerSource := st })
  | Variant.Persistence v =>
    TrackingOdeTrigger.Reset s v.m_pTrackedObjectsPerSource
      (fun st => Variant.Persistence { v with m_pTrackedObjectsPerSource := st })
  | Variant.Latest v =>
    TrackingOdeTrigger.Reset s v.m_pTrackedObjectsPerSource
      (fun st => Variant.Latest { v with m_pTrackedObjectsPerSource := st })
  | Variant.Earliest v =>
    TrackingOdeTrigger.Reset s v.m_pTrackedObjectsPerSource
      (fun st => Variant.Earliest { v with m_pTrackedObjectsPerSource := st })
  | _ => OdeTrigger.Reset s

/-- The virtual call `PreProcessFrame(pBuffer, pDisplayMeta, pFrameMeta)`. -/
def PreProcessFrame (s : OdeTrigger) (pFrameMeta : NvDsFrameMeta) : OdeTrigger :=
  match s.variant with
  | Variant.Always m_when => AlwaysOdeTrigger.PreProcessFrame s m_when pFrameMeta
  | _ => OdeTrigger.PreProcessFrame s pFrameMeta

/-- The virtual call `CheckForOccurrence(pBuffer, pDisplayMeta, pFrameMeta, pObjectMeta)`. -/
def CheckForOccurrence (s : OdeTrigger) (pFrameMeta : NvDsFrameMeta)
    (pObjectMeta : NvDsObjectMeta) : Bool × OdeTrigger :=
  match s.variant with
  | Variant.Always _ => OdeTrigger.CheckForOccurrence s pFrameMeta pObjectMeta
  | Variant.Occurrence => OccurrenceOdeTrigger.CheckForOccurrence s pFrameMeta pObjectMeta
  | Variant.Absence => AbsenceOdeTrigger.CheckForOccurrence s pFrameMeta pObjectMeta
  | Variant.Accumulation v =>
    AccumulationOdeTrigger.CheckForOccurrence s v pFrameMeta pObjectMeta
  | Variant.Cross v => CrossOdeTrigger.CheckForOccurrence s v pFrameMeta pObjectMeta
  | Variant.Instance v => InstanceOdeTrigger.CheckForOccurrence s v pFrameMeta pObjectMeta
  | Variant.Summation => SummationOdeTrigger.CheckForOccurrence s pFrameMeta pObjectMeta
  | Variant.Custom v => CustomOdeTrigger.CheckForOccurrence s v pFrameMeta pObjectMeta
  | Variant.Persistence v =>
    PersistenceOdeTrigger.CheckForOccurrence s v pFrameMeta pObjectMeta
  | Variant.Count _ => CountOdeTrigger.CheckForOccurrence s pFrameMeta pObjectMeta
  | Variant.Smallest v => SmallestOdeTrigger.CheckForOccurrence s v pFrameMeta pObjectMeta
  | Variant.Largest v => LargestOdeTrigger.CheckForOccurrence s v pFrameMeta pObjectMeta
  | Variant.Latest v => LatestOdeTrigger.CheckForOccurrence s v pFrameMeta pObjectMeta
  | Variant.Earliest v => EarliestOdeTrigger.CheckForOccurrence s v pFrameMeta pObjectMeta
  | Variant.NewLow _ => SummationOdeTrigger.CheckForOccurrence s pFrameMeta pObjectMeta
  | Variant.NewHigh _ => SummationOdeTrigger.CheckForOccurrence s pFrameMeta pObjectMeta
  | Variant.Distance ab v =>
    ABOdeTrigger.CheckForOccurrence s ab (fun ab => Variant.Distance ab v) pFrameMeta
      pObjectMeta
  | Variant.Intersection ab =>
    ABOdeTrigger.CheckForOccurrence s ab Variant.Intersection pFrameMeta pObjectMeta

/-- The virtual call `PostProcessFrame(pBuffer, pDisplayMeta, pFrameMeta)`. A call that
ends the process (`none`, for the Smallest and Largest triggers) leaves no state behind:
the trigger is then kept as it was before the call, with the result 0. -/
def PostProcessFrame (s : OdeTrigger) (pFrameMeta : NvDsFrameMeta) : Nat × OdeTrigger :=
  match s.variant with
  | Variant.Always m_when => AlwaysOdeTrigger.PostProcessFrame s m_when pFrameMeta
  | Variant.Occurrence => OdeTrigger.PostProcessFrame s pFrameMeta
  | Variant.Absence => AbsenceOdeTrigger.PostProcessFrame s pFrameMeta
  | Variant.Accumulation v => AccumulationOdeTrigger.PostProcessFrame s v pFrameMeta
  | Variant.Cross v => CrossOdeTrigger.PostProcessFrame s v pFrameMeta
  | Variant.Instance _ => OdeTrigger.PostProcessFrame s pFrameMeta
  | Variant.Summation => SummationOdeTrigger.PostProcessFrame s pFrameMeta
  | Variant.Custom v => CustomOdeTrigger.PostProcessFrame s v pFrameMeta
  | Variant.Persistence v => PersistenceOdeTrigger.PostProcessFrame s v pFrameMeta
  | Variant.Count v => CountOdeTrigger.PostProcessFrame s v pFrameMeta
  | Variant.Smallest v => (SmallestOdeTrigger.PostProcessFrame s v pFrameMeta).getD (0, s)
  | Variant.Largest v => (LargestOdeTrigger.PostProcessFrame s v pFrameMeta).getD (0, s)
  | Variant.Latest v => LatestOdeTrigger.PostProcessFrame s v pFrameMeta
  | Variant.Earliest v => EarliestOdeTrigger.PostProcessFrame s v pFrameMeta
  | Variant.NewLow v => NewLowOdeTrigger.PostProcessFrame s v pFrameMeta
  | Variant.NewHigh v => NewHighOdeTrigger.PostProcessFrame s v pFrameMeta
  | Variant.Distance ab v =>
    ABOdeTrigger.PostProcessFrame (DistanceOdeTrigger.CheckDistance s v)
      (fun ab => Variant.Distance ab v) s ab pFrameMeta
  | Variant.Intersection ab =>
    ABOdeTrigger.PostProcessFrame (IntersectionOdeTrigger.Overlaps s) Variant.Intersection
      s ab pFrameMeta

end Trigger

/-- `OdeTrigger::HandleResetTimeout`, the body of the timer callback. -/
def OdeTrigger.HandleResetTimeout (s : OdeTrigger) : OdeTrigger :=
  Trigger.Reset { s with m_resetTimerId := 0 }

/-- GLib dispatching the pending timeout source `id`: `TriggerResetTimeoutHandler` runs
and returns false, so the source is destroyed. A source that is not pending does not
fire. -/
def TriggerResetTimeoutHandler (s : OdeTrigger) (id : Nat) : OdeTrigger :=
  if s.timers.any (fun t => decide (t.1 = id)) then
    let s := OdeTrigger.HandleResetTimeout s
    { s with timers := s.timers.filter (fun t => decide (t.1 ≠ id)) }
  else s

/-! ## Construction and runs -/

/-- The host a trigger is created in: the name services, the GEOS wrappers and the
wall clock. -/
structure Host where
  SourceIdGet : String → Option Int
  InferIdGet : String → Option Int
  GeosRectangleDistance : NvOSD_RectParams → NvOSD_RectParams → Nat
  GeosRectangleOverlaps : NvOSD_RectParams → NvOSD_RectParams → Bool
  GeosPointDistance : dsl_coordinate → dsl_coordinate → Nat
  nowMs : Nat

/-- The constructor `OdeTrigger::OdeTrigger(name, source, classId, limit)`, run for the
concrete class `variant`; `m_enabled` is set by `OdeBase`. -/
def OdeTrigger.new (host : Host) (name source : String) (classId limit : Nat)
    (variant : Variant) : OdeTrigger where
  m_name := name
  m_enabled := true
  m_source := source
  m_sourceId := -1
  m_infer := ""
  m_inferId := -1
  m_classId := classId
  m_triggered := 0
  m_limit := limit
  m_occurrences := 0
  m_minConfidence := 0
  m_minWidth := 0
  m_minHeight := 0
  m_maxWidth := 0
  m_maxHeight := 0
  m_minFrameCountN := 1
  m_minFrameCountD := 1
  m_inferDoneOnly := false
  m_resetTimeout := 0
  m_resetTimerId := 0
  m_interval := 0
  m_intervalCounter := 0
  m_skipFrame := false
  m_nextAreaIndex := 0
  m_nextActionIndex := 0
  m_pOdeAreas := []
  m_pOdeAreasIndexed := []
  m_pOdeActions := []
  m_pOdeActionsIndexed := []
  m_limitEventListeners := []
  s_eventCount := 0
  variant := variant
  SourceIdGet := host.SourceIdGet
  InferIdGet := host.InferIdGet
  GeosRectangleDistance := host.GeosRectangleDistance
  GeosRectangleOverlaps := host.GeosRectangleOverlaps
  GeosPointDistance := host.GeosPointDistance
  timers := []
  lastSourceId := 0
  nowMs := host.nowMs
  log := []

/-- What can happen to a trigger: the three per-frame calls of the pipeline, client
calls, the expiry of a pending timer and the passing of time. -/
inductive Call where
  | PreProcessFrame (pFrameMeta : NvDsFrameMeta)
  | CheckForOccurrence (pFrameMeta : NvDsFrameMeta) (pObjectMeta : NvDsObjectMeta)
  | PostProcessFrame (pFrameMeta : NvDsFrameMeta)
  | Reset
  | SetLimit (limit : Nat)
  | SetResetTimeout (timeout : Nat)
  | Timeout (id : Nat)
  | Tick (ms : Nat)

/-- The state after one call. -/
def step (s : OdeTrigger) : Call → OdeTrigger
  | Call.PreProcessFrame f => Trigger.PreProcessFrame s f
  | Call.CheckForOccurrence f o => (Trigger.CheckForOccurrence s f o).2
  | Call.PostProcessFrame f => (Trigger.PostProcessFrame s f).2
  | Call.Reset => Trigger.Reset s
  | Call.SetLimit limit => OdeTrigger.SetLimit s limit
  | Call.SetResetTimeout timeout => OdeTrigger.SetResetTimeout s timeout
  | Call.Timeout id => TriggerResetTimeoutHandler s id
  | Call.Tick ms => { s with nowMs := s.nowMs + ms }

/-- The state after a sequence of calls. -/
def run (s : OdeTrigger) (calls : List Call) : OdeTrigger :=
  calls.foldl step s

/-- The number of Action invocations (`HandleOccurrence` calls) in a log. -/
def actionCalls (log : List Effect) : Nat :=
  log.countP (fun e => match e with
    | Effect.HandleOccurrence _ _ _ => true
    | _ => false)

/-- The number of listener callbacks in a log. -/
def listenerCalls (log : List Effect) : Nat :=
  log.countP (fun e => match e with
    | Effect.LimitEventListener _ _ _ _ => true
    | _ => false)

/-- The number of `g_timeout_add` calls in a log. -/
def timeoutAdds (log : List Effect) : Nat :=
  log.countP (fun e => match e with
    | Effect.g_timeout_add _ _ => true
    | _ => false)

/-- The state after attaching the Areas of a list, one `AddArea` call each, in order. -/
def addAreas (s : OdeTrigger) (areas : List OdeArea) : OdeTrigger :=
  areas.foldl (fun s a => (OdeTrigger.AddArea s a).2.1) s

/-! ## Notions used to state the limit and timer properties -/

/-- The concrete classes of triggers. -/
inductive Kind where
  | Always | Occurrence | Absence | Accumulation | Cross | Instance | Summation | Custom
  | Persistence | Count | Smallest | Largest | Latest | Earliest | NewLow | NewHigh
  | Distance | Intersection
  deriving DecidableEq, Repr

/-- The concrete class of a trigger. -/
def Variant.kind : Variant → Kind
  | Variant.Always _ => Kind.Always
  | Variant.Occurrence => Kind.Occurrence
  | Variant.Absence => Kind.Absence
  | Variant.Accumulation _ => Kind.Accumulation
  | Variant.Cross _ => Kind.Cross
  | Variant.Instance _ => Kind.Instance
  | Variant.Summation => Kind.Summation
  | Variant.Custom _ => Kind.Custom
  | Variant.Persistence _ => Kind.Persistence
  | Variant.Count _ => Kind.Count
  | Variant.Smallest _ => Kind.Smallest
  | Variant.Largest _ => Kind.Largest
  | Variant.Latest _ => Kind.Latest
  | Variant.Earliest _ => Kind.Earliest
  | Variant.NewLow _ => Kind.NewLow
  | Variant.NewHigh _ => Kind.NewHigh
  | Variant.Distance _ _ => Kind.Distance
  | Variant.Intersection _ => Kind.Intersection

/-- How often an event invokes each Action: twice for the AB triggers (once per object of
the pair), once otherwise. -/
def Kind.callsPerEvent : Kind → Nat
  | Kind.Distance => 2
  | Kind.Intersection => 2
  | _ => 1

/-- The classes all of whose events pass the limit test `m_limit and m_triggered >=
m_limit`, in `CheckForMinCriteria` or in their `PostProcessFrame`. The `PostProcessFrame`
of Count, Custom and New-Low emits events without that test; Always emits no event, so
the test never matters for it. -/
def Kind.limitGated : Kind → Bool
  | Kind.Count => false
  | Kind.Custom => false
  | Kind.NewLow => false
  | _ => true

/-- An event is pending: the check phase has accepted objects that the next
`PostProcessFrame` turns into an event without testing the limit again (queued objects,
a selected object, a count above the current high; list B of an AB trigger is only read
when the two class ids differ). -/
def pendingEvent (s : OdeTrigger) : Prop :=
  match s.variant with
  | Variant.Smallest v => v.m_occurrenceMetaList ≠ []
  | Variant.Largest v => v.m_occurrenceMetaList ≠ []
  | Variant.Latest v => v.m_pObjectMeta.isSome = true
  | Variant.Earliest v => v.m_pObjectMeta.isSome = true
  | Variant.NewHigh v => s.m_occurrences > v.m_current
  | Variant.Distance ab _ =>
    ab.m_occurrenceMetaListA ≠ [] ∨ (ab.m_classIdAOnly = false ∧ ab.m_occurrenceMetaListB ≠ [])
  | Variant.Intersection ab =>
    ab.m_occurrenceMetaListA ≠ [] ∨ (ab.m_classIdAOnly = false ∧ ab.m_occurrenceMetaListB ≠ [])
  | _ => False

/-- The limit invariant: with a limit set, the count of events is within the limit, and
below it while an event is pending. -/
def LimitInv (s : OdeTrigger) : Prop :=
  s.m_limit ≠ 0 → s.m_triggered ≤ s.m_limit ∧ (pendingEvent s → s.m_triggered < s.m_limit)

/-- A sequence of calls each of which is allowed, by `guard`, in the state it is made
in. -/
def Admissible (guard : OdeTrigger → Call → Prop) : OdeTrigger → List Call → Prop
  | _, [] => True
  | s, c :: cs => guard s c ∧ Admissible guard (step s c) cs

/-- The calls of the per-frame protocol (and the passing of time): no client call, no
timer expiry. -/
def frameCallsOnly (_s : OdeTrigger) : Call → Prop
  | Call.PreProcessFrame _ => True
  | Call.CheckForOccurrence _ _ => True
  | Call.PostProcessFrame _ => True
  | Call.Tick _ => True
  | _ => False

/-- Every call is allowed, `SetLimit` only to 0 (unlimited) or to a limit above the
current count of events. -/
def limitNotLowered (s : OdeTrigger) : Call → Prop
  | Call.SetLimit limit => limit = 0 ∨ s.m_triggered < limit
  | _ => True

/-- Every call is allowed, the client calls `Reset` and `SetLimit` only while no reset
timer is live. -/
def noClientResetWhileTimerLive (s : OdeTrigger) : Call → Prop
  | Call.Reset => s.m_resetTimerId = 0
  | Call.SetLimit _ => s.m_resetTimerId = 0
  | _ => True

/-- Two states that agree on the members the per-frame code of the concrete triggers
branches on and on the number of Action invocations logged: what the filter gates, which
only cache ids and log lookups, leave unchanged. -/
structure SameCore (s s' : OdeTrigger) : Prop where
  m_limit : s'.m_limit = s.m_limit
  m_triggered : s'.m_triggered = s.m_triggered
  m_pOdeActionsIndexed : s'.m_pOdeActionsIndexed = s.m_pOdeActionsIndexed
  m_pOdeAreasIndexed : s'.m_pOdeAreasIndexed = s.m_pOdeAreasIndexed
  variant : s'.variant = s.variant
  m_resetTimerId : s'.m_resetTimerId = s.m_resetTimerId
  m_resetTimeout : s'.m_resetTimeout = s.m_resetTimeout
  m_occurrences : s'.m_occurrences = s.m_occurrences
  m_enabled : s'.m_enabled = s.m_enabled
  m_skipFrame : s'.m_skipFrame = s.m_skipFrame
  nowMs : s'.nowMs = s.nowMs
  calls : actionCalls s'.log = actionCalls s.log

/-- What a per-frame call does to the members the limit and timer properties are about:
the limit, the Actions and the class stay, the count of events does not decrease, the
timer handle changes only at or above the limit, every event invokes each Action
`callsPerEvent` times (the Always trigger, which counts no events, apart), and the limit
invariant is kept by the limit-gated classes. -/
structure FrameStep (s s' : OdeTrigger) : Prop where
  limit : s'.m_limit = s.m_limit
  actions : s'.m_pOdeActionsIndexed = s.m_pOdeActionsIndexed
  kind : s'.variant.kind = s.variant.kind
  mono : s.m_triggered ≤ s'.m_triggered
  timer : s'.m_resetTimerId = s.m_resetTimerId ∨ s'.m_limit ≤ s'.m_triggered
  calls : s.variant.kind ≠ Kind.Always →
    actionCalls s'.log + s.variant.kind.callsPerEvent * s.m_triggered *
        s.m_pOdeActionsIndexed.length =
      actionCalls s.log + s.variant.kind.callsPerEvent * s'.m_triggered *
        s.m_pOdeActionsIndexed.length
  inv : s.variant.kind.limitGated = true → LimitInv s → LimitInv s'

/-! ## Concrete inputs used by the witnesses -/

/-- A host that knows no source or component name, with constant GEOS answers. -/
def exampleHost : Host where
  SourceIdGet := fun _ => none
  InferIdGet := fun _ => none
  GeosRectangleDistance := fun _ _ => 80
  GeosRectangleOverlaps := fun _ _ => true
  GeosPointDistance := fun _ _ => 80
  nowMs := 0

/-- An object of class 2, 40 by 30 pixels, with unspecified (zero) confidence. -/
def exampleObject : NvDsObjectMeta where
  addr := 1
  class_id := 2
  object_id := 7
  unique_component_id := 1
  confidence := 0
  rect_params := { left := 10, top := 20, width := 40, height := 30 }
  primary_metric := 0
  persistence := 0

/-- A second object of class 2. -/
def exampleObject2 : NvDsObjectMeta :=
  { exampleObject with addr := 2, object_id := 8 }

/-- Frame 1 of source 0. -/
def exampleFrame : NvDsFrameMeta where
  source_id := 0
  frame_num := 1
  source_frame_width := 1280
  source_frame_height := 720
  bInferDone := true
  occurrences := 0

/-- Frame 2 of source 0. -/
def exampleFrame2 : NvDsFrameMeta :=
  { exampleFrame with frame_num := 2 }

/-- An Action named `"print"`, not yet attached. -/
def exampleAction : OdeAction where
  name := "print"
  index := 0
  parentName := ""

/-- An inclusion Area that contains every rectangle. -/
def exampleInclusion : OdeArea where
  name := "in"
  index := 0
  parentName := ""
  type := AreaType.inclusion
  bboxTestPoint := DSL_BBOX_POINT_CENTER
  CheckForWithin := fun _ => true
  CheckForCross := fun _ => false

/-- An exclusion Area that contains every rectangle. -/
def exampleExclusion : OdeArea :=
  { exampleInclusion with name := "out", type := AreaType.exclusion }

/-- An inclusion Area that contains no rectangle. -/
def exampleEmptyArea : OdeArea :=
  { exampleInclusion with name := "none", CheckForWithin := fun _ => false }

/-- An Occurrence trigger for class 2 with the given limit and one attached Action. -/
def exampleOccurrence (limit : Nat) : OdeTrigger :=
  (OdeTrigger.AddAction (OdeTrigger.new exampleHost "trigger" "" 2 limit Variant.Occurrence)
    exampleAction).2.1

/-- The example trigger with limit 1 and a reset timeout of 5 s, after one event (which
reaches the limit and schedules timer 1) and a client `Reset`: timer 1 is still live. -/
def exampleTimerLive : OdeTrigger :=
  run (OdeTrigger.SetResetTimeout (exampleOccurrence 1) 5)
    [Call.CheckForOccurrence exampleFrame exampleObject, Call.Reset]

/-- The example trigger with limit 1 and no reset timeout, after one event: the limit
is reached and no timer is live. -/
def exampleAtLimit : OdeTrigger :=
  run (exampleOccurrence 1) [Call.CheckForOccurrence exampleFrame exampleObject]

/-- A disabled Persistence trigger for class 2 with range 0 to 10 s, limit 1, one
attached Action and one limit-event listener. -/
def examplePersistenceDisabled : OdeTrigger :=
  { (OdeTrigger.AddAction
      (OdeTrigger.new exampleHost "persistence" "" 2 1
        (Variant.Persistence
          { m_pTrackedObjectsPerSource := { maxHistory := 0, objects := [] }
            m_minimumMs := 0
            m_maximumMs := 10000 }))
      exampleAction).2.1 with
    m_enabled := false
    m_limitEventListeners := [(4096, 0)] }

/-- A disabled Latest trigger for class 2, unlimited, with one attached Action. -/
def exampleLatestDisabled : OdeTrigger :=
  { (OdeTrigger.AddAction
      (OdeTrigger.new exampleHost "latest" "" 2 0
        (Variant.Latest
          { m_pTrackedObjectsPerSource := { maxHistory := 0, objects := [] }
            m_pObjectMeta := none
            m_trackedTimeMs := 0 }))
      exampleAction).2.1 with
    m_enabled := false }

/-- A Distance trigger for pairs of class-2 objects with range 0 to 50 pixels measured
between the rectangles, limit 1 and one attached Action. The example host measures 80
pixels between any two rectangles. -/
def exampleDistance : OdeTrigger :=
  (OdeTrigger.AddAction
    (OdeTrigger.new exampleHost "distance" "" 2 1
      (Variant.Distance
        { m_classIdA := 2
          m_classIdB := 2
          m_classIdAOnly := true
          m_occurrenceMetaListA := []
          m_occurrenceMetaListB := [] }
        { m_minimum := 0
          m_maximum := 50
          m_testPoint := DSL_BBOX_POINT_ANY
          m_testMethod := DSL_DISTANCE_METHOD_FIXED_PIXELS }))
    exampleAction).2.1

/-- One frame with the two example objects. -/
def exampleFrameCalls : List Call :=
  [Call.PreProcessFrame exampleFrame,
   Call.CheckForOccurrence exampleFrame exampleObject,
   Call.CheckForOccurrence exampleFrame exampleObject2,
   Call.PostProcessFrame exampleFrame]

/-! ## Notions used to state the properties of Reset -/

/-- The state of the concrete class is cleared: the baseline of a New-Low or New-High
trigger is its preset, the running total of an Accumulation trigger is 0, the instance
maps of the Accumulation and Instance triggers are empty, and the tracked-object store of
a tracking trigger (Cross, Persistence, Latest, Earliest) is empty. The other classes
keep no state across a `Reset`. -/
def Variant.cleared : Variant → Prop
  | Variant.NewLow v => v.m_current = v.m_preset
  | Variant.NewHigh v => v.m_current = v.m_preset
  | Variant.Accumulation v => v.m_accumulativeOccurrences = 0 ∧ v.m_instances = []
  | Variant.Instance v => v.m_instances = []
  | Variant.Cross v => v.m_pTrackedObjectsPerSource.IsEmpty = true
  | Variant.Persistence v => v.m_pTrackedObjectsPerSource.IsEmpty = true
  | Variant.Latest v => v.m_pTrackedObjectsPerSource.IsEmpty = true
  | Variant.Earliest v => v.m_pTrackedObjectsPerSource.IsEmpty = true
  | _ => True

/-- The members of a trigger and the host state, without the record of the outward calls
made so far. -/
def OdeTrigger.members (s : OdeTrigger) : OdeTrigger :=
  { s with log := [] }

/-! ## Notions used to state the properties of the listeners and the children -/

/-- The state after registering the listeners of a list, one `AddLimitEventListener`
call each, in order: `(callback, clientData)`. -/
def addListeners (s : OdeTrigger) (listeners : List (Nat × Nat)) : OdeTrigger :=
  listeners.foldl (fun s l => (OdeTrigger.AddLimitEventListener s l.1 l.2).2) s

/-- A client call that changes the children of a trigger. -/
inductive ChildCall where
  | AddAction (pChild : OdeAction)
  | RemoveAction (pChild : OdeAction)
  | RemoveAllActions
  | AddArea (pChild : OdeArea)
  | RemoveArea (pChild : OdeArea)
  | RemoveAllAreas

/-- The trigger after one call that changes its children. -/
def stepChild (s : OdeTrigger) : ChildCall → OdeTrigger
  | ChildCall.AddAction pChild => (OdeTrigger.AddAction s pChild).2.1
  | ChildCall.RemoveAction pChild => (OdeTrigger.RemoveAction s pChild).2.1
  | ChildCall.RemoveAllActions => OdeTrigger.RemoveAllActions s
  | ChildCall.AddArea pChild => (OdeTrigger.AddArea s pChild).2.1
  | ChildCall.RemoveArea pChild => (OdeTrigger.RemoveArea s pChild).2.1
  | ChildCall.RemoveAllAreas => OdeTrigger.RemoveAllAreas s

/-- The trigger after a sequence of calls that change its children. -/
def runChildren (s : OdeTrigger) (calls : List ChildCall) : OdeTrigger :=
  calls.foldl stepChild s

/-- The names of the attached Actions: those of the children in the by-name map, which is
the map `AddAction` and `RemoveAction` look a child up in. -/
def attachedActionNames (s : OdeTrigger) : List String :=
  s.m_pOdeActions.map (fun p => p.2.name)

/-- The names of the attached Areas. -/
def attachedAreaNames (s : OdeTrigger) : List String :=
  s.m_pOdeAreas.map (fun p => p.2.name)

/-- A by-name map of children whose keys are pairwise distinct and are the names of the
children stored under them. -/
def NamesInv {α : Type} (name : α → String) (byName : List (String × α)) : Prop :=
  (byName.map Prod.fst).Nodup ∧ ∀ p ∈ byName, name p.2 = p.1

/-- The indices that the `AddAction` calls of a run assign to the children, in the order
of the calls: one index for each call that succeeds. -/
def assignedActionIndices : OdeTrigger → List ChildCall → List Nat
  | _, [] => []
  | s, ChildCall.AddAction pChild :: rest =>
    let r := OdeTrigger.AddAction s pChild
    if r.1 then r.2.2.index :: assignedActionIndices r.2.1 rest
    else assignedActionIndices r.2.1 rest
  | s, call :: rest => assignedActionIndices (stepChild s call) rest

/-- The indices that the `AddArea` calls of a run assign to the children, in the order of
the calls: one index for each call that succeeds. -/
def assignedAreaIndices : OdeTrigger → List ChildCall → List Nat
  | _, [] => []
  | s, ChildCall.AddArea pChild :: rest =>
    let r := OdeTrigger.AddArea s pChild
    if r.1 then r.2.2.index :: assignedAreaIndices r.2.1 rest
    else assignedAreaIndices r.2.1 rest
  | s, call :: rest => assignedAreaIndices (stepChild s call) rest

/-- Following the spec's words (Actions run in insertion order): the names of the
attached Actions in the order in which they were added, after a sequence of calls made
with the Actions `attached`. Adding an attached name changes nothing, removing a name
takes it out, and a name added again goes to the end. -/
def actionsInInsertionOrder (attached : List String) : List ChildCall → List String
  | [] => attached
  | ChildCall.AddAction pChild :: rest =>
    actionsInInsertionOrder
      (if pChild.name ∈ attached then attached else attached ++ [pChild.name]) rest
  | ChildCall.RemoveAction pChild :: rest =>
    actionsInInsertionOrder (attached.filter (fun n => decide (n ≠ pChild.name))) rest
  | ChildCall.RemoveAllActions :: rest => actionsInInsertionOrder [] rest
  | _ :: rest => actionsInInsertionOrder attached rest

/-- Following the spec's words (Areas run in insertion order): the names of the attached
Areas in the order in which they were added. -/
def areasInInsertionOrder (attached : List String) : List ChildCall → List String
  | [] => attached
  | ChildCall.AddArea pChild :: rest =>
    areasInInsertionOrder
      (if pChild.name ∈ attached then attached else attached ++ [pChild.name]) rest
  | ChildCall.RemoveArea pChild :: rest =>
    areasInInsertionOrder (attached.filter (fun n => decide (n ≠ pChild.name))) rest
  | ChildCall.RemoveAllAreas :: rest => areasInInsertionOrder [] rest
  | _ :: rest => areasInInsertionOrder attached rest

/-- The child handed to `RemoveAction` or `RemoveArea` is the attached one: it carries
the index under which the child of its name is attached, if one is. A child object holds
a single index, the one the last `AddAction` or `AddArea` call gave it. -/
def removesAttachedChild (s : OdeTrigger) : ChildCall → Prop
  | ChildCall.RemoveAction pChild =>
    ∀ c, mapFind s.m_pOdeActions pChild.name = some c → c.index = pChild.index
  | ChildCall.RemoveArea pChild =>
    ∀ c, mapFind s.m_pOdeAreas pChild.name = some c → c.index = pChild.index
  | _ => True

/-- A sequence of calls that change the children, each of which is allowed, by `guard`,
in the state it is made in. -/
def AdmissibleChildren (guard : OdeTrigger → ChildCall → Prop) :
    OdeTrigger → List ChildCall → Prop
  | _, [] => True
  | s, c :: cs => guard s c ∧ AdmissibleChildren guard (stepChild s c) cs

/-- The two child maps of a trigger agree and list the children in insertion order: the
names `attached` are those under which a child is attached, the by-name map stores each
child under its name, the by-index map holds the same children under their indices, in
key order, which is the order `attached`, and no index is above the next-index
counter. -/
structure ChildrenInv {α : Type} (name : α → String) (index : α → Nat)
    (byName : List (String × α)) (byIndex : List (Nat × α)) (next : Nat)
    (attached : List String) : Prop where
  lookup : ∀ n, (mapFind byName n).isSome = true ↔ n ∈ attached
  stored : ∀ n c, mapFind byName n = some c → name c = n ∧ (index c, c) ∈ byIndex
  order : byIndex.map (fun p => name p.2) = attached
  keys : byIndex.Pairwise (fun a b => a.1 < b.1)
  bound : ∀ p ∈ byIndex, p.1 ≤ next ∧ index p.2 = p.1
  nodup : attached.Nodup

/-! ## Notions used to state the properties of the frame interval -/

/-- The source filter of a trigger accepts a frame. -/
def sourceAccepts (s : OdeTrigger) (pFrameMeta : NvDsFrameMeta) : Bool :=
  (OdeTrigger.CheckForSourceId s pFrameMeta.source_id).1

/-- The trigger after the base `PreProcessFrame` of each frame of a list, in order. -/
def preProcessFrames (s : OdeTrigger) (frames : List NvDsFrameMeta) : OdeTrigger :=
  frames.foldl OdeTrigger.PreProcessFrame s

/-- The source filter accepts every frame of a list, each in the state its
`PreProcessFrame` call is made in. -/
def acceptsAll : OdeTrigger → List NvDsFrameMeta → Prop
  | _, [] => True
  | s, f :: fs => sourceAccepts s f = true ∧ acceptsAll (OdeTrigger.PreProcessFrame s f) fs

/-- Whether the source filter accepts every frame of a list can be computed. -/
instance acceptsAll.instDecidable :
    ∀ (s : OdeTrigger) (frames : List NvDsFrameMeta), Decidable (acceptsAll s frames)
  | _, [] => isTrue trivial
  | s, f :: fs =>
    match decEq (sourceAccepts s f) true,
        acceptsAll.instDecidable (OdeTrigger.PreProcessFrame s f) fs with
    | isTrue h1, isTrue h2 => isTrue ⟨h1, h2⟩
    | isFalse h1, _ => isFalse (fun h => h1 h.1)
    | _, isFalse h2 => isFalse (fun h => h2 h.2)

/-! ## Notions used to state the properties of the cached ids -/

/-- A call of one of the filter gates that resolve and cache an id. -/
inductive GateCall where
  | CheckForSourceId (sourceId : Int)
  | CheckForInferId (inferId : Int)
  | CheckForMinCriteria (pFrameMeta : NvDsFrameMeta) (pObjectMeta : NvDsObjectMeta)

/-- The trigger after one gate call. -/
def stepGate (s : OdeTrigger) : GateCall → OdeTrigger
  | GateCall.CheckForSourceId sourceId => (OdeTrigger.CheckForSourceId s sourceId).2
  | GateCall.CheckForInferId inferId => (OdeTrigger.CheckForInferId s inferId).2
  | GateCall.CheckForMinCriteria pFrameMeta pObjectMeta =>
    (OdeTrigger.CheckForMinCriteria s pFrameMeta pObjectMeta).2

/-- The trigger after a sequence of gate calls. -/
def runGates (s : OdeTrigger) (calls : List GateCall) : OdeTrigger :=
  calls.foldl stepGate s

/-- The number of `SourceIdGet` lookups in a log. -/
def sourceLookups (log : List Effect) : Nat :=
  log.countP (fun e => match e with
    | Effect.SourceIdGet _ => true
    | _ => false)

/-- The number of `InferIdGet` lookups in a log. -/
def inferLookups (log : List Effect) : Nat :=
  log.countP (fun e => match e with
    | Effect.InferIdGet _ => true
    | _ => false)

/-- What a gate call does to the cached source id: the source name and the name service
stay, and either the id and the number of lookups stay, or the id was unresolved (-1),
one lookup was made and the id is what the lookup gave (still -1 when the name is
unknown). -/
structure SourceStep (s s' : OdeTrigger) : Prop where
  name : s'.m_source = s.m_source
  service : s'.SourceIdGet = s.SourceIdGet
  lookup : (s'.m_sourceId = s.m_sourceId ∧ sourceLookups s'.log = sourceLookups s.log) ∨
    (s.m_sourceId = -1 ∧ s'.m_sourceId = (s.SourceIdGet s.m_source).getD (-1) ∧
      sourceLookups s'.log = sourceLookups s.log + 1)

/-- What a gate call does to the cached inference-component id. -/
structure InferStep (s s' : OdeTrigger) : Prop where
  name : s'.m_infer = s.m_infer
  service : s'.InferIdGet = s.InferIdGet
  lookup : (s'.m_inferId = s.m_inferId ∧ inferLookups s'.log = inferLookups s.log) ∨
    (s.m_inferId = -1 ∧ s'.m_inferId = (s.InferIdGet s.m_infer).getD (-1) ∧
      inferLookups s'.log = inferLookups s.log + 1)

/-! ## Notions used to state the properties of the Occurrence, Absence and Instance
triggers -/

/-- The Action invocations in a log, in the order they were made. -/
def actionLog (log : List Effect) : List Effect :=
  log.filter (fun e => match e with
    | Effect.HandleOccurrence _ _ _ => true
    | _ => false)

/-- The source, min-criteria and area gates are open for an object, the limit test
apart: the tests of `CheckGates` other than `m_limit and m_triggered >= m_limit`. -/
def gatesOpen (s : OdeTrigger) (pFrameMeta : NvDsFrameMeta) (pObjectMeta : NvDsObjectMeta) :
    Prop :=
  (OdeTrigger.CheckForSourceId s pFrameMeta.source_id).1 = true ∧
  s.m_skipFrame = false ∧
  (OdeTrigger.CheckForInferId s pObjectMeta.unique_component_id).1 = true ∧
  (s.m_classId = DSL_ODE_ANY_CLASS ∨ s.m_classId = pObjectMeta.class_id) ∧
  ¬ (pObjectMeta.confidence > 0 ∧ pObjectMeta.confidence < s.m_minConfidence) ∧
  (s.m_minWidth > 0 → s.m_minWidth ≤ pObjectMeta.rect_params.width) ∧
  (s.m_minHeight > 0 → s.m_minHeight ≤ pObjectMeta.rect_params.height) ∧
  (s.m_maxWidth > 0 → pObjectMeta.rect_params.width ≤ s.m_maxWidth) ∧
  (s.m_maxHeight > 0 → pObjectMeta.rect_params.height ≤ s.m_maxHeight) ∧
  (s.m_inferDoneOnly = true → pFrameMeta.bInferDone = true) ∧
  OdeTrigger.CheckForWithin s pObjectMeta = true

/-- Two states with the same filter settings, the second possibly with an id cached that
the first has yet to look up: the gates, the limit test apart, decide alike in both. -/
structure SameFilters (s s' : OdeTrigger) : Prop where
  m_skipFrame : s'.m_skipFrame = s.m_skipFrame
  m_source : s'.m_source = s.m_source
  SourceIdGet : s'.SourceIdGet = s.SourceIdGet
  m_infer : s'.m_infer = s.m_infer
  InferIdGet : s'.InferIdGet = s.InferIdGet
  m_classId : s'.m_classId = s.m_classId
  m_minConfidence : s'.m_minConfidence = s.m_minConfidence
  m_minWidth : s'.m_minWidth = s.m_minWidth
  m_minHeight : s'.m_minHeight = s.m_minHeight
  m_maxWidth : s'.m_maxWidth = s.m_maxWidth
  m_maxHeight : s'.m_maxHeight = s.m_maxHeight
  m_inferDoneOnly : s'.m_inferDoneOnly = s.m_inferDoneOnly
  m_pOdeAreasIndexed : s'.m_pOdeAreasIndexed = s.m_pOdeAreasIndexed
  m_sourceId : s'.m_sourceId = s.m_sourceId ∨
    (s.m_sourceId = -1 ∧ s'.m_sourceId = (s.SourceIdGet s.m_source).getD (-1))
  m_inferId : s'.m_inferId = s.m_inferId ∨
    (s.m_inferId = -1 ∧ s'.m_inferId = (s.InferIdGet s.m_infer).getD (-1))

/-- Following the spec's words (on pass, fires Actions for that object): the Action
invocations an Occurrence trigger makes for a list of objects that each cause an event:
every attached Action once per object, in the order of the by-index map, with the
object's primary metric set to the frame's count of occurrences, which starts after
`occurrences`. -/
def occurrenceCalls (actions : List (Nat × OdeAction)) (pFrameMeta : NvDsFrameMeta) :
    Nat → List NvDsObjectMeta → List Effect
  | _, [] => []
  | occurrences, o :: rest =>
    actions.map (fun a => Effect.HandleOccurrence a.2.name pFrameMeta
      (some { o with primary_metric := occurrences + 1 })) ++
    occurrenceCalls actions pFrameMeta (occurrences + 1) rest

/-! ## Notions used to state the properties of the counting triggers -/

/-- The constructor `NewLowOdeTrigger::NewLowOdeTrigger(name, source, classId, limit,
preset)`: the current low starts at the preset. -/
def NewLowOdeTrigger.new (host : Host) (name source : String) (classId limit preset : Nat) :
    OdeTrigger :=
  OdeTrigger.new host name source classId limit
    (Variant.NewLow { m_preset := preset, m_current := preset })

/-- The constructor `NewHighOdeTrigger::NewHighOdeTrigger(name, source, classId, limit,
preset)`: the current high starts at the preset. -/
def NewHighOdeTrigger.new (host : Host) (name source : String) (classId limit preset : Nat) :
    OdeTrigger :=
  OdeTrigger.new host name source classId limit
    (Variant.NewHigh { m_preset := preset, m_current := preset })

/-- The `PostProcessFrame` calls of a run, in order: the state each call is made in and
its frame. -/
def postProcessCalls : OdeTrigger → List Call → List (OdeTrigger × NvDsFrameMeta)
  | _, [] => []
  | s, Call.PostProcessFrame f :: rest =>
    (s, f) :: postProcessCalls (step s (Call.PostProcessFrame f)) rest
  | s, c :: rest => postProcessCalls (step s c) rest

/-- The per-frame counts of matches of a run, in order: `m_occurrences` at each
`PostProcessFrame` call. -/
def matchCounts (s : OdeTrigger) (calls : List Call) : List Nat :=
  (postProcessCalls s calls).map (fun p => p.1.m_occurrences)

/-- The current low of a New-Low trigger, the current high of a New-High trigger (0 for
another class). -/
def currentExtreme (s : OdeTrigger) : Nat :=
  match s.variant with
  | Variant.NewLow v => v.m_current
  | Variant.NewHigh v => v.m_current
  | _ => 0

/-! ## Notions used to state the properties of the Smallest and Largest triggers -/

/-- Following the spec's words: the first queued object whose `width*height` is maximal
among the queued objects. -/
def firstOfLargestArea (l : List NvDsObjectMeta) : Option NvDsObjectMeta :=
  l.find? (fun o => l.all (fun p =>
    decide (p.rect_params.width * p.rect_params.height ≤
      o.rect_params.width * o.rect_params.height)))

/-! ## Notions used to state the properties of the Distance trigger -/

/-- Following the spec's words (on pass, fires each Action twice, once per object,
stamping `PRIMARY_METRIC`): the Action invocations a pair loop makes for a list of pairs
that each cause an event: for every pair in turn, every attached Action, in the order of
the by-index map, once with each object of the pair, the primary metric of both set to the
frame's count of occurrences, which starts after `occurrences`. -/
def pairCalls (actions : List (Nat × OdeAction)) (pFrameMeta : NvDsFrameMeta) :
    Nat → List (NvDsObjectMeta × NvDsObjectMeta) → List Effect
  | _, [] => []
  | occurrences, (a, b) :: rest =>
    actions.flatMap (fun act =>
      [Effect.HandleOccurrence act.2.name pFrameMeta
        (some { a with primary_metric := occurrences + 1 }),
       Effect.HandleOccurrence act.2.name pFrameMeta
        (some { b with primary_metric := occurrences + 1 })]) ++
    pairCalls actions pFrameMeta (occurrences + 1) rest

/-- The pairs of a list for which the pair test holds, in the order of the list. -/
def matchingPairs (test : NvDsObjectMeta → NvDsObjectMeta → Option Bool)
    (pairs : List (NvDsObjectMeta × NvDsObjectMeta)) :
    List (NvDsObjectMeta × NvDsObjectMeta) :=
  pairs.filter (fun p => decide (test p.1 p.2 = some true))

/-! ## Notions used to state the properties of the Always trigger -/

/-- The per-frame calls of one frame, in the order of the pipeline: `PreProcessFrame`,
`CheckForOccurrence` for each object of the frame, `PostProcessFrame`. -/
def frameCalls (pFrameMeta : NvDsFrameMeta) (objects : List NvDsObjectMeta) : List Call :=
  Call.PreProcessFrame pFrameMeta ::
    (objects.map (Call.CheckForOccurrence pFrameMeta) ++ [Call.PostProcessFrame pFrameMeta])

/-- The constructor `AlwaysOdeTrigger::AlwaysOdeTrigger(name, source, when)`: any class,
no limit. -/
def AlwaysOdeTrigger.new (host : Host) (name source : String) (when : Nat) : OdeTrigger :=
  OdeTrigger.new host name source DSL_ODE_ANY_CLASS 0 (Variant.Always when)

/-! ## Notions used to state the properties of the tracking triggers -/

/-- A Persistence trigger's members with the tracked-object store replaced. -/
def PersistenceOdeTrigger.withStore (v : PersistenceState) (store : TrackedObjects) :
    Variant :=
  Variant.Persistence { v with m_pTrackedObjectsPerSource := store }

/-- A Cross trigger's members with the tracked-object store replaced. -/
def CrossOdeTrigger.withStore (v : CrossState) (store : TrackedObjects) : Variant :=
  Variant.Cross { v with m_pTrackedObjectsPerSource := store }

/-- The tracked object a Cross trigger holds for a source and an object id, if any. -/
def CrossOdeTrigger.tracked (s : OdeTrigger) (sourceId : Int) (objectId : Nat) :
    Option TrackedObject :=
  match s.variant with
  | Variant.Cross v => v.m_pTrackedObjectsPerSource.GetObject sourceId objectId
  | _ => none

/-- The number of events a run produces for the object `objectId` of the source
`sourceId`: the `CheckForOccurrence` calls for it that return true. -/
def CrossOdeTrigger.events (sourceId : Int) (objectId : Nat) : OdeTrigger → List Call → Nat
  | _, [] => 0
  | s, Call.CheckForOccurrence f o :: rest =>
    (if f.source_id = sourceId ∧ o.object_id = objectId ∧
        (Trigger.CheckForOccurrence s f o).1 = true then 1 else 0) +
      CrossOdeTrigger.events sourceId objectId (step s (Call.CheckForOccurrence f o)) rest
  | s, c :: rest => CrossOdeTrigger.events sourceId objectId (step s c) rest

/-- The object stays tracked over a run: no call of the run takes it out of the store
(it is not purged, and the store is not cleared) once it is tracked. -/
def CrossOdeTrigger.staysTracked (sourceId : Int) (objectId : Nat) :
    OdeTrigger → List Call → Prop
  | _, [] => True
  | s, c :: rest =>
    ((CrossOdeTrigger.tracked s sourceId objectId).isSome = true →
      (CrossOdeTrigger.tracked (step s c) sourceId objectId).isSome = true) ∧
    CrossOdeTrigger.staysTracked sourceId objectId (step s c) rest

/-- Whether an object stays tracked over a run can be computed. -/
instance CrossOdeTrigger.staysTracked.instDecidable (sourceId : Int) (objectId : Nat) :
    ∀ (s : OdeTrigger) (calls : List Call),
      Decidable (CrossOdeTrigger.staysTracked sourceId objectId s calls)
  | _, [] => isTrue trivial
  | s, c :: rest =>
    match (inferInstance : Decidable
        ((CrossOdeTrigger.tracked s sourceId objectId).isSome = true →
          (CrossOdeTrigger.tracked (step s c) sourceId objectId).isSome = true)),
        CrossOdeTrigger.staysTracked.instDecidable sourceId objectId (step s c) rest with
    | isTrue h1, isTrue h2 => isTrue ⟨h1, h2⟩
    | isFalse h1, _ => isFalse (fun h => h1 h.1)
    | _, isFalse h2 => isFalse (fun h => h2 h.2)

/-- Every tracked object of a list that is kept for the object `objectId` of the source
`sourceId` has its `triggered` latch set. -/
def latched (objects : List TrackedObject) (sourceId : Int) (objectId : Nat) : Prop :=
  ∀ t ∈ objects, t.sourceId = sourceId → t.objectId = objectId → t.triggered = true

/-! ## The heat mapper (`DslOdeHeatMapper.cpp`) -/

/-- Members of `OdeHeatMapper`, declared in a header outside the sources; the constructor
names them all. The colour palette `m_pColorPalette`, an object of a class outside the
sources, is represented by the arguments of the calls made on it. The counters of the
heat map (`uint64_t`) are unbounded naturals. -/
structure OdeHeatMapper where
  m_name : String
  m_cols : Nat
  m_rows : Nat
  m_gridRectWidth : Nat
  m_gridRectHeight : Nat
  m_bboxTestPoint : Nat
  /-- The vector of `m_rows` row vectors of `m_cols` counters each. -/
  m_heatMap : List (List Nat)
  m_totalOccurrences : Nat
  m_mostOccurrences : Nat
  deriving DecidableEq

/-- The constructor `OdeHeatMapper::OdeHeatMapper(name, cols, rows, bboxTestPoint,
pColorPalette)`. -/
def OdeHeatMapper.new (name : String) (cols rows bboxTestPoint : Nat) : OdeHeatMapper where
  m_name := name
  m_cols := cols
  m_rows := rows
  m_gridRectWidth := 0
  m_gridRectHeight := 0
  m_bboxTestPoint := bboxTestPoint
  m_heatMap := List.replicate rows (List.replicate cols 0)
  m_totalOccurrences := 0
  m_mostOccurrences := 0

/-- The counter `m_heatMap[i][j]`, when the position is inside the vectors. -/
def OdeHeatMapper.cell (s : OdeHeatMapper) (i j : Nat) : Option Nat :=
  match s.m_heatMap[i]? with
  | none => none
  | some row => row[j]?

/-- The one-time initialization of the grid rectangle dimensions that opens
`HandleOccurrence`; `none` is an integer division by zero. -/
def OdeHeatMapper.initGrid (s : OdeHeatMapper) (pFrameMeta : NvDsFrameMeta) :
    Option OdeHeatMapper :=
  if s.m_gridRectWidth = 0 then
    if s.m_cols = 0 ∨ s.m_rows = 0 then none
    else
      some { s with
        m_gridRectWidth := pFrameMeta.source_frame_width / s.m_cols
        m_gridRectHeight := pFrameMeta.source_frame_height / s.m_rows }
  else some s

/-- The column and the row `HandleOccurrence` computes for a map coordinate:
`(mapCoordinate.x/m_gridRectWidth, mapCoordinate.y/m_gridRectHeight)`; `none` is an
integer division by zero. -/
def OdeHeatMapper.position (s : OdeHeatMapper) (mapCoordinate : dsl_coordinate) :
    Option (Nat × Nat) :=
  if s.m_gridRectWidth = 0 ∨ s.m_gridRectHeight = 0 then none
  else some (mapCoordinate.x / s.m_gridRectWidth, mapCoordinate.y / s.m_gridRectHeight)

/-- `OdeHeatMapper::HandleOccurrence`. The result is `none` when the call does not return
with a defined state: an integer division by zero, the bare `throw;` of `getCoordinate`
for a test point that is none of the nine, or a write to `m_heatMap[row][col]` outside
the vectors. -/
def OdeHeatMapper.HandleOccurrence (s : OdeHeatMapper) (pFrameMeta : NvDsFrameMeta)
    (pObjectMeta : NvDsObjectMeta) : Option OdeHeatMapper :=
  match OdeHeatMapper.initGrid s pFrameMeta with
  | none => none
  | some s =>
    match getCoordinate s.m_bboxTestPoint pObjectMeta.rect_params with
    | none => none
    | some mapCoordinate =>
      match OdeHeatMapper.position s mapCoordinate with
      | none => none
      | some (colPosition, rowPosition) =>
        match s.m_heatMap[rowPosition]? with
        | none => none
        | some row =>
          match row[colPosition]? with
          | none => none
          | some count =>
            let s := { s with
              m_heatMap := s.m_heatMap.set rowPosition (row.set colPosition (count + 1)) }
            if count + 1 > s.m_mostOccurrences then
              some { s with m_mostOccurrences := count + 1 }
            else some s

/-- `OdeHeatMapper::Reset`: the nested loops over `i < m_rows`, `j < m_cols` that zero
`m_heatMap[i][j]`; the heat map has `m_rows` rows of `m_cols` counters, so the loops
visit every counter. -/
def OdeHeatMapper.Reset (s : OdeHeatMapper) : OdeHeatMapper :=
  { s with m_heatMap := s.m_heatMap.map (fun row => row.map (fun _ => 0)) }

/-- Modelled from the spec: a filled rectangle added to the display metadata by
`AddDisplayMeta`: the arguments of `DSL_RGBA_RECTANGLE_NEW` (a class outside the sources)
that vary, with the argument of the `SetIndex` call made on the palette just before. The
index is `none` when the quotient is not finite (`m_mostOccurrences` is 0), so that its
conversion to `uint` is undefined. -/
structure HeatRectangle where
  index : Option Nat
  left : Nat
  top : Nat
  width : Nat
  height : Nat
  hasBgColor : Bool
  deriving DecidableEq

/-- The argument of `SetIndex`: `std::round((double)count*10 / (double)m_mostOccurrences)`,
converted to `uint`. -/
def OdeHeatMapper.paletteIndex (count mostOccurrences : Nat) : Option Nat :=
  if mostOccurrences = 0 then none
  else some (roundToUint ((count : ℚ) * 10 / (mostOccurrences : ℚ)))

/-- `OdeHeatMapper::AddDisplayMeta`: the rectangles added, in order. The loops read
`m_heatMap[i][j]` for `i < m_rows`, `j < m_cols`, positions that are inside the
vectors. -/
def OdeHeatMapper.AddDisplayMeta (s : OdeHeatMapper) : List HeatRectangle :=
  (List.range s.m_rows).flatMap (fun i =>
    (List.range s.m_cols).filterMap (fun j =>
      let count := (OdeHeatMapper.cell s i j).getD 0
      if count > 1 then
        some {
          index := OdeHeatMapper.paletteIndex count s.m_mostOccurrences
          left := j * s.m_gridRectWidth
          top := i * s.m_gridRectHeight
          width := s.m_gridRectWidth
          height := s.m_gridRectHeight
          hasBgColor := true }
      else none))

/-- What can happen to a heat mapper after its construction. -/
inductive HeatCall where
  | HandleOccurrence (pFrameMeta : NvDsFrameMeta) (pObjectMeta : NvDsObjectMeta)
  | Reset

/-- The heat mapper after one call, if the call returns. -/
def stepHeat (s : OdeHeatMapper) : HeatCall → Option OdeHeatMapper
  | HeatCall.HandleOccurrence f o => OdeHeatMapper.HandleOccurrence s f o
  | HeatCall.Reset => some (OdeHeatMapper.Reset s)

/-- The heat mapper after a sequence of calls, if they all return. -/
def runHeat : OdeHeatMapper → List HeatCall → Option OdeHeatMapper
  | s, [] => some s
  | s, c :: rest =>
    match stepHeat s c with
    | none => none
    | some s => runHeat s rest

/-- The sum of all the counters of the heat map. -/
def OdeHeatMapper.heatSum (s : OdeHeatMapper) : Nat :=
  (s.m_heatMap.map List.sum).sum

/-- The greatest counter of the heat map (0 for a map without counters). -/
def OdeHeatMapper.heatMax (s : OdeHeatMapper) : Nat :=
  (s.m_heatMap.map (fun row => row.foldl max 0)).foldl max 0

/-- The number of `HandleOccurrence` calls of a sequence. -/
def occurrencesHandled (calls : List HeatCall) : Nat :=
  calls.countP (fun c => match c with
    | HeatCall.HandleOccurrence _ _ => true
    | HeatCall.Reset => false)

/-- Following the spec's words (one filled rectangle per cell with count at least 2): the
cells `(i, j)` of the grid whose count is at least 2, row by row. -/
def OdeHeatMapper.drawnCells (s : OdeHeatMapper) : List (Nat × Nat) :=
  (List.range s.m_rows).flatMap (fun i =>
    ((List.range s.m_cols).filter
      (fun j => decide (2 ≤ (OdeHeatMapper.cell s i j).getD 0))).map (fun j => (i, j)))

/-- The invariant of a heat mapper: the heat map has `m_rows` rows of `m_cols` counters,
no counter is above `m_mostOccurrences`, and `m_totalOccurrences` is 0. -/
structure HeatInv (s : OdeHeatMapper) : Prop where
  rows : s.m_heatMap.length = s.m_rows
  cols : ∀ cells ∈ s.m_heatMap, cells.length = s.m_cols
  most : ∀ cells ∈ s.m_heatMap, ∀ count ∈ cells, count ≤ s.m_mostOccurrences
  total : s.m_totalOccurrences = 0

/-- Following the spec's words (placed at `(j*gridRectWidth, i*gridRectHeight)` with size
`gridRectWidth` by `gridRectHeight`, palette index `round(count*10 / mostOccurrences)`):
the filled rectangle of the cell `(i, j)`. -/
def OdeHeatMapper.cellRectangle (s : OdeHeatMapper) (p : Nat × Nat) : HeatRectangle where
  index := some (roundToUint
    ((((OdeHeatMapper.cell s p.1 p.2).getD 0 : Nat) : ℚ) * 10 / (s.m_mostOccurrences : ℚ)))
  left := p.2 * s.m_gridRectWidth
  top := p.1 * s.m_gridRectHeight
  width := s.m_gridRectWidth
  height := s.m_gridRectHeight
  hasBgColor := true

/-! ## Notions used to state the properties of shared children -/

/-- Several triggers and the Action objects of the client, each under its name. An Action
is one object, held through shared pointers: the index and the parent name that a trigger
assigns are those every holder of the Action sees. -/
structure Registry where
  triggers : List (String × OdeTrigger)
  actions : List (String × OdeAction)

/-- A client call that attaches an Action to a trigger or removes it from a trigger. -/
inductive RegistryCall where
  | AddAction (trigger action : String)
  | RemoveAction (trigger action : String)

/-- The triggers and the Actions after one call; a call that names no trigger or no
Action of the registry does nothing. -/
def stepRegistry (r : Registry) : RegistryCall → Registry
  | RegistryCall.AddAction trigger action =>
    match mapFind r.triggers trigger, mapFind r.actions action with
    | some pTrigger, some pChild =>
      let res := OdeTrigger.AddAction pTrigger pChild
      { triggers := mapInsert stringLt r.triggers trigger res.2.1
        actions := mapInsert stringLt r.actions action res.2.2 }
    | _, _ => r
  | RegistryCall.RemoveAction trigger action =>
    match mapFind r.triggers trigger, mapFind r.actions action with
    | some pTrigger, some pChild =>
      let res := OdeTrigger.RemoveAction pTrigger pChild
      { triggers := mapInsert stringLt r.triggers trigger res.2.1
        actions := mapInsert stringLt r.actions action res.2.2 }
    | _, _ => r

/-- The triggers and the Actions after a sequence of calls. -/
def runRegistry (r : Registry) (calls : List RegistryCall) : Registry :=
  calls.foldl stepRegistry r

/-- The names of the children in the by-index map of Actions, the map the per-frame code
iterates. -/
def indexedActionNames (s : OdeTrigger) : List String :=
  s.m_pOdeActionsIndexed.map (fun p => p.2.name)

/-! ## Notions used to state the properties of the AB triggers -/

/-- The object passes the min-criteria and area gates with the class filter set to
`classId`. -/
def ABOdeTrigger.passes (s : OdeTrigger) (classId : Nat) (pFrameMeta : NvDsFrameMeta)
    (pObjectMeta : NvDsObjectMeta) : Bool :=
  (OdeTrigger.CheckForMinCriteria { s with m_classId := classId } pFrameMeta pObjectMeta).1 &&
    OdeTrigger.CheckForWithin s pObjectMeta

/-- The members that the Distance and Intersection classes have from `ABOdeTrigger`. -/
def Variant.abMembers : Variant → Option ABState
  | Variant.Distance ab _ => some ab
  | Variant.Intersection ab => some ab
  | _ => none

/-- The members that a Distance or Intersection trigger has from `ABOdeTrigger`. -/
def ABOdeTrigger.members (s : OdeTrigger) : Option ABState :=
  s.variant.abMembers

/-! ## Notions used to state the properties of a Persistence trigger with an interval -/

/-- The calls of a sequence of frames: for each frame the time that passes before it, in
ms, and then its per-frame calls: `PreProcessFrame`, `CheckForOccurrence` for each of its
objects, `PostProcessFrame`. -/
def framesCalls (frames : List (Nat × NvDsFrameMeta × List NvDsObjectMeta)) : List Call :=
  frames.flatMap (fun p => Call.Tick p.1 :: frameCalls p.2.1 p.2.2)

/-! ## Further concrete inputs used by the witnesses -/

/-- An Action named `"log"`, not yet attached. -/
def exampleLogAction : OdeAction where
  name := "log"
  index := 0
  parentName := ""

/-- Calls on a trigger without children: attach `"print"` (index 1) and `"log"`
(index 2), remove `"print"`, handing over the child as the first call left it (index 1,
parent `"trigger"`), attach `"print"` again, as the removal left it (index 3), and attach
the example inclusion Area. -/
def exampleChildCalls : List ChildCall :=
  [ChildCall.AddAction exampleAction,
   ChildCall.AddAction exampleLogAction,
   ChildCall.RemoveAction { exampleAction with index := 1, parentName := "trigger" },
   ChildCall.AddAction exampleAction,
   ChildCall.AddArea exampleInclusion]

/-- A host that knows the sources `"camera"` (id 0) and `"backup"` (id 1) and the
inference components `"pgie"` (id 1) and `"sgie"` (id 2), with constant GEOS answers. -/
def exampleResolvingHost : Host where
  SourceIdGet := fun n => if n = "camera" then some 0 else if n = "backup" then some 1 else none
  InferIdGet := fun n => if n = "pgie" then some 1 else if n = "sgie" then some 2 else none
  GeosRectangleDistance := fun _ _ => 80
  GeosRectangleOverlaps := fun _ _ => true
  GeosPointDistance := fun _ _ => 80
  nowMs := 0

/-- An Occurrence trigger for class 2, unlimited, filtering on the source `"camera"` and
the inference component `"pgie"`, in the given host. -/
def exampleFiltered (host : Host) : OdeTrigger :=
  OdeTrigger.SetInfer (OdeTrigger.new host "trigger" "camera" 2 0 Variant.Occurrence) "pgie"

/-- Three gate calls for the example frame and object. -/
def exampleGateCalls : List GateCall :=
  [GateCall.CheckForSourceId 0,
   GateCall.CheckForMinCriteria exampleFrame exampleObject,
   GateCall.CheckForMinCriteria exampleFrame exampleObject2]

/-- The example filtered trigger in the resolving host after a first `CheckForSourceId`
call has resolved `"camera"` to id 0 and a first `CheckForInferId` call `"pgie"` to id 1,
and the client has then assigned the source `"backup"` and the component `"sgie"`. -/
def exampleReassigned : OdeTrigger :=
  OdeTrigger.SetInfer
    (OdeTrigger.SetSource
      (OdeTrigger.CheckForInferId
        (OdeTrigger.CheckForSourceId (exampleFiltered exampleResolvingHost) 0).2 1).2
      "backup")
    "sgie"

/-- Five objects of class 2, as in a frame with five matching objects. -/
def exampleFiveObjects : List NvDsObjectMeta :=
  [exampleObject, exampleObject2, { exampleObject with addr := 3, object_id := 9 },
   { exampleObject with addr := 4, object_id := 10 },
   { exampleObject with addr := 5, object_id := 11 }]

/-- An Absence trigger for class 2, unlimited, with one attached Action. -/
def exampleAbsence : OdeTrigger :=
  (OdeTrigger.AddAction (OdeTrigger.new exampleHost "absence" "" 2 0 Variant.Absence)
    exampleAction).2.1

/-- The last object id an Instance trigger has recorded for the source and class of an
object, taken as 0 when none is recorded: the entry of `m_instances` under the key of
that source and class. -/
def InstanceOdeTrigger.lastInstance (s : OdeTrigger) (pFrameMeta : NvDsFrameMeta)
    (pObjectMeta : NvDsObjectMeta) : Nat :=
  match s.variant with
  | Variant.Instance v =>
    (mapFind v.m_instances (sourceAndClassId pFrameMeta pObjectMeta)).getD 0
  | _ => 0

/-- An Instance trigger for class 2, unlimited, with one attached Action and nothing
recorded. -/
def exampleInstance : OdeTrigger :=
  (OdeTrigger.AddAction
    (OdeTrigger.new exampleHost "instance" "" 2 0 (Variant.Instance { m_instances := [] }))
    exampleAction).2.1

/-- The value of a decimal digit character. -/
def digitValue (c : Char) : Nat := c.toNat - 48

/-- The number that a list of decimal digit characters, most significant first,
denotes. -/
def digitsValue (l : List Char) : Nat :=
  l.foldl (fun a c => a * 10 + digitValue c) 0

/-- A Count trigger for class 2 with the given range, unlimited, with one attached
Action. -/
def exampleCount (minimum maximum : Nat) : OdeTrigger :=
  (OdeTrigger.AddAction
    (OdeTrigger.new exampleHost "count" "" 2 0
      (Variant.Count { m_minimum := minimum, m_maximum := maximum }))
    exampleAction).2.1

/-- An Accumulation trigger for class 2, unlimited, with one attached Action and nothing
accumulated. -/
def exampleAccumulation : OdeTrigger :=
  (OdeTrigger.AddAction
    (OdeTrigger.new exampleHost "accumulation" "" 2 0
      (Variant.Accumulation { m_accumulativeOccurrences := 0, m_instances := [] }))
    exampleAction).2.1

/-- The running accumulative total of an Accumulation trigger (0 for another class). -/
def AccumulationOdeTrigger.total (s : OdeTrigger) : Nat :=
  match s.variant with
  | Variant.Accumulation v => v.m_accumulativeOccurrences
  | _ => 0

/-- A New-High trigger for class 2 with preset 5, unlimited, with one attached Action. -/
def exampleNewHigh : OdeTrigger :=
  (OdeTrigger.AddAction (NewHighOdeTrigger.new exampleHost "new-high" "" 2 0 5)
    exampleAction).2.1

/-- A New-Low trigger for class 2 with preset 5, unlimited, with one attached Action. -/
def exampleNewLow : OdeTrigger :=
  (OdeTrigger.AddAction (NewLowOdeTrigger.new exampleHost "new-low" "" 2 0 5)
    exampleAction).2.1

/-- The per-frame calls of one frame per entry of `counts`, the frame with that many
matching objects. -/
def exampleCountedFrames (counts : List Nat) : List Call :=
  counts.flatMap (fun k =>
    Call.PreProcessFrame exampleFrame ::
      (List.replicate k (Call.CheckForOccurrence exampleFrame exampleObject) ++
        [Call.PostProcessFrame exampleFrame]))

/-- A Largest trigger for class 2, unlimited, with one attached Action and an empty
queue. -/
def exampleLargest : OdeTrigger :=
  (OdeTrigger.AddAction
    (OdeTrigger.new exampleHost "largest" "" 2 0
      (Variant.Largest { m_occurrenceMetaList := [] }))
    exampleAction).2.1

/-- A Smallest trigger for class 2, unlimited, with one attached Action and an empty
queue. -/
def exampleSmallest : OdeTrigger :=
  (OdeTrigger.AddAction
    (OdeTrigger.new exampleHost "smallest" "" 2 0
      (Variant.Smallest { m_occurrenceMetaList := [] }))
    exampleAction).2.1

/-- An object of class 2 whose bounding box is half a pixel wide and one and a half
pixels high: its area, 0.75, is 0 as a `uint`. -/
def exampleSpeck : NvDsObjectMeta :=
  { exampleObject with
    addr := 6, object_id := 12,
    rect_params := { left := 10, top := 20, width := 1 / 2, height := 3 / 2 } }

/-- An object of class 2, 20 by 60 pixels: the same area as the example object. -/
def exampleObjectTall : NvDsObjectMeta :=
  { exampleObject with
    addr := 7, object_id := 13,
    rect_params := { left := 100, top := 20, width := 20, height := 60 } }

/-- An object of class 2, 10 by 10 pixels. -/
def exampleObjectSmall : NvDsObjectMeta :=
  { exampleObject with
    addr := 8, object_id := 14,
    rect_params := { left := 200, top := 20, width := 10, height := 10 } }

/-- An object of class 2, 3 pixels wide and 3.375 pixels high: its area, 10.125, is 10
as a `uint`. -/
def exampleObjectA : NvDsObjectMeta :=
  { exampleObject with
    addr := 9, object_id := 15,
    rect_params := { left := 10, top := 20, width := 3, height := 27 / 8 } }

/-- An object of class 2, 3 pixels wide and 3.625 pixels high: its area, 10.875, is 10
as a `uint`. -/
def exampleObjectB : NvDsObjectMeta :=
  { exampleObject with
    addr := 10, object_id := 16,
    rect_params := { left := 50, top := 20, width := 3, height := 29 / 8 } }

/-- An object of class 2, 4097 by 4097 pixels: its area, 16785409, is not a `float`; the
`float` product is 16785408. -/
def exampleObjectSquare : NvDsObjectMeta :=
  { exampleObject with
    addr := 21, object_id := 27,
    rect_params := { left := 0, top := 0, width := 4097, height := 4097 } }

/-- An object of class 2, 4096 by 4098 pixels: its area is 16785408. -/
def exampleObjectOblong : NvDsObjectMeta :=
  { exampleObject with
    addr := 22, object_id := 28,
    rect_params := { left := 0, top := 0, width := 4096, height := 4098 } }

/-- The members of the example Distance trigger: range 0 to 50 pixels, measured between
the rectangles. -/
def exampleDistanceState : DistanceState where
  m_minimum := 0
  m_maximum := 50
  m_testPoint := DSL_BBOX_POINT_ANY
  m_testMethod := DSL_DISTANCE_METHOD_FIXED_PIXELS

/-- The example Distance trigger in a host that measures 30 pixels between any two
rectangles. -/
def exampleDistanceNear : OdeTrigger :=
  { exampleDistance with GeosRectangleDistance := fun _ _ => 30 }

/-- The example Distance trigger (host measuring 80 pixels) without a limit. -/
def exampleDistanceUnlimited : OdeTrigger :=
  OdeTrigger.SetLimit exampleDistance 0

/-- The example Distance trigger in the host measuring 30 pixels, without a limit. -/
def exampleDistanceNearUnlimited : OdeTrigger :=
  OdeTrigger.SetLimit exampleDistanceNear 0

/-- The check phase of a frame with three objects of class 2. -/
def exampleThreeObjectCalls : List Call :=
  [Call.PreProcessFrame exampleFrame,
   Call.CheckForOccurrence exampleFrame exampleObject,
   Call.CheckForOccurrence exampleFrame exampleObject2,
   Call.CheckForOccurrence exampleFrame exampleObjectTall]

/-- An Always trigger with the given `when` and the two example Actions, `"print"` added
first. -/
def exampleAlways (when : Nat) : OdeTrigger :=
  runChildren (AlwaysOdeTrigger.new exampleHost "always" "" when)
    [ChildCall.AddAction exampleAction, ChildCall.AddAction exampleLogAction]

/-- A Persistence trigger for class 2 with the range 2 to 10 seconds, unlimited, with one
attached Action and an empty store. -/
def examplePersistence : OdeTrigger :=
  (OdeTrigger.AddAction
    (OdeTrigger.new exampleHost "persistence" "" 2 0
      (Variant.Persistence
        { m_pTrackedObjectsPerSource := { maxHistory := 0, objects := [] }
          m_minimumMs := 2 * 1000
          m_maximumMs := 10 * 1000 }))
    exampleAction).2.1

/-- The example object is seen in frame 1 and, 2.5 seconds later, is checked in frame 2. -/
def examplePersistenceCalls : List Call :=
  [Call.PreProcessFrame exampleFrame, Call.CheckForOccurrence exampleFrame exampleObject,
   Call.PostProcessFrame exampleFrame, Call.Tick 2500, Call.PreProcessFrame exampleFrame2]

/-- A line Area, tested at the south point of the bounding box, that reports a cross for
every trace of at least four points: the trace of an object crosses it on the fourth
frame and keeps crossing it afterwards. -/
def exampleLine : OdeArea where
  name := "line"
  index := 0
  parentName := ""
  type := AreaType.line
  bboxTestPoint := DSL_BBOX_POINT_SOUTH
  CheckForWithin := fun _ => false
  CheckForCross := fun trace => decide (4 ≤ trace.length)

/-- A Cross trigger for class 2, unlimited, with at least 3 and at most 10 trace points,
the full trace as test method, one attached Action and the example line Area. -/
def exampleCross : OdeTrigger :=
  (OdeTrigger.AddArea
    (OdeTrigger.AddAction
      (OdeTrigger.new exampleHost "cross" "" 2 0
        (Variant.Cross
          { m_pTrackedObjectsPerSource := { maxHistory := 10, objects := [] }
            m_minTracePoints := 3
            m_maxTracePoints := 10
            m_traceEnabled := false
            m_testMethod := 1
            m_traceLineWidth := 0 }))
      exampleAction).2.1
    exampleLine).2.1

/-- Frame `n` of source 0. -/
def exampleFrameAt (n : Nat) : NvDsFrameMeta :=
  { exampleFrame with frame_num := n }

/-- The per-frame calls of the frames 1 to 6, each with the example object. -/
def exampleCrossCalls : List Call :=
  ((List.range 6).map (fun i => (exampleFrameAt (i + 1), [exampleObject]))).flatMap
    (fun p => frameCalls p.1 p.2)

/-- A heat mapper of 2 columns and 2 rows that maps the south-east point of the bounding
box. -/
def exampleHeatMapper : OdeHeatMapper :=
  OdeHeatMapper.new "map" 2 2 DSL_BBOX_POINT_SOUTH_EAST

/-- An object of class 2, 40 by 30 pixels, whose bounding box ends at the bottom right
corner of the example frame (1280 by 720): its south-east point is `(1280, 720)`. -/
def exampleCornerObject : NvDsObjectMeta :=
  { exampleObject with
    addr := 11, object_id := 17,
    rect_params := { left := 1240, top := 690, width := 40, height := 30 } }

/-- An object of class 2, 40 by 30 pixels, in the right half of the top of the example
frame: its south-east point is `(1000, 50)`. -/
def exampleRightObject : NvDsObjectMeta :=
  { exampleObject with
    addr := 12, object_id := 18,
    rect_params := { left := 960, top := 20, width := 40, height := 30 } }

/-- Four occurrences of the example object and a `Reset`, followed by three occurrences
of the example object and two of the object in the right half of the frame. -/
def exampleHeatCalls : List HeatCall :=
  [HeatCall.HandleOccurrence exampleFrame exampleObject,
   HeatCall.HandleOccurrence exampleFrame exampleObject,
   HeatCall.HandleOccurrence exampleFrame exampleObject,
   HeatCall.HandleOccurrence exampleFrame exampleObject,
   HeatCall.Reset,
   HeatCall.HandleOccurrence exampleFrame exampleObject,
   HeatCall.HandleOccurrence exampleFrame exampleObject,
   HeatCall.HandleOccurrence exampleFrame exampleObject,
   HeatCall.HandleOccurrence exampleFrame exampleRightObject,
   HeatCall.HandleOccurrence exampleFrame exampleRightObject]

/-- The example heat mapper after the example calls: 3 and 2 occurrences in the two cells
of the top row, none in the bottom row, and 4 as most occurrences, the count reached
before the `Reset`. -/
def exampleHeated : OdeHeatMapper :=
  { exampleHeatMapper with
    m_gridRectWidth := 640
    m_gridRectHeight := 360
    m_heatMap := [[3, 2], [0, 0]]
    m_mostOccurrences := 4 }

/-- Two Occurrence triggers without children, `"one"` and `"two"`, and the two example
Actions, `"print"` and `"log"`, not yet attached. -/
def exampleRegistry : Registry where
  triggers :=
    [("one", OdeTrigger.new exampleHost "one" "" 2 0 Variant.Occurrence),
     ("two", OdeTrigger.new exampleHost "two" "" 2 0 Variant.Occurrence)]
  actions := [("log", exampleLogAction), ("print", exampleAction)]

/-- Both Actions are attached to both triggers, to `"one"` in the order `"print"`,
`"log"` and to `"two"` in the order `"log"`, `"print"`; then `"print"` is removed from
`"one"`. -/
def exampleRegistryCalls : List RegistryCall :=
  [RegistryCall.AddAction "one" "print",
   RegistryCall.AddAction "one" "log",
   RegistryCall.AddAction "two" "log",
   RegistryCall.AddAction "two" "print",
   RegistryCall.RemoveAction "one" "print"]

/-- The Action `"print"` is attached to the triggers `"one"` and `"two"`, removed from
`"two"` and then from `"one"`, and attached to `"one"` again. -/
def exampleReattachCalls : List RegistryCall :=
  [RegistryCall.AddAction "one" "print",
   RegistryCall.AddAction "two" "print",
   RegistryCall.RemoveAction "two" "print",
   RegistryCall.RemoveAction "one" "print",
   RegistryCall.AddAction "one" "print"]

/-- A Distance trigger for pairs of a class-2 and a class-3 object, with range 0 to 50
pixels measured between the rectangles, unlimited, with one attached Action. -/
def exampleDistanceAB : OdeTrigger :=
  (OdeTrigger.AddAction
    (OdeTrigger.new exampleHost "distance" "" 2 0
      (Variant.Distance
        { m_classIdA := 2
          m_classIdB := 3
          m_classIdAOnly := false
          m_occurrenceMetaListA := []
          m_occurrenceMetaListB := [] }
        exampleDistanceState))
    exampleAction).2.1

/-- An object of class 3. -/
def exampleObjectClass3 : NvDsObjectMeta :=
  { exampleObject with addr := 13, class_id := 3, object_id := 19 }

/-- An Occurrence trigger without a limit, with one attached Action, the listeners 100
(client data 1) and 200 (client data 2) and a reset timeout of 5 seconds. -/
def exampleUnlimited : OdeTrigger :=
  OdeTrigger.SetResetTimeout (addListeners (exampleOccurrence 0) [(100, 1), (200, 2)]) 5

/-- The example Absence trigger with the interval 2. -/
def exampleAbsenceEverySecond : OdeTrigger :=
  OdeTrigger.SetInterval exampleAbsence 2

/-- The disabled example Persistence trigger (range 0 to 10 s, limit 1, one Action) with
the interval 2. -/
def examplePersistenceDisabledEverySecond : OdeTrigger :=
  OdeTrigger.SetInterval examplePersistenceDisabled 2

/-- The example Persistence trigger (enabled, range 2 to 10 s) with the range 0 to 10 s
and the interval 2. -/
def examplePersistenceEverySecond : OdeTrigger :=
  OdeTrigger.SetInterval
    { examplePersistence with
      variant := Variant.Persistence
        { m_pTrackedObjectsPerSource := { maxHistory := 0, objects := [] }
          m_minimumMs := 0
          m_maximumMs := 10 * 1000 } }
    2

/-- The frames 1 to 4 of source 0, 100 ms apart, each with the example object. -/
def exampleFourFrames : List (Nat × NvDsFrameMeta × List NvDsObjectMeta) :=
  (List.range 4).map (fun i => (100, exampleFrameAt (i + 1), [exampleObject]))

/-! ## Theorems -/

/-- The state `CheckForSourceId` leaves differs from the one it found in the cached
source id and the log of lookups only. -/
theorem CheckForSourceId_snd (s : OdeTrigger) (x : Int) :
    ∃ (a : Int) (l : List Effect),
      (CheckForSourceId s x).2 = { s with m_sourceId := a, log := s.log ++ l } ∧
      (∀ e ∈ l, e = Effect.SourceIdGet s.m_source) := by
  unfold CheckForSourceId
  dsimp only
  split_ifs
  · exact ⟨_, [Effect.SourceIdGet s.m_source], rfl, by simp⟩
  · exact ⟨_, [Effect.SourceIdGet s.m_source], rfl, by simp⟩
  · exact ⟨s.m_sourceId, [], by simp, by simp⟩
  · exact ⟨s.m_sourceId, [], by simp, by simp⟩
  · exact ⟨s.m_sourceId, [], by simp, by simp⟩

/-- The state `CheckForInferId` leaves differs from the one it found in the cached
component id and the log of lookups only. -/
theorem CheckForInferId_snd (s : OdeTrigger) (y : Int) :
    ∃ (a : Int) (l : List Effect),
      (CheckForInferId s y).2 = { s with m_inferId := a, log := s.log ++ l } ∧
      (∀ e ∈ l, e = Effect.InferIdGet s.m_infer) := by
  unfold CheckForInferId
  dsimp only
  split_ifs
  · exact ⟨_, [Effect.InferIdGet s.m_infer], rfl, by simp⟩
  · exact ⟨_, [Effect.InferIdGet s.m_infer], rfl, by simp⟩
  · exact ⟨s.m_inferId, [], by simp, by simp⟩
  · exact ⟨s.m_inferId, [], by simp, by simp⟩
  · exact ⟨s.m_inferId, [], by simp, by simp⟩

/-- The result of `CheckForInferId` as a function of the three members it reads. -/
theorem CheckForInferId_fst (s : OdeTrigger) (y : Int) :
    (CheckForInferId s y).1 = decide (s.m_infer.length = 0 ∨
      (if s.m_inferId = -1 then (s.InferIdGet s.m_infer).getD s.m_inferId
        else s.m_inferId) = y) := by
  unfold CheckForInferId
  by_cases h1 : s.m_infer.length = 0
  · simp [h1]
  · by_cases h2 : s.m_inferId = -1
    · simp only [h1, h2, ne_eq, not_false_eq_true, if_true, false_or]
      split_ifs <;> simp [*]
    · simp only [h1, h2, ne_eq, not_false_eq_true, if_true, if_false, false_or]
      split_ifs <;> simp [*]

/-- The result of `CheckForMinCriteria`, with a bound counted as set when positive, as
the code tests it. -/
theorem CheckForMinCriteria_fst_iff (s : OdeTrigger) (f : NvDsFrameMeta)
    (o : NvDsObjectMeta) :
    (s.CheckForMinCriteria f o).1 = true ↔
      (s.m_skipFrame = false ∧
       ¬ (s.m_limit > 0 ∧ s.m_triggered ≥ s.m_limit) ∧
       (s.CheckForSourceId f.source_id).1 = true ∧
       (s.CheckForInferId o.unique_component_id).1 = true ∧
       (s.m_classId = DSL_ODE_ANY_CLASS ∨ s.m_classId = o.class_id) ∧
       ¬ (o.confidence > 0 ∧ o.confidence < s.m_minConfidence) ∧
       (s.m_minWidth > 0 → s.m_minWidth ≤ o.rect_params.width) ∧
       (s.m_minHeight > 0 → s.m_minHeight ≤ o.rect_params.height) ∧
       (s.m_maxWidth > 0 → o.rect_params.width ≤ s.m_maxWidth) ∧
       (s.m_maxHeight > 0 → o.rect_params.height ≤ s.m_maxHeight) ∧
       (s.m_inferDoneOnly = true → f.bInferDone = true)) := by
  have hI : (CheckForInferId (CheckForSourceId s f.source_id).2 o.unique_component_id).1
      = (CheckForInferId s o.unique_component_id).1 := by
    obtain ⟨a, l, h, -⟩ := CheckForSourceId_snd s f.source_id
    rw [h, CheckForInferId_fst, CheckForInferId_fst]
  obtain ⟨a, l, h1, -⟩ := CheckForSourceId_snd s f.source_id
  obtain ⟨b, l', h2, -⟩ :=
    CheckForInferId_snd (CheckForSourceId s f.source_id).2 o.unique_component_id
  unfold CheckForMinCriteria
  dsimp only
  rw [hI, h2, h1]
  dsimp only
  generalize (CheckForSourceId s f.source_id).1 = b1
  generalize (CheckForInferId s o.unique_component_id).1 = b2
  by_cases hs : s.m_skipFrame = true
  · rw [if_pos hs]
    constructor
    · intro h; exact absurd h (by simp)
    · rintro ⟨h, -⟩; rw [hs] at h; exact absurd h (by simp)
  rw [if_neg hs]
  by_cases hl : s.m_limit ≠ 0 ∧ s.m_triggered ≥ s.m_limit
  · rw [if_pos hl]
    constructor
    · intro h; exact absurd h (by simp)
    · rintro ⟨-, h, -⟩; exact absurd ⟨Nat.pos_of_ne_zero hl.1, hl.2⟩ h
  rw [if_neg hl]
  cases b1
  · constructor
    · intro h; exact absurd h (by simp)
    · rintro ⟨-, -, h, -⟩; exact absurd h (by simp)
  cases b2
  · constructor
    · intro h; exact absurd h (by simp)
    · rintro ⟨-, -, -, h, -⟩; exact absurd h (by simp)
  simp only [Bool.not_true, Bool.false_eq_true, if_false]
  by_cases hc : s.m_classId ≠ DSL_ODE_ANY_CLASS ∧ s.m_classId ≠ o.class_id
  · rw [if_pos hc]
    constructor
    · intro h; exact absurd h (by simp)
    · rintro ⟨-, -, -, -, h, -⟩; rcases h with h | h
      · exact absurd h hc.1
      · exact absurd h hc.2
  rw [if_neg hc]
  by_cases hq : o.confidence > 0 ∧ o.confidence < s.m_minConfidence
  · rw [if_pos hq]
    constructor
    · intro h; exact absurd h (by simp)
    · rintro ⟨-, -, -, -, -, h, -⟩; exact absurd hq h
  rw [if_neg hq]
  by_cases hmin : (s.m_minWidth > 0 ∧ o.rect_params.width < s.m_minWidth) ∨
          (s.m_minHeight > 0 ∧ o.rect_params.height < s.m_minHeight)
  · rw [if_pos hmin]
    constructor
    · intro h; exact absurd h (by simp)
    · rintro ⟨-, -, -, -, -, -, hw, hh, -⟩
      rcases hmin with h | h
      · exact absurd (hw h.1) (not_le.mpr h.2)
      · exact absurd (hh h.1) (not_le.mpr h.2)
  rw [if_neg hmin]
  by_cases hmax : (s.m_maxWidth > 0 ∧ o.rect_params.width > s.m_maxWidth) ∨
          (s.m_maxHeight > 0 ∧ o.rect_params.height > s.m_maxHeight)
  · rw [if_pos hmax]
    constructor
    · intro h; exact absurd h (by simp)
    · rintro ⟨-, -, -, -, -, -, -, -, hw, hh, -⟩
      rcases hmax with h | h
      · exact absurd (hw h.1) (not_le.mpr h.2)
      · exact absurd (hh h.1) (not_le.mpr h.2)
  rw [if_neg hmax]
  by_cases hd : s.m_inferDoneOnly = true ∧ (!f.bInferDone) = true
  · rw [if_pos hd]
    constructor
    · intro h; exact absurd h (by simp)
    · rintro ⟨-, -, -, -, -, -, -, -, -, -, h⟩
      have := h hd.1
      rw [this] at hd
      exact absurd hd.2 (by simp)
  rw [if_neg hd]
  constructor
  · intro _
    refine ⟨by simpa using hs, ?_, trivial, trivial, ?_, hq, ?_, ?_, ?_, ?_, ?_⟩
    · rintro ⟨h, h'⟩; exact hl ⟨Nat.ne_of_gt h, h'⟩
    · by_contra h; push_neg at h; exact hc h
    · intro h; by_contra h'; exact hmin (Or.inl ⟨h, not_le.mp h'⟩)
    · intro h; by_contra h'; exact hmin (Or.inr ⟨h, not_le.mp h'⟩)
    · intro h; by_contra h'; exact hmax (Or.inl ⟨h, not_le.mp h'⟩)
    · intro h; by_contra h'; exact hmax (Or.inr ⟨h, not_le.mp h'⟩)
    · intro h; by_contra h'; exact hd ⟨h, by simpa using h'⟩
  · intro _; rfl

/-- C1: `CheckForMinCriteria` returns true exactly when the frame is not skipped, the
limit is not reached, the source-id and inference-component-id checks pass, the class
filter is `ANY_CLASS` or the object's class, the confidence is not both positive and
below the minimum (so a zero confidence is accepted), every set width/height bound is
respected and `inferDoneOnly` implies `bInferDone`. A bound is set when it is positive,
which for the non-negative bounds of the second part is when it is non-zero. -/
theorem CheckForMinCriteria_true_iff_all_criteria (s : OdeTrigger) (f : NvDsFrameMeta)
    (o : NvDsObjectMeta) :
    ((s.CheckForMinCriteria f o).1 = true ↔
      (s.m_skipFrame = false ∧
       ¬ (s.m_limit > 0 ∧ s.m_triggered ≥ s.m_limit) ∧
       (s.CheckForSourceId f.source_id).1 = true ∧
       (s.CheckForInferId o.unique_component_id).1 = true ∧
       (s.m_classId = DSL_ODE_ANY_CLASS ∨ s.m_classId = o.class_id) ∧
       ¬ (o.confidence > 0 ∧ o.confidence < s.m_minConfidence) ∧
       (s.m_minWidth > 0 → s.m_minWidth ≤ o.rect_params.width) ∧
       (s.m_minHeight > 0 → s.m_minHeight ≤ o.rect_params.height) ∧
       (s.m_maxWidth > 0 → o.rect_params.width ≤ s.m_maxWidth) ∧
       (s.m_maxHeight > 0 → o.rect_params.height ≤ s.m_maxHeight) ∧
       (s.m_inferDoneOnly = true → f.bInferDone = true))) ∧
    (0 ≤ s.m_minWidth ∧ 0 ≤ s.m_minHeight ∧ 0 ≤ s.m_maxWidth ∧ 0 ≤ s.m_maxHeight →
      ((s.CheckForMinCriteria f o).1 = true ↔
        (s.m_skipFrame = false ∧
         ¬ (s.m_limit > 0 ∧ s.m_triggered ≥ s.m_limit) ∧
         (s.CheckForSourceId f.source_id).1 = true ∧
         (s.CheckForInferId o.unique_component_id).1 = true ∧
         (s.m_classId = DSL_ODE_ANY_CLASS ∨ s.m_classId = o.class_id) ∧
         ¬ (o.confidence > 0 ∧ o.confidence < s.m_minConfidence) ∧
         (s.m_minWidth ≠ 0 → s.m_minWidth ≤ o.rect_params.width) ∧
         (s.m_minHeight ≠ 0 → s.m_minHeight ≤ o.rect_params.height) ∧
         (s.m_maxWidth ≠ 0 → o.rect_params.width ≤ s.m_maxWidth) ∧
         (s.m_maxHeight ≠ 0 → o.rect_params.height ≤ s.m_maxHeight) ∧
         (s.m_inferDoneOnly = true → f.bInferDone = true)))) := by
  refine ⟨CheckForMinCriteria_fst_iff s f o, ?_⟩
  rintro ⟨h1, h2, h3, h4⟩
  rw [CheckForMinCriteria_fst_iff]
  have e : ∀ q : ℚ, 0 ≤ q → (q > 0 ↔ q ≠ 0) := fun q hq =>
    ⟨fun h => ne_of_gt h, fun h => lt_of_le_of_ne hq (Ne.symm h)⟩
  rw [e _ h1, e _ h2, e _ h3, e _ h4]

/-- Witness for C1: the example object passes the criteria of the example trigger. -/
theorem CheckForMinCriteria_true_iff_all_criteria_witness :
    ((exampleOccurrence 3).CheckForMinCriteria exampleFrame exampleObject).1 = true :=
  ((CheckForMinCriteria_true_iff_all_criteria (exampleOccurrence 3) exampleFrame
      exampleObject).2 ⟨by decide, by decide, by decide, by decide⟩).2
    ⟨by decide, by decide, by decide, by decide, by decide, by decide, by decide, by decide,
      by decide, by decide, by decide⟩

/-- The loop of `CheckForWithin` is decided by the first Area the rectangle is within. -/
theorem CheckForWithinLoop_first (r : NvOSD_RectParams) (pre : List (Nat × OdeArea))
    (a : Nat × OdeArea) (post : List (Nat × OdeArea))
    (hpre : ∀ b ∈ pre, b.2.CheckForWithin r = false) (ha : a.2.CheckForWithin r = true) :
    CheckForWithinLoop r (pre ++ a :: post) = !a.2.isExclusionArea := by
  induction pre with
  | nil => simp [CheckForWithinLoop, ha]
  | cons b pre ih =>
    have hb : b.2.CheckForWithin r = false := hpre b (by simp)
    have := ih (fun c hc => hpre c (by simp [hc]))
    simp [CheckForWithinLoop, hb, this]

/-- The loop of `CheckForWithin` rejects when the rectangle is within no Area. -/
theorem CheckForWithinLoop_none (r : NvOSD_RectParams) (l : List (Nat × OdeArea))
    (h : ∀ b ∈ l, b.2.CheckForWithin r = false) : CheckForWithinLoop r l = false := by
  induction l with
  | nil => rfl
  | cons b l ih =>
    have hb : b.2.CheckForWithin r = false := h b (by simp)
    simp [CheckForWithinLoop, hb, ih (fun c hc => h c (by simp [hc]))]

/-- Looking a key up after `m[k] = v`. -/
theorem mapFind_mapInsert_isSome {V : Type} (lt : String → String → Bool)
    (m : List (String × V)) (k : String) (v : V) (k' : String) :
    (mapFind (mapInsert lt m k v) k').isSome = true ↔ (k' = k ∨ (mapFind m k').isSome = true) := by
  induction m with
  | nil =>
    simp only [mapInsert, mapFind]
    by_cases h : k = k'
    · simp [h]
    · have hk : ¬ k' = k := fun h' => h h'.symm
      simp [h, hk]
  | cons p m ih =>
    obtain ⟨k0, v0⟩ := p
    simp only [mapInsert]
    by_cases h0 : k0 = k
    · subst h0
      simp only [if_true, mapFind]
      by_cases h : k0 = k'
      · simp [h]
      · have hk : ¬ k' = k0 := fun h' => h h'.symm
        simp [h, hk]
    · simp only [h0, if_false]
      by_cases hlt : lt k k0 = true
      · simp only [hlt, if_true, mapFind]
        by_cases h : k = k'
        · simp [h]
        · have hk : ¬ k' = k := fun h' => h h'.symm
          simp only [h, if_false, hk, false_or]
      · simp only [hlt, if_false, mapFind]
        by_cases h : k0 = k'
        · simp [h]
        · simp only [h, if_false]; exact ih

/-- Inserting under a key above all keys of the map appends the pair. -/
theorem mapInsert_append_of_lt {V : Type} (m : List (Nat × V)) (k : Nat) (v : V)
    (h : ∀ p ∈ m, p.1 < k) : mapInsert uintLt m k v = m ++ [(k, v)] := by
  induction m with
  | nil => rfl
  | cons p m ih =>
    obtain ⟨k0, v0⟩ := p
    have h0 : k0 < k := h (k0, v0) (by simp)
    have h1 : ¬ k0 = k := Nat.ne_of_lt h0
    have h2 : uintLt k k0 = false := by
      simp only [uintLt, decide_eq_false_iff_not]; omega
    simp only [mapInsert, h1, h2, if_false, List.cons_append, Bool.false_eq_true]
    rw [ih (fun p hp => h p (by simp [hp]))]

/-- Attaching Areas with pairwise distinct names to a trigger that has none: the
by-index map lists them in the order of the calls, under the indices `1, 2, ...`. -/
theorem addAreas_spec (s0 : OdeTrigger) (h1 : s0.m_pOdeAreas = [])
    (h2 : s0.m_pOdeAreasIndexed = []) (h3 : s0.m_nextAreaIndex = 0) (areas : List OdeArea)
    (hnd : (areas.map (fun a => a.name)).Nodup) :
    (addAreas s0 areas).m_name = s0.m_name ∧
    (addAreas s0 areas).m_nextAreaIndex = areas.length ∧
    (addAreas s0 areas).m_pOdeAreasIndexed = areas.enum.map
      (fun p => (p.1 + 1, { p.2 with index := p.1 + 1, parentName := s0.m_name })) ∧
    (∀ n, (mapFind (addAreas s0 areas).m_pOdeAreas n).isSome = true ↔
      n ∈ areas.map (fun a => a.name)) := by
  induction areas using List.reverseRecOn with
  | nil => simp [addAreas, h1, h2, h3, mapFind]
  | append_singleton l a ih =>
    rw [List.map_append, List.nodup_append] at hnd
    obtain ⟨hl, -, hdis⟩ := hnd
    obtain ⟨i1, i2, i3, i4⟩ := ih hl
    have hnot : ¬ (mapFind (addAreas s0 l).m_pOdeAreas a.name).isSome = true := by
      rw [i4]
      intro hmem
      exact hdis hmem (by simp)
    have hstep : addAreas s0 (l ++ [a]) = (AddArea (addAreas s0 l) a).2.1 := by
      simp [addAreas, List.foldl_append]
    rw [hstep]
    unfold AddArea
    rw [if_neg hnot]
    dsimp only
    refine ⟨i1, by rw [i2]; simp, ?_, ?_⟩
    · rw [mapInsert_append_of_lt, i3, i2, i1, List.enum_append]
      · simp [List.enumFrom]
      · intro p hp
        rw [i3] at hp
        simp only [List.mem_map] at hp
        obtain ⟨q, hq, rfl⟩ := hp
        have := List.fst_lt_of_mem_enum hq
        dsimp only
        omega
    · intro n
      rw [mapFind_mapInsert_isSome, i4]
      simp [or_comm]

/-- C2: `CheckForWithin` accepts when no Area is attached; otherwise the first Area, in
the order of the by-index map, that the object's rectangle is within decides: accepted
for an inclusion Area, rejected for an exclusion Area; rejected when the rectangle is
within no Area. For Areas attached by successive `AddArea` calls the order of the map is
the order of insertion. -/
theorem CheckForWithin_first_matching_area_decides (s : OdeTrigger) (o : NvDsObjectMeta) :
    (s.m_pOdeAreasIndexed = [] → s.CheckForWithin o = true) ∧
    (∀ pre a post, s.m_pOdeAreasIndexed = pre ++ a :: post →
      (∀ b ∈ pre, b.2.CheckForWithin o.rect_params = false) →
      a.2.CheckForWithin o.rect_params = true →
      (a.2.type = AreaType.inclusion → s.CheckForWithin o = true) ∧
      (a.2.type = AreaType.exclusion → s.CheckForWithin o = false)) ∧
    (s.m_pOdeAreasIndexed ≠ [] →
      (∀ b ∈ s.m_pOdeAreasIndexed, b.2.CheckForWithin o.rect_params = false) →
      s.CheckForWithin o = false) ∧
    (∀ (host : Host) (name source : String) (classId limit : Nat) (variant : Variant)
      (areas : List OdeArea), (areas.map (fun a => a.name)).Nodup →
      (addAreas (OdeTrigger.new host name source classId limit variant)
        areas).m_pOdeAreasIndexed = areas.enum.map
          (fun p => (p.1 + 1, { p.2 with index := p.1 + 1, parentName := name }))) := by
  refine ⟨?_, ?_, ?_, ?_⟩
  · intro h
    simp [CheckForWithin, h]
  · intro pre a post h hpre ha
    have hne : (pre ++ a :: post).length ≠ 0 := by simp
    have hr : s.CheckForWithin o = !a.2.isExclusionArea := by
      unfold CheckForWithin
      rw [h, if_pos hne]
      exact CheckForWithinLoop_first _ pre a post hpre ha
    rw [hr]
    constructor
    · intro ht; simp [OdeArea.isExclusionArea, ht]
    · intro ht; simp [OdeArea.isExclusionArea, ht]
  · intro hne hall
    have hlen : s.m_pOdeAreasIndexed.length ≠ 0 := by
      intro h0; exact hne (List.length_eq_zero.mp h0)
    unfold CheckForWithin
    rw [if_pos hlen]
    exact CheckForWithinLoop_none _ _ hall
  · intro host name source classId limit variant areas hnd
    exact (addAreas_spec _ rfl rfl rfl areas hnd).2.2.1

/-- Witness for C2: with an Area that does not contain the object first, the exclusion
Area that follows decides and the inclusion Area after it is not consulted. -/
theorem CheckForWithin_first_matching_area_decides_witness :
    (addAreas (OdeTrigger.new exampleHost "t" "" 2 0 Variant.Occurrence)
      [exampleEmptyArea, exampleExclusion, exampleInclusion]).CheckForWithin exampleObject
        = false :=
  ((CheckForWithin_first_matching_area_decides
      (addAreas (OdeTrigger.new exampleHost "t" "" 2 0 Variant.Occurrence)
        [exampleEmptyArea, exampleExclusion, exampleInclusion]) exampleObject).2.1
    [(1, { exampleEmptyArea with index := 1, parentName := "t" })]
    (2, { exampleExclusion with index := 2, parentName := "t" })
    [(3, { exampleInclusion with index := 3, parentName := "t" })]
    (by rfl) (by decide) (by decide)).2 (by decide)

/-- C6, the code at the failing input: a trigger with limit 1 and reset timeout 5 s
reaches its limit (timer 1 is scheduled) and is then reset by the client while the
timer is pending; the next `IncrementAndCheckTriggerCount` reaches the limit again and
schedules timer 2 although timer 1 is still live. -/
theorem IncrementAndCheckTriggerCount_schedules_while_timer_live :
    (exampleTimerLive.m_resetTimerId = 1 ∧ exampleTimerLive.timers = [(1, 5000)] ∧
      exampleTimerLive.m_triggered = 0 ∧ exampleTimerLive.m_limit = 1) ∧
    (IncrementAndCheckTriggerCount exampleTimerLive).m_triggered = 1 ∧
    (IncrementAndCheckTriggerCount exampleTimerLive).m_resetTimerId = 2 ∧
    (IncrementAndCheckTriggerCount exampleTimerLive).timers = [(1, 5000), (2, 5000)] := by
  decide

/-- C7, the code at the failing input: one event reaches the limit and schedules timer
1; the client resets the trigger; the next event reaches the limit again and schedules
timer 2 while timer 1 is still pending and uncancelled: two reset timers are live. -/
theorem two_reset_timers_live :
    (run (SetResetTimeout (exampleOccurrence 1) 5)
      [Call.CheckForOccurrence exampleFrame exampleObject, Call.Reset,
       Call.CheckForOccurrence exampleFrame exampleObject2]).timers
      = [(1, 5000), (2, 5000)] ∧
    (run (SetResetTimeout (exampleOccurrence 0) 5)
      [Call.CheckForOccurrence exampleFrame exampleObject,
       Call.CheckForOccurrence exampleFrame exampleObject2]).timers
      = [(1, 5000), (2, 5000)] := by
  decide

/-- C9, the code at the failing input: with a timer live and a stored timeout of 5 s,
one `SetResetTimeout(10)` restarts the timer for 5000 ms, a second one restarts it for
10000 ms: the two states differ in the duration the live timer was scheduled for. -/
theorem SetResetTimeout_twice_differs :
    (SetResetTimeout exampleTimerLive 10).m_resetTimeout = 10 ∧
    (SetResetTimeout exampleTimerLive 10).timers = [(2, 5000)] ∧
    (SetResetTimeout (SetResetTimeout exampleTimerLive 10) 10).m_resetTimeout = 10 ∧
    (SetResetTimeout (SetResetTimeout exampleTimerLive 10) 10).timers = [(3, 10000)] := by
  decide

/-- C10, the code at the failing input: `SetResetTimeout(10)` on a trigger with a live
timer and a stored timeout of 5 s restarts the timer for the old 5000 ms; on a trigger
at its limit with no timer and a stored timeout of 0 it starts a timer of 0 ms. -/
theorem SetResetTimeout_schedules_old_timeout :
    (exampleTimerLive.m_resetTimeout = 5 ∧ exampleTimerLive.timers = [(1, 5000)] ∧
      (SetResetTimeout exampleTimerLive 10).m_resetTimeout = 10 ∧
      (SetResetTimeout exampleTimerLive 10).timers = [(2, 5000)]) ∧
    (exampleAtLimit.m_resetTimeout = 0 ∧ exampleAtLimit.timers = [] ∧
      exampleAtLimit.m_limit = 1 ∧ exampleAtLimit.m_triggered = 1 ∧
      (SetResetTimeout exampleAtLimit 10).m_resetTimeout = 10 ∧
      (SetResetTimeout exampleAtLimit 10).timers = [(1, 0)]) := by
  decide

/-- C3, the code at the failing input: a disabled Persistence trigger sees the same
object in two successive frames, 100 ms apart; the second `CheckForOccurrence` invokes
the attached Action and, the limit of 1 being reached, the limit-event listener. A
disabled Latest trigger fed the same way invokes its Action in `PostProcessFrame`. -/
theorem disabled_trigger_invokes_action :
    (examplePersistenceDisabled.m_enabled = false ∧
      (run examplePersistenceDisabled
        [Call.PreProcessFrame exampleFrame,
         Call.CheckForOccurrence exampleFrame exampleObject,
         Call.PostProcessFrame exampleFrame,
         Call.Tick 100,
         Call.PreProcessFrame exampleFrame2,
         Call.CheckForOccurrence exampleFrame2 exampleObject]).log =
        [Effect.LimitEventListener 4096 LimitEvent.DSL_ODE_TRIGGER_LIMIT_EVENT_LIMIT_REACHED 1 0,
         Effect.HandleOccurrence "print" exampleFrame2 (some exampleObject)]) ∧
    (exampleLatestDisabled.m_enabled = false ∧
      (run exampleLatestDisabled
        [Call.PreProcessFrame exampleFrame,
         Call.CheckForOccurrence exampleFrame exampleObject,
         Call.PostProcessFrame exampleFrame,
         Call.Tick 100,
         Call.PreProcessFrame exampleFrame2,
         Call.CheckForOccurrence exampleFrame2 exampleObject,
         Call.PostProcessFrame exampleFrame2]).log =
        [Effect.HandleOccurrence "print" exampleFrame2 (some exampleObject)]) := by
  decide

/-- Counting Action invocations in a log that continues another. -/
theorem actionCalls_append (l l' : List Effect) :
    actionCalls (l ++ l') = actionCalls l + actionCalls l' := by
  simp [actionCalls, List.countP_append]

/-- A log of Action invocations, one per Action. -/
theorem actionCalls_map_HandleOccurrence (acts : List (Nat × OdeAction)) (f : NvDsFrameMeta)
    (o : Option NvDsObjectMeta) :
    actionCalls (acts.map (fun a => Effect.HandleOccurrence a.2.name f o)) = acts.length := by
  induction acts with
  | nil => rfl
  | cons a acts ih =>
    simp only [List.map_cons, List.length_cons]
    simp only [actionCalls] at ih ⊢
    rw [List.countP_cons_of_pos _ _ (by rfl), ih]

/-- A log of Action invocations, two per Action. -/
theorem actionCalls_flatMap_HandleOccurrence (acts : List (Nat × OdeAction))
    (f : NvDsFrameMeta) (a b : Option NvDsObjectMeta) :
    actionCalls (acts.flatMap (fun act =>
      [Effect.HandleOccurrence act.2.name f a, Effect.HandleOccurrence act.2.name f b]))
      = 2 * acts.length := by
  induction acts with
  | nil => rfl
  | cons x acts ih =>
    simp only [List.flatMap_cons, List.length_cons, actionCalls_append, ih]
    simp only [actionCalls]
    rw [List.countP_cons_of_pos _ _ (by rfl), List.countP_cons_of_pos _ _ (by rfl)]
    simp only [List.countP_nil]
    omega

/-- Listener callbacks are no Action invocations. -/
theorem actionCalls_map_LimitEventListener (ls : List (Nat × Nat)) (e : LimitEvent)
    (limit : Nat) :
    actionCalls (ls.map (fun l => Effect.LimitEventListener l.1 e limit l.2)) = 0 := by
  induction ls with
  | nil => rfl
  | cons a ls ih =>
    simp only [List.map_cons]
    simp only [actionCalls] at ih ⊢
    rw [List.countP_cons_of_neg _ _ (by simp), ih]

/-- Area display calls are no Action invocations. -/
theorem actionCalls_map_AreaAddMeta (as : List (Nat × OdeArea)) :
    actionCalls (as.map (fun a => Effect.AreaAddMeta a.2.name)) = 0 := by
  induction as with
  | nil => rfl
  | cons a as ih =>
    simp only [List.map_cons]
    simp only [actionCalls] at ih ⊢
    rw [List.countP_cons_of_neg _ _ (by simp), ih]

/-- `SameCore` is reflexive. -/
theorem SameCore_refl (s : OdeTrigger) : SameCore s s :=
  ⟨rfl, rfl, rfl, rfl, rfl, rfl, rfl, rfl, rfl, rfl, rfl, rfl⟩

/-- `SameCore` is transitive. -/
theorem SameCore_trans {s t u : OdeTrigger} (h1 : SameCore s t) (h2 : SameCore t u) :
    SameCore s u :=
  ⟨h2.m_limit.trans h1.m_limit, h2.m_triggered.trans h1.m_triggered,
   h2.m_pOdeActionsIndexed.trans h1.m_pOdeActionsIndexed,
   h2.m_pOdeAreasIndexed.trans h1.m_pOdeAreasIndexed, h2.variant.trans h1.variant,
   h2.m_resetTimerId.trans h1.m_resetTimerId, h2.m_resetTimeout.trans h1.m_resetTimeout,
   h2.m_occurrences.trans h1.m_occurrences, h2.m_enabled.trans h1.m_enabled,
   h2.m_skipFrame.trans h1.m_skipFrame, h2.nowMs.trans h1.nowMs, h2.calls.trans h1.calls⟩

/-- `CheckForSourceId` changes the cached id and the log of lookups only. -/
theorem CheckForSourceId_same (s : OdeTrigger) (x : Int) :
    SameCore s (CheckForSourceId s x).2 := by
  obtain ⟨a, l, h, hl⟩ := CheckForSourceId_snd s x
  rw [h]
  refine ⟨rfl, rfl, rfl, rfl, rfl, rfl, rfl, rfl, rfl, rfl, rfl, ?_⟩
  have h0 : actionCalls l = 0 := by
    unfold actionCalls
    rw [List.countP_eq_zero]
    intro e he
    rw [hl e he]
    simp
  simp [actionCalls_append, h0]

/-- `CheckForInferId` changes the cached id and the log of lookups only. -/
theorem CheckForInferId_same (s : OdeTrigger) (x : Int) :
    SameCore s (CheckForInferId s x).2 := by
  obtain ⟨a, l, h, hl⟩ := CheckForInferId_snd s x
  rw [h]
  refine ⟨rfl, rfl, rfl, rfl, rfl, rfl, rfl, rfl, rfl, rfl, rfl, ?_⟩
  have h0 : actionCalls l = 0 := by
    unfold actionCalls
    rw [List.countP_eq_zero]
    intro e he
    rw [hl e he]
    simp
  simp [actionCalls_append, h0]

/-- `CheckForMinCriteria` changes the cached ids and the log of lookups only. -/
theorem CheckForMinCriteria_same (s : OdeTrigger) (f : NvDsFrameMeta) (o : NvDsObjectMeta) :
    SameCore s (CheckForMinCriteria s f o).2 := by
  have h1 := CheckForSourceId_same s f.source_id
  have h2 := SameCore_trans h1
    (CheckForInferId_same (CheckForSourceId s f.source_id).2 o.unique_component_id)
  unfold CheckForMinCriteria
  dsimp only
  split_ifs <;> first | exact SameCore_refl s | exact h1 | exact h2

/-- The gates change the cached ids and the log of lookups only. -/
theorem CheckGates_same (s : OdeTrigger) (f : NvDsFrameMeta) (o : NvDsObjectMeta) :
    SameCore s (CheckGates s f o).2 := by
  have h1 := CheckForSourceId_same s f.source_id
  have h2 := SameCore_trans h1 (CheckForMinCriteria_same (CheckForSourceId s f.source_id).2 f o)
  unfold CheckGates
  dsimp only
  split_ifs <;> first | exact h1 | exact h2

/-- The member `m_limit` after `CheckForSourceId`. -/
@[simp]
theorem CheckForSourceId_m_limit (s : OdeTrigger) (x : Int) :
    (CheckForSourceId s x).2.m_limit = s.m_limit :=
  (CheckForSourceId_same s x).m_limit

/-- The member `m_triggered` after `CheckForSourceId`. -/
@[simp]
theorem CheckForSourceId_m_triggered (s : OdeTrigger) (x : Int) :
    (CheckForSourceId s x).2.m_triggered = s.m_triggered :=
  (CheckForSourceId_same s x).m_triggered

/-- The member `m_pOdeActionsIndexed` after `CheckForSourceId`. -/
@[simp]
theorem CheckForSourceId_m_pOdeActionsIndexed (s : OdeTrigger) (x : Int) :
    (CheckForSourceId s x).2.m_pOdeActionsIndexed = s.m_pOdeActionsIndexed :=
  (CheckForSourceId_same s x).m_pOdeActionsIndexed

/-- The member `m_pOdeAreasIndexed` after `CheckForSourceId`. -/
@[simp]
theorem CheckForSourceId_m_pOdeAreasIndexed (s : OdeTrigger) (x : Int) :
    (CheckForSourceId s x).2.m_pOdeAreasIndexed = s.m_pOdeAreasIndexed :=
  (CheckForSourceId_same s x).m_pOdeAreasIndexed

/-- The member `variant` after `CheckForSourceId`. -/
@[simp]
theorem CheckForSourceId_variant (s : OdeTrigger) (x : Int) :
    (CheckForSourceId s x).2.variant = s.variant :=
  (CheckForSourceId_same s x).variant

/-- The member `m_resetTimerId` after `CheckForSourceId`. -/
@[simp]
theorem CheckForSourceId_m_resetTimerId (s : OdeTrigger) (x : Int) :
    (CheckForSourceId s x).2.m_resetTimerId = s.m_resetTimerId :=
  (CheckForSourceId_same s x).m_resetTimerId

/-- The member `m_resetTimeout` after `CheckForSourceId`. -/
@[simp]
theorem CheckForSourceId_m_resetTimeout (s : OdeTrigger) (x : Int) :
    (CheckForSourceId s x).2.m_resetTimeout = s.m_resetTimeout :=
  (CheckForSourceId_same s x).m_resetTimeout

/-- The member `m_occurrences` after `CheckForSourceId`. -/
@[simp]
theorem CheckForSourceId_m_occurrences (s : OdeTrigger) (x : Int) :
    (CheckForSourceId s x).2.m_occurrences = s.m_occurrences :=
  (CheckForSourceId_same s x).m_occurrences

/-- The member `m_enabled` after `CheckForSourceId`. -/
@[simp]
theorem CheckForSourceId_m_enabled (s : OdeTrigger) (x : Int) :
    (CheckForSourceId s x).2.m_enabled = s.m_enabled :=
  (CheckForSourceId_same s x).m_enabled

/-- The member `m_skipFrame` after `CheckForSourceId`. -/
@[simp]
theorem CheckForSourceId_m_skipFrame (s : OdeTrigger) (x : Int) :
    (CheckForSourceId s x).2.m_skipFrame = s.m_skipFrame :=
  (CheckForSourceId_same s x).m_skipFrame

/-- The member `nowMs` after `CheckForSourceId`. -/
@[simp]
theorem CheckForSourceId_nowMs (s : OdeTrigger) (x : Int) :
    (CheckForSourceId s x).2.nowMs = s.nowMs :=
  (CheckForSourceId_same s x).nowMs

/-- `CheckForSourceId` invokes no Action. -/
@[simp]
theorem CheckForSourceId_actionCalls (s : OdeTrigger) (x : Int) :
    actionCalls (CheckForSourceId s x).2.log = actionCalls s.log :=
  (CheckForSourceId_same s x).calls

/-- The member `m_limit` after `CheckForInferId`. -/
@[simp]
theorem CheckForInferId_m_limit (s : OdeTrigger) (x : Int) :
    (CheckForInferId s x).2.m_limit = s.m_limit :=
  (CheckForInferId_same s x).m_limit

/-- The member `m_triggered` after `CheckForInferId`. -/
@[simp]
theorem CheckForInferId_m_triggered (s : OdeTrigger) (x : Int) :
    (CheckForInferId s x).2.m_triggered = s.m_triggered :=
  (CheckForInferId_same s x).m_triggered

/-- The member `m_pOdeActionsIndexed` after `CheckForInferId`. -/
@[simp]
theorem CheckForInferId_m_pOdeActionsIndexed (s : OdeTrigger) (x : Int) :
    (CheckForInferId s x).2.m_pOdeActionsIndexed = s.m_pOdeActionsIndexed :=
  (CheckForInferId_same s x).m_pOdeActionsIndexed

/-- The member `m_pOdeAreasIndexed` after `CheckForInferId`. -/
@[simp]
theorem CheckForInferId_m_pOdeAreasIndexed (s : OdeTrigger) (x : Int) :
    (CheckForInferId s x).2.m_pOdeAreasIndexed = s.m_pOdeAreasIndexed :=
  (CheckForInferId_same s x).m_pOdeAreasIndexed

/-- The member `variant` after `CheckForInferId`. -/
@[simp]
theorem CheckForInferId_variant (s : OdeTrigger) (x : Int) :
    (CheckForInferId s x).2.variant = s.variant :=
  (CheckForInferId_same s x).variant

/-- The member `m_resetTimerId` after `CheckForInferId`. -/
@[simp]
theorem CheckForInferId_m_resetTimerId (s : OdeTrigger) (x : Int) :
    (CheckForInferId s x).2.m_resetTimerId = s.m_resetTimerId :=
  (CheckForInferId_same s x).m_resetTimerId

/-- The member `m_resetTimeout` after `CheckForInferId`. -/
@[simp]
theorem CheckForInferId_m_resetTimeout (s : OdeTrigger) (x : Int) :
    (CheckForInferId s x).2.m_resetTimeout = s.m_resetTimeout :=
  (CheckForInferId_same s x).m_resetTimeout

/-- The member `m_occurrences` after `CheckForInferId`. -/
@[simp]
theorem CheckForInferId_m_occurrences (s : OdeTrigger) (x : Int) :
    (CheckForInferId s x).2.m_occurrences = s.m_occurrences :=
  (CheckForInferId_same s x).m_occurrences

/-- The member `m_enabled` after `CheckForInferId`. -/
@[simp]
theorem CheckForInferId_m_enabled (s : OdeTrigger) (x : Int) :
    (CheckForInferId s x).2.m_enabled = s.m_enabled :=
  (CheckForInferId_same s x).m_enabled

/-- The member `m_skipFrame` after `CheckForInferId`. -/
@[simp]
theorem CheckForInferId_m_skipFrame (s : OdeTrigger) (x : Int) :
    (CheckForInferId s x).2.m_skipFrame = s.m_skipFrame :=
  (CheckForInferId_same s x).m_skipFrame

/-- The member `nowMs` after `CheckForInferId`. -/
@[simp]
theorem CheckForInferId_nowMs (s : OdeTrigger) (x : Int) :
    (CheckForInferId s x).2.nowMs = s.nowMs :=
  (CheckForInferId_same s x).nowMs

/-- `CheckForInferId` invokes no Action. -/
@[simp]
theorem CheckForInferId_actionCalls (s : OdeTrigger) (x : Int) :
    actionCalls (CheckForInferId s x).2.log = actionCalls s.log :=
  (CheckForInferId_same s x).calls

/-- The member `m_limit` after `CheckForMinCriteria`. -/
@[simp]
theorem CheckForMinCriteria_m_limit (s : OdeTrigger) (f : NvDsFrameMeta) (o : NvDsObjectMeta) :
    (CheckForMinCriteria s f o).2.m_limit = s.m_limit :=
  (CheckForMinCriteria_same s f o).m_limit

/-- The member `m_triggered` after `CheckForMinCriteria`. -/
@[simp]
theorem CheckForMinCriteria_m_triggered (s : OdeTrigger) (f : NvDsFrameMeta) (o : NvDsObjectMeta) :
    (CheckForMinCriteria s f o).2.m_triggered = s.m_triggered :=
  (CheckForMinCriteria_same s f o).m_triggered

/-- The member `m_pOdeActionsIndexed` after `CheckForMinCriteria`. -/
@[simp]
theorem CheckForMinCriteria_m_pOdeActionsIndexed (s : OdeTrigger) (f : NvDsFrameMeta) (o : NvDsObjectMeta) :
    (CheckForMinCriteria s f o).2.m_pOdeActionsIndexed = s.m_pOdeActionsIndexed :=
  (CheckForMinCriteria_same s f o).m_pOdeActionsIndexed

/-- The member `m_pOdeAreasIndexed` after `CheckForMinCriteria`. -/
@[simp]
theorem CheckForMinCriteria_m_pOdeAreasIndexed (s : OdeTrigger) (f : NvDsFrameMeta) (o : NvDsObjectMeta) :
    (CheckForMinCriteria s f o).2.m_pOdeAreasIndexed = s.m_pOdeAreasIndexed :=
  (CheckForMinCriteria_same s f o).m_pOdeAreasIndexed

/-- The member `variant` after `CheckForMinCriteria`. -/
@[simp]
theorem CheckForMinCriteria_variant (s : OdeTrigger) (f : NvDsFrameMeta) (o : NvDsObjectMeta) :
    (CheckForMinCriteria s f o).2.variant = s.variant :=
  (CheckForMinCriteria_same s f o).variant

/-- The member `m_resetTimerId` after `CheckForMinCriteria`. -/
@[simp]
theorem CheckForMinCriteria_m_resetTimerId (s : OdeTrigger) (f : NvDsFrameMeta) (o : NvDsObjectMeta) :
    (CheckForMinCriteria s f o).2.m_resetTimerId = s.m_resetTimerId :=
  (CheckForMinCriteria_same s f o).m_resetTimerId

/-- The member `m_resetTimeout` after `CheckForMinCriteria`. -/
@[simp]
theorem CheckForMinCriteria_m_resetTimeout (s : OdeTrigger) (f : NvDsFrameMeta) (o : NvDsObjectMeta) :
    (CheckForMinCriteria s f o).2.m_resetTimeout = s.m_resetTimeout :=
  (CheckForMinCriteria_same s f o).m_resetTimeout

/-- The member `m_occurrences` after `CheckForMinCriteria`. -/
@[simp]
theorem CheckForMinCriteria_m_occurrences (s : OdeTrigger) (f : NvDsFrameMeta) (o : NvDsObjectMeta) :
    (CheckForMinCriteria s f o).2.m_occurrences = s.m_occurrences :=
  (CheckForMinCriteria_same s f o).m_occurrences

/-- The member `m_enabled` after `CheckForMinCriteria`. -/
@[simp]
theorem CheckForMinCriteria_m_enabled (s : OdeTrigger) (f : NvDsFrameMeta) (o : NvDsObjectMeta) :
    (CheckForMinCriteria s f o).2.m_enabled = s.m_enabled :=
  (CheckForMinCriteria_same s f o).m_enabled

/-- The member `m_skipFrame` after `CheckForMinCriteria`. -/
@[simp]
theorem CheckForMinCriteria_m_skipFrame (s : OdeTrigger) (f : NvDsFrameMeta) (o : NvDsObjectMeta) :
    (CheckForMinCriteria s f o).2.m_skipFrame = s.m_skipFrame :=
  (CheckForMinCriteria_same s f o).m_skipFrame

/-- The member `nowMs` after `CheckForMinCriteria`. -/
@[simp]
theorem CheckForMinCriteria_nowMs (s : OdeTrigger) (f : NvDsFrameMeta) (o : NvDsObjectMeta) :
    (CheckForMinCriteria s f o).2.nowMs = s.nowMs :=
  (CheckForMinCriteria_same s f o).nowMs

/-- `CheckForMinCriteria` invokes no Action. -/
@[simp]
theorem CheckForMinCriteria_actionCalls (s : OdeTrigger) (f : NvDsFrameMeta) (o : NvDsObjectMeta) :
    actionCalls (CheckForMinCriteria s f o).2.log = actionCalls s.log :=
  (CheckForMinCriteria_same s f o).calls

/-- The member `m_limit` after `CheckGates`. -/
@[simp]
theorem CheckGates_m_limit (s : OdeTrigger) (f : NvDsFrameMeta) (o : NvDsObjectMeta) :
    (CheckGates s f o).2.m_limit = s.m_limit :=
  (CheckGates_same s f o).m_limit

/-- The member `m_triggered` after `CheckGates`. -/
@[simp]
theorem CheckGates_m_triggered (s : OdeTrigger) (f : NvDsFrameMeta) (o : NvDsObjectMeta) :
    (CheckGates s f o).2.m_triggered = s.m_triggered :=
  (CheckGates_same s f o).m_triggered

/-- The member `m_pOdeActionsIndexed` after `CheckGates`. -/
@[simp]
theorem CheckGates_m_pOdeActionsIndexed (s : OdeTrigger) (f : NvDsFrameMeta) (o : NvDsObjectMeta) :
    (CheckGates s f o).2.m_pOdeActionsIndexed = s.m_pOdeActionsIndexed :=
  (CheckGates_same s f o).m_pOdeActionsIndexed

/-- The member `m_pOdeAreasIndexed` after `CheckGates`. -/
@[simp]
theorem CheckGates_m_pOdeAreasIndexed (s : OdeTrigger) (f : NvDsFrameMeta) (o : NvDsObjectMeta) :
    (CheckGates s f o).2.m_pOdeAreasIndexed = s.m_pOdeAreasIndexed :=
  (CheckGates_same s f o).m_pOdeAreasIndexed

/-- The member `variant` after `CheckGates`. -/
@[simp]
theorem CheckGates_variant (s : OdeTrigger) (f : NvDsFrameMeta) (o : NvDsObjectMeta) :
    (CheckGates s f o).2.variant = s.variant :=
  (CheckGates_same s f o).variant

/-- The member `m_resetTimerId` after `CheckGates`. -/
@[simp]
theorem CheckGates_m_resetTimerId (s : OdeTrigger) (f : NvDsFrameMeta) (o : NvDsObjectMeta) :
    (CheckGates s f o).2.m_resetTimerId = s.m_resetTimerId :=
  (CheckGates_same s f o).m_resetTimerId

/-- The member `m_resetTimeout` after `CheckGates`. -/
@[simp]
theorem CheckGates_m_resetTimeout (s : OdeTrigger) (f : NvDsFrameMeta) (o : NvDsObjectMeta) :
    (CheckGates s f o).2.m_resetTimeout = s.m_resetTimeout :=
  (CheckGates_same s f o).m_resetTimeout

/-- The member `m_occurrences` after `CheckGates`. -/
@[simp]
theorem CheckGates_m_occurrences (s : OdeTrigger) (f : NvDsFrameMeta) (o : NvDsObjectMeta) :
    (CheckGates s f o).2.m_occurrences = s.m_occurrences :=
  (CheckGates_same s f o).m_occurrences

/-- The member `m_enabled` after `CheckGates`. -/
@[simp]
theorem CheckGates_m_enabled (s : OdeTrigger) (f : NvDsFrameMeta) (o : NvDsObjectMeta) :
    (CheckGates s f o).2.m_enabled = s.m_enabled :=
  (CheckGates_same s f o).m_enabled

/-- The member `m_skipFrame` after `CheckGates`. -/
@[simp]
theorem CheckGates_m_skipFrame (s : OdeTrigger) (f : NvDsFrameMeta) (o : NvDsObjectMeta) :
    (CheckGates s f o).2.m_skipFrame = s.m_skipFrame :=
  (CheckGates_same s f o).m_skipFrame

/-- The member `nowMs` after `CheckGates`. -/
@[simp]
theorem CheckGates_nowMs (s : OdeTrigger) (f : NvDsFrameMeta) (o : NvDsObjectMeta) :
    (CheckGates s f o).2.nowMs = s.nowMs :=
  (CheckGates_same s f o).nowMs

/-- `CheckGates` invokes no Action. -/
@[simp]
theorem CheckGates_actionCalls (s : OdeTrigger) (f : NvDsFrameMeta) (o : NvDsObjectMeta) :
    actionCalls (CheckGates s f o).2.log = actionCalls s.log :=
  (CheckGates_same s f o).calls

/-- The member `m_limit` after `callLimitEventListeners`. -/
@[simp]
theorem callLimitEventListeners_m_limit (s : OdeTrigger) (e : LimitEvent) :
    (callLimitEventListeners s e).m_limit = s.m_limit :=
  rfl

/-- The member `m_triggered` after `callLimitEventListeners`. -/
@[simp]
theorem callLimitEventListeners_m_triggered (s : OdeTrigger) (e : LimitEvent) :
    (callLimitEventListeners s e).m_triggered = s.m_triggered :=
  rfl

/-- The member `m_pOdeActionsIndexed` after `callLimitEventListeners`. -/
@[simp]
theorem callLimitEventListeners_m_pOdeActionsIndexed (s : OdeTrigger) (e : LimitEvent) :
    (callLimitEventListeners s e).m_pOdeActionsIndexed = s.m_pOdeActionsIndexed :=
  rfl

/-- The member `m_pOdeAreasIndexed` after `callLimitEventListeners`. -/
@[simp]
theorem callLimitEventListeners_m_pOdeAreasIndexed (s : OdeTrigger) (e : LimitEvent) :
    (callLimitEventListeners s e).m_pOdeAreasIndexed = s.m_pOdeAreasIndexed :=
  rfl

/-- The member `variant` after `callLimitEventListeners`. -/
@[simp]
theorem callLimitEventListeners_variant (s : OdeTrigger) (e : LimitEvent) :
    (callLimitEventListeners s e).variant = s.variant :=
  rfl

/-- The member `m_resetTimerId` after `callLimitEventListeners`. -/
@[simp]
theorem callLimitEventListeners_m_resetTimerId (s : OdeTrigger) (e : LimitEvent) :
    (callLimitEventListeners s e).m_resetTimerId = s.m_resetTimerId :=
  rfl

/-- The member `m_resetTimeout` after `callLimitEventListeners`. -/
@[simp]
theorem callLimitEventListeners_m_resetTimeout (s : OdeTrigger) (e : LimitEvent) :
    (callLimitEventListeners s e).m_resetTimeout = s.m_resetTimeout :=
  rfl

/-- The member `m_occurrences` after `callLimitEventListeners`. -/
@[simp]
theorem callLimitEventListeners_m_occurrences (s : OdeTrigger) (e : LimitEvent) :
    (callLimitEventListeners s e).m_occurrences = s.m_occurrences :=
  rfl

/-- The member `m_enabled` after `callLimitEventListeners`. -/
@[simp]
theorem callLimitEventListeners_m_enabled (s : OdeTrigger) (e : LimitEvent) :
    (callLimitEventListeners s e).m_enabled = s.m_enabled :=
  rfl

/-- The member `m_skipFrame` after `callLimitEventListeners`. -/
@[simp]
theorem callLimitEventListeners_m_skipFrame (s : OdeTrigger) (e : LimitEvent) :
    (callLimitEventListeners s e).m_skipFrame = s.m_skipFrame :=
  rfl

/-- The member `nowMs` after `callLimitEventListeners`. -/
@[simp]
theorem callLimitEventListeners_nowMs (s : OdeTrigger) (e : LimitEvent) :
    (callLimitEventListeners s e).nowMs = s.nowMs :=
  rfl

/-- `callLimitEventListeners` invokes no Action. -/
@[simp]
theorem callLimitEventListeners_actionCalls (s : OdeTrigger) (e : LimitEvent) :
    actionCalls (callLimitEventListeners s e).log = actionCalls s.log :=
  by simp [callLimitEventListeners, actionCalls_append, actionCalls_map_LimitEventListener]

/-- The member `m_limit` after `g_source_remove`. -/
@[simp]
theorem g_source_remove_m_limit (s : OdeTrigger) (id : Nat) :
    (g_source_remove s id).m_limit = s.m_limit :=
  rfl

/-- The member `m_triggered` after `g_source_remove`. -/
@[simp]
theorem g_source_remove_m_triggered (s : OdeTrigger) (id : Nat) :
    (g_source_remove s id).m_triggered = s.m_triggered :=
  rfl

/-- The member `m_pOdeActionsIndexed` after `g_source_remove`. -/
@[simp]
theorem g_source_remove_m_pOdeActionsIndexed (s : OdeTrigger) (id : Nat) :
    (g_source_remove s id).m_pOdeActionsIndexed = s.m_pOdeActionsIndexed :=
  rfl

/-- The member `m_pOdeAreasIndexed` after `g_source_remove`. -/
@[simp]
theorem g_source_remove_m_pOdeAreasIndexed (s : OdeTrigger) (id : Nat) :
    (g_source_remove s id).m_pOdeAreasIndexed = s.m_pOdeAreasIndexed :=
  rfl

/-- The member `variant` after `g_source_remove`. -/
@[simp]
theorem g_source_remove_variant (s : OdeTrigger) (id : Nat) :
    (g_source_remove s id).variant = s.variant :=
  rfl

/-- The member `m_resetTimerId` after `g_source_remove`. -/
@[simp]
theorem g_source_remove_m_resetTimerId (s : OdeTrigger) (id : Nat) :
    (g_source_remove s id).m_resetTimerId = s.m_resetTimerId :=
  rfl

/-- The member `m_resetTimeout` after `g_source_remove`. -/
@[simp]
theorem g_source_remove_m_resetTimeout (s : OdeTrigger) (id : Nat) :
    (g_source_remove s id).m_resetTimeout = s.m_resetTimeout :=
  rfl

/-- The member `m_occurrences` after `g_source_remove`. -/
@[simp]
theorem g_source_remove_m_occurrences (s : OdeTrigger) (id : Nat) :
    (g_source_remove s id).m_occurrences = s.m_occurrences :=
  rfl

/-- The member `m_enabled` after `g_source_remove`. -/
@[simp]
theorem g_source_remove_m_enabled (s : OdeTrigger) (id : Nat) :
    (g_source_remove s id).m_enabled = s.m_enabled :=
  rfl

/-- The member `m_skipFrame` after `g_source_remove`. -/
@[simp]
theorem g_source_remove_m_skipFrame (s : OdeTrigger) (id : Nat) :
    (g_source_remove s id).m_skipFrame = s.m_skipFrame :=
  rfl

/-- The member `nowMs` after `g_source_remove`. -/
@[simp]
theorem g_source_remove_nowMs (s : OdeTrigger) (id : Nat) :
    (g_source_remove s id).nowMs = s.nowMs :=
  rfl

/-- `g_source_remove` invokes no Action. -/
@[simp]
theorem g_source_remove_actionCalls (s : OdeTrigger) (id : Nat) :
    actionCalls (g_source_remove s id).log = actionCalls s.log :=
  by simp [g_source_remove, actionCalls_append, actionCalls]

/-- The member `m_limit` after `g_timeout_add`. -/
@[simp]
theorem g_timeout_add_m_limit (s : OdeTrigger) (i : Nat) :
    (g_timeout_add s i).2.m_limit = s.m_limit :=
  rfl

/-- The member `m_triggered` after `g_timeout_add`. -/
@[simp]
theorem g_timeout_add_m_triggered (s : OdeTrigger) (i : Nat) :
    (g_timeout_add s i).2.m_triggered = s.m_triggered :=
  rfl

/-- The member `m_pOdeActionsIndexed` after `g_timeout_add`. -/
@[simp]
theorem g_timeout_add_m_pOdeActionsIndexed (s : OdeTrigger) (i : Nat) :
    (g_timeout_add s i).2.m_pOdeActionsIndexed = s.m_pOdeActionsIndexed :=
  rfl

/-- The member `m_pOdeAreasIndexed` after `g_timeout_add`. -/
@[simp]
theorem g_timeout_add_m_pOdeAreasIndexed (s : OdeTrigger) (i : Nat) :
    (g_timeout_add s i).2.m_pOdeAreasIndexed = s.m_pOdeAreasIndexed :=
  rfl

/-- The member `variant` after `g_timeout_add`. -/
@[simp]
theorem g_timeout_add_variant (s : OdeTrigger) (i : Nat) :
    (g_timeout_add s i).2.variant = s.variant :=
  rfl

/-- The member `m_resetTimerId` after `g_timeout_add`. -/
@[simp]
theorem g_timeout_add_m_resetTimerId (s : OdeTrigger) (i : Nat) :
    (g_timeout_add s i).2.m_resetTimerId = s.m_resetTimerId :=
  rfl

/-- The member `m_resetTimeout` after `g_timeout_add`. -/
@[simp]
theorem g_timeout_add_m_resetTimeout (s : OdeTrigger) (i : Nat) :
    (g_timeout_add s i).2.m_resetTimeout = s.m_resetTimeout :=
  rfl

/-- The member `m_occurrences` after `g_timeout_add`. -/
@[simp]
theorem g_timeout_add_m_occurrences (s : OdeTrigger) (i : Nat) :
    (g_timeout_add s i).2.m_occurrences = s.m_occurrences :=
  rfl

/-- The member `m_enabled` after `g_timeout_add`. -/
@[simp]
theorem g_timeout_add_m_enabled (s : OdeTrigger) (i : Nat) :
    (g_timeout_add s i).2.m_enabled = s.m_enabled :=
  rfl

/-- The member `m_skipFrame` after `g_timeout_add`. -/
@[simp]
theorem g_timeout_add_m_skipFrame (s : OdeTrigger) (i : Nat) :
    (g_timeout_add s i).2.m_skipFrame = s.m_skipFrame :=
  rfl

/-- The member `nowMs` after `g_timeout_add`. -/
@[simp]
theorem g_timeout_add_nowMs (s : OdeTrigger) (i : Nat) :
    (g_timeout_add s i).2.nowMs = s.nowMs :=
  rfl

/-- `g_timeout_add` invokes no Action. -/
@[simp]
theorem g_timeout_add_actionCalls (s : OdeTrigger) (i : Nat) :
    actionCalls (g_timeout_add s i).2.log = actionCalls s.log :=
  by simp [g_timeout_add, actionCalls_append, actionCalls]

/-- The member `m_limit` after `IncrementEventCount`. -/
@[simp]
theorem IncrementEventCount_m_limit (s : OdeTrigger) :
    (IncrementEventCount s).m_limit = s.m_limit :=
  rfl

/-- The member `m_triggered` after `IncrementEventCount`. -/
@[simp]
theorem IncrementEventCount_m_triggered (s : OdeTrigger) :
    (IncrementEventCount s).m_triggered = s.m_triggered :=
  rfl

/-- The member `m_pOdeActionsIndexed` after `IncrementEventCount`. -/
@[simp]
theorem IncrementEventCount_m_pOdeActionsIndexed (s : OdeTrigger) :
    (IncrementEventCount s).m_pOdeActionsIndexed = s.m_pOdeActionsIndexed :=
  rfl

/-- The member `m_pOdeAreasIndexed` after `IncrementEventCount`. -/
@[simp]
theorem IncrementEventCount_m_pOdeAreasIndexed (s : OdeTrigger) :
    (IncrementEventCount s).m_pOdeAreasIndexed = s.m_pOdeAreasIndexed :=
  rfl

/-- The member `variant` after `IncrementEventCount`. -/
@[simp]
theorem IncrementEventCount_variant (s : OdeTrigger) :
    (IncrementEventCount s).variant = s.variant :=
  rfl

/-- The member `m_resetTimerId` after `IncrementEventCount`. -/
@[simp]
theorem IncrementEventCount_m_resetTimerId (s : OdeTrigger) :
    (IncrementEventCount s).m_resetTimerId = s.m_resetTimerId :=
  rfl

/-- The member `m_resetTimeout` after `IncrementEventCount`. -/
@[simp]
theorem IncrementEventCount_m_resetTimeout (s : OdeTrigger) :
    (IncrementEventCount s).m_resetTimeout = s.m_resetTimeout :=
  rfl

/-- The member `m_occurrences` after `IncrementEventCount`. -/
@[simp]
theorem IncrementEventCount_m_occurrences (s : OdeTrigger) :
    (IncrementEventCount s).m_occurrences = s.m_occurrences :=
  rfl

/-- The member `m_enabled` after `IncrementEventCount`. -/
@[simp]
theorem IncrementEventCount_m_enabled (s : OdeTrigger) :
    (IncrementEventCount s).m_enabled = s.m_enabled :=
  rfl

/-- The member `m_skipFrame` after `IncrementEventCount`. -/
@[simp]
theorem IncrementEventCount_m_skipFrame (s : OdeTrigger) :
    (IncrementEventCount s).m_skipFrame = s.m_skipFrame :=
  rfl

/-- The member `nowMs` after `IncrementEventCount`. -/
@[simp]
theorem IncrementEventCount_nowMs (s : OdeTrigger) :
    (IncrementEventCount s).nowMs = s.nowMs :=
  rfl

/-- `IncrementEventCount` invokes no Action. -/
@[simp]
theorem IncrementEventCount_actionCalls (s : OdeTrigger) :
    actionCalls (IncrementEventCount s).log = actionCalls s.log :=
  rfl

/-- The member `m_limit` after `callActions`. -/
@[simp]
theorem callActions_m_limit (s : OdeTrigger) (f : NvDsFrameMeta) (o : Option NvDsObjectMeta) :
    (callActions s f o).m_limit = s.m_limit :=
  rfl

/-- The member `m_triggered` after `callActions`. -/
@[simp]
theorem callActions_m_triggered (s : OdeTrigger) (f : NvDsFrameMeta) (o : Option NvDsObjectMeta) :
    (callActions s f o).m_triggered = s.m_triggered :=
  rfl

/-- The member `m_pOdeActionsIndexed` after `callActions`. -/
@[simp]
theorem callActions_m_pOdeActionsIndexed (s : OdeTrigger) (f : NvDsFrameMeta) (o : Option NvDsObjectMeta) :
    (callActions s f o).m_pOdeActionsIndexed = s.m_pOdeActionsIndexed :=
  rfl

/-- The member `m_pOdeAreasIndexed` after `callActions`. -/
@[simp]
theorem callActions_m_pOdeAreasIndexed (s : OdeTrigger) (f : NvDsFrameMeta) (o : Option NvDsObjectMeta) :
    (callActions s f o).m_pOdeAreasIndexed = s.m_pOdeAreasIndexed :=
  rfl

/-- The member `variant` after `callActions`. -/
@[simp]
theorem callActions_variant (s : OdeTrigger) (f : NvDsFrameMeta) (o : Option NvDsObjectMeta) :
    (callActions s f o).variant = s.variant :=
  rfl

/-- The member `m_resetTimerId` after `callActions`. -/
@[simp]
theorem callActions_m_resetTimerId (s : OdeTrigger) (f : NvDsFrameMeta) (o : Option NvDsObjectMeta) :
    (callActions s f o).m_resetTimerId = s.m_resetTimerId :=
  rfl

/-- The member `m_resetTimeout` after `callActions`. -/
@[simp]
theorem callActions_m_resetTimeout (s : OdeTrigger) (f : NvDsFrameMeta) (o : Option NvDsObjectMeta) :
    (callActions s f o).m_resetTimeout = s.m_resetTimeout :=
  rfl

/-- The member `m_occurrences` after `callActions`. -/
@[simp]
theorem callActions_m_occurrences (s : OdeTrigger) (f : NvDsFrameMeta) (o : Option NvDsObjectMeta) :
    (callActions s f o).m_occurrences = s.m_occurrences :=
  rfl

/-- The member `m_enabled` after `callActions`. -/
@[simp]
theorem callActions_m_enabled (s : OdeTrigger) (f : NvDsFrameMeta) (o : Option NvDsObjectMeta) :
    (callActions s f o).m_enabled = s.m_enabled :=
  rfl

/-- The member `m_skipFrame` after `callActions`. -/
@[simp]
theorem callActions_m_skipFrame (s : OdeTrigger) (f : NvDsFrameMeta) (o : Option NvDsObjectMeta) :
    (callActions s f o).m_skipFrame = s.m_skipFrame :=
  rfl

/-- The member `nowMs` after `callActions`. -/
@[simp]
theorem callActions_nowMs (s : OdeTrigger) (f : NvDsFrameMeta) (o : Option NvDsObjectMeta) :
    (callActions s f o).nowMs = s.nowMs :=
  rfl

/-- The member `m_limit` after `Reset`. -/
@[simp]
theorem Reset_m_limit (s : OdeTrigger) :
    (OdeTrigger.Reset s).m_limit = s.m_limit :=
  rfl

/-- The member `m_triggered` after `Reset`. -/
@[simp]
theorem Reset_m_triggered (s : OdeTrigger) :
    (OdeTrigger.Reset s).m_triggered = 0 :=
  rfl

/-- The member `m_pOdeActionsIndexed` after `Reset`. -/
@[simp]
theorem Reset_m_pOdeActionsIndexed (s : OdeTrigger) :
    (OdeTrigger.Reset s).m_pOdeActionsIndexed = s.m_pOdeActionsIndexed :=
  rfl

/-- The member `m_pOdeAreasIndexed` after `Reset`. -/
@[simp]
theorem Reset_m_pOdeAreasIndexed (s : OdeTrigger) :
    (OdeTrigger.Reset s).m_pOdeAreasIndexed = s.m_pOdeAreasIndexed :=
  rfl

/-- The member `variant` after `Reset`. -/
@[simp]
theorem Reset_variant (s : OdeTrigger) :
    (OdeTrigger.Reset s).variant = s.variant :=
  rfl

/-- The member `m_resetTimerId` after `Reset`. -/
@[simp]
theorem Reset_m_resetTimerId (s : OdeTrigger) :
    (OdeTrigger.Reset s).m_resetTimerId = s.m_resetTimerId :=
  rfl

/-- The member `m_resetTimeout` after `Reset`. -/
@[simp]
theorem Reset_m_resetTimeout (s : OdeTrigger) :
    (OdeTrigger.Reset s).m_resetTimeout = s.m_resetTimeout :=
  rfl

/-- The member `m_occurrences` after `Reset`. -/
@[simp]
theorem Reset_m_occurrences (s : OdeTrigger) :
    (OdeTrigger.Reset s).m_occurrences = s.m_occurrences :=
  rfl

/-- The member `m_enabled` after `Reset`. -/
@[simp]
theorem Reset_m_enabled (s : OdeTrigger) :
    (OdeTrigger.Reset s).m_enabled = s.m_enabled :=
  rfl

/-- The member `m_skipFrame` after `Reset`. -/
@[simp]
theorem Reset_m_skipFrame (s : OdeTrigger) :
    (OdeTrigger.Reset s).m_skipFrame = s.m_skipFrame :=
  rfl

/-- The member `nowMs` after `Reset`. -/
@[simp]
theorem Reset_nowMs (s : OdeTrigger) :
    (OdeTrigger.Reset s).nowMs = s.nowMs :=
  rfl

/-- `Reset` invokes no Action. -/
@[simp]
theorem Reset_actionCalls (s : OdeTrigger) :
    actionCalls (OdeTrigger.Reset s).log = actionCalls s.log :=
  by simp [OdeTrigger.Reset, callLimitEventListeners, actionCalls_append, actionCalls_map_LimitEventListener]

/-- The member `m_limit` after `SetLimit`. -/
@[simp]
theorem SetLimit_m_limit (s : OdeTrigger) (limit : Nat) :
    (OdeTrigger.SetLimit s limit).m_limit = limit :=
  rfl

/-- The member `m_triggered` after `SetLimit`. -/
@[simp]
theorem SetLimit_m_triggered (s : OdeTrigger) (limit : Nat) :
    (OdeTrigger.SetLimit s limit).m_triggered = s.m_triggered :=
  rfl

/-- The member `m_pOdeActionsIndexed` after `SetLimit`. -/
@[simp]
theorem SetLimit_m_pOdeActionsIndexed (s : OdeTrigger) (limit : Nat) :
    (OdeTrigger.SetLimit s limit).m_pOdeActionsIndexed = s.m_pOdeActionsIndexed :=
  rfl

/-- The member `m_pOdeAreasIndexed` after `SetLimit`. -/
@[simp]
theorem SetLimit_m_pOdeAreasIndexed (s : OdeTrigger) (limit : Nat) :
    (OdeTrigger.SetLimit s limit).m_pOdeAreasIndexed = s.m_pOdeAreasIndexed :=
  rfl

/-- The member `variant` after `SetLimit`. -/
@[simp]
theorem SetLimit_variant (s : OdeTrigger) (limit : Nat) :
    (OdeTrigger.SetLimit s limit).variant = s.variant :=
  rfl

/-- The member `m_resetTimerId` after `SetLimit`. -/
@[simp]
theorem SetLimit_m_resetTimerId (s : OdeTrigger) (limit : Nat) :
    (OdeTrigger.SetLimit s limit).m_resetTimerId = s.m_resetTimerId :=
  rfl

/-- The member `m_resetTimeout` after `SetLimit`. -/
@[simp]
theorem SetLimit_m_resetTimeout (s : OdeTrigger) (limit : Nat) :
    (OdeTrigger.SetLimit s limit).m_resetTimeout = s.m_resetTimeout :=
  rfl

/-- The member `m_occurrences` after `SetLimit`. -/
@[simp]
theorem SetLimit_m_occurrences (s : OdeTrigger) (limit : Nat) :
    (OdeTrigger.SetLimit s limit).m_occurrences = s.m_occurrences :=
  rfl

/-- The member `m_enabled` after `SetLimit`. -/
@[simp]
theorem SetLimit_m_enabled (s : OdeTrigger) (limit : Nat) :
    (OdeTrigger.SetLimit s limit).m_enabled = s.m_enabled :=
  rfl

/-- The member `m_skipFrame` after `SetLimit`. -/
@[simp]
theorem SetLimit_m_skipFrame (s : OdeTrigger) (limit : Nat) :
    (OdeTrigger.SetLimit s limit).m_skipFrame = s.m_skipFrame :=
  rfl

/-- The member `nowMs` after `SetLimit`. -/
@[simp]
theorem SetLimit_nowMs (s : OdeTrigger) (limit : Nat) :
    (OdeTrigger.SetLimit s limit).nowMs = s.nowMs :=
  rfl

/-- `SetLimit` invokes no Action. -/
@[simp]
theorem SetLimit_actionCalls (s : OdeTrigger) (limit : Nat) :
    actionCalls (OdeTrigger.SetLimit s limit).log = actionCalls s.log :=
  by simp [OdeTrigger.SetLimit, callLimitEventListeners, actionCalls_append, actionCalls_map_LimitEventListener]

/-- `callActions` invokes each attached Action once. -/
@[simp]
theorem callActions_actionCalls (s : OdeTrigger) (f : NvDsFrameMeta)
    (o : Option NvDsObjectMeta) :
    actionCalls (callActions s f o).log = actionCalls s.log + s.m_pOdeActionsIndexed.length := by
  simp [callActions, actionCalls_append, actionCalls_map_HandleOccurrence]

/-- The state `IncrementAndCheckTriggerCount` leaves: the count is one more, listeners
and timer calls are logged, and the timer handle changes only when the incremented count
has reached the limit. -/
theorem IncrementAndCheckTriggerCount_form (s : OdeTrigger) :
    ∃ (tid : Nat) (tm : List (Nat × Nat)) (lsid : Nat) (l : List Effect),
      IncrementAndCheckTriggerCount s = { s with
        m_triggered := s.m_triggered + 1, m_resetTimerId := tid, timers := tm,
        lastSourceId := lsid, log := s.log ++ l } ∧
      actionCalls l = 0 ∧ (tid = s.m_resetTimerId ∨ s.m_limit ≤ s.m_triggered + 1) := by
  unfold IncrementAndCheckTriggerCount
  dsimp only
  split_ifs with h1 h2
  · exact ⟨_, _, _, _ ++ [_], by
      simp only [g_timeout_add, callLimitEventListeners, List.append_assoc]; rfl, by
      simp [actionCalls_append, actionCalls_map_LimitEventListener, actionCalls], Or.inr h1⟩
  · exact ⟨s.m_resetTimerId, s.timers, s.lastSourceId, _, rfl, by
      simp [actionCalls_map_LimitEventListener], Or.inl rfl⟩
  · exact ⟨s.m_resetTimerId, s.timers, s.lastSourceId, [], by simp, rfl, Or.inl rfl⟩

/-- The member `m_limit` after `IncrementAndCheckTriggerCount`. -/
@[simp]
theorem IncrementAndCheckTriggerCount_m_limit (s : OdeTrigger) :
    (IncrementAndCheckTriggerCount s).m_limit = s.m_limit := by
  obtain ⟨tid, tm, lsid, l, h, -, -⟩ := IncrementAndCheckTriggerCount_form s
  rw [h]

/-- The member `m_triggered` after `IncrementAndCheckTriggerCount`. -/
@[simp]
theorem IncrementAndCheckTriggerCount_m_triggered (s : OdeTrigger) :
    (IncrementAndCheckTriggerCount s).m_triggered = s.m_triggered + 1 := by
  obtain ⟨tid, tm, lsid, l, h, -, -⟩ := IncrementAndCheckTriggerCount_form s
  rw [h]

/-- The member `m_pOdeActionsIndexed` after `IncrementAndCheckTriggerCount`. -/
@[simp]
theorem IncrementAndCheckTriggerCount_m_pOdeActionsIndexed (s : OdeTrigger) :
    (IncrementAndCheckTriggerCount s).m_pOdeActionsIndexed = s.m_pOdeActionsIndexed := by
  obtain ⟨tid, tm, lsid, l, h, -, -⟩ := IncrementAndCheckTriggerCount_form s
  rw [h]

/-- The member `m_pOdeAreasIndexed` after `IncrementAndCheckTriggerCount`. -/
@[simp]
theorem IncrementAndCheckTriggerCount_m_pOdeAreasIndexed (s : OdeTrigger) :
    (IncrementAndCheckTriggerCount s).m_pOdeAreasIndexed = s.m_pOdeAreasIndexed := by
  obtain ⟨tid, tm, lsid, l, h, -, -⟩ := IncrementAndCheckTriggerCount_form s
  rw [h]

/-- The member `variant` after `IncrementAndCheckTriggerCount`. -/
@[simp]
theorem IncrementAndCheckTriggerCount_variant (s : OdeTrigger) :
    (IncrementAndCheckTriggerCount s).variant = s.variant := by
  obtain ⟨tid, tm, lsid, l, h, -, -⟩ := IncrementAndCheckTriggerCount_form s
  rw [h]

/-- The member `m_resetTimeout` after `IncrementAndCheckTriggerCount`. -/
@[simp]
theorem IncrementAndCheckTriggerCount_m_resetTimeout (s : OdeTrigger) :
    (IncrementAndCheckTriggerCount s).m_resetTimeout = s.m_resetTimeout := by
  obtain ⟨tid, tm, lsid, l, h, -, -⟩ := IncrementAndCheckTriggerCount_form s
  rw [h]

/-- The member `m_occurrences` after `IncrementAndCheckTriggerCount`. -/
@[simp]
theorem IncrementAndCheckTriggerCount_m_occurrences (s : OdeTrigger) :
    (IncrementAndCheckTriggerCount s).m_occurrences = s.m_occurrences := by
  obtain ⟨tid, tm, lsid, l, h, -, -⟩ := IncrementAndCheckTriggerCount_form s
  rw [h]

/-- The member `m_enabled` after `IncrementAndCheckTriggerCount`. -/
@[simp]
theorem IncrementAndCheckTriggerCount_m_enabled (s : OdeTrigger) :
    (IncrementAndCheckTriggerCount s).m_enabled = s.m_enabled := by
  obtain ⟨tid, tm, lsid, l, h, -, -⟩ := IncrementAndCheckTriggerCount_form s
  rw [h]

/-- The member `m_skipFrame` after `IncrementAndCheckTriggerCount`. -/
@[simp]
theorem IncrementAndCheckTriggerCount_m_skipFrame (s : OdeTrigger) :
    (IncrementAndCheckTriggerCount s).m_skipFrame = s.m_skipFrame := by
  obtain ⟨tid, tm, lsid, l, h, -, -⟩ := IncrementAndCheckTriggerCount_form s
  rw [h]

/-- The member `nowMs` after `IncrementAndCheckTriggerCount`. -/
@[simp]
theorem IncrementAndCheckTriggerCount_nowMs (s : OdeTrigger) :
    (IncrementAndCheckTriggerCount s).nowMs = s.nowMs := by
  obtain ⟨tid, tm, lsid, l, h, -, -⟩ := IncrementAndCheckTriggerCount_form s
  rw [h]

/-- `IncrementAndCheckTriggerCount` invokes no Action. -/
@[simp]
theorem IncrementAndCheckTriggerCount_actionCalls (s : OdeTrigger) :
    actionCalls (IncrementAndCheckTriggerCount s).log = actionCalls s.log := by
  obtain ⟨tid, tm, lsid, l, h, h0, -⟩ := IncrementAndCheckTriggerCount_form s
  rw [h]
  simp [actionCalls_append, h0]

/-- `IncrementAndCheckTriggerCount` changes the timer handle only when the incremented
count has reached the limit. -/
theorem IncrementAndCheckTriggerCount_timer (s : OdeTrigger) :
    (IncrementAndCheckTriggerCount s).m_resetTimerId = s.m_resetTimerId ∨
      s.m_limit ≤ s.m_triggered + 1 := by
  obtain ⟨tid, tm, lsid, l, h, -, ht⟩ := IncrementAndCheckTriggerCount_form s
  rw [h]
  exact ht

/-- An object passes `CheckForMinCriteria` only on a frame that is not skipped and
while the limit is not reached. -/
theorem CheckForMinCriteria_limit (s : OdeTrigger) (f : NvDsFrameMeta) (o : NvDsObjectMeta)
    (h : (CheckForMinCriteria s f o).1 = true) :
    s.m_skipFrame = false ∧ (s.m_limit = 0 ∨ s.m_triggered < s.m_limit) := by
  obtain ⟨h1, h2, -⟩ := (CheckForMinCriteria_fst_iff s f o).mp h
  refine ⟨h1, ?_⟩
  by_cases h0 : s.m_limit = 0
  · exact Or.inl h0
  · right
    by_contra h3
    exact h2 ⟨Nat.pos_of_ne_zero h0, Nat.le_of_not_lt h3⟩

/-- An object passes the gates only on a frame that is not skipped and while the limit
is not reached. -/
theorem CheckGates_limit (s : OdeTrigger) (f : NvDsFrameMeta) (o : NvDsObjectMeta)
    (h : (CheckGates s f o).1 = true) :
    s.m_skipFrame = false ∧ (s.m_limit = 0 ∨ s.m_triggered < s.m_limit) := by
  unfold CheckGates at h
  dsimp only at h
  split_ifs at h with h1 h2
  have h3 : (CheckForMinCriteria (CheckForSourceId s f.source_id).2 f o).1 = true := by
    simpa using h2
  have := CheckForMinCriteria_limit _ f o h3
  simpa using this

/-- A call that changes nothing is a frame step. -/
theorem FrameStep_refl (s : OdeTrigger) : FrameStep s s :=
  ⟨rfl, rfl, rfl, Nat.le_refl _, Or.inl rfl, fun _ => rfl, fun _ h => h⟩

/-- Frame steps compose. -/
theorem FrameStep_trans {s t u : OdeTrigger} (h1 : FrameStep s t) (h2 : FrameStep t u) :
    FrameStep s u := by
  refine ⟨h2.limit.trans h1.limit, h2.actions.trans h1.actions, h2.kind.trans h1.kind,
    Nat.le_trans h1.mono h2.mono, ?_, ?_, ?_⟩
  · rcases h2.timer with h | h
    · rcases h1.timer with h' | h'
      · exact Or.inl (h.trans h')
      · right
        rw [h2.limit]
        exact Nat.le_trans h' h2.mono
    · exact Or.inr h
  · intro hk
    have e1 := h1.calls hk
    have e2 := h2.calls (by rw [h1.kind]; exact hk)
    rw [h1.kind, h1.actions] at e2
    omega
  · intro hk hi
    exact h2.inv (by rw [h1.kind]; exact hk) (h1.inv hk hi)

/-- A call with no event: the core members stay and nothing new is pending unless the
limit is not reached. -/
theorem FrameStep_quiet {s s' : OdeTrigger} (hl : s'.m_limit = s.m_limit)
    (ha : s'.m_pOdeActionsIndexed = s.m_pOdeActionsIndexed)
    (hk : s'.variant.kind = s.variant.kind) (ht : s'.m_triggered = s.m_triggered)
    (hid : s'.m_resetTimerId = s.m_resetTimerId)
    (hc : s.variant.kind ≠ Kind.Always → actionCalls s'.log = actionCalls s.log)
    (hp : pendingEvent s' → pendingEvent s ∨ s.m_limit = 0 ∨ s.m_triggered < s.m_limit) :
    FrameStep s s' := by
  refine ⟨hl, ha, hk, by omega, Or.inl hid, ?_, ?_⟩
  · intro hk'
    rw [hc hk', ht]
  · intro _ hi h0
    rw [hl] at h0
    obtain ⟨i1, i2⟩ := hi h0
    rw [hl, ht]
    refine ⟨i1, fun hp' => ?_⟩
    rcases hp hp' with h | h | h
    · exact i2 h
    · exact absurd h h0
    · exact h

/-- With the same concrete members and no more occurrences, no more is pending. -/
theorem pendingEvent_of_le {s s' : OdeTrigger} (hv : s'.variant = s.variant)
    (ho : s'.m_occurrences ≤ s.m_occurrences) (hp : pendingEvent s') : pendingEvent s := by
  unfold pendingEvent at hp ⊢
  rw [hv] at hp
  cases h : s.variant <;> rw [h] at hp <;> dsimp only at hp ⊢ <;> first | exact hp | omega

/-- A call with no event that keeps the concrete members and does not raise the
occurrences. -/
theorem FrameStep_idle {s s' : OdeTrigger} (hl : s'.m_limit = s.m_limit)
    (ha : s'.m_pOdeActionsIndexed = s.m_pOdeActionsIndexed)
    (hv : s'.variant = s.variant) (ht : s'.m_triggered = s.m_triggered)
    (hid : s'.m_resetTimerId = s.m_resetTimerId)
    (hc : s.variant.kind ≠ Kind.Always → actionCalls s'.log = actionCalls s.log)
    (ho : s'.m_occurrences ≤ s.m_occurrences) :
    FrameStep s s' :=
  FrameStep_quiet hl ha (by rw [hv]) ht hid hc (fun hp => Or.inl (pendingEvent_of_le hv ho hp))

/-- A call that leaves the core members as they are is a frame step. -/
theorem FrameStep_of_same {s s' : OdeTrigger} (h : SameCore s s') : FrameStep s s' := by
  refine FrameStep_quiet h.m_limit h.m_pOdeActionsIndexed (by rw [h.variant]) h.m_triggered
    h.m_resetTimerId (fun _ => h.calls) ?_
  intro hp
  left
  unfold pendingEvent at hp ⊢
  rw [h.variant, h.m_occurrences] at hp
  exact hp

/-- A call with one event that passed the limit test, invoking each Action
`callsPerEvent` times, after which nothing is pending. -/
theorem FrameStep_fire {s s' : OdeTrigger} (hl : s'.m_limit = s.m_limit)
    (ha : s'.m_pOdeActionsIndexed = s.m_pOdeActionsIndexed)
    (hk : s'.variant.kind = s.variant.kind) (ht : s'.m_triggered = s.m_triggered + 1)
    (hid : s'.m_resetTimerId = s.m_resetTimerId ∨ s.m_limit ≤ s.m_triggered + 1)
    (hc : actionCalls s'.log =
      actionCalls s.log + s.variant.kind.callsPerEvent * s.m_pOdeActionsIndexed.length)
    (hg : s.variant.kind.limitGated = true → LimitInv s →
      s.m_limit = 0 ∨ s.m_triggered < s.m_limit)
    (hp : ¬ pendingEvent s') :
    FrameStep s s' := by
  refine ⟨hl, ha, hk, by omega, ?_, ?_, ?_⟩
  · rw [hl, ht]
    exact hid
  · intro _
    rw [hc, ht, Nat.mul_add, Nat.add_mul, Nat.mul_one]
    omega
  · intro hgk hi h0
    rw [hl] at h0
    rw [hl, ht]
    rcases hg hgk hi with h | h
    · exact absurd h h0
    · exact ⟨h, fun hp' => absurd hp' hp⟩

/-- `OccurrenceOdeTrigger::CheckForOccurrence` is a frame step. -/
theorem OccurrenceOdeTrigger_CheckForOccurrence_step (s : OdeTrigger) (f : NvDsFrameMeta)
    (o : NvDsObjectMeta) (hv : s.variant = Variant.Occurrence) :
    FrameStep s (OccurrenceOdeTrigger.CheckForOccurrence s f o).2 := by
  have hg := CheckGates_limit s f o
  have ht := IncrementAndCheckTriggerCount_timer (CheckGates s f o).2
  unfold OccurrenceOdeTrigger.CheckForOccurrence
  dsimp only
  split_ifs with h1 h2
  · exact FrameStep_refl s
  · exact FrameStep_of_same (CheckGates_same s f o)
  · have hpass : (CheckGates s f o).1 = true := by simpa using h2
    refine FrameStep_fire (by simp) (by simp) (by simp) (by simp) (by simpa using ht)
      (by simp [hv, Variant.kind, Kind.callsPerEvent]) (fun _ _ => (hg hpass).2)
      (by simp [pendingEvent, hv])

/-- `OdeTrigger::PreProcessFrame` is a frame step. -/
theorem PreProcessFrame_step (s : OdeTrigger) (f : NvDsFrameMeta) :
    FrameStep s (OdeTrigger.PreProcessFrame s f) := by
  unfold OdeTrigger.PreProcessFrame
  dsimp only
  split_ifs <;>
    exact FrameStep_idle (by simp) (by simp) (by simp) (by simp) (by simp)
      (fun _ => by simp [actionCalls_append, actionCalls_map_AreaAddMeta]) (by simp)

/-- `AlwaysOdeTrigger::PreProcessFrame` is a frame step. -/
theorem AlwaysOdeTrigger_PreProcessFrame_step (s : OdeTrigger) (w : Nat) (f : NvDsFrameMeta)
    (hv : s.variant = Variant.Always w) :
    FrameStep s (AlwaysOdeTrigger.PreProcessFrame s w f) := by
  have hk : s.variant.kind = Kind.Always := by rw [hv]; rfl
  unfold AlwaysOdeTrigger.PreProcessFrame
  dsimp only
  split_ifs <;>
    exact FrameStep_idle (by simp) (by simp) (by simp) (by simp) (by simp)
      (fun h => absurd hk h) (by simp)

/-- `AlwaysOdeTrigger::PostProcessFrame` is a frame step. -/
theorem AlwaysOdeTrigger_PostProcessFrame_step (s : OdeTrigger) (w : Nat) (f : NvDsFrameMeta)
    (hv : s.variant = Variant.Always w) :
    FrameStep s (AlwaysOdeTrigger.PostProcessFrame s w f).2 := by
  have hk : s.variant.kind = Kind.Always := by rw [hv]; rfl
  unfold AlwaysOdeTrigger.PostProcessFrame
  dsimp only
  split_ifs <;>
    exact FrameStep_idle (by simp) (by simp) (by simp) (by simp) (by simp)
      (fun h => absurd hk h) (by simp)

/-- `AbsenceOdeTrigger::CheckForOccurrence` and `CountOdeTrigger::CheckForOccurrence`
(the same body) are frame steps. -/
theorem AbsenceOdeTrigger_CheckForOccurrence_step (s : OdeTrigger) (f : NvDsFrameMeta)
    (o : NvDsObjectMeta) (hv : s.variant = Variant.Absence) :
    FrameStep s (AbsenceOdeTrigger.CheckForOccurrence s f o).2 := by
  unfold AbsenceOdeTrigger.CheckForOccurrence
  dsimp only
  split_ifs
  · exact FrameStep_of_same (CheckGates_same s f o)
  · exact FrameStep_quiet (by simp) (by simp) (by simp) (by simp) (by simp)
      (fun _ => by simp) (by simp [pendingEvent, hv])

/-- `CountOdeTrigger::CheckForOccurrence` is a frame step. -/
theorem CountOdeTrigger_CheckForOccurrence_step (s : OdeTrigger) (f : NvDsFrameMeta)
    (o : NvDsObjectMeta) (v : CountState) (hv : s.variant = Variant.Count v) :
    FrameStep s (CountOdeTrigger.CheckForOccurrence s f o).2 := by
  unfold CountOdeTrigger.CheckForOccurrence
  dsimp only
  split_ifs
  · exact FrameStep_of_same (CheckGates_same s f o)
  · exact FrameStep_quiet (by simp) (by simp) (by simp) (by simp) (by simp)
      (fun _ => by simp) (by simp [pendingEvent, hv])

/-- `SummationOdeTrigger::CheckForOccurrence`, also run by the New-Low and New-High
triggers, is a frame step. -/
theorem SummationOdeTrigger_CheckForOccurrence_step (s : OdeTrigger) (f : NvDsFrameMeta)
    (o : NvDsObjectMeta) :
    FrameStep s (SummationOdeTrigger.CheckForOccurrence s f o).2 := by
  have hg := CheckGates_limit s f o
  unfold SummationOdeTrigger.CheckForOccurrence
  dsimp only
  split_ifs with h1 h2
  · exact FrameStep_refl s
  · exact FrameStep_of_same (CheckGates_same s f o)
  · have hpass : (CheckGates s f o).1 = true := by simpa using h2
    exact FrameStep_quiet (by simp) (by simp) (by simp) (by simp) (by simp)
      (fun _ => by simp) (fun _ => Or.inr (hg hpass).2)

/-- `AbsenceOdeTrigger::PostProcessFrame` is a frame step. -/
theorem AbsenceOdeTrigger_PostProcessFrame_step (s : OdeTrigger) (f : NvDsFrameMeta)
    (hv : s.variant = Variant.Absence) :
    FrameStep s (AbsenceOdeTrigger.PostProcessFrame s f).2 := by
  have ht := IncrementAndCheckTriggerCount_timer s
  unfold AbsenceOdeTrigger.PostProcessFrame
  dsimp only
  split_ifs with h1
  · exact FrameStep_refl s
  · refine FrameStep_fire (by simp) (by simp) (by simp) (by simp) (by simpa using ht)
      (by simp [hv, Variant.kind, Kind.callsPerEvent]) (fun _ _ => ?_)
      (by simp [pendingEvent, hv])
    by_cases h0 : s.m_limit = 0
    · exact Or.inl h0
    · right
      by_contra h3
      exact h1 (Or.inr (Or.inl ⟨h0, Nat.le_of_not_lt h3⟩))

/-- `SummationOdeTrigger::PostProcessFrame` is a frame step. -/
theorem SummationOdeTrigger_PostProcessFrame_step (s : OdeTrigger) (f : NvDsFrameMeta)
    (hv : s.variant = Variant.Summation) :
    FrameStep s (SummationOdeTrigger.PostProcessFrame s f).2 := by
  have ht := IncrementAndCheckTriggerCount_timer s
  unfold SummationOdeTrigger.PostProcessFrame
  dsimp only
  split_ifs with h1
  · exact FrameStep_refl s
  · refine FrameStep_fire (by simp) (by simp) (by simp) (by simp) (by simpa using ht)
      (by simp [hv, Variant.kind, Kind.callsPerEvent]) (fun _ _ => ?_)
      (by simp [pendingEvent, hv])
    by_cases h0 : s.m_limit = 0
    · exact Or.inl h0
    · right
      by_contra h3
      exact h1 (Or.inr (Or.inr ⟨h0, Nat.le_of_not_lt h3⟩))

/-- `AccumulationOdeTrigger::CheckForOccurrence` is a frame step. -/
theorem AccumulationOdeTrigger_CheckForOccurrence_step (s : OdeTrigger)
    (v : AccumulationState) (f : NvDsFrameMeta) (o : NvDsObjectMeta)
    (hv : s.variant = Variant.Accumulation v) :
    FrameStep s (AccumulationOdeTrigger.CheckForOccurrence s v f o).2 := by
  unfold AccumulationOdeTrigger.CheckForOccurrence
  dsimp only
  split_ifs
  · exact FrameStep_refl s
  · exact FrameStep_of_same (CheckGates_same s f o)
  · exact FrameStep_quiet (by simp) (by simp) (by simp [hv, Variant.kind]) (by simp)
      (by simp) (fun _ => by simp) (by simp [pendingEvent])
  · exact FrameStep_quiet (by simp) (by simp) (by simp [hv, Variant.kind]) (by simp)
      (by simp) (fun _ => by simp) (by simp [pendingEvent])

/-- `AccumulationOdeTrigger::PostProcessFrame` is a frame step. -/
theorem AccumulationOdeTrigger_PostProcessFrame_step (s : OdeTrigger)
    (v : AccumulationState) (f : NvDsFrameMeta) (hv : s.variant = Variant.Accumulation v) :
    FrameStep s (AccumulationOdeTrigger.PostProcessFrame s v f).2 := by
  have ht := IncrementAndCheckTriggerCount_timer s
  unfold AccumulationOdeTrigger.PostProcessFrame
  dsimp only
  split_ifs with h1
  · exact FrameStep_refl s
  · refine FrameStep_fire (by simp) (by simp) (by simp) (by simp) (by simpa using ht)
      (by simp [hv, Variant.kind, Kind.callsPerEvent]) (fun _ _ => ?_)
      (by simp [pendingEvent, hv])
    by_cases h0 : s.m_limit = 0
    · exact Or.inl h0
    · right
      by_contra h3
      exact h1 (Or.inr (Or.inr ⟨h0, Nat.le_of_not_lt h3⟩))

/-- `InstanceOdeTrigger::CheckForOccurrence` is a frame step. -/
theorem InstanceOdeTrigger_CheckForOccurrence_step (s : OdeTrigger) (v : InstanceState)
    (f : NvDsFrameMeta) (o : NvDsObjectMeta) (hv : s.variant = Variant.Instance v) :
    FrameStep s (InstanceOdeTrigger.CheckForOccurrence s v f o).2 := by
  have hg := CheckGates_limit s f o
  unfold InstanceOdeTrigger.CheckForOccurrence
  dsimp only
  split_ifs with h1 h2 h3
  · exact FrameStep_refl s
  · exact FrameStep_of_same (CheckGates_same s f o)
  · have hpass : (CheckGates s f o).1 = true := by simpa using h2
    generalize mapInsert stringLt (initInstance v.m_instances (sourceAndClassId f o))
      (sourceAndClassId f o) o.object_id = m
    have ht := IncrementAndCheckTriggerCount_timer
      { (CheckGates s f o).2 with variant := Variant.Instance ⟨m⟩ }
    refine FrameStep_fire (by simp) (by simp) (by simp [hv, Variant.kind]) (by simp)
      (by simpa using ht)
      (by simp [hv, Variant.kind, Kind.callsPerEvent]) (fun _ _ => (hg hpass).2)
      (by simp [pendingEvent])
  · exact FrameStep_quiet (by simp) (by simp) (by simp [hv, Variant.kind]) (by simp)
      (by simp) (fun _ => by simp) (by simp [pendingEvent])

/-- `CustomOdeTrigger::CheckForOccurrence` is a frame step. -/
theorem CustomOdeTrigger_CheckForOccurrence_step (s : OdeTrigger) (v : CustomState)
    (f : NvDsFrameMeta) (o : NvDsObjectMeta) (hv : s.variant = Variant.Custom v) :
    FrameStep s (CustomOdeTrigger.CheckForOccurrence s v f o).2 := by
  have hg := CheckGates_limit s f o
  have ht := IncrementAndCheckTriggerCount_timer (CheckGates s f o).2
  unfold CustomOdeTrigger.CheckForOccurrence
  dsimp only
  by_cases h1 : (!s.m_enabled) = true
  · rw [if_pos h1]
    exact FrameStep_refl s
  rw [if_neg h1]
  split
  · exact FrameStep_refl s
  · by_cases h2 : (!(CheckGates s f o).1) = true
    · rw [if_pos h2]
      exact FrameStep_of_same (CheckGates_same s f o)
    rw [if_neg h2]
    have hpass : (CheckGates s f o).1 = true := by simpa using h2
    split
    · exact FrameStep_of_same (CheckGates_same s f o)
    · exact FrameStep_of_same (CheckGates_same s f o)
    · exact FrameStep_fire (by simp) (by simp) (by simp) (by simp) (by simpa using ht)
        (by simp [hv, Variant.kind, Kind.callsPerEvent]) (fun _ _ => (hg hpass).2)
        (by simp [pendingEvent, hv])

/-- `CustomOdeTrigger::PostProcessFrame` is a frame step. -/
theorem CustomOdeTrigger_PostProcessFrame_step (s : OdeTrigger) (v : CustomState)
    (f : NvDsFrameMeta) (hv : s.variant = Variant.Custom v) :
    FrameStep s (CustomOdeTrigger.PostProcessFrame s v f).2 := by
  have ht := IncrementAndCheckTriggerCount_timer s
  unfold CustomOdeTrigger.PostProcessFrame
  dsimp only
  by_cases h1 : (!s.m_enabled) = true
  · rw [if_pos h1]
    exact FrameStep_refl s
  rw [if_neg h1]
  split
  · exact FrameStep_refl s
  · split
    · exact FrameStep_refl s
    · exact FrameStep_refl s
    · exact FrameStep_fire (by simp) (by simp) (by simp) (by simp) (by simpa using ht)
        (by simp [hv, Variant.kind, Kind.callsPerEvent])
        (fun hk => absurd hk (by simp [hv, Variant.kind, Kind.limitGated]))
        (by simp [pendingEvent, hv])

/-- `CountOdeTrigger::PostProcessFrame` is a frame step. -/
theorem CountOdeTrigger_PostProcessFrame_step (s : OdeTrigger) (v : CountState)
    (f : NvDsFrameMeta) (hv : s.variant = Variant.Count v) :
    FrameStep s (CountOdeTrigger.PostProcessFrame s v f).2 := by
  have ht := IncrementAndCheckTriggerCount_timer s
  unfold CountOdeTrigger.PostProcessFrame
  dsimp only
  split_ifs with h1
  · exact FrameStep_refl s
  · exact FrameStep_fire (by simp) (by simp) (by simp) (by simp) (by simpa using ht)
      (by simp [hv, Variant.kind, Kind.callsPerEvent])
      (fun hk => absurd hk (by simp [hv, Variant.kind, Kind.limitGated]))
      (by simp [pendingEvent, hv])

/-- A trace display call is no Action invocation. -/
@[simp]
theorem actionCalls_MultiLineAddMeta (tr : List dsl_coordinate) :
    actionCalls [Effect.MultiLineAddMeta tr] = 0 :=
  rfl

/-- The Area loop of the Cross trigger is a frame step, from a state in which the limit
is not reached. -/
theorem CrossOdeTrigger_AreaLoop_step (v : CrossState) (t : TrackedObject)
    (f : NvDsFrameMeta) (o : NvDsObjectMeta) (areas : List (Nat × OdeArea)) :
    ∀ (s : OdeTrigger), s.variant.kind = Kind.Cross →
      (s.m_limit = 0 ∨ s.m_triggered < s.m_limit) →
      FrameStep s (CrossOdeTrigger.AreaLoop v t f o s areas).2 := by
  induction areas with
  | nil =>
    intro s _ _
    exact FrameStep_refl s
  | cons a areas ih =>
    intro s hk hg
    obtain ⟨i, pOdeArea⟩ := a
    have hpend : ∀ x : OdeTrigger, x.variant.kind = Kind.Cross → ¬ pendingEvent x := by
      intro x hx
      unfold pendingEvent
      cases hxv : x.variant <;> rw [hxv] at hx <;> simp [Variant.kind] at hx ⊢
    unfold CrossOdeTrigger.AreaLoop
    dsimp only
    by_cases hte : v.m_traceEnabled = true
    · simp only [hte, if_true]
      split_ifs with hc
      · have ht := IncrementAndCheckTriggerCount_timer { s with
          log := s.log ++ [Effect.MultiLineAddMeta (t.GetTrace pOdeArea.bboxTestPoint
            v.m_testMethod)] }
        exact FrameStep_fire (by simp) (by simp) (by rw [hk]; rfl) (by simp)
          (by simpa using ht)
          (by simp [hk, Kind.callsPerEvent, actionCalls_append])
          (fun _ _ => hg) (hpend _ rfl)
      · refine FrameStep_trans (t := { s with
          log := s.log ++ [Effect.MultiLineAddMeta (t.GetTrace pOdeArea.bboxTestPoint
            v.m_testMethod)] }) ?_ (ih _ (by simpa using hk) (by simpa using hg))
        exact FrameStep_idle rfl rfl rfl rfl rfl
          (fun _ => by simp [actionCalls_append]) (Nat.le_refl _)
    · simp only [hte, if_false, Bool.false_eq_true]
      split_ifs with hc
      · have ht := IncrementAndCheckTriggerCount_timer s
        exact FrameStep_fire (by simp) (by simp) (by rw [hk]; rfl) (by simp)
          (by simpa using ht)
          (by simp [hk, Kind.callsPerEvent])
          (fun _ _ => hg) (hpend _ rfl)
      · exact ih s hk hg

/-- `CrossOdeTrigger::CheckForOccurrence` is a frame step. -/
theorem CrossOdeTrigger_CheckForOccurrence_step (s : OdeTrigger) (v : CrossState)
    (f : NvDsFrameMeta) (o : NvDsObjectMeta) (hv : s.variant = Variant.Cross v) :
    FrameStep s (CrossOdeTrigger.CheckForOccurrence s v f o).2 := by
  have hs1 := CheckForSourceId_same s f.source_id
  have hs2 := SameCore_trans hs1 (CheckForMinCriteria_same (CheckForSourceId s f.source_id).2 f o)
  have hg := CheckForMinCriteria_limit (CheckForSourceId s f.source_id).2 f o
  unfold CrossOdeTrigger.CheckForOccurrence
  dsimp only
  by_cases h0 : s.m_pOdeAreasIndexed.length = 0
  · rw [if_pos h0]
    exact FrameStep_refl s
  rw [if_neg h0]
  by_cases h1 : (!(CheckForSourceId s f.source_id).1) = true
  · rw [if_pos h1]
    exact FrameStep_of_same hs1
  rw [if_neg h1]
  by_cases h2 : (!(CheckForMinCriteria (CheckForSourceId s f.source_id).2 f o).1) = true
  · rw [if_pos h2]
    exact FrameStep_of_same hs2
  rw [if_neg h2]
  have hpass : (CheckForMinCriteria (CheckForSourceId s f.source_id).2 f o).1 = true := by
    simpa using h2
  have hlim : s.m_limit = 0 ∨ s.m_triggered < s.m_limit := by
    simpa using (hg hpass).2
  by_cases h3 : (!v.m_pTrackedObjectsPerSource.IsTracked f.source_id o.object_id) = true
  · rw [if_pos h3]
    exact FrameStep_quiet (by simp) (by simp) (by simp [hv, Variant.kind]) (by simp)
      (by simp) (fun _ => by simp) (by simp [pendingEvent])
  rw [if_neg h3]
  split
  · exact FrameStep_of_same hs2
  · refine FrameStep_trans (t := { (CheckForMinCriteria (CheckForSourceId s f.source_id).2
        f o).2 with variant := Variant.Cross _ }) ?_
      (CrossOdeTrigger_AreaLoop_step _ _ f o _ _ rfl (by simpa using hlim))
    exact FrameStep_quiet (by simp) (by simp) (by simp [hv, Variant.kind]) (by simp)
      (by simp) (fun _ => by simp) (by simp [pendingEvent])

/-- `CrossOdeTrigger::PostProcessFrame` is a frame step. -/
theorem CrossOdeTrigger_PostProcessFrame_step (s : OdeTrigger) (v : CrossState)
    (f : NvDsFrameMeta) (hv : s.variant = Variant.Cross v) :
    FrameStep s (CrossOdeTrigger.PostProcessFrame s v f).2 := by
  unfold CrossOdeTrigger.PostProcessFrame
  split_ifs
  · exact FrameStep_refl s
  · exact FrameStep_refl s
  · exact FrameStep_quiet (by simp) (by simp) (by simp [hv, Variant.kind]) (by simp)
      (by simp) (fun _ => by simp) (by simp [pendingEvent])

/-- `PersistenceOdeTrigger::CheckForOccurrence` is a frame step. -/
theorem PersistenceOdeTrigger_CheckForOccurrence_step (s : OdeTrigger)
    (v : PersistenceState) (f : NvDsFrameMeta) (o : NvDsObjectMeta)
    (hv : s.variant = Variant.Persistence v) :
    FrameStep s (PersistenceOdeTrigger.CheckForOccurrence s v f o).2 := by
  have hg := CheckGates_limit s f o
  unfold PersistenceOdeTrigger.CheckForOccurrence
  dsimp only
  by_cases h1 : (!(CheckGates s f o).1) = true
  · rw [if_pos h1]
    exact FrameStep_of_same (CheckGates_same s f o)
  rw [if_neg h1]
  have hpass : (CheckGates s f o).1 = true := by simpa using h1
  by_cases h3 : (!v.m_pTrackedObjectsPerSource.IsTracked f.source_id o.object_id) = true
  · rw [if_pos h3]
    exact FrameStep_quiet (by simp) (by simp) (by simp [hv, Variant.kind]) (by simp)
      (by simp) (fun _ => by simp) (by simp [pendingEvent])
  rw [if_neg h3]
  split
  · exact FrameStep_of_same (CheckGates_same s f o)
  · rename_i pTrackedObject _
    split_ifs
    · have ht := IncrementAndCheckTriggerCount_timer { (CheckGates s f o).2 with
        variant := Variant.Persistence { v with
          m_pTrackedObjectsPerSource := v.m_pTrackedObjectsPerSource.Put
            (pTrackedObject.Update f.frame_num o.rect_params (CheckGates s f o).2.nowMs) } }
      exact FrameStep_fire (by simp) (by simp) (by simp [hv, Variant.kind]) (by simp)
        (by simpa using ht)
        (by simp [hv, Variant.kind, Kind.callsPerEvent]) (fun _ _ => (hg hpass).2)
        (by simp [pendingEvent])
    · exact FrameStep_quiet (by simp) (by simp) (by simp [hv, Variant.kind]) (by simp)
        (by simp) (fun _ => by simp) (by simp [pendingEvent])

/-- `PersistenceOdeTrigger::PostProcessFrame` is a frame step. -/
theorem PersistenceOdeTrigger_PostProcessFrame_step (s : OdeTrigger)
    (v : PersistenceState) (f : NvDsFrameMeta) (hv : s.variant = Variant.Persistence v) :
    FrameStep s (PersistenceOdeTrigger.PostProcessFrame s v f).2 := by
  unfold PersistenceOdeTrigger.PostProcessFrame
  split_ifs
  · exact FrameStep_refl s
  · exact FrameStep_quiet (by simp) (by simp) (by simp [hv, Variant.kind]) (by simp)
      (by simp) (fun _ => by simp) (by simp [pendingEvent])

/-- `SmallestOdeTrigger::CheckForOccurrence` is a frame step. -/
theorem SmallestOdeTrigger_CheckForOccurrence_step (s : OdeTrigger) (v : ExtremumState)
    (f : NvDsFrameMeta) (o : NvDsObjectMeta) (hv : s.variant = Variant.Smallest v) :
    FrameStep s (SmallestOdeTrigger.CheckForOccurrence s v f o).2 := by
  have hg := CheckGates_limit s f o
  unfold SmallestOdeTrigger.CheckForOccurrence
  dsimp only
  split_ifs with h1
  · exact FrameStep_of_same (CheckGates_same s f o)
  · have hpass : (CheckGates s f o).1 = true := by simpa using h1
    exact FrameStep_quiet (by simp) (by simp) (by rw [hv]; rfl) (by simp)
      (by simp) (fun _ => by simp) (fun _ => Or.inr (hg hpass).2)

/-- `LargestOdeTrigger::CheckForOccurrence` is a frame step. -/
theorem LargestOdeTrigger_CheckForOccurrence_step (s : OdeTrigger) (v : ExtremumState)
    (f : NvDsFrameMeta) (o : NvDsObjectMeta) (hv : s.variant = Variant.Largest v) :
    FrameStep s (LargestOdeTrigger.CheckForOccurrence s v f o).2 := by
  have hg := CheckGates_limit s f o
  unfold LargestOdeTrigger.CheckForOccurrence
  dsimp only
  split_ifs with h1
  · exact FrameStep_of_same (CheckGates_same s f o)
  · have hpass : (CheckGates s f o).1 = true := by simpa using h1
    exact FrameStep_quiet (by simp) (by simp) (by rw [hv]; rfl) (by simp)
      (by simp) (fun _ => by simp) (fun _ => Or.inr (hg hpass).2)

/-- `SmallestOdeTrigger::PostProcessFrame`, where it returns, is a frame step. -/
theorem SmallestOdeTrigger_PostProcessFrame_step (s : OdeTrigger) (v : ExtremumState)
    (f : NvDsFrameMeta) (hv : s.variant = Variant.Smallest v) :
    FrameStep s ((SmallestOdeTrigger.PostProcessFrame s v f).getD (0, s)).2 := by
  have ht := IncrementAndCheckTriggerCount_timer { s with m_occurrences := 1 }
  unfold SmallestOdeTrigger.PostProcessFrame
  dsimp only
  split_ifs with h1
  · split
    · exact FrameStep_refl s
    · simp only [Option.getD_some]
      refine FrameStep_fire (by simp) (by simp) (by rw [hv]; rfl) (by simp) (by simpa using ht)
        (by simp [hv, Variant.kind, Kind.callsPerEvent]) (fun _ hi => ?_)
        (by simp [pendingEvent])
      by_cases h0 : s.m_limit = 0
      · exact Or.inl h0
      · right
        refine (hi h0).2 ?_
        unfold pendingEvent
        rw [hv]
        intro he
        exact h1.2 (by rw [he]; rfl)
  · simp only [Option.getD_some]
    exact FrameStep_quiet (by simp) (by simp) (by rw [hv]; rfl) (by simp)
      (by simp) (fun _ => by simp) (by simp [pendingEvent])

/-- `LargestOdeTrigger::PostProcessFrame`, where it returns, is a frame step. -/
theorem LargestOdeTrigger_PostProcessFrame_step (s : OdeTrigger) (v : ExtremumState)
    (f : NvDsFrameMeta) (hv : s.variant = Variant.Largest v) :
    FrameStep s ((LargestOdeTrigger.PostProcessFrame s v f).getD (0, s)).2 := by
  have ht := IncrementAndCheckTriggerCount_timer { s with m_occurrences := 1 }
  unfold LargestOdeTrigger.PostProcessFrame
  dsimp only
  split_ifs with h1
  · split
    · exact FrameStep_refl s
    · simp only [Option.getD_some]
      refine FrameStep_fire (by simp) (by simp) (by rw [hv]; rfl) (by simp) (by simpa using ht)
        (by simp [hv, Variant.kind, Kind.callsPerEvent]) (fun _ hi => ?_)
        (by simp [pendingEvent])
      by_cases h0 : s.m_limit = 0
      · exact Or.inl h0
      · right
        refine (hi h0).2 ?_
        unfold pendingEvent
        rw [hv]
        intro he
        exact h1.2 (by rw [he]; rfl)
  · simp only [Option.getD_some]
    exact FrameStep_quiet (by simp) (by simp) (by rw [hv]; rfl) (by simp)
      (by simp) (fun _ => by simp) (by simp [pendingEvent])

/-- `LatestOdeTrigger::CheckForOccurrence` and `EarliestOdeTrigger::CheckForOccurrence`
are frame steps. -/
theorem DurationOdeTrigger_CheckForOccurrence_step (newer : Int → Int → Bool)
    (put : DurationState → Variant) (s : OdeTrigger) (v : DurationState)
    (f : NvDsFrameMeta) (o : NvDsObjectMeta)
    (hput : ∀ w, (put w).kind = s.variant.kind) :
    FrameStep s (DurationOdeTrigger.CheckForOccurrence newer put s v f o).2 := by
  have hg := CheckGates_limit s f o
  unfold DurationOdeTrigger.CheckForOccurrence
  dsimp only
  by_cases h1 : (!(CheckGates s f o).1) = true
  · rw [if_pos h1]
    exact FrameStep_of_same (CheckGates_same s f o)
  rw [if_neg h1]
  have hpass : (CheckGates s f o).1 = true := by simpa using h1
  by_cases h3 : (!v.m_pTrackedObjectsPerSource.IsTracked f.source_id o.object_id) = true
  · rw [if_pos h3]
    exact FrameStep_quiet (by simp) (by simp) (by simp [hput]) (by simp)
      (by simp) (fun _ => by simp) (fun _ => Or.inr (hg hpass).2)
  rw [if_neg h3]
  split
  · exact FrameStep_of_same (CheckGates_same s f o)
  · split_ifs
    · exact FrameStep_quiet (by simp) (by simp) (by simp [hput]) (by simp)
        (by simp) (fun _ => by simp) (fun _ => Or.inr (hg hpass).2)
    · exact FrameStep_quiet (by simp) (by simp) (by simp [hput]) (by simp)
        (by simp) (fun _ => by simp) (fun _ => Or.inr (hg hpass).2)

/-- `LatestOdeTrigger::PostProcessFrame` and `EarliestOdeTrigger::PostProcessFrame` are
frame steps. -/
theorem DurationOdeTrigger_PostProcessFrame_step (put : DurationState → Variant)
    (s : OdeTrigger) (v : DurationState) (f : NvDsFrameMeta)
    (hv : s.variant = put v)
    (hput : put = Variant.Latest ∨ put = Variant.Earliest) :
    FrameStep s (DurationOdeTrigger.PostProcessFrame put s v f).2 := by
  have ht := IncrementAndCheckTriggerCount_timer s
  have hkind : ∀ w, (put w).kind = s.variant.kind := by
    intro w
    rw [hv]
    rcases hput with h | h <;> rw [h] <;> rfl
  have hcalls : s.variant.kind.callsPerEvent = 1 := by
    rw [hv]
    rcases hput with h | h <;> rw [h] <;> rfl
  have hpend : ∀ (x : OdeTrigger) (w : DurationState), x.variant = put w →
      (pendingEvent x ↔ w.m_pObjectMeta.isSome = true) := by
    intro x w hx
    unfold pendingEvent
    rw [hx]
    rcases hput with h | h <;> rw [h]
  unfold DurationOdeTrigger.PostProcessFrame
  dsimp only
  by_cases h1 : v.m_pTrackedObjectsPerSource.IsEmpty = true
  · rw [if_pos h1]
    exact FrameStep_refl s
  rw [if_neg h1]
  cases hm : v.m_pObjectMeta with
  | none =>
    dsimp only
    refine FrameStep_quiet (by simp) (by simp) (by simp [hkind]) (by simp)
      (by simp) (fun _ => by simp) (fun hp => ?_)
    rw [hpend _ _ rfl] at hp
    simp [hm] at hp
  | some m =>
    dsimp only
    refine FrameStep_fire (by simp) (by simp) (by simp [hkind]) (by simp) (by simpa using ht)
      (by simp [hcalls]) (fun _ hi => ?_) ?_
    · by_cases h0 : s.m_limit = 0
      · exact Or.inl h0
      · right
        refine (hi h0).2 ?_
        rw [hpend s v hv, hm]
        rfl
    · rw [hpend _ _ rfl]
      simp

/-- `NewLowOdeTrigger::PostProcessFrame` is a frame step. -/
theorem NewLowOdeTrigger_PostProcessFrame_step (s : OdeTrigger) (v : NewExtremeState)
    (f : NvDsFrameMeta) (hv : s.variant = Variant.NewLow v) :
    FrameStep s (NewLowOdeTrigger.PostProcessFrame s v f).2 := by
  have ht := IncrementAndCheckTriggerCount_timer { s with
    variant := Variant.NewLow { v with m_current := s.m_occurrences } }
  unfold NewLowOdeTrigger.PostProcessFrame
  dsimp only
  split_ifs with h1
  · exact FrameStep_refl s
  · exact FrameStep_fire (by simp) (by simp) (by rw [hv]; simp [Variant.kind]) (by simp)
      (by simpa using ht)
      (by simp [hv, Variant.kind, Kind.callsPerEvent])
      (fun hk => absurd hk (by simp [hv, Variant.kind, Kind.limitGated]))
      (by simp [pendingEvent])

/-- `NewHighOdeTrigger::PostProcessFrame` is a frame step. -/
theorem NewHighOdeTrigger_PostProcessFrame_step (s : OdeTrigger) (v : NewExtremeState)
    (f : NvDsFrameMeta) (hv : s.variant = Variant.NewHigh v) :
    FrameStep s (NewHighOdeTrigger.PostProcessFrame s v f).2 := by
  have ht := IncrementAndCheckTriggerCount_timer { s with
    variant := Variant.NewHigh { v with m_current := s.m_occurrences } }
  unfold NewHighOdeTrigger.PostProcessFrame
  dsimp only
  split_ifs with h1
  · exact FrameStep_refl s
  · refine FrameStep_fire (by simp) (by simp) (by rw [hv]; simp [Variant.kind]) (by simp)
      (by simpa using ht)
      (by simp [hv, Variant.kind, Kind.callsPerEvent])
      (fun _ hi => ?_)
      (by simp [pendingEvent])
    by_cases h0 : s.m_limit = 0
    · exact Or.inl h0
    · right
      refine (hi h0).2 ?_
      unfold pendingEvent
      rw [hv]
      dsimp only
      by_contra h2
      exact h1 (Or.inr (Nat.le_of_not_lt h2))

/-- Changing the class-id filter leaves the core members as they are. -/
theorem SameCore_classId (s : OdeTrigger) (c : Nat) : SameCore s { s with m_classId := c } :=
  ⟨rfl, rfl, rfl, rfl, rfl, rfl, rfl, rfl, rfl, rfl, rfl, rfl⟩

/-- What is pending for an AB trigger, in terms of its two lists. -/
theorem pendingEvent_AB (put : ABState → Variant)
    (hput : (∃ v, put = fun ab => Variant.Distance ab v) ∨ put = Variant.Intersection)
    (x : OdeTrigger) (ab : ABState) (hx : x.variant = put ab) :
    pendingEvent x ↔ (ab.m_occurrenceMetaListA ≠ [] ∨
      (ab.m_classIdAOnly = false ∧ ab.m_occurrenceMetaListB ≠ [])) := by
  unfold pendingEvent
  rw [hx]
  rcases hput with ⟨v, h⟩ | h <;> rw [h]

/-- The class of an AB trigger rebuilt around other AB members. -/
theorem kind_AB (put : ABState → Variant)
    (hput : (∃ v, put = fun ab => Variant.Distance ab v) ∨ put = Variant.Intersection)
    (ab ab' : ABState) : (put ab').kind = (put ab).kind ∧ (put ab).kind.callsPerEvent = 2 ∧
      (put ab).kind ≠ Kind.Always := by
  rcases hput with ⟨v, h⟩ | h <;> rw [h] <;> exact ⟨rfl, rfl, by simp [Variant.kind]⟩

/-- `ABOdeTrigger::CheckForOccurrence` is a frame step. -/
theorem ABOdeTrigger_CheckForOccurrence_step (s : OdeTrigger) (ab : ABState)
    (put : ABState → Variant)
    (hput : (∃ v, put = fun ab => Variant.Distance ab v) ∨ put = Variant.Intersection)
    (f : NvDsFrameMeta) (o : NvDsObjectMeta) (hv : s.variant = put ab) :
    FrameStep s (ABOdeTrigger.CheckForOccurrence s ab put f o).2 := by
  have hk : ∀ ab', (put ab').kind = s.variant.kind := by
    intro ab'
    rw [hv]
    exact (kind_AB put hput ab ab').1
  have hs1 := CheckForSourceId_same s f.source_id
  have hs2 := SameCore_trans hs1 (SameCore_classId (CheckForSourceId s f.source_id).2 ab.m_classIdA)
  have hg1 := CheckForMinCriteria_limit
    { (CheckForSourceId s f.source_id).2 with m_classId := ab.m_classIdA } f o
  have hs3 := SameCore_trans hs2 (CheckForMinCriteria_same
    { (CheckForSourceId s f.source_id).2 with m_classId := ab.m_classIdA } f o)
  have hs4 := SameCore_trans hs3 (SameCore_classId (CheckForMinCriteria
    { (CheckForSourceId s f.source_id).2 with m_classId := ab.m_classIdA } f o).2
    ab.m_classIdB)
  have hg2 := CheckForMinCriteria_limit { (CheckForMinCriteria
    { (CheckForSourceId s f.source_id).2 with m_classId := ab.m_classIdA } f o).2 with
    m_classId := ab.m_classIdB } f o
  have hs5 := SameCore_trans hs4 (CheckForMinCriteria_same { (CheckForMinCriteria
    { (CheckForSourceId s f.source_id).2 with m_classId := ab.m_classIdA } f o).2 with
    m_classId := ab.m_classIdB } f o)
  unfold ABOdeTrigger.CheckForOccurrence
  dsimp only
  by_cases h0 : (!s.m_enabled) = true
  · rw [if_pos h0]
    exact FrameStep_refl s
  rw [if_neg h0]
  by_cases h1 : (!(CheckForSourceId s f.source_id).1) = true
  · rw [if_pos h1]
    exact FrameStep_of_same hs1
  rw [if_neg h1]
  split_ifs with h2 h3 h4
  · have hlim : s.m_limit = 0 ∨ s.m_triggered < s.m_limit := by
      simpa using (hg1 h2.1).2
    exact FrameStep_quiet (by simp) (by simp) (by simp [hk]) (by simp)
      (by simp) (fun _ => by simp) (fun _ => Or.inr hlim)
  · have hlim : s.m_limit = 0 ∨ s.m_triggered < s.m_limit := by
      simpa using (hg2 h4.1).2
    exact FrameStep_quiet (by simp) (by simp) (by simp [hk]) (by simp)
      (by simp) (fun _ => by simp) (fun _ => Or.inr hlim)
  · exact FrameStep_of_same hs5
  · exact FrameStep_of_same hs3

/-- The pair loops of the AB triggers: the limit, the Actions and the concrete members
stay, every event invokes each Action twice, and from a state below the limit the count
of events ends within the limit. -/
theorem ABOdeTrigger_PairLoop_step (test : NvDsObjectMeta → NvDsObjectMeta → Option Bool)
    (f : NvDsFrameMeta) (pairs : List (NvDsObjectMeta × NvDsObjectMeta)) :
    ∀ (s : OdeTrigger),
      (ABOdeTrigger.PairLoop test f s pairs).m_limit = s.m_limit ∧
      (ABOdeTrigger.PairLoop test f s pairs).m_pOdeActionsIndexed = s.m_pOdeActionsIndexed ∧
      (ABOdeTrigger.PairLoop test f s pairs).variant = s.variant ∧
      s.m_triggered ≤ (ABOdeTrigger.PairLoop test f s pairs).m_triggered ∧
      ((ABOdeTrigger.PairLoop test f s pairs).m_resetTimerId = s.m_resetTimerId ∨
        s.m_limit ≤ (ABOdeTrigger.PairLoop test f s pairs).m_triggered) ∧
      actionCalls (ABOdeTrigger.PairLoop test f s pairs).log +
          2 * s.m_triggered * s.m_pOdeActionsIndexed.length =
        actionCalls s.log + 2 * (ABOdeTrigger.PairLoop test f s pairs).m_triggered *
          s.m_pOdeActionsIndexed.length ∧
      ((s.m_limit = 0 ∨ s.m_triggered < s.m_limit) → s.m_limit ≠ 0 →
        (ABOdeTrigger.PairLoop test f s pairs).m_triggered ≤ s.m_limit) := by
  induction pairs with
  | nil =>
    intro s
    refine ⟨rfl, rfl, rfl, Nat.le_refl _, Or.inl rfl, rfl, ?_⟩
    intro h h0
    rcases h with h | h
    · exact absurd h h0
    · exact Nat.le_of_lt h
  | cons p pairs ih =>
    intro s
    obtain ⟨a, b⟩ := p
    have hq : ∀ (h : s.m_limit = 0 ∨ s.m_triggered < s.m_limit), s.m_limit ≠ 0 →
        s.m_triggered ≤ s.m_limit := by
      intro h h0
      rcases h with h | h
      · exact absurd h h0
      · exact Nat.le_of_lt h
    unfold ABOdeTrigger.PairLoop
    split
    · exact ⟨rfl, rfl, rfl, Nat.le_refl _, Or.inl rfl, rfl, hq⟩
    · exact ih s
    · have ht := IncrementAndCheckTriggerCount_timer { s with
        m_occurrences := s.m_occurrences + 1 }
      have e1 : (ABOdeTrigger.handlePair s f a b).m_limit = s.m_limit := by
        simp [ABOdeTrigger.handlePair]
      have e2 : (ABOdeTrigger.handlePair s f a b).m_pOdeActionsIndexed =
          s.m_pOdeActionsIndexed := by
        simp [ABOdeTrigger.handlePair]
      have e3 : (ABOdeTrigger.handlePair s f a b).variant = s.variant := by
        simp [ABOdeTrigger.handlePair]
      have e4 : (ABOdeTrigger.handlePair s f a b).m_triggered = s.m_triggered + 1 := by
        simp [ABOdeTrigger.handlePair]
      have e5 : (ABOdeTrigger.handlePair s f a b).m_resetTimerId = s.m_resetTimerId ∨
          s.m_limit ≤ s.m_triggered + 1 := by
        simpa [ABOdeTrigger.handlePair] using ht
      have e6 : actionCalls (ABOdeTrigger.handlePair s f a b).log =
          actionCalls s.log + 2 * s.m_pOdeActionsIndexed.length := by
        simp [ABOdeTrigger.handlePair, actionCalls_append,
          actionCalls_flatMap_HandleOccurrence]
      dsimp only
      split_ifs with hx
      · refine ⟨e1, e2, e3, by omega, ?_, ?_, ?_⟩
        · rw [e4]
          exact e5
        · rw [e6, e4, Nat.mul_add, Nat.add_mul, Nat.mul_one]
          omega
        · intro h h0
          rw [e4]
          rcases h with h | h
          · exact absurd h h0
          · omega
      · obtain ⟨i1, i2, i3, i4, i5, i6, i7⟩ := ih (ABOdeTrigger.handlePair s f a b)
        rw [e1, e2, e4] at *
        refine ⟨i1, i2, i3.trans e3, by omega, ?_, ?_, ?_⟩
        · rcases i5 with h | h
          · rcases e5 with h' | h'
            · exact Or.inl (h.trans h')
            · right
              omega
          · exact Or.inr h
        · rw [e6] at i6
          rw [Nat.mul_add, Nat.add_mul, Nat.mul_one] at i6
          omega
        · intro h h0
          refine i7 ?_ h0
          rcases h with h | h
          · exact absurd h h0
          · right
            by_contra h2
            exact hx ⟨h0, by omega⟩

/-- `ABOdeTrigger::PostProcessFrame` (Distance and Intersection, A-only or A and B) is a
frame step. -/
theorem ABOdeTrigger_PostProcessFrame_step
    (test : NvDsObjectMeta → NvDsObjectMeta → Option Bool) (put : ABState → Variant)
    (hput : (∃ v, put = fun ab => Variant.Distance ab v) ∨ put = Variant.Intersection)
    (s : OdeTrigger) (ab : ABState) (f : NvDsFrameMeta) (hv : s.variant = put ab) :
    FrameStep s (ABOdeTrigger.PostProcessFrame test put s ab f).2 := by
  have hk : ∀ ab', (put ab').kind = s.variant.kind := by
    intro ab'
    rw [hv]
    exact (kind_AB put hput ab ab').1
  have hc2 : s.variant.kind.callsPerEvent = 2 := by
    rw [hv]
    exact (kind_AB put hput ab ab).2.1
  have hps := pendingEvent_AB put hput s ab hv
  -- the state the loops start from, and what they do to it
  have key : ∀ (pairs : List (NvDsObjectMeta × NvDsObjectMeta)) (ab' : ABState)
      (run : Bool),
      (run = true → ab.m_occurrenceMetaListA ≠ []) →
      ab'.m_occurrenceMetaListA = [] →
      (ab'.m_classIdAOnly = false → ab'.m_occurrenceMetaListB = []) →
      FrameStep s { (if run then
          ABOdeTrigger.PairLoop test f { s with m_occurrences := 0 } pairs
        else { s with m_occurrences := 0 }) with variant := put ab' } := by
    intro pairs ab' run hrun hA hB
    have hpend' : ∀ x : OdeTrigger, x.variant = put ab' → ¬ pendingEvent x := by
      intro x hx
      rw [pendingEvent_AB put hput x ab' hx]
      rintro (h | ⟨h1, h2⟩)
      · exact h hA
      · exact h2 (hB h1)
    cases run with
    | false =>
      simp only [Bool.false_eq_true, if_false]
      exact FrameStep_quiet rfl rfl (hk ab') rfl rfl (fun _ => rfl)
        (fun hp => absurd hp (hpend' _ rfl))
    | true =>
      simp only [if_true]
      obtain ⟨i1, i2, -, i4, i5, i6, i7⟩ :=
        ABOdeTrigger_PairLoop_step test f pairs { s with m_occurrences := 0 }
      dsimp only at i1 i2 i4 i5 i6 i7
      refine ⟨i1, i2, hk ab', i4, ?_, ?_, ?_⟩
      · rcases i5 with h | h
        · exact Or.inl h
        · right
          show (ABOdeTrigger.PairLoop test f { s with m_occurrences := 0 } pairs).m_limit ≤ _
          rw [i1]
          exact h
      · intro _
        rw [hc2]
        exact i6
      · intro _ hi h0
        have h0' : s.m_limit ≠ 0 := by
          intro h; apply h0; show (ABOdeTrigger.PairLoop test f _ pairs).m_limit = 0
          rw [i1]; exact h
        obtain ⟨j1, j2⟩ := hi h0'
        have hp : pendingEvent s := hps.mpr (Or.inl (hrun rfl))
        refine ⟨?_, fun hp' => absurd hp' (hpend' _ rfl)⟩
        show (ABOdeTrigger.PairLoop test f _ pairs).m_triggered ≤
          (ABOdeTrigger.PairLoop test f _ pairs).m_limit
        rw [i1]
        exact i7 (Or.inr (j2 hp)) h0'
  unfold ABOdeTrigger.PostProcessFrame
  by_cases hA : ab.m_classIdAOnly = true
  · rw [if_pos hA]
    unfold ABOdeTrigger.PostProcessFrameA
    dsimp only
    by_cases hc : s.m_enabled = true ∧ ab.m_occurrenceMetaListA.length > 1
    · rw [if_pos hc]
      have := key (ABOdeTrigger.pairsA ab.m_occurrenceMetaListA)
        { ab with m_occurrenceMetaListA := [] } true
        (fun _ h => by rw [h] at hc; simp at hc) rfl
        (fun h => by simp [hA] at h)
      simpa using this
    · rw [if_neg hc]
      have := key [] { ab with m_occurrenceMetaListA := [] } false
        (fun h => by simp at h) rfl (fun h => by simp [hA] at h)
      simpa using this
  · rw [if_neg hA]
    unfold ABOdeTrigger.PostProcessFrameAB
    dsimp only
    by_cases hc : s.m_enabled = true ∧ ab.m_occurrenceMetaListA.length ≠ 0 ∧
        ab.m_occurrenceMetaListB.length ≠ 0
    · rw [if_pos hc]
      have := key (ABOdeTrigger.pairsAB ab.m_occurrenceMetaListA ab.m_occurrenceMetaListB)
        { ab with m_occurrenceMetaListA := [], m_occurrenceMetaListB := [] } true
        (fun _ h => by rw [h] at hc; simp at hc) rfl (fun _ => rfl)
      simpa using this
    · rw [if_neg hc]
      have := key [] { ab with m_occurrenceMetaListA := [], m_occurrenceMetaListB := [] }
        false (fun h => by simp at h) rfl (fun _ => rfl)
      simpa using this

/-- The virtual call `PreProcessFrame` is a frame step. -/
theorem Trigger_PreProcessFrame_step (s : OdeTrigger) (f : NvDsFrameMeta) :
    FrameStep s (Trigger.PreProcessFrame s f) := by
  unfold Trigger.PreProcessFrame
  split
  · exact AlwaysOdeTrigger_PreProcessFrame_step s _ f (by assumption)
  · exact PreProcessFrame_step s f

/-- The virtual call `CheckForOccurrence` is a frame step. -/
theorem Trigger_CheckForOccurrence_step (s : OdeTrigger) (f : NvDsFrameMeta)
    (o : NvDsObjectMeta) : FrameStep s (Trigger.CheckForOccurrence s f o).2 := by
  unfold Trigger.CheckForOccurrence
  split
  · exact FrameStep_refl s
  · exact OccurrenceOdeTrigger_CheckForOccurrence_step s f o (by assumption)
  · exact AbsenceOdeTrigger_CheckForOccurrence_step s f o (by assumption)
  · exact AccumulationOdeTrigger_CheckForOccurrence_step s _ f o (by assumption)
  · exact CrossOdeTrigger_CheckForOccurrence_step s _ f o (by assumption)
  · exact InstanceOdeTrigger_CheckForOccurrence_step s _ f o (by assumption)
  · exact SummationOdeTrigger_CheckForOccurrence_step s f o
  · exact CustomOdeTrigger_CheckForOccurrence_step s _ f o (by assumption)
  · exact PersistenceOdeTrigger_CheckForOccurrence_step s _ f o (by assumption)
  · exact CountOdeTrigger_CheckForOccurrence_step s f o _ (by assumption)
  · exact SmallestOdeTrigger_CheckForOccurrence_step s _ f o (by assumption)
  · exact LargestOdeTrigger_CheckForOccurrence_step s _ f o (by assumption)
  · rename_i v hv
    exact DurationOdeTrigger_CheckForOccurrence_step _ _ s v f o (fun w => by rw [hv]; rfl)
  · rename_i v hv
    exact DurationOdeTrigger_CheckForOccurrence_step _ _ s v f o (fun w => by rw [hv]; rfl)
  · exact SummationOdeTrigger_CheckForOccurrence_step s f o
  · exact SummationOdeTrigger_CheckForOccurrence_step s f o
  · rename_i ab v hv
    exact ABOdeTrigger_CheckForOccurrence_step s ab _ (Or.inl ⟨v, rfl⟩) f o hv
  · rename_i ab hv
    exact ABOdeTrigger_CheckForOccurrence_step s ab _ (Or.inr rfl) f o hv

/-- The virtual call `PostProcessFrame` is a frame step. -/
theorem Trigger_PostProcessFrame_step (s : OdeTrigger) (f : NvDsFrameMeta) :
    FrameStep s (Trigger.PostProcessFrame s f).2 := by
  unfold Trigger.PostProcessFrame
  split
  · exact AlwaysOdeTrigger_PostProcessFrame_step s _ f (by assumption)
  · exact FrameStep_refl s
  · exact AbsenceOdeTrigger_PostProcessFrame_step s f (by assumption)
  · exact AccumulationOdeTrigger_PostProcessFrame_step s _ f (by assumption)
  · exact CrossOdeTrigger_PostProcessFrame_step s _ f (by assumption)
  · exact FrameStep_refl s
  · exact SummationOdeTrigger_PostProcessFrame_step s f (by assumption)
  · exact CustomOdeTrigger_PostProcessFrame_step s _ f (by assumption)
  · exact PersistenceOdeTrigger_PostProcessFrame_step s _ f (by assumption)
  · exact CountOdeTrigger_PostProcessFrame_step s _ f (by assumption)
  · exact SmallestOdeTrigger_PostProcessFrame_step s _ f (by assumption)
  · exact LargestOdeTrigger_PostProcessFrame_step s _ f (by assumption)
  · rename_i v hv
    exact DurationOdeTrigger_PostProcessFrame_step _ s v f hv (Or.inl rfl)
  · rename_i v hv
    exact DurationOdeTrigger_PostProcessFrame_step _ s v f hv (Or.inr rfl)
  · exact NewLowOdeTrigger_PostProcessFrame_step s _ f (by assumption)
  · exact NewHighOdeTrigger_PostProcessFrame_step s _ f (by assumption)
  · rename_i ab v hv
    exact ABOdeTrigger_PostProcessFrame_step _ _ (Or.inl ⟨v, rfl⟩) s ab f hv
  · rename_i ab hv
    exact ABOdeTrigger_PostProcessFrame_step _ _ (Or.inr rfl) s ab f hv

/-- The virtual `Reset` zeroes the count of events and keeps the limit, the class, the
Actions and the timer handle; it invokes no Action. -/
theorem Trigger_Reset_core (s : OdeTrigger) :
    (Trigger.Reset s).m_triggered = 0 ∧ (Trigger.Reset s).m_limit = s.m_limit ∧
    (Trigger.Reset s).variant.kind = s.variant.kind ∧
    (Trigger.Reset s).m_resetTimerId = s.m_resetTimerId ∧
    (Trigger.Reset s).m_pOdeActionsIndexed = s.m_pOdeActionsIndexed ∧
    actionCalls (Trigger.Reset s).log = actionCalls s.log := by
  unfold Trigger.Reset
  split <;> rename_i hv <;>
    first
    | exact ⟨by simp, by simp, by simp, by simp, by simp, by simp⟩
    | exact ⟨by simp [AccumulationOdeTrigger.Reset], by simp [AccumulationOdeTrigger.Reset],
        by rw [hv]; simp [AccumulationOdeTrigger.Reset, Variant.kind],
        by simp [AccumulationOdeTrigger.Reset], by simp [AccumulationOdeTrigger.Reset],
        by simp [AccumulationOdeTrigger.Reset]⟩
    | exact ⟨by simp [InstanceOdeTrigger.Reset], by simp [InstanceOdeTrigger.Reset],
        by rw [hv]; simp [InstanceOdeTrigger.Reset, Variant.kind],
        by simp [InstanceOdeTrigger.Reset], by simp [InstanceOdeTrigger.Reset],
        by simp [InstanceOdeTrigger.Reset]⟩
    | exact ⟨by simp [NewLowOdeTrigger.Reset], by simp [NewLowOdeTrigger.Reset],
        by rw [hv]; simp [NewLowOdeTrigger.Reset, Variant.kind],
        by simp [NewLowOdeTrigger.Reset], by simp [NewLowOdeTrigger.Reset],
        by simp [NewLowOdeTrigger.Reset]⟩
    | exact ⟨by simp [NewHighOdeTrigger.Reset], by simp [NewHighOdeTrigger.Reset],
        by rw [hv]; simp [NewHighOdeTrigger.Reset, Variant.kind],
        by simp [NewHighOdeTrigger.Reset], by simp [NewHighOdeTrigger.Reset],
        by simp [NewHighOdeTrigger.Reset]⟩
    | exact ⟨by simp [TrackingOdeTrigger.Reset], by simp [TrackingOdeTrigger.Reset],
        by rw [hv]; simp [TrackingOdeTrigger.Reset, Variant.kind],
        by simp [TrackingOdeTrigger.Reset], by simp [TrackingOdeTrigger.Reset],
        by simp [TrackingOdeTrigger.Reset]⟩

/-- A state whose count of events is zero satisfies the limit invariant. -/
theorem LimitInv_of_zero (s : OdeTrigger) (h : s.m_triggered = 0) : LimitInv s := by
  intro h0
  rw [h]
  exact ⟨Nat.zero_le _, fun _ => Nat.pos_of_ne_zero h0⟩

/-- `SetResetTimeout` keeps the count, the limit and the concrete members, and leaves a
timer live only if one was live or the limit is reached. -/
theorem SetResetTimeout_core (s : OdeTrigger) (timeout : Nat) :
    (SetResetTimeout s timeout).m_triggered = s.m_triggered ∧
    (SetResetTimeout s timeout).m_limit = s.m_limit ∧
    (SetResetTimeout s timeout).variant = s.variant ∧
    (SetResetTimeout s timeout).m_occurrences = s.m_occurrences ∧
    ((SetResetTimeout s timeout).m_resetTimerId ≠ 0 →
      s.m_resetTimerId ≠ 0 ∨ s.m_limit ≤ s.m_triggered) := by
  unfold SetResetTimeout
  dsimp only
  split_ifs with h1 h2 h3
  · exact ⟨rfl, rfl, rfl, rfl, fun h => absurd rfl h⟩
  · exact ⟨rfl, rfl, rfl, rfl, fun _ => Or.inl h2.1⟩
  · exact ⟨rfl, rfl, rfl, rfl, fun _ => Or.inr h3.2.1⟩
  · exact ⟨rfl, rfl, rfl, rfl, fun h => Or.inl h⟩

/-- The expiry of a timer zeroes the count of events and the timer handle, or (for a
source that is not pending) changes nothing; the limit and the class stay. -/
theorem TriggerResetTimeoutHandler_core (s : OdeTrigger) (id : Nat) :
    TriggerResetTimeoutHandler s id = s ∨
    ((TriggerResetTimeoutHandler s id).m_triggered = 0 ∧
      (TriggerResetTimeoutHandler s id).m_limit = s.m_limit ∧
      (TriggerResetTimeoutHandler s id).variant.kind = s.variant.kind ∧
      (TriggerResetTimeoutHandler s id).m_resetTimerId = 0) := by
  unfold TriggerResetTimeoutHandler
  split_ifs
  · right
    obtain ⟨r1, r2, r3, r4, -, -⟩ := Trigger_Reset_core { s with m_resetTimerId := 0 }
    exact ⟨r1, r2, r3, r4⟩
  · exact Or.inl rfl

/-- A run of per-frame calls is a frame step. -/
theorem run_frameCalls_step (calls : List Call) :
    ∀ (s : OdeTrigger), Admissible frameCallsOnly s calls → FrameStep s (run s calls) := by
  induction calls with
  | nil =>
    intro s _
    exact FrameStep_refl s
  | cons c calls ih =>
    intro s ha
    obtain ⟨hc, ha'⟩ := ha
    have h1 : FrameStep s (step s c) := by
      cases c with
      | PreProcessFrame f => exact Trigger_PreProcessFrame_step s f
      | CheckForOccurrence f o => exact Trigger_CheckForOccurrence_step s f o
      | PostProcessFrame f => exact Trigger_PostProcessFrame_step s f
      | Tick ms => exact FrameStep_idle rfl rfl rfl rfl rfl (fun _ => rfl) (Nat.le_refl _)
      | Reset => exact absurd hc (by simp [frameCallsOnly])
      | SetLimit l => exact absurd hc (by simp [frameCallsOnly])
      | SetResetTimeout t => exact absurd hc (by simp [frameCallsOnly])
      | Timeout id => exact absurd hc (by simp [frameCallsOnly])
    exact FrameStep_trans h1 (ih (step s c) ha')

/-- C4, counterexample: a Distance trigger with limit 1 and one Action, given one frame
with two objects 80 pixels apart (outside the range 0 to 50), invokes its Action twice,
more than limit times the number of Actions. -/
theorem distance_action_calls_exceed_limit :
    exampleDistance.m_limit = 1 ∧ exampleDistance.m_triggered = 0 ∧
    exampleDistance.m_pOdeActionsIndexed.length = 1 ∧
    actionCalls (run exampleDistance exampleFrameCalls).log = 2 ∧
    ¬ (actionCalls (run exampleDistance exampleFrameCalls).log ≤
        exampleDistance.m_limit * exampleDistance.m_pOdeActionsIndexed.length) := by
  decide

/-- C4, as amended: for every trigger class other than Always, Count, Custom and New-Low,
with limit L > 0 and starting with `triggered = 0`, over any sequence of per-frame calls
(no Reset, no timer expiry) the number of Action invocations is at most L times the
number of attached Actions, and at most twice that for the Distance and Intersection
triggers, which invoke each Action twice per event. -/
theorem action_calls_le_limit_times_actions (s0 : OdeTrigger) (calls : List Call)
    (hL : s0.m_limit > 0) (h0 : s0.m_triggered = 0)
    (hk : s0.variant.kind.limitGated = true) (hA : s0.variant.kind ≠ Kind.Always)
    (ha : Admissible frameCallsOnly s0 calls) :
    actionCalls (run s0 calls).log ≤ actionCalls s0.log +
      s0.variant.kind.callsPerEvent * s0.m_limit * s0.m_pOdeActionsIndexed.length := by
  have hs := run_frameCalls_step calls s0 ha
  have hc := hs.calls hA
  have hi := hs.inv hk (LimitInv_of_zero s0 h0)
  have hle : (run s0 calls).m_triggered ≤ s0.m_limit := by
    have := (hi (by rw [hs.limit]; exact Nat.ne_of_gt hL)).1
    rw [hs.limit] at this
    exact this
  rw [h0] at hc
  have hm : s0.variant.kind.callsPerEvent * (run s0 calls).m_triggered *
      s0.m_pOdeActionsIndexed.length ≤
      s0.variant.kind.callsPerEvent * s0.m_limit * s0.m_pOdeActionsIndexed.length :=
    Nat.mul_le_mul_right _ (Nat.mul_le_mul_left _ hle)
  omega

/-- Witness for C4 as amended: the Distance trigger of the counterexample stays within
twice its limit times its one Action. -/
theorem action_calls_le_limit_times_actions_witness :
    actionCalls (run exampleDistance exampleFrameCalls).log ≤
      actionCalls exampleDistance.log +
        exampleDistance.variant.kind.callsPerEvent * exampleDistance.m_limit *
          exampleDistance.m_pOdeActionsIndexed.length :=
  action_calls_le_limit_times_actions exampleDistance exampleFrameCalls (by decide)
    (by decide) (by decide) (by decide) ⟨trivial, trivial, trivial, trivial, trivial⟩

/-- C5, counterexample: an Occurrence trigger with limit 3 emits two events and the
client then lowers the limit to 1: the limit is set and `triggered` exceeds it. -/
theorem triggered_exceeds_lowered_limit :
    (run (exampleOccurrence 3)
      [Call.CheckForOccurrence exampleFrame exampleObject,
       Call.CheckForOccurrence exampleFrame exampleObject2,
       Call.SetLimit 1]).m_limit > 0 ∧
    ¬ ((run (exampleOccurrence 3)
      [Call.CheckForOccurrence exampleFrame exampleObject,
       Call.CheckForOccurrence exampleFrame exampleObject2,
       Call.SetLimit 1]).m_triggered ≤
      (run (exampleOccurrence 3)
        [Call.CheckForOccurrence exampleFrame exampleObject,
         Call.CheckForOccurrence exampleFrame exampleObject2,
         Call.SetLimit 1]).m_limit) := by
  decide

/-- C5, as amended: for every trigger class other than Count, Custom and New-Low, in
every state reached from a state with `triggered = 0` (as after construction) through
the per-frame calls, Reset, SetResetTimeout, timer expiry and SetLimit calls that set the
limit to 0 or above the current count of events, if `limit > 0` then
`triggered <= limit`. -/
theorem triggered_le_limit_of_limit_not_lowered (s0 : OdeTrigger) (calls : List Call)
    (h0 : s0.m_triggered = 0) (hk : s0.variant.kind.limitGated = true)
    (ha : Admissible limitNotLowered s0 calls) :
    (run s0 calls).m_limit > 0 → (run s0 calls).m_triggered ≤ (run s0 calls).m_limit := by
  have key : ∀ (calls : List Call) (s : OdeTrigger), s.variant.kind.limitGated = true →
      LimitInv s → Admissible limitNotLowered s calls → LimitInv (run s calls) := by
    intro calls
    induction calls with
    | nil =>
      intro s _ hi _
      exact hi
    | cons c calls ih =>
      intro s hk hi ha
      obtain ⟨hc, ha'⟩ := ha
      have h1 : (step s c).variant.kind = s.variant.kind ∧ LimitInv (step s c) := by
        cases c with
        | PreProcessFrame f =>
          exact ⟨(Trigger_PreProcessFrame_step s f).kind,
            (Trigger_PreProcessFrame_step s f).inv hk hi⟩
        | CheckForOccurrence f o =>
          exact ⟨(Trigger_CheckForOccurrence_step s f o).kind,
            (Trigger_CheckForOccurrence_step s f o).inv hk hi⟩
        | PostProcessFrame f =>
          exact ⟨(Trigger_PostProcessFrame_step s f).kind,
            (Trigger_PostProcessFrame_step s f).inv hk hi⟩
        | Tick ms => exact ⟨rfl, hi⟩
        | Reset =>
          obtain ⟨r1, -, r3, -, -, -⟩ := Trigger_Reset_core s
          exact ⟨r3, LimitInv_of_zero _ r1⟩
        | SetLimit l =>
          refine ⟨by simp [step], ?_⟩
          intro hl
          have hl' : l ≠ 0 := by simpa [step] using hl
          have hlt : s.m_triggered < l := by
            rcases hc with h | h
            · exact absurd h hl'
            · exact h
          simp only [step, SetLimit_m_triggered, SetLimit_m_limit]
          exact ⟨Nat.le_of_lt hlt, fun _ => hlt⟩
        | SetResetTimeout t =>
          obtain ⟨r1, r2, r3, r4, -⟩ := SetResetTimeout_core s t
          refine ⟨by simp [step, r3], ?_⟩
          intro hl
          simp only [step] at hl ⊢
          rw [r2] at hl
          obtain ⟨i1, i2⟩ := hi hl
          rw [r1, r2]
          refine ⟨i1, fun hp => i2 ?_⟩
          exact pendingEvent_of_le r3 (Nat.le_of_eq r4) hp
        | Timeout id =>
          rcases TriggerResetTimeoutHandler_core s id with h | ⟨r1, -, r3, -⟩
          · simp only [step]
            rw [h]
            exact ⟨rfl, hi⟩
          · exact ⟨r3, LimitInv_of_zero _ r1⟩
      exact ih (step s c) (by rw [h1.1]; exact hk) h1.2 ha'
  intro hL
  exact (key calls s0 hk (LimitInv_of_zero s0 h0) ha (Nat.ne_of_gt hL)).1

/-- Witness for C5 as amended: the example Occurrence trigger with limit 3, after two
events, a raise of the limit to 4 and a third event. -/
theorem triggered_le_limit_of_limit_not_lowered_witness :
    (run (exampleOccurrence 3)
      [Call.CheckForOccurrence exampleFrame exampleObject,
       Call.CheckForOccurrence exampleFrame exampleObject2,
       Call.SetLimit 4,
       Call.CheckForOccurrence exampleFrame exampleObject]).m_triggered ≤
    (run (exampleOccurrence 3)
      [Call.CheckForOccurrence exampleFrame exampleObject,
       Call.CheckForOccurrence exampleFrame exampleObject2,
       Call.SetLimit 4,
       Call.CheckForOccurrence exampleFrame exampleObject]).m_limit :=
  triggered_le_limit_of_limit_not_lowered (exampleOccurrence 3)
    [Call.CheckForOccurrence exampleFrame exampleObject,
     Call.CheckForOccurrence exampleFrame exampleObject2,
     Call.SetLimit 4,
     Call.CheckForOccurrence exampleFrame exampleObject]
    (by decide) (by decide) ⟨trivial, trivial, Or.inr (by decide), trivial, trivial⟩
    (by decide)

/-- C8, counterexample: the example trigger with limit 1 reaches its limit, which starts
reset timer 1, and is then reset by the client: the timer is live and `triggered` is
below the limit. -/
theorem timer_live_below_limit :
    exampleTimerLive.m_resetTimerId ≠ 0 ∧
    ¬ (exampleTimerLive.m_triggered ≥ exampleTimerLive.m_limit) := by
  decide

/-- C8, as amended: in every state reached from a state with no live reset timer (as
after construction) through the per-frame calls, SetResetTimeout, timer expiry, and
Reset and SetLimit calls made while no reset timer is live, if the reset timer is live
(`m_resetTimerId` is non-zero) then `triggered >= limit`. -/
theorem timer_live_implies_limit_reached (s0 : OdeTrigger) (calls : List Call)
    (h0 : s0.m_resetTimerId = 0) (ha : Admissible noClientResetWhileTimerLive s0 calls) :
    (run s0 calls).m_resetTimerId ≠ 0 →
      (run s0 calls).m_triggered ≥ (run s0 calls).m_limit := by
  have key : ∀ (calls : List Call) (s : OdeTrigger),
      (s.m_resetTimerId ≠ 0 → s.m_limit ≤ s.m_triggered) →
      Admissible noClientResetWhileTimerLive s calls →
      ((run s calls).m_resetTimerId ≠ 0 → (run s calls).m_limit ≤ (run s calls).m_triggered) := by
    intro calls
    induction calls with
    | nil =>
      intro s hi _
      exact hi
    | cons c calls ih =>
      intro s hi ha
      obtain ⟨hc, ha'⟩ := ha
      have frame : ∀ s' : OdeTrigger, FrameStep s s' →
          (s'.m_resetTimerId ≠ 0 → s'.m_limit ≤ s'.m_triggered) := by
        intro s' hs hne
        rcases hs.timer with h | h
        · rw [h] at hne
          have := hi hne
          rw [hs.limit]
          exact Nat.le_trans this hs.mono
        · exact h
      have h1 : (step s c).m_resetTimerId ≠ 0 → (step s c).m_limit ≤ (step s c).m_triggered := by
        cases c with
        | PreProcessFrame f => exact frame _ (Trigger_PreProcessFrame_step s f)
        | CheckForOccurrence f o => exact frame _ (Trigger_CheckForOccurrence_step s f o)
        | PostProcessFrame f => exact frame _ (Trigger_PostProcessFrame_step s f)
        | Tick ms => exact hi
        | Reset =>
          obtain ⟨-, -, -, r4, -, -⟩ := Trigger_Reset_core s
          intro hne
          simp only [step] at hne
          rw [r4] at hne
          exact absurd hc hne
        | SetLimit l =>
          intro hne
          simp only [step, SetLimit_m_resetTimerId] at hne
          exact absurd hc hne
        | SetResetTimeout t =>
          obtain ⟨r1, r2, -, -, r5⟩ := SetResetTimeout_core s t
          intro hne
          simp only [step] at hne ⊢
          rw [r1, r2]
          rcases r5 hne with h | h
          · exact hi h
          · exact h
        | Timeout id =>
          rcases TriggerResetTimeoutHandler_core s id with h | ⟨-, -, -, r4⟩
          · simp only [step]
            rw [h]
            exact hi
          · intro hne
            exact absurd r4 hne
      exact ih (step s c) h1 ha'
  exact key calls s0 (fun h => absurd h0 h) ha

/-- Witness for C8 as amended: the example trigger with limit 1 and a reset timeout of
5 s, after the event that reaches the limit and starts the timer. -/
theorem timer_live_implies_limit_reached_witness :
    (run (SetResetTimeout (exampleOccurrence 1) 5)
      [Call.CheckForOccurrence exampleFrame exampleObject]).m_resetTimerId ≠ 0 ∧
    (run (SetResetTimeout (exampleOccurrence 1) 5)
      [Call.CheckForOccurrence exampleFrame exampleObject]).m_triggered ≥
    (run (SetResetTimeout (exampleOccurrence 1) 5)
      [Call.CheckForOccurrence exampleFrame exampleObject]).m_limit :=
  ⟨by decide,
    timer_live_implies_limit_reached (SetResetTimeout (exampleOccurrence 1) 5)
      [Call.CheckForOccurrence exampleFrame exampleObject] (by decide) ⟨trivial, trivial⟩
      (by decide)⟩

/-- C11: `Reset` is idempotent for every class of trigger and every state: a second
`Reset` right after the first leaves every member as the first left it (it only notifies
the listeners once more), and after a `Reset` the count of events is 0 and the state of
the concrete class is cleared. -/
theorem Reset_twice_eq_Reset_once (s : OdeTrigger) :
    (Trigger.Reset (Trigger.Reset s)).members = (Trigger.Reset s).members ∧
    Trigger.Reset (Trigger.Reset s) =
      callLimitEventListeners (Trigger.Reset s)
        LimitEvent.DSL_ODE_TRIGGER_LIMIT_EVENT_COUNT_RESET ∧
    (Trigger.Reset s).m_triggered = 0 ∧
    (Trigger.Reset s).variant.cleared := by
  cases h : s.variant <;>
    simp only [Trigger.Reset, h, AccumulationOdeTrigger.Reset, InstanceOdeTrigger.Reset,
      NewLowOdeTrigger.Reset, NewHighOdeTrigger.Reset, TrackingOdeTrigger.Reset,
      OdeTrigger.Reset, callLimitEventListeners, OdeTrigger.members, Variant.cleared,
      TrackedObjects.Clear, TrackedObjects.IsEmpty, List.isEmpty] <;>
    simp

/-- A key is absent from a map exactly when `find` reports none. -/
theorem mapFind_eq_none_iff {K V : Type} [DecidableEq K] (m : List (K × V)) (k : K) :
    mapFind m k = none ↔ k ∉ m.map Prod.fst := by
  induction m with
  | nil => simp [mapFind]
  | cons p rest ih =>
    obtain ⟨k', v⟩ := p
    by_cases h : k' = k
    · simp [mapFind, h]
    · simp [mapFind, h, ih, Ne.symm h]

/-- Inserting under an absent key adds one entry and keeps the others. -/
theorem mapInsert_perm {K V : Type} [DecidableEq K] (lt : K → K → Bool) (m : List (K × V))
    (k : K) (v : V) (h : k ∉ m.map Prod.fst) :
    (mapInsert lt m k v).Perm ((k, v) :: m) := by
  induction m with
  | nil => simp [mapInsert]
  | cons p rest ih =>
    obtain ⟨k', v'⟩ := p
    have hk : k' ≠ k := by
      intro e; apply h; simp [e]
    have hr : k ∉ rest.map Prod.fst := by
      intro e; apply h; simp at e ⊢; exact Or.inr e
    unfold mapInsert
    rw [if_neg hk]
    by_cases hlt : lt k k' = true
    · rw [if_pos hlt]
    · rw [if_neg hlt]
      exact ((ih hr).cons (k', v')).trans (List.Perm.swap _ _ _)

/-- Inserting under an absent key keeps a `uint`-keyed map in key order. -/
theorem mapInsert_sorted {V : Type} (m : List (Nat × V)) (k : Nat) (v : V)
    (hs : m.Pairwise (fun a b => a.1 < b.1)) (h : k ∉ m.map Prod.fst) :
    (mapInsert uintLt m k v).Pairwise (fun a b => a.1 < b.1) := by
  induction m with
  | nil => simp [mapInsert]
  | cons p rest ih =>
    obtain ⟨k', v'⟩ := p
    have hk : k' ≠ k := by
      intro e; apply h; simp [e]
    have hr : k ∉ rest.map Prod.fst := by
      intro e; apply h; simp at e ⊢; exact Or.inr e
    rw [List.pairwise_cons] at hs
    unfold mapInsert
    rw [if_neg hk]
    by_cases hlt : uintLt k k' = true
    · rw [if_pos hlt]
      have hkk : k < k' := by simpa [uintLt] using hlt
      refine List.Pairwise.cons ?_ (List.Pairwise.cons hs.1 hs.2)
      intro a ha
      rcases List.mem_cons.1 ha with rfl | ha
      · exact hkk
      · exact lt_trans hkk (hs.1 a ha)
    · rw [if_neg hlt]
      have hkk : k' < k := by
        have : ¬ k < k' := by simpa [uintLt] using hlt
        omega
      refine List.Pairwise.cons ?_ (ih hs.2 hr)
      intro a ha
      rcases List.mem_cons.1 ((mapInsert_perm uintLt rest k v hr).subset ha) with rfl | ha
      · exact hkk
      · exact hs.1 a ha

/-- Registering listeners with callbacks that differ from each other and from those
already registered changes the listener map only: it then holds the old and the new
listeners, in callback order. -/
theorem addListeners_spec (ls : List (Nat × Nat)) : ∀ (s0 : OdeTrigger),
    s0.m_limitEventListeners.Pairwise (fun a b => a.1 < b.1) →
    (∀ l ∈ ls, l.1 ∉ s0.m_limitEventListeners.map Prod.fst) →
    (ls.map Prod.fst).Nodup →
    ∃ m, addListeners s0 ls = { s0 with m_limitEventListeners := m } ∧
      m.Perm (s0.m_limitEventListeners ++ ls) ∧ m.Pairwise (fun a b => a.1 < b.1) := by
  induction ls with
  | nil =>
    intro s0 hs _ _
    exact ⟨s0.m_limitEventListeners, rfl, by simp, hs⟩
  | cons l rest ih =>
    intro s0 hs hnew hd
    have hl : l.1 ∉ s0.m_limitEventListeners.map Prod.fst := hnew l (List.mem_cons_self _ _)
    have hfind : mapFind s0.m_limitEventListeners l.1 = none :=
      (mapFind_eq_none_iff _ _).2 hl
    have hstep : (OdeTrigger.AddLimitEventListener s0 l.1 l.2).2 = { s0 with
        m_limitEventListeners := mapInsert uintLt s0.m_limitEventListeners l.1 l.2 } := by
      unfold OdeTrigger.AddLimitEventListener
      rw [hfind]
      rfl
    have hperm := mapInsert_perm uintLt s0.m_limitEventListeners l.1 l.2 hl
    rw [List.map_cons, List.nodup_cons] at hd
    have hnew' : ∀ x ∈ rest, x.1 ∉ (mapInsert uintLt s0.m_limitEventListeners l.1 l.2).map
        Prod.fst := by
      intro x hx hmem
      have hmem' := (hperm.map Prod.fst).subset hmem
      rcases List.mem_cons.1 hmem' with e | e
      · exact hd.1 (e ▸ List.mem_map_of_mem Prod.fst hx)
      · exact hnew x (List.mem_cons_of_mem _ hx) e
    obtain ⟨m, hm, hp, hsorted⟩ := ih
      { s0 with m_limitEventListeners := mapInsert uintLt s0.m_limitEventListeners l.1 l.2 }
      (mapInsert_sorted _ _ _ hs hl) hnew' hd.2
    refine ⟨m, ?_, ?_, hsorted⟩
    · show addListeners (OdeTrigger.AddLimitEventListener s0 l.1 l.2).2 rest = _
      rw [hstep, hm]
    · refine hp.trans ?_
      have h1 : (mapInsert uintLt s0.m_limitEventListeners l.1 l.2 ++ rest).Perm
          ((l :: s0.m_limitEventListeners) ++ rest) := hperm.append_right rest
      refine h1.trans ?_
      simpa using (@List.perm_middle _ l s0.m_limitEventListeners rest).symm

/-- The virtual `Reset` calls every listener once with `COUNT_RESET`, in the order of the
listener map, whatever the class of the trigger. -/
theorem Trigger_Reset_log (s : OdeTrigger) :
    (Trigger.Reset s).log = s.log ++ s.m_limitEventListeners.map
      (fun l => Effect.LimitEventListener l.1 DSL_ODE_TRIGGER_LIMIT_EVENT_COUNT_RESET
        s.m_limit l.2) := by
  cases h : s.variant <;>
    simp only [Trigger.Reset, h, AccumulationOdeTrigger.Reset, InstanceOdeTrigger.Reset,
      NewLowOdeTrigger.Reset, NewHighOdeTrigger.Reset, TrackingOdeTrigger.Reset,
      OdeTrigger.Reset, callLimitEventListeners]

/-- The log after `IncrementAndCheckTriggerCount` when the count reaches the limit: every
listener is called once with `LIMIT_REACHED`, in the order of the listener map, and then
the reset timer is scheduled if a timeout is set. -/
theorem IncrementAndCheckTriggerCount_log (s : OdeTrigger)
    (h : s.m_limit ≤ s.m_triggered + 1) :
    (IncrementAndCheckTriggerCount s).log =
      s.log ++ s.m_limitEventListeners.map
        (fun l => Effect.LimitEventListener l.1 DSL_ODE_TRIGGER_LIMIT_EVENT_LIMIT_REACHED
          s.m_limit l.2) ++
      (if s.m_resetTimeout ≠ 0 then
        [Effect.g_timeout_add (1000 * s.m_resetTimeout % 2 ^ 32) (s.lastSourceId + 1)]
       else []) := by
  unfold IncrementAndCheckTriggerCount
  dsimp only
  rw [if_pos (show s.m_triggered + 1 ≥ s.m_limit from h)]
  by_cases ht : s.m_resetTimeout ≠ 0
  · simp only [callLimitEventListeners, g_timeout_add, ht, ne_eq, not_false_eq_true, if_true]
  · simp only [callLimitEventListeners, ht, ne_eq, if_false, List.append_nil]

/-- C12, counterexample: two listeners are registered, callback 200 (client data 1)
first and callback 100 (client data 2) second; a `Reset` calls callback 100, registered
second, before callback 200. -/
theorem listeners_not_called_in_registration_order :
    (Trigger.Reset (addListeners (exampleOccurrence 3) [(200, 1), (100, 2)])).log =
      [Effect.LimitEventListener 100 LimitEvent.DSL_ODE_TRIGGER_LIMIT_EVENT_COUNT_RESET 3 2,
       Effect.LimitEventListener 200 LimitEvent.DSL_ODE_TRIGGER_LIMIT_EVENT_COUNT_RESET 3 1] := by
  decide

/-- C12, as amended: after registering N listeners with distinct callbacks on a trigger
that had none, the listener map holds exactly those N listeners, in ascending order of
the callbacks, and one limit event (a `Reset`, a `SetLimit`, or the count reaching the
limit in `IncrementAndCheckTriggerCount`) calls each of them exactly once, with the event,
the limit and its own client data, in that order, whatever the order of registration. -/
theorem listeners_called_once_in_callback_order (s0 : OdeTrigger) (ls : List (Nat × Nat))
    (h0 : s0.m_limitEventListeners = []) (hd : (ls.map Prod.fst).Nodup) :
    (addListeners s0 ls).m_limitEventListeners.Perm ls ∧
    (addListeners s0 ls).m_limitEventListeners.Pairwise (fun a b => a.1 < b.1) ∧
    (Trigger.Reset (addListeners s0 ls)).log =
      s0.log ++ (addListeners s0 ls).m_limitEventListeners.map
        (fun l => Effect.LimitEventListener l.1
          LimitEvent.DSL_ODE_TRIGGER_LIMIT_EVENT_COUNT_RESET s0.m_limit l.2) ∧
    (∀ limit, (OdeTrigger.SetLimit (addListeners s0 ls) limit).log =
      s0.log ++ (addListeners s0 ls).m_limitEventListeners.map
        (fun l => Effect.LimitEventListener l.1
          LimitEvent.DSL_ODE_TRIGGER_LIMIT_EVENT_LIMIT_CHANGED limit l.2)) ∧
    (s0.m_limit ≤ s0.m_triggered + 1 →
      (IncrementAndCheckTriggerCount (addListeners s0 ls)).log =
        s0.log ++ (addListeners s0 ls).m_limitEventListeners.map
          (fun l => Effect.LimitEventListener l.1
            LimitEvent.DSL_ODE_TRIGGER_LIMIT_EVENT_LIMIT_REACHED s0.m_limit l.2) ++
        (if s0.m_resetTimeout ≠ 0 then
          [Effect.g_timeout_add (1000 * s0.m_resetTimeout % 2 ^ 32) (s0.lastSourceId + 1)]
         else [])) := by
  obtain ⟨m, hm, hp, hs⟩ := addListeners_spec ls s0 (by rw [h0]; exact List.Pairwise.nil)
    (by intro l _; rw [h0]; simp) hd
  rw [h0, List.nil_append] at hp
  rw [hm]
  refine ⟨hp, hs, ?_, ?_, ?_⟩
  · exact Trigger_Reset_log { s0 with m_limitEventListeners := m }
  · intro limit
    rfl
  · intro h
    exact IncrementAndCheckTriggerCount_log { s0 with m_limitEventListeners := m } h

/-- Witness for C12 as amended: callbacks 200, 100 and 150, registered in that order on
the example trigger (limit 1, no event yet), are called in the order 100, 150, 200. -/
theorem listeners_called_once_in_callback_order_witness :
    (IncrementAndCheckTriggerCount
        (addListeners (exampleOccurrence 1) [(200, 1), (100, 2), (150, 3)])).log =
      [Effect.LimitEventListener 100 LimitEvent.DSL_ODE_TRIGGER_LIMIT_EVENT_LIMIT_REACHED 1 2,
       Effect.LimitEventListener 150 LimitEvent.DSL_ODE_TRIGGER_LIMIT_EVENT_LIMIT_REACHED 1 3,
       Effect.LimitEventListener 200 LimitEvent.DSL_ODE_TRIGGER_LIMIT_EVENT_LIMIT_REACHED 1 1] :=
  ((listeners_called_once_in_callback_order (exampleOccurrence 1)
    [(200, 1), (100, 2), (150, 3)] rfl (by decide)).2.2.2.2 (by decide)).trans (by decide)

/-- After `m[k] = v`, `find(k)` gives `v`. -/
theorem mapFind_mapInsert_self {K V : Type} [DecidableEq K] (lt : K → K → Bool)
    (m : List (K × V)) (k : K) (v : V) : mapFind (mapInsert lt m k v) k = some v := by
  induction m with
  | nil => simp [mapInsert, mapFind]
  | cons p rest ih =>
    obtain ⟨k', v'⟩ := p
    unfold mapInsert
    by_cases hk : k' = k
    · rw [if_pos hk]; simp [mapFind]
    · rw [if_neg hk]
      by_cases hlt : lt k k' = true
      · rw [if_pos hlt]; simp [mapFind]
      · rw [if_neg hlt]; simp [mapFind, hk, ih]

/-- The statement `m[k] = v` leaves what `find` gives for the other keys. -/
theorem mapFind_mapInsert_ne {K V : Type} [DecidableEq K] (lt : K → K → Bool)
    (m : List (K × V)) (k : K) (v : V) (k' : K) (h : k' ≠ k) :
    mapFind (mapInsert lt m k v) k' = mapFind m k' := by
  have h' : ¬ k = k' := fun e => h e.symm
  induction m with
  | nil => simp [mapInsert, mapFind, h']
  | cons p rest ih =>
    obtain ⟨k0, v0⟩ := p
    unfold mapInsert
    by_cases hk : k0 = k
    · rw [if_pos hk]
      subst hk
      simp [mapFind, h']
    · rw [if_neg hk]
      by_cases hlt : lt k k0 = true
      · rw [if_pos hlt]; simp [mapFind, h']
      · rw [if_neg hlt]
        by_cases h0 : k0 = k'
        · simp [mapFind, h0]
        · simp [mapFind, h0, ih]

/-- After `erase(k)`, `find(k)` finds nothing. -/
theorem mapFind_mapErase_self {K V : Type} [DecidableEq K] (m : List (K × V)) (k : K) :
    mapFind (mapErase m k) k = none := by
  rw [mapFind_eq_none_iff]
  simp [mapErase, List.mem_filter]

/-- The call `erase(k)` leaves what `find` gives for the other keys. -/
theorem mapFind_mapErase_ne {K V : Type} [DecidableEq K] (m : List (K × V)) (k k' : K)
    (h : k' ≠ k) : mapFind (mapErase m k) k' = mapFind m k' := by
  induction m with
  | nil => simp [mapErase, mapFind]
  | cons p rest ih =>
    obtain ⟨k0, v0⟩ := p
    by_cases h0 : k0 = k
    · subst h0
      have h1 : ¬ k0 = k' := fun e => h e.symm
      have : mapErase ((k0, v0) :: rest) k0 = mapErase rest k0 := by
        simp [mapErase, List.filter_cons]
      rw [this, ih]
      simp [mapFind, h1]
    · have : mapErase ((k0, v0) :: rest) k = (k0, v0) :: mapErase rest k := by
        simp [mapErase, List.filter_cons, h0]
      rw [this]
      by_cases h1 : k0 = k'
      · simp [mapFind, h1]
      · simp [mapFind, h1, ih]

/-- What `find` gives is an entry of the map. -/
theorem mapFind_some_mem {K V : Type} [DecidableEq K] (m : List (K × V)) (k : K) (v : V)
    (h : mapFind m k = some v) : (k, v) ∈ m := by
  induction m with
  | nil => simp [mapFind] at h
  | cons p rest ih =>
    obtain ⟨k0, v0⟩ := p
    by_cases h0 : k0 = k
    · subst h0
      simp only [mapFind, if_true, Option.some.injEq] at h
      simp [h]
    · simp only [mapFind, h0, if_false] at h
      exact List.mem_cons_of_mem _ (ih h)

/-- The empty by-name map. -/
theorem NamesInv_nil {α : Type} (name : α → String) : NamesInv name [] :=
  ⟨List.nodup_nil, by simp⟩

/-- Attaching a child under its name, which was not attached. -/
theorem NamesInv_insert {α : Type} (name : α → String) (byName : List (String × α))
    (c : α) (h : NamesInv name byName) (hc : mapFind byName (name c) = none) :
    NamesInv name (mapInsert stringLt byName (name c) c) := by
  have hk : name c ∉ byName.map Prod.fst := (mapFind_eq_none_iff _ _).1 hc
  have hp := mapInsert_perm stringLt byName (name c) c hk
  refine ⟨?_, ?_⟩
  · rw [(hp.map Prod.fst).nodup_iff, List.map_cons, List.nodup_cons]
    exact ⟨hk, h.1⟩
  · intro p hpm
    rcases List.mem_cons.1 (hp.subset hpm) with rfl | hmem
    · rfl
    · exact h.2 p hmem

/-- Erasing a name. -/
theorem NamesInv_erase {α : Type} (name : α → String) (byName : List (String × α))
    (n : String) (h : NamesInv name byName) : NamesInv name (mapErase byName n) := by
  refine ⟨?_, ?_⟩
  · exact h.1.sublist ((List.filter_sublist _).map Prod.fst)
  · intro p hp
    exact h.2 p (List.mem_of_mem_filter hp)

/-- The names of the children of a by-name map with distinct keys are pairwise
distinct. -/
theorem NamesInv_nodup {α : Type} (name : α → String) (byName : List (String × α))
    (h : NamesInv name byName) : (byName.map (fun p => name p.2)).Nodup := by
  have : byName.map (fun p => name p.2) = byName.map Prod.fst :=
    List.map_congr_left (fun p hp => h.2 p hp)
  rw [this]
  exact h.1

/-- What `AddAction` does when a child of that name is attached. -/
theorem AddAction_of_attached (s : OdeTrigger) (a : OdeAction)
    (h : (mapFind s.m_pOdeActions a.name).isSome = true) :
    OdeTrigger.AddAction s a = (false, s, a) := by
  unfold OdeTrigger.AddAction
  rw [if_pos h]

/-- What `AddAction` does when no child of that name is attached. -/
theorem AddAction_of_absent (s : OdeTrigger) (a : OdeAction)
    (h : (mapFind s.m_pOdeActions a.name).isSome = false) :
    OdeTrigger.AddAction s a =
      (true,
       { s with
         m_nextActionIndex := s.m_nextActionIndex + 1
         m_pOdeActions := mapInsert stringLt s.m_pOdeActions a.name
           { a with index := s.m_nextActionIndex + 1, parentName := s.m_name }
         m_pOdeActionsIndexed := mapInsert uintLt s.m_pOdeActionsIndexed
           (s.m_nextActionIndex + 1)
           { a with index := s.m_nextActionIndex + 1, parentName := s.m_name } },
       { a with index := s.m_nextActionIndex + 1, parentName := s.m_name }) := by
  unfold OdeTrigger.AddAction
  rw [if_neg (by rw [h]; exact Bool.false_ne_true)]

/-- What `RemoveAction` does when no child of that name is attached. -/
theorem RemoveAction_of_absent (s : OdeTrigger) (a : OdeAction)
    (h : (mapFind s.m_pOdeActions a.name).isSome = false) :
    OdeTrigger.RemoveAction s a = (false, s, a) := by
  unfold OdeTrigger.RemoveAction
  rw [if_pos (by cases hm : mapFind s.m_pOdeActions a.name <;> simp_all)]

/-- What `RemoveAction` does when a child of that name is attached. -/
theorem RemoveAction_of_attached (s : OdeTrigger) (a : OdeAction)
    (h : (mapFind s.m_pOdeActions a.name).isSome = true) :
    OdeTrigger.RemoveAction s a =
      (true,
       { s with
         m_pOdeActions := mapErase s.m_pOdeActions a.name
         m_pOdeActionsIndexed := mapErase s.m_pOdeActionsIndexed a.index },
       { a with index := 0, parentName := "" }) := by
  unfold OdeTrigger.RemoveAction
  rw [if_neg (by cases hm : mapFind s.m_pOdeActions a.name <;> simp_all)]

/-- What `AddArea` does when a child of that name is attached. -/
theorem AddArea_of_attached (s : OdeTrigger) (r : OdeArea)
    (h : (mapFind s.m_pOdeAreas r.name).isSome = true) :
    OdeTrigger.AddArea s r = (false, s, r) := by
  unfold OdeTrigger.AddArea
  rw [if_pos h]

/-- What `AddArea` does when no child of that name is attached. -/
theorem AddArea_of_absent (s : OdeTrigger) (r : OdeArea)
    (h : (mapFind s.m_pOdeAreas r.name).isSome = false) :
    OdeTrigger.AddArea s r =
      (true,
       { s with
         m_nextAreaIndex := s.m_nextAreaIndex + 1
         m_pOdeAreas := mapInsert stringLt s.m_pOdeAreas r.name
           { r with index := s.m_nextAreaIndex + 1, parentName := s.m_name }
         m_pOdeAreasIndexed := mapInsert uintLt s.m_pOdeAreasIndexed
           (s.m_nextAreaIndex + 1)
           { r with index := s.m_nextAreaIndex + 1, parentName := s.m_name } },
       { r with index := s.m_nextAreaIndex + 1, parentName := s.m_name }) := by
  unfold OdeTrigger.AddArea
  rw [if_neg (by rw [h]; exact Bool.false_ne_true)]

/-- What `RemoveArea` does when no child of that name is attached. -/
theorem RemoveArea_of_absent (s : OdeTrigger) (r : OdeArea)
    (h : (mapFind s.m_pOdeAreas r.name).isSome = false) :
    OdeTrigger.RemoveArea s r = (false, s, r) := by
  unfold OdeTrigger.RemoveArea
  rw [if_pos (by cases hm : mapFind s.m_pOdeAreas r.name <;> simp_all)]

/-- What `RemoveArea` does when a child of that name is attached. -/
theorem RemoveArea_of_attached (s : OdeTrigger) (r : OdeArea)
    (h : (mapFind s.m_pOdeAreas r.name).isSome = true) :
    OdeTrigger.RemoveArea s r =
      (true,
       { s with
         m_pOdeAreas := mapErase s.m_pOdeAreas r.name
         m_pOdeAreasIndexed := mapErase s.m_pOdeAreasIndexed r.index },
       { r with index := 0, parentName := "" }) := by
  unfold OdeTrigger.RemoveArea
  rw [if_neg (by cases hm : mapFind s.m_pOdeAreas r.name <;> simp_all)]

/-- A Boolean is true or false. -/
theorem isSome_true_or_false {α : Type} (o : Option α) : o.isSome = true ∨ o.isSome = false := by
  cases o <;> simp

/-- A call that changes the children keeps the two by-name maps well-formed: distinct
keys, each the name of the child stored under it. -/
theorem stepChild_NamesInv (s : OdeTrigger) (call : ChildCall)
    (ha : NamesInv OdeAction.name s.m_pOdeActions)
    (hr : NamesInv OdeArea.name s.m_pOdeAreas) :
    NamesInv OdeAction.name (stepChild s call).m_pOdeActions ∧
    NamesInv OdeArea.name (stepChild s call).m_pOdeAreas := by
  cases call with
  | AddAction c =>
    show NamesInv _ (OdeTrigger.AddAction s c).2.1.m_pOdeActions ∧
      NamesInv _ (OdeTrigger.AddAction s c).2.1.m_pOdeAreas
    rcases isSome_true_or_false (mapFind s.m_pOdeActions c.name) with h | h
    · rw [AddAction_of_attached s c h]; exact ⟨ha, hr⟩
    · rw [AddAction_of_absent s c h]
      have hn : mapFind s.m_pOdeActions c.name = none := by
        simpa using h
      exact ⟨NamesInv_insert OdeAction.name s.m_pOdeActions
        { c with index := s.m_nextActionIndex + 1, parentName := s.m_name } ha hn, hr⟩
  | RemoveAction c =>
    show NamesInv _ (OdeTrigger.RemoveAction s c).2.1.m_pOdeActions ∧
      NamesInv _ (OdeTrigger.RemoveAction s c).2.1.m_pOdeAreas
    rcases isSome_true_or_false (mapFind s.m_pOdeActions c.name) with h | h
    · rw [RemoveAction_of_attached s c h]
      exact ⟨NamesInv_erase OdeAction.name s.m_pOdeActions c.name ha, hr⟩
    · rw [RemoveAction_of_absent s c h]; exact ⟨ha, hr⟩
  | RemoveAllActions => exact ⟨NamesInv_nil _, hr⟩
  | AddArea c =>
    show NamesInv _ (OdeTrigger.AddArea s c).2.1.m_pOdeActions ∧
      NamesInv _ (OdeTrigger.AddArea s c).2.1.m_pOdeAreas
    rcases isSome_true_or_false (mapFind s.m_pOdeAreas c.name) with h | h
    · rw [AddArea_of_attached s c h]; exact ⟨ha, hr⟩
    · rw [AddArea_of_absent s c h]
      have hn : mapFind s.m_pOdeAreas c.name = none := by
        simpa using h
      exact ⟨ha, NamesInv_insert OdeArea.name s.m_pOdeAreas
        { c with index := s.m_nextAreaIndex + 1, parentName := s.m_name } hr hn⟩
  | RemoveArea c =>
    show NamesInv _ (OdeTrigger.RemoveArea s c).2.1.m_pOdeActions ∧
      NamesInv _ (OdeTrigger.RemoveArea s c).2.1.m_pOdeAreas
    rcases isSome_true_or_false (mapFind s.m_pOdeAreas c.name) with h | h
    · rw [RemoveArea_of_attached s c h]
      exact ⟨ha, NamesInv_erase OdeArea.name s.m_pOdeAreas c.name hr⟩
    · rw [RemoveArea_of_absent s c h]; exact ⟨ha, hr⟩
  | RemoveAllAreas => exact ⟨ha, NamesInv_nil _⟩

/-- The by-name maps stay well-formed over a run of calls that change the children. -/
theorem runChildren_NamesInv (calls : List ChildCall) : ∀ (s : OdeTrigger),
    NamesInv OdeAction.name s.m_pOdeActions → NamesInv OdeArea.name s.m_pOdeAreas →
    NamesInv OdeAction.name (runChildren s calls).m_pOdeActions ∧
    NamesInv OdeArea.name (runChildren s calls).m_pOdeAreas := by
  induction calls with
  | nil => intro s ha hr; exact ⟨ha, hr⟩
  | cons c rest ih =>
    intro s ha hr
    obtain ⟨ha', hr'⟩ := stepChild_NamesInv s c ha hr
    exact ih (stepChild s c) ha' hr'

/-- `AddAction` returns false and changes neither the trigger (its child maps and
next-index counter included) nor the child when a child of that name is attached, and
otherwise returns true with the child attached under its name (and under the next index);
`RemoveAction` returns false and changes nothing when no child of that name is attached;
likewise `AddArea` and `RemoveArea`. In every state reached from construction by calls
that change the children, the names in the by-name map of the Actions are pairwise
distinct, and so are those in the by-name map of the Areas. -/
theorem AddAction_AddArea_keep_names_unique (s : OdeTrigger) (a : OdeAction) (r : OdeArea)
    (host : Host) (name source : String) (classId limit : Nat) (variant : Variant)
    (calls : List ChildCall) :
    ((mapFind s.m_pOdeActions a.name).isSome = true →
      OdeTrigger.AddAction s a = (false, s, a)) ∧
    ((mapFind s.m_pOdeActions a.name).isSome = false →
      (OdeTrigger.AddAction s a).1 = true ∧
      (OdeTrigger.AddAction s a).2.2.name = a.name ∧
      mapFind (OdeTrigger.AddAction s a).2.1.m_pOdeActions a.name =
        some (OdeTrigger.AddAction s a).2.2 ∧
      mapFind (OdeTrigger.AddAction s a).2.1.m_pOdeActionsIndexed
        (OdeTrigger.AddAction s a).2.2.index = some (OdeTrigger.AddAction s a).2.2) ∧
    ((mapFind s.m_pOdeActions a.name).isSome = false →
      OdeTrigger.RemoveAction s a = (false, s, a)) ∧
    ((mapFind s.m_pOdeAreas r.name).isSome = true →
      OdeTrigger.AddArea s r = (false, s, r)) ∧
    ((mapFind s.m_pOdeAreas r.name).isSome = false →
      (OdeTrigger.AddArea s r).1 = true ∧
      (OdeTrigger.AddArea s r).2.2.name = r.name ∧
      mapFind (OdeTrigger.AddArea s r).2.1.m_pOdeAreas r.name =
        some (OdeTrigger.AddArea s r).2.2 ∧
      mapFind (OdeTrigger.AddArea s r).2.1.m_pOdeAreasIndexed
        (OdeTrigger.AddArea s r).2.2.index = some (OdeTrigger.AddArea s r).2.2) ∧
    ((mapFind s.m_pOdeAreas r.name).isSome = false →
      OdeTrigger.RemoveArea s r = (false, s, r)) ∧
    (attachedActionNames
      (runChildren (OdeTrigger.new host name source classId limit variant) calls)).Nodup ∧
    (attachedAreaNames
      (runChildren (OdeTrigger.new host name source classId limit variant) calls)).Nodup := by
  obtain ⟨hA, hR⟩ := runChildren_NamesInv calls
    (OdeTrigger.new host name source classId limit variant) (NamesInv_nil _) (NamesInv_nil _)
  refine ⟨AddAction_of_attached s a, ?_, RemoveAction_of_absent s a, AddArea_of_attached s r,
    ?_, RemoveArea_of_absent s r, NamesInv_nodup _ _ hA, NamesInv_nodup _ _ hR⟩
  · intro h
    rw [AddAction_of_absent s a h]
    exact ⟨rfl, rfl, mapFind_mapInsert_self _ _ _ _, mapFind_mapInsert_self _ _ _ _⟩
  · intro h
    rw [AddArea_of_absent s r h]
    exact ⟨rfl, rfl, mapFind_mapInsert_self _ _ _ _, mapFind_mapInsert_self _ _ _ _⟩

/-- An instance of the above: the example trigger has the Action `"print"` attached, so
attaching it again fails and changes nothing; on a trigger without children attaching it
succeeds and removing it fails; likewise for the example inclusion Area. -/
theorem AddAction_AddArea_keep_names_unique_witness :
    OdeTrigger.AddAction (exampleOccurrence 1) exampleAction =
      (false, exampleOccurrence 1, exampleAction) ∧
    (OdeTrigger.AddAction (OdeTrigger.new exampleHost "trigger" "" 2 1 Variant.Occurrence)
      exampleAction).1 = true ∧
    OdeTrigger.RemoveAction (OdeTrigger.new exampleHost "trigger" "" 2 1 Variant.Occurrence)
        exampleAction =
      (false, OdeTrigger.new exampleHost "trigger" "" 2 1 Variant.Occurrence, exampleAction) ∧
    OdeTrigger.AddArea (addAreas (exampleOccurrence 1) [exampleInclusion]) exampleInclusion =
      (false, addAreas (exampleOccurrence 1) [exampleInclusion], exampleInclusion) ∧
    (OdeTrigger.AddArea (exampleOccurrence 1) exampleInclusion).1 = true ∧
    OdeTrigger.RemoveArea (exampleOccurrence 1) exampleInclusion =
      (false, exampleOccurrence 1, exampleInclusion) :=
  ⟨(AddAction_AddArea_keep_names_unique (exampleOccurrence 1) exampleAction exampleInclusion
      exampleHost "trigger" "" 2 1 Variant.Occurrence []).1 (by decide),
   ((AddAction_AddArea_keep_names_unique
      (OdeTrigger.new exampleHost "trigger" "" 2 1 Variant.Occurrence) exampleAction
      exampleInclusion exampleHost "trigger" "" 2 1 Variant.Occurrence []).2.1 (by decide)).1,
   (AddAction_AddArea_keep_names_unique
      (OdeTrigger.new exampleHost "trigger" "" 2 1 Variant.Occurrence) exampleAction
      exampleInclusion exampleHost "trigger" "" 2 1 Variant.Occurrence []).2.2.1 (by decide),
   (AddAction_AddArea_keep_names_unique (addAreas (exampleOccurrence 1) [exampleInclusion])
      exampleAction exampleInclusion exampleHost "trigger" "" 2 1
      Variant.Occurrence []).2.2.2.1 (by decide),
   ((AddAction_AddArea_keep_names_unique (exampleOccurrence 1) exampleAction exampleInclusion
      exampleHost "trigger" "" 2 1 Variant.Occurrence []).2.2.2.2.1 (by decide)).1,
   (AddAction_AddArea_keep_names_unique (exampleOccurrence 1) exampleAction exampleInclusion
      exampleHost "trigger" "" 2 1 Variant.Occurrence []).2.2.2.2.2.1 (by decide)⟩

/-- A call that changes the children does not lower the next-index counters. -/
theorem stepChild_next_le (s : OdeTrigger) (call : ChildCall) :
    s.m_nextActionIndex ≤ (stepChild s call).m_nextActionIndex ∧
    s.m_nextAreaIndex ≤ (stepChild s call).m_nextAreaIndex := by
  cases call with
  | AddAction c =>
    show _ ≤ (OdeTrigger.AddAction s c).2.1.m_nextActionIndex ∧
      _ ≤ (OdeTrigger.AddAction s c).2.1.m_nextAreaIndex
    rcases isSome_true_or_false (mapFind s.m_pOdeActions c.name) with h | h
    · rw [AddAction_of_attached s c h]; exact ⟨le_refl _, le_refl _⟩
    · rw [AddAction_of_absent s c h]; exact ⟨Nat.le_succ _, le_refl _⟩
  | RemoveAction c =>
    show _ ≤ (OdeTrigger.RemoveAction s c).2.1.m_nextActionIndex ∧
      _ ≤ (OdeTrigger.RemoveAction s c).2.1.m_nextAreaIndex
    rcases isSome_true_or_false (mapFind s.m_pOdeActions c.name) with h | h
    · rw [RemoveAction_of_attached s c h]; exact ⟨le_refl _, le_refl _⟩
    · rw [RemoveAction_of_absent s c h]; exact ⟨le_refl _, le_refl _⟩
  | RemoveAllActions => exact ⟨le_refl _, le_refl _⟩
  | AddArea c =>
    show _ ≤ (OdeTrigger.AddArea s c).2.1.m_nextActionIndex ∧
      _ ≤ (OdeTrigger.AddArea s c).2.1.m_nextAreaIndex
    rcases isSome_true_or_false (mapFind s.m_pOdeAreas c.name) with h | h
    · rw [AddArea_of_attached s c h]; exact ⟨le_refl _, le_refl _⟩
    · rw [AddArea_of_absent s c h]; exact ⟨le_refl _, Nat.le_succ _⟩
  | RemoveArea c =>
    show _ ≤ (OdeTrigger.RemoveArea s c).2.1.m_nextActionIndex ∧
      _ ≤ (OdeTrigger.RemoveArea s c).2.1.m_nextAreaIndex
    rcases isSome_true_or_false (mapFind s.m_pOdeAreas c.name) with h | h
    · rw [RemoveArea_of_attached s c h]; exact ⟨le_refl _, le_refl _⟩
    · rw [RemoveArea_of_absent s c h]; exact ⟨le_refl _, le_refl _⟩
  | RemoveAllAreas => exact ⟨le_refl _, le_refl _⟩

/-- The indices assigned to Actions over a run increase strictly and lie above the
next-index counter the run starts with. -/
theorem assignedActionIndices_increasing (calls : List ChildCall) : ∀ (s : OdeTrigger),
    (assignedActionIndices s calls).Pairwise (fun i j => i < j) ∧
    ∀ i ∈ assignedActionIndices s calls, s.m_nextActionIndex < i := by
  induction calls with
  | nil => intro s; simp [assignedActionIndices]
  | cons c rest ih =>
    intro s
    have hnext := (stepChild_next_le s c).1
    obtain ⟨ih1, ih2⟩ := ih (stepChild s c)
    have hother : (assignedActionIndices (stepChild s c) rest).Pairwise (fun i j => i < j) ∧
        ∀ i ∈ assignedActionIndices (stepChild s c) rest, s.m_nextActionIndex < i :=
      ⟨ih1, fun i hi => lt_of_le_of_lt hnext (ih2 i hi)⟩
    cases c with
    | AddAction a =>
      rcases isSome_true_or_false (mapFind s.m_pOdeActions a.name) with h | h
      · have e : assignedActionIndices s (ChildCall.AddAction a :: rest) =
            assignedActionIndices (stepChild s (ChildCall.AddAction a)) rest := by
          simp only [assignedActionIndices, stepChild, AddAction_of_attached s a h]
          rfl
        rw [e]; exact hother
      · have e : assignedActionIndices s (ChildCall.AddAction a :: rest) =
            (s.m_nextActionIndex + 1) ::
              assignedActionIndices (stepChild s (ChildCall.AddAction a)) rest := by
          simp only [assignedActionIndices, stepChild, AddAction_of_absent s a h]
          rfl
        have e2 : (stepChild s (ChildCall.AddAction a)).m_nextActionIndex =
            s.m_nextActionIndex + 1 := by
          simp only [stepChild, AddAction_of_absent s a h]
        rw [e]
        refine ⟨List.Pairwise.cons ?_ ih1, ?_⟩
        · intro i hi
          have := ih2 i hi
          rw [e2] at this
          exact this
        · intro i hi
          rcases List.mem_cons.1 hi with rfl | hi
          · exact Nat.lt_succ_self _
          · exact hother.2 i hi
    | RemoveAction a => exact hother
    | RemoveAllActions => exact hother
    | AddArea a => exact hother
    | RemoveArea a => exact hother
    | RemoveAllAreas => exact hother

/-- The indices assigned to Areas over a run increase strictly and lie above the
next-index counter the run starts with. -/
theorem assignedAreaIndices_increasing (calls : List ChildCall) : ∀ (s : OdeTrigger),
    (assignedAreaIndices s calls).Pairwise (fun i j => i < j) ∧
    ∀ i ∈ assignedAreaIndices s calls, s.m_nextAreaIndex < i := by
  induction calls with
  | nil => intro s; simp [assignedAreaIndices]
  | cons c rest ih =>
    intro s
    have hnext := (stepChild_next_le s c).2
    obtain ⟨ih1, ih2⟩ := ih (stepChild s c)
    have hother : (assignedAreaIndices (stepChild s c) rest).Pairwise (fun i j => i < j) ∧
        ∀ i ∈ assignedAreaIndices (stepChild s c) rest, s.m_nextAreaIndex < i :=
      ⟨ih1, fun i hi => lt_of_le_of_lt hnext (ih2 i hi)⟩
    cases c with
    | AddArea a =>
      rcases isSome_true_or_false (mapFind s.m_pOdeAreas a.name) with h | h
      · have e : assignedAreaIndices s (ChildCall.AddArea a :: rest) =
            assignedAreaIndices (stepChild s (ChildCall.AddArea a)) rest := by
          simp only [assignedAreaIndices, stepChild, AddArea_of_attached s a h]
          rfl
        rw [e]; exact hother
      · have e : assignedAreaIndices s (ChildCall.AddArea a :: rest) =
            (s.m_nextAreaIndex + 1) ::
              assignedAreaIndices (stepChild s (ChildCall.AddArea a)) rest := by
          simp only [assignedAreaIndices, stepChild, AddArea_of_absent s a h]
          rfl
        have e2 : (stepChild s (ChildCall.AddArea a)).m_nextAreaIndex =
            s.m_nextAreaIndex + 1 := by
          simp only [stepChild, AddArea_of_absent s a h]
        rw [e]
        refine ⟨List.Pairwise.cons ?_ ih1, ?_⟩
        · intro i hi
          have := ih2 i hi
          rw [e2] at this
          exact this
        · intro i hi
          rcases List.mem_cons.1 hi with rfl | hi
          · exact Nat.lt_succ_self _
          · exact hother.2 i hi
    | RemoveArea a => exact hother
    | RemoveAllAreas => exact hother
    | AddAction a => exact hother
    | RemoveAction a => exact hother
    | RemoveAllActions => exact hother

/-- Two entries of a map in key order that have the same key are the same entry. -/
theorem eq_of_key_eq {V : Type} (m : List (Nat × V))
    (hs : m.Pairwise (fun a b => a.1 < b.1)) (p q : Nat × V) (hp : p ∈ m) (hq : q ∈ m)
    (h : p.1 = q.1) : p = q := by
  induction m with
  | nil => simp at hp
  | cons x rest ih =>
    rw [List.pairwise_cons] at hs
    rcases List.mem_cons.1 hp with rfl | hp'
    · rcases List.mem_cons.1 hq with rfl | hq'
      · rfl
      · have := hs.1 q hq'; omega
    · rcases List.mem_cons.1 hq with rfl | hq'
      · have := hs.1 p hp'; omega
      · exact ih hs.2 hp' hq'

/-- Two elements of a list whose images under `f` are pairwise distinct are equal when
their images are. -/
theorem eq_of_map_nodup {α β : Type} (f : α → β) (l : List α) (h : (l.map f).Nodup)
    (p q : α) (hp : p ∈ l) (hq : q ∈ l) (e : f p = f q) : p = q :=
  List.inj_on_of_nodup_map h hp hq e

/-- No children: the empty maps agree. -/
theorem ChildrenInv_nil {α : Type} (name : α → String) (index : α → Nat) (next : Nat) :
    ChildrenInv name index [] [] next [] where
  lookup := by intro n; simp [mapFind]
  stored := by intro n c h; simp [mapFind] at h
  order := rfl
  keys := List.Pairwise.nil
  bound := by intro p hp; simp at hp
  nodup := List.nodup_nil

/-- Attaching a child under a name that is not attached, with the next index. -/
theorem ChildrenInv_add {α : Type} (name : α → String) (index : α → Nat)
    (byName : List (String × α)) (byIndex : List (Nat × α)) (next : Nat)
    (attached : List String) (h : ChildrenInv name index byName byIndex next attached)
    (c : α) (hc : (mapFind byName (name c)).isSome = false) (hi : index c = next + 1) :
    ChildrenInv name index (mapInsert stringLt byName (name c) c)
      (mapInsert uintLt byIndex (next + 1) c) (next + 1) (attached ++ [name c]) := by
  have hnot : name c ∉ attached := by
    intro hmem
    have := (h.lookup (name c)).2 hmem
    rw [hc] at this
    exact Bool.false_ne_true this
  have happ : mapInsert uintLt byIndex (next + 1) c = byIndex ++ [(next + 1, c)] :=
    mapInsert_append_of_lt byIndex (next + 1) c
      (fun p hp => Nat.lt_succ_of_le (h.bound p hp).1)
  rw [happ]
  refine ⟨?_, ?_, ?_, ?_, ?_, ?_⟩
  · intro n
    by_cases hn : n = name c
    · subst hn
      rw [mapFind_mapInsert_self]
      simp
    · rw [mapFind_mapInsert_ne _ _ _ _ _ hn, h.lookup n]
      simp [hn]
  · intro n d hd
    by_cases hn : n = name c
    · subst hn
      rw [mapFind_mapInsert_self] at hd
      have hdc : c = d := Option.some.inj hd
      subst hdc
      refine ⟨rfl, ?_⟩
      rw [hi]
      simp
    · rw [mapFind_mapInsert_ne _ _ _ _ _ hn] at hd
      obtain ⟨h1, h2⟩ := h.stored n d hd
      exact ⟨h1, List.mem_append_left _ h2⟩
  · rw [List.map_append, h.order]
    rfl
  · rw [List.pairwise_append]
    refine ⟨h.keys, List.pairwise_singleton _ _, ?_⟩
    intro p hp q hq
    rw [List.mem_singleton] at hq
    subst hq
    exact Nat.lt_succ_of_le (h.bound p hp).1
  · intro p hp
    rcases List.mem_append.1 hp with hp | hp
    · exact ⟨Nat.le_succ_of_le (h.bound p hp).1, (h.bound p hp).2⟩
    · rw [List.mem_singleton] at hp
      subst hp
      exact ⟨le_refl _, hi⟩
  · rw [List.nodup_append]
    refine ⟨h.nodup, List.nodup_singleton _, ?_⟩
    intro x hx hx'
    rw [List.mem_singleton] at hx'
    subst hx'
    exact hnot hx

/-- Removing the child attached under a name, by its name from the by-name map and by
its index from the by-index map. -/
theorem ChildrenInv_remove {α : Type} (name : α → String) (index : α → Nat)
    (byName : List (String × α)) (byIndex : List (Nat × α)) (next : Nat)
    (attached : List String) (h : ChildrenInv name index byName byIndex next attached)
    (n : String) (c : α) (hc : mapFind byName n = some c) :
    ChildrenInv name index (mapErase byName n) (mapErase byIndex (index c)) next
      (attached.filter (fun x => decide (x ≠ n))) := by
  obtain ⟨hcn, hcm⟩ := h.stored n c hc
  have hnd : (byIndex.map (fun p => name p.2)).Nodup := by rw [h.order]; exact h.nodup
  -- an entry has the index of `c` exactly when its child has the name of `c`
  have hkey : ∀ p ∈ byIndex, (p.1 ≠ index c ↔ name p.2 ≠ n) := by
    intro p hp
    constructor
    · intro h1 h2
      apply h1
      have : p = (index c, c) :=
        eq_of_map_nodup (fun p => name p.2) byIndex hnd p (index c, c) hp hcm
          (by show name p.2 = name c; rw [h2, hcn])
      rw [this]
    · intro h1 h2
      apply h1
      have : p = (index c, c) := eq_of_key_eq byIndex h.keys p (index c, c) hp hcm h2
      rw [this]
      exact hcn
  refine ⟨?_, ?_, ?_, ?_, ?_, ?_⟩
  · intro m
    by_cases hm : m = n
    · subst hm
      rw [mapFind_mapErase_self]
      simp
    · rw [mapFind_mapErase_ne _ _ _ hm, h.lookup m]
      simp [hm]
  · intro m d hd
    have hm : m ≠ n := by
      intro e
      subst e
      rw [mapFind_mapErase_self] at hd
      exact Option.noConfusion hd
    rw [mapFind_mapErase_ne _ _ _ hm] at hd
    obtain ⟨h1, h2⟩ := h.stored m d hd
    refine ⟨h1, ?_⟩
    unfold mapErase
    rw [List.mem_filter]
    refine ⟨h2, ?_⟩
    have := (hkey (index d, d) h2).2 (by show name d ≠ n; rw [h1]; exact hm)
    simpa using this
  · rw [← h.order]
    unfold mapErase
    rw [List.filter_map]
    congr 1
    apply List.filter_congr
    intro p hp
    have := hkey p hp
    simp only [Function.comp, decide_eq_decide]
    exact this
  · exact h.keys.sublist (List.filter_sublist _)
  · intro p hp
    exact h.bound p (List.mem_of_mem_filter hp)
  · exact h.nodup.sublist (List.filter_sublist _)

/-- Filtering a name that does not occur out of a list leaves the list. -/
theorem filter_ne_of_not_mem (l : List String) (n : String) (h : n ∉ l) :
    l.filter (fun x => decide (x ≠ n)) = l := by
  rw [List.filter_eq_self]
  intro x hx
  have : x ≠ n := fun e => h (e ▸ hx)
  simpa using this

/-- One call that changes the children, handed the attached child when it removes one,
keeps the child maps of the Actions in agreement and in insertion order. -/
theorem stepChild_ChildrenInv_actions (s : OdeTrigger) (call : ChildCall) (la : List String)
    (h : ChildrenInv OdeAction.name OdeAction.index s.m_pOdeActions s.m_pOdeActionsIndexed
      s.m_nextActionIndex la)
    (hg : removesAttachedChild s call) :
    ChildrenInv OdeAction.name OdeAction.index (stepChild s call).m_pOdeActions
      (stepChild s call).m_pOdeActionsIndexed (stepChild s call).m_nextActionIndex
      (actionsInInsertionOrder la [call]) := by
  cases call with
  | AddAction a =>
    rcases isSome_true_or_false (mapFind s.m_pOdeActions a.name) with hs | hs
    · have hm : a.name ∈ la := (h.lookup a.name).1 hs
      simp only [stepChild, AddAction_of_attached s a hs, actionsInInsertionOrder, hm, if_true]
      exact h
    · have hm : a.name ∉ la := by
        intro hmem
        have := (h.lookup a.name).2 hmem
        rw [hs] at this
        exact Bool.false_ne_true this
      simp only [stepChild, AddAction_of_absent s a hs, actionsInInsertionOrder, hm, if_false]
      exact ChildrenInv_add OdeAction.name OdeAction.index _ _ _ _ h
        { a with index := s.m_nextActionIndex + 1, parentName := s.m_name } hs rfl
  | RemoveAction a =>
    rcases isSome_true_or_false (mapFind s.m_pOdeActions a.name) with hs | hs
    · obtain ⟨d, hd⟩ := Option.isSome_iff_exists.1 hs
      have hidx : d.index = a.index := hg d hd
      simp only [stepChild, RemoveAction_of_attached s a hs, actionsInInsertionOrder]
      rw [← hidx]
      exact ChildrenInv_remove OdeAction.name OdeAction.index _ _ _ _ h a.name d hd
    · have hm : a.name ∉ la := by
        intro hmem
        have := (h.lookup a.name).2 hmem
        rw [hs] at this
        exact Bool.false_ne_true this
      simp only [stepChild, RemoveAction_of_absent s a hs, actionsInInsertionOrder,
        filter_ne_of_not_mem la a.name hm]
      exact h
  | RemoveAllActions => exact ChildrenInv_nil _ _ _
  | AddArea r =>
    rcases isSome_true_or_false (mapFind s.m_pOdeAreas r.name) with hs | hs
    · simp only [stepChild, AddArea_of_attached s r hs, actionsInInsertionOrder]
      exact h
    · simp only [stepChild, AddArea_of_absent s r hs, actionsInInsertionOrder]
      exact h
  | RemoveArea r =>
    rcases isSome_true_or_false (mapFind s.m_pOdeAreas r.name) with hs | hs
    · simp only [stepChild, RemoveArea_of_attached s r hs, actionsInInsertionOrder]
      exact h
    · simp only [stepChild, RemoveArea_of_absent s r hs, actionsInInsertionOrder]
      exact h
  | RemoveAllAreas => exact h

/-- One call that changes the children, handed the attached child when it removes one,
keeps the child maps of the Areas in agreement and in insertion order. -/
theorem stepChild_ChildrenInv_areas (s : OdeTrigger) (call : ChildCall) (lr : List String)
    (h : ChildrenInv OdeArea.name OdeArea.index s.m_pOdeAreas s.m_pOdeAreasIndexed
      s.m_nextAreaIndex lr)
    (hg : removesAttachedChild s call) :
    ChildrenInv OdeArea.name OdeArea.index (stepChild s call).m_pOdeAreas
      (stepChild s call).m_pOdeAreasIndexed (stepChild s call).m_nextAreaIndex
      (areasInInsertionOrder lr [call]) := by
  cases call with
  | AddArea a =>
    rcases isSome_true_or_false (mapFind s.m_pOdeAreas a.name) with hs | hs
    · have hm : a.name ∈ lr := (h.lookup a.name).1 hs
      simp only [stepChild, AddArea_of_attached s a hs, areasInInsertionOrder, hm, if_true]
      exact h
    · have hm : a.name ∉ lr := by
        intro hmem
        have := (h.lookup a.name).2 hmem
        rw [hs] at this
        exact Bool.false_ne_true this
      simp only [stepChild, AddArea_of_absent s a hs, areasInInsertionOrder, hm, if_false]
      exact ChildrenInv_add OdeArea.name OdeArea.index _ _ _ _ h
        { a with index := s.m_nextAreaIndex + 1, parentName := s.m_name } hs rfl
  | RemoveArea a =>
    rcases isSome_true_or_false (mapFind s.m_pOdeAreas a.name) with hs | hs
    · obtain ⟨d, hd⟩ := Option.isSome_iff_exists.1 hs
      have hidx : d.index = a.index := hg d hd
      simp only [stepChild, RemoveArea_of_attached s a hs, areasInInsertionOrder]
      rw [← hidx]
      exact ChildrenInv_remove OdeArea.name OdeArea.index _ _ _ _ h a.name d hd
    · have hm : a.name ∉ lr := by
        intro hmem
        have := (h.lookup a.name).2 hmem
        rw [hs] at this
        exact Bool.false_ne_true this
      simp only [stepChild, RemoveArea_of_absent s a hs, areasInInsertionOrder,
        filter_ne_of_not_mem lr a.name hm]
      exact h
  | RemoveAllAreas => exact ChildrenInv_nil _ _ _
  | AddAction r =>
    rcases isSome_true_or_false (mapFind s.m_pOdeActions r.name) with hs | hs
    · simp only [stepChild, AddAction_of_attached s r hs, areasInInsertionOrder]
      exact h
    · simp only [stepChild, AddAction_of_absent s r hs, areasInInsertionOrder]
      exact h
  | RemoveAction r =>
    rcases isSome_true_or_false (mapFind s.m_pOdeActions r.name) with hs | hs
    · simp only [stepChild, RemoveAction_of_attached s r hs, areasInInsertionOrder]
      exact h
    · simp only [stepChild, RemoveAction_of_absent s r hs, areasInInsertionOrder]
      exact h
  | RemoveAllActions => exact h

/-- The insertion order after a first call and the rest of the calls. -/
theorem actionsInInsertionOrder_cons (la : List String) (c : ChildCall)
    (rest : List ChildCall) :
    actionsInInsertionOrder la (c :: rest) =
      actionsInInsertionOrder (actionsInInsertionOrder la [c]) rest := by
  cases c <;> rfl

/-- The insertion order after a first call and the rest of the calls. -/
theorem areasInInsertionOrder_cons (lr : List String) (c : ChildCall)
    (rest : List ChildCall) :
    areasInInsertionOrder lr (c :: rest) =
      areasInInsertionOrder (areasInInsertionOrder lr [c]) rest := by
  cases c <;> rfl

/-- Over a run of calls that change the children, each handed the attached child when it
removes one, the child maps stay in agreement and in insertion order. -/
theorem runChildren_ChildrenInv (calls : List ChildCall) :
    ∀ (s : OdeTrigger) (la lr : List String),
    ChildrenInv OdeAction.name OdeAction.index s.m_pOdeActions s.m_pOdeActionsIndexed
      s.m_nextActionIndex la →
    ChildrenInv OdeArea.name OdeArea.index s.m_pOdeAreas s.m_pOdeAreasIndexed
      s.m_nextAreaIndex lr →
    AdmissibleChildren removesAttachedChild s calls →
    ChildrenInv OdeAction.name OdeAction.index (runChildren s calls).m_pOdeActions
      (runChildren s calls).m_pOdeActionsIndexed (runChildren s calls).m_nextActionIndex
      (actionsInInsertionOrder la calls) ∧
    ChildrenInv OdeArea.name OdeArea.index (runChildren s calls).m_pOdeAreas
      (runChildren s calls).m_pOdeAreasIndexed (runChildren s calls).m_nextAreaIndex
      (areasInInsertionOrder lr calls) := by
  induction calls with
  | nil => intro s la lr ha hr _; exact ⟨ha, hr⟩
  | cons c rest ih =>
    intro s la lr ha hr hadm
    rw [actionsInInsertionOrder_cons, areasInInsertionOrder_cons]
    exact ih (stepChild s c) _ _ (stepChild_ChildrenInv_actions s c la ha hadm.1)
      (stepChild_ChildrenInv_areas s c lr hr hadm.1) hadm.2

/-- Every child in the by-index map is the child attached under its name. -/
theorem ChildrenInv_indexed_attached {α : Type} (name : α → String) (index : α → Nat)
    (byName : List (String × α)) (byIndex : List (Nat × α)) (next : Nat)
    (attached : List String) (h : ChildrenInv name index byName byIndex next attached)
    (p : Nat × α) (hp : p ∈ byIndex) : mapFind byName (name p.2) = some p.2 := by
  have hmem : name p.2 ∈ attached := by
    rw [← h.order]
    exact List.mem_map_of_mem (fun p => name p.2) hp
  obtain ⟨d, hd⟩ := Option.isSome_iff_exists.1 ((h.lookup (name p.2)).2 hmem)
  obtain ⟨h1, h2⟩ := h.stored _ d hd
  have hnd : (byIndex.map (fun p => name p.2)).Nodup := by rw [h.order]; exact h.nodup
  have : (index d, d) = p :=
    eq_of_map_nodup (fun p => name p.2) byIndex hnd (index d, d) p h2 hp h1
  rw [hd, ← this]

/-- C14: over every sequence of `AddAction`, `RemoveAction` and `RemoveAllActions` calls
on one trigger (likewise for Areas) the indices assigned to the children increase
strictly in the order of addition, so none is used twice; and, from a trigger without
children, when each `RemoveAction` call is handed the attached child (the child carries
the index the trigger gave it), the by-index map, which the per-frame code iterates,
lists the attached children, each once, in key order, which is the order in which they
were added. -/
theorem children_visited_in_order_of_addition (s0 : OdeTrigger) (calls : List ChildCall) :
    (assignedActionIndices s0 calls).Pairwise (fun i j => i < j) ∧
    (∀ i ∈ assignedActionIndices s0 calls, s0.m_nextActionIndex < i) ∧
    (assignedAreaIndices s0 calls).Pairwise (fun i j => i < j) ∧
    (∀ i ∈ assignedAreaIndices s0 calls, s0.m_nextAreaIndex < i) ∧
    (s0.m_pOdeActions = [] → s0.m_pOdeActionsIndexed = [] →
      s0.m_pOdeAreas = [] → s0.m_pOdeAreasIndexed = [] →
      AdmissibleChildren removesAttachedChild s0 calls →
      ((runChildren s0 calls).m_pOdeActionsIndexed.map (fun p => p.2.name) =
          actionsInInsertionOrder [] calls ∧
        (runChildren s0 calls).m_pOdeActionsIndexed.Pairwise (fun a b => a.1 < b.1) ∧
        (∀ n, (mapFind (runChildren s0 calls).m_pOdeActions n).isSome = true ↔
          n ∈ actionsInInsertionOrder [] calls) ∧
        (∀ n c, mapFind (runChildren s0 calls).m_pOdeActions n = some c →
          (c.index, c) ∈ (runChildren s0 calls).m_pOdeActionsIndexed) ∧
        (∀ p ∈ (runChildren s0 calls).m_pOdeActionsIndexed,
          mapFind (runChildren s0 calls).m_pOdeActions p.2.name = some p.2)) ∧
      ((runChildren s0 calls).m_pOdeAreasIndexed.map (fun p => p.2.name) =
          areasInInsertionOrder [] calls ∧
        (runChildren s0 calls).m_pOdeAreasIndexed.Pairwise (fun a b => a.1 < b.1) ∧
        (∀ n, (mapFind (runChildren s0 calls).m_pOdeAreas n).isSome = true ↔
          n ∈ areasInInsertionOrder [] calls) ∧
        (∀ n c, mapFind (runChildren s0 calls).m_pOdeAreas n = some c →
          (c.index, c) ∈ (runChildren s0 calls).m_pOdeAreasIndexed) ∧
        (∀ p ∈ (runChildren s0 calls).m_pOdeAreasIndexed,
          mapFind (runChildren s0 calls).m_pOdeAreas p.2.name = some p.2))) := by
  refine ⟨(assignedActionIndices_increasing calls s0).1,
    (assignedActionIndices_increasing calls s0).2,
    (assignedAreaIndices_increasing calls s0).1,
    (assignedAreaIndices_increasing calls s0).2, ?_⟩
  intro h1 h2 h3 h4 hadm
  have ha0 : ChildrenInv OdeAction.name OdeAction.index s0.m_pOdeActions
      s0.m_pOdeActionsIndexed s0.m_nextActionIndex [] := by
    rw [h1, h2]; exact ChildrenInv_nil _ _ _
  have hr0 : ChildrenInv OdeArea.name OdeArea.index s0.m_pOdeAreas
      s0.m_pOdeAreasIndexed s0.m_nextAreaIndex [] := by
    rw [h3, h4]; exact ChildrenInv_nil _ _ _
  obtain ⟨ha, hr⟩ := runChildren_ChildrenInv calls s0 [] [] ha0 hr0 hadm
  exact ⟨⟨ha.order, ha.keys, ha.lookup, fun n c h => (ha.stored n c h).2,
      fun p hp => ChildrenInv_indexed_attached _ _ _ _ _ _ ha p hp⟩,
    ⟨hr.order, hr.keys, hr.lookup, fun n c h => (hr.stored n c h).2,
      fun p hp => ChildrenInv_indexed_attached _ _ _ _ _ _ hr p hp⟩⟩

/-- Witness for C14: after the example calls the by-index map of the Actions lists
`"log"` (index 2) before `"print"` (index 3, attached again after its removal), and the
by-index map of the Areas lists the inclusion Area. -/
theorem children_visited_in_order_of_addition_witness :
    (runChildren (OdeTrigger.new exampleHost "trigger" "" 2 1 Variant.Occurrence)
        exampleChildCalls).m_pOdeActionsIndexed.map (fun p => (p.1, p.2.name)) =
      [(2, "log"), (3, "print")] ∧
    actionsInInsertionOrder [] exampleChildCalls = ["log", "print"] ∧
    assignedActionIndices (OdeTrigger.new exampleHost "trigger" "" 2 1 Variant.Occurrence)
      exampleChildCalls = [1, 2, 3] ∧
    (runChildren (OdeTrigger.new exampleHost "trigger" "" 2 1 Variant.Occurrence)
        exampleChildCalls).m_pOdeActionsIndexed.map (fun p => p.2.name) =
      actionsInInsertionOrder [] exampleChildCalls :=
  ⟨by decide, by decide, by decide,
   ((children_visited_in_order_of_addition
      (OdeTrigger.new exampleHost "trigger" "" 2 1 Variant.Occurrence)
      exampleChildCalls).2.2.2.2 rfl rfl rfl rfl
      ⟨trivial, trivial, fun c h => by cases Option.some.inj h; rfl, trivial, trivial,
        trivial⟩).1.1⟩

/-- The result of `CheckForSourceId` does not depend on the frame's count of
occurrences. -/
theorem CheckForSourceId_occurrences (s : OdeTrigger) (n : Nat) (x : Int) :
    (CheckForSourceId { s with m_occurrences := n } x).1 = (CheckForSourceId s x).1 := by
  unfold CheckForSourceId
  dsimp only
  split_ifs <;> rfl

/-- The base `PreProcessFrame` on an enabled trigger whose source filter accepts the
frame: the members it assigns and those it leaves. -/
theorem PreProcessFrame_of_accepted (s : OdeTrigger) (f : NvDsFrameMeta)
    (he : s.m_enabled = true) (ha : sourceAccepts s f = true) :
    (OdeTrigger.PreProcessFrame s f).m_occurrences = 0 ∧
    (OdeTrigger.PreProcessFrame s f).m_enabled = s.m_enabled ∧
    (OdeTrigger.PreProcessFrame s f).m_interval = s.m_interval ∧
    (OdeTrigger.PreProcessFrame s f).m_intervalCounter =
      (if s.m_interval ≠ 0 then (s.m_intervalCounter + 1) % s.m_interval
       else s.m_intervalCounter) ∧
    (OdeTrigger.PreProcessFrame s f).m_skipFrame =
      decide (s.m_interval ≠ 0 ∧ (s.m_intervalCounter + 1) % s.m_interval ≠ 0) := by
  have h1 := CheckForSourceId_occurrences s 0 f.source_id
  obtain ⟨a, l, h3, -⟩ := CheckForSourceId_snd { s with m_occurrences := 0 } f.source_id
  have ha' : (CheckForSourceId s f.source_id).1 = true := ha
  rw [ha'] at h1
  unfold OdeTrigger.PreProcessFrame
  dsimp only
  rw [h1, h3]
  dsimp only
  rw [he]
  simp only [Bool.not_true, Bool.false_eq_true, if_false]
  by_cases hi : s.m_interval ≠ 0
  · rw [if_pos hi, if_pos hi]
    by_cases hc : (s.m_intervalCounter + 1) % s.m_interval ≠ 0
    · rw [if_pos hc]
      exact ⟨rfl, rfl, rfl, rfl, by simp [hi, hc]⟩
    · rw [if_neg hc]
      exact ⟨rfl, rfl, rfl, rfl, by simp [hi, hc]⟩
  · rw [if_neg hi, if_neg hi]
    exact ⟨rfl, rfl, rfl, rfl, by simp [hi]⟩

/-- Over successive accepted frames of an enabled trigger with interval `n > 0` the
counter counts the frames modulo `n`, and a frame is skipped unless the counter is back
at 0. -/
theorem preProcessFrames_counter (n : Nat) (hn : n ≠ 0) (frames : List NvDsFrameMeta) :
    ∀ (s : OdeTrigger), s.m_enabled = true → s.m_interval = n → acceptsAll s frames →
    (preProcessFrames s frames).m_enabled = true ∧
    (preProcessFrames s frames).m_interval = n ∧
    (frames ≠ [] →
      (preProcessFrames s frames).m_intervalCounter =
        (s.m_intervalCounter + frames.length) % n ∧
      (preProcessFrames s frames).m_skipFrame =
        decide ((s.m_intervalCounter + frames.length) % n ≠ 0) ∧
      (preProcessFrames s frames).m_occurrences = 0) := by
  induction frames with
  | nil =>
    intro s he hi _
    exact ⟨he, hi, fun h => absurd rfl h⟩
  | cons f rest ih =>
    intro s he hi hacc
    obtain ⟨h1, h2, h3, h4, h5⟩ := PreProcessFrame_of_accepted s f he hacc.1
    have hi' : s.m_interval ≠ 0 := by rw [hi]; exact hn
    rw [if_pos hi', hi] at h4
    rw [hi] at h5
    obtain ⟨i1, i2, i3⟩ := ih (OdeTrigger.PreProcessFrame s f) (by rw [h2, he])
      (by rw [h3, hi]) hacc.2
    refine ⟨i1, i2, fun _ => ?_⟩
    by_cases hr : rest = []
    · subst hr
      refine ⟨h4, ?_, h1⟩
      show (OdeTrigger.PreProcessFrame s f).m_skipFrame = _
      rw [h5]
      simp [hn]
    · obtain ⟨j1, j2, j3⟩ := i3 hr
      have e : ((s.m_intervalCounter + 1) % n + rest.length) % n =
          (s.m_intervalCounter + (f :: rest).length) % n := by
        rw [Nat.mod_add_mod, List.length_cons]
        congr 1
        omega
      rw [h4, e] at j1 j2
      exact ⟨j1, j2, j3⟩

/-- Over successive accepted frames of an enabled trigger with interval 0 no frame is
skipped. -/
theorem preProcessFrames_no_interval (frames : List NvDsFrameMeta) :
    ∀ (s : OdeTrigger), s.m_enabled = true → s.m_interval = 0 → acceptsAll s frames →
    (preProcessFrames s frames).m_enabled = true ∧
    (preProcessFrames s frames).m_interval = 0 ∧
    (frames ≠ [] → (preProcessFrames s frames).m_skipFrame = false) := by
  induction frames with
  | nil =>
    intro s he hi _
    exact ⟨he, hi, fun h => absurd rfl h⟩
  | cons f rest ih =>
    intro s he hi hacc
    obtain ⟨-, h2, h3, -, h5⟩ := PreProcessFrame_of_accepted s f he hacc.1
    obtain ⟨i1, i2, i3⟩ := ih (OdeTrigger.PreProcessFrame s f) (by rw [h2, he])
      (by rw [h3, hi]) hacc.2
    refine ⟨i1, i2, fun _ => ?_⟩
    by_cases hr : rest = []
    · subst hr
      show (OdeTrigger.PreProcessFrame s f).m_skipFrame = false
      rw [h5]
      simp [hi]
    · exact i3 hr

/-- C15: the base `PreProcessFrame` on an enabled trigger whose source filter accepts the
frame leaves `m_occurrences` at 0; with an interval `n > 0` the counter becomes
`(counter + 1) mod n` and the frame is skipped exactly when the new counter is not 0, so
that after `SetInterval(n)` the k-th frame is the one not skipped exactly when `n`
divides `k`; with interval 0 no frame is skipped. -/
theorem PreProcessFrame_skips_all_but_every_nth_frame (s : OdeTrigger) (f : NvDsFrameMeta)
    (n : Nat) (frames : List NvDsFrameMeta) (he : s.m_enabled = true) :
    (sourceAccepts s f = true →
      (OdeTrigger.PreProcessFrame s f).m_occurrences = 0 ∧
      (s.m_interval ≠ 0 →
        (OdeTrigger.PreProcessFrame s f).m_intervalCounter =
          (s.m_intervalCounter + 1) % s.m_interval ∧
        ((OdeTrigger.PreProcessFrame s f).m_skipFrame = true ↔
          (OdeTrigger.PreProcessFrame s f).m_intervalCounter ≠ 0)) ∧
      (s.m_interval = 0 → (OdeTrigger.PreProcessFrame s f).m_skipFrame = false)) ∧
    (0 < n → frames ≠ [] → acceptsAll (OdeTrigger.SetInterval s n) frames →
      ((preProcessFrames (OdeTrigger.SetInterval s n) frames).m_skipFrame = false ↔
        n ∣ frames.length)) ∧
    (frames ≠ [] → acceptsAll (OdeTrigger.SetInterval s 0) frames →
      (preProcessFrames (OdeTrigger.SetInterval s 0) frames).m_skipFrame = false) := by
  refine ⟨?_, ?_, ?_⟩
  · intro ha
    obtain ⟨h1, -, -, h4, h5⟩ := PreProcessFrame_of_accepted s f he ha
    refine ⟨h1, ?_, ?_⟩
    · intro hi
      rw [if_pos hi] at h4
      refine ⟨h4, ?_⟩
      rw [h5, h4]
      simp [hi]
    · intro hi
      rw [h5]
      simp [hi]
  · intro hn hne hacc
    obtain ⟨-, -, h3⟩ := preProcessFrames_counter n (Nat.pos_iff_ne_zero.1 hn) frames
      (OdeTrigger.SetInterval s n) he rfl hacc
    obtain ⟨-, j2, -⟩ := h3 hne
    rw [j2]
    show decide ((0 + frames.length) % n ≠ 0) = false ↔ _
    rw [Nat.zero_add, Nat.dvd_iff_mod_eq_zero]
    simp
  · intro hne hacc
    exact (preProcessFrames_no_interval frames (OdeTrigger.SetInterval s 0) he rfl hacc).2.2 hne

/-- Witness for C15: the example trigger after `SetInterval(3)`: the first and the second
frame are skipped, the third is not. -/
theorem PreProcessFrame_skips_all_but_every_nth_frame_witness :
    (OdeTrigger.PreProcessFrame (OdeTrigger.SetInterval (exampleOccurrence 1) 3)
      exampleFrame).m_skipFrame = true ∧
    (preProcessFrames (OdeTrigger.SetInterval (exampleOccurrence 1) 3)
      [exampleFrame, exampleFrame2]).m_skipFrame = true ∧
    (preProcessFrames (OdeTrigger.SetInterval (exampleOccurrence 1) 3)
      [exampleFrame, exampleFrame2, exampleFrame]).m_skipFrame = false :=
  ⟨by decide, by decide,
   ((PreProcessFrame_skips_all_but_every_nth_frame (exampleOccurrence 1) exampleFrame 3
      [exampleFrame, exampleFrame2, exampleFrame] rfl).2.1 (by decide) (by decide)
      (by decide)).2 (by decide)⟩

/-- The state `CheckForSourceId` leaves: the one it found, or that one with the looked-up
id cached and the lookup logged, when the id was unresolved. -/
theorem CheckForSourceId_snd_cases (s : OdeTrigger) (x : Int) :
    (CheckForSourceId s x).2 = s ∨
    (s.m_sourceId = -1 ∧ (CheckForSourceId s x).2 = { s with
      m_sourceId := (s.SourceIdGet s.m_source).getD s.m_sourceId
      log := s.log ++ [Effect.SourceIdGet s.m_source] }) := by
  unfold CheckForSourceId
  dsimp only
  split_ifs with h1 h2 h3 h4
  · exact Or.inr ⟨h2, rfl⟩
  · exact Or.inr ⟨h2, rfl⟩
  · exact Or.inl rfl
  · exact Or.inl rfl
  · exact Or.inl rfl

/-- The state `CheckForInferId` leaves: the one it found, or that one with the looked-up
id cached and the lookup logged, when the id was unresolved. -/
theorem CheckForInferId_snd_cases (s : OdeTrigger) (x : Int) :
    (CheckForInferId s x).2 = s ∨
    (s.m_inferId = -1 ∧ (CheckForInferId s x).2 = { s with
      m_inferId := (s.InferIdGet s.m_infer).getD s.m_inferId
      log := s.log ++ [Effect.InferIdGet s.m_infer] }) := by
  unfold CheckForInferId
  dsimp only
  split_ifs with h1 h2 h3 h4
  · exact Or.inr ⟨h2, rfl⟩
  · exact Or.inr ⟨h2, rfl⟩
  · exact Or.inl rfl
  · exact Or.inl rfl
  · exact Or.inl rfl

/-- The state `CheckForMinCriteria` leaves is the one it found, the one its
`CheckForSourceId` call leaves, or the one its `CheckForInferId` call leaves after
that. -/
theorem CheckForMinCriteria_snd_cases (s : OdeTrigger) (f : NvDsFrameMeta)
    (o : NvDsObjectMeta) :
    (CheckForMinCriteria s f o).2 = s ∨
    (CheckForMinCriteria s f o).2 = (CheckForSourceId s f.source_id).2 ∨
    (CheckForMinCriteria s f o).2 =
      (CheckForInferId (CheckForSourceId s f.source_id).2 o.unique_component_id).2 := by
  unfold CheckForMinCriteria
  dsimp only
  split_ifs
  all_goals first
    | exact Or.inl rfl
    | exact Or.inr (Or.inl rfl)
    | exact Or.inr (Or.inr rfl)

/-- Nothing changes: a step for the source id. -/
theorem SourceStep_refl (s : OdeTrigger) : SourceStep s s :=
  ⟨rfl, rfl, Or.inl ⟨rfl, rfl⟩⟩

/-- Nothing changes: a step for the inference-component id. -/
theorem InferStep_refl (s : OdeTrigger) : InferStep s s :=
  ⟨rfl, rfl, Or.inl ⟨rfl, rfl⟩⟩

/-- `CheckForSourceId` as a step for the source id. -/
theorem CheckForSourceId_SourceStep (s : OdeTrigger) (x : Int) :
    SourceStep s (CheckForSourceId s x).2 := by
  rcases CheckForSourceId_snd_cases s x with h | ⟨h1, h2⟩
  · rw [h]; exact SourceStep_refl s
  · rw [h2]
    refine ⟨rfl, rfl, Or.inr ⟨h1, ?_, ?_⟩⟩
    · show (s.SourceIdGet s.m_source).getD s.m_sourceId = _
      rw [h1]
    · show sourceLookups (s.log ++ [Effect.SourceIdGet s.m_source]) = _
      simp [sourceLookups, List.countP_append]

/-- `CheckForSourceId` leaves the inference-component id alone. -/
theorem CheckForSourceId_InferStep (s : OdeTrigger) (x : Int) :
    InferStep s (CheckForSourceId s x).2 ∧
    (CheckForSourceId s x).2.m_inferId = s.m_inferId ∧
    inferLookups (CheckForSourceId s x).2.log = inferLookups s.log := by
  rcases CheckForSourceId_snd_cases s x with h | ⟨-, h2⟩
  · rw [h]; exact ⟨InferStep_refl s, rfl, rfl⟩
  · rw [h2]
    have e : inferLookups (s.log ++ [Effect.SourceIdGet s.m_source]) = inferLookups s.log := by
      simp [inferLookups, List.countP_append]
    exact ⟨⟨rfl, rfl, Or.inl ⟨rfl, e⟩⟩, rfl, e⟩

/-- `CheckForInferId` as a step for the inference-component id. -/
theorem CheckForInferId_InferStep (s : OdeTrigger) (x : Int) :
    InferStep s (CheckForInferId s x).2 := by
  rcases CheckForInferId_snd_cases s x with h | ⟨h1, h2⟩
  · rw [h]; exact InferStep_refl s
  · rw [h2]
    refine ⟨rfl, rfl, Or.inr ⟨h1, ?_, ?_⟩⟩
    · show (s.InferIdGet s.m_infer).getD s.m_inferId = _
      rw [h1]
    · show inferLookups (s.log ++ [Effect.InferIdGet s.m_infer]) = _
      simp [inferLookups, List.countP_append]

/-- `CheckForInferId` leaves the source id alone. -/
theorem CheckForInferId_SourceStep (s : OdeTrigger) (x : Int) :
    (CheckForInferId s x).2.m_source = s.m_source ∧
    (CheckForInferId s x).2.SourceIdGet = s.SourceIdGet ∧
    (CheckForInferId s x).2.m_sourceId = s.m_sourceId ∧
    sourceLookups (CheckForInferId s x).2.log = sourceLookups s.log := by
  rcases CheckForInferId_snd_cases s x with h | ⟨-, h2⟩
  · rw [h]; exact ⟨rfl, rfl, rfl, rfl⟩
  · rw [h2]
    refine ⟨rfl, rfl, rfl, ?_⟩
    show sourceLookups (s.log ++ [Effect.InferIdGet s.m_infer]) = _
    simp [sourceLookups, List.countP_append]

/-- Every gate call is a step for the source id and a step for the inference-component
id. -/
theorem stepGate_steps (s : OdeTrigger) (c : GateCall) :
    SourceStep s (stepGate s c) ∧ InferStep s (stepGate s c) := by
  cases c with
  | CheckForSourceId x =>
    exact ⟨CheckForSourceId_SourceStep s x, (CheckForSourceId_InferStep s x).1⟩
  | CheckForInferId x =>
    obtain ⟨h1, h2, h3, h4⟩ := CheckForInferId_SourceStep s x
    exact ⟨⟨h1, h2, Or.inl ⟨h3, h4⟩⟩, CheckForInferId_InferStep s x⟩
  | CheckForMinCriteria f o =>
    show SourceStep s (CheckForMinCriteria s f o).2 ∧ InferStep s (CheckForMinCriteria s f o).2
    rcases CheckForMinCriteria_snd_cases s f o with h | h | h
    · rw [h]; exact ⟨SourceStep_refl s, InferStep_refl s⟩
    · rw [h]
      exact ⟨CheckForSourceId_SourceStep s _, (CheckForSourceId_InferStep s _).1⟩
    · rw [h]
      have hs := CheckForSourceId_SourceStep s f.source_id
      obtain ⟨hi, hi2, hi3⟩ := CheckForSourceId_InferStep s f.source_id
      obtain ⟨h1, h2, h3, h4⟩ :=
        CheckForInferId_SourceStep (CheckForSourceId s f.source_id).2 o.unique_component_id
      have hj := CheckForInferId_InferStep (CheckForSourceId s f.source_id).2
        o.unique_component_id
      refine ⟨⟨h1.trans hs.name, h2.trans hs.service, ?_⟩,
        ⟨hj.name.trans hi.name, hj.service.trans hi.service, ?_⟩⟩
      · rcases hs.lookup with ⟨a, b⟩ | ⟨a, b, c⟩
        · exact Or.inl ⟨h3.trans a, h4.trans b⟩
        · exact Or.inr ⟨a, h3.trans b, h4.trans c⟩
      · have hl := hj.lookup
        rw [hi.name, hi.service, hi2, hi3] at hl
        exact hl

/-- Over a run of gate calls: once the source id is resolved no lookup is made and the id
stays; and when the name service knows the source name at most one lookup is made. -/
theorem runGates_sourceLookups (calls : List GateCall) : ∀ (s : OdeTrigger),
    (s.m_sourceId ≠ -1 →
      sourceLookups (runGates s calls).log = sourceLookups s.log ∧
      (runGates s calls).m_sourceId = s.m_sourceId) ∧
    ((∃ id, s.SourceIdGet s.m_source = some id ∧ id ≠ -1) →
      sourceLookups (runGates s calls).log ≤ sourceLookups s.log + 1) := by
  induction calls with
  | nil =>
    intro s
    exact ⟨fun _ => ⟨rfl, rfl⟩, fun _ => Nat.le_succ _⟩
  | cons c rest ih =>
    intro s
    have hs := (stepGate_steps s c).1
    obtain ⟨ih1, ih2⟩ := ih (stepGate s c)
    refine ⟨?_, ?_⟩
    · intro hres
      rcases hs.lookup with ⟨a, b⟩ | ⟨a, -, -⟩
      · obtain ⟨j1, j2⟩ := ih1 (by rw [a]; exact hres)
        exact ⟨j1.trans b, j2.trans a⟩
      · exact absurd a hres
    · rintro ⟨id, hid, hne⟩
      rcases hs.lookup with ⟨a, b⟩ | ⟨-, b, hc⟩
      · have := ih2 ⟨id, by rw [hs.service, hs.name]; exact hid, hne⟩
        show sourceLookups (runGates (stepGate s c) rest).log ≤ _
        omega
      · rw [hid] at b
        obtain ⟨j1, -⟩ := ih1 (by rw [b]; exact hne)
        show sourceLookups (runGates (stepGate s c) rest).log ≤ _
        omega

/-- Over a run of gate calls: once the inference-component id is resolved no lookup is
made and the id stays; and when the name service knows the component name at most one
lookup is made. -/
theorem runGates_inferLookups (calls : List GateCall) : ∀ (s : OdeTrigger),
    (s.m_inferId ≠ -1 →
      inferLookups (runGates s calls).log = inferLookups s.log ∧
      (runGates s calls).m_inferId = s.m_inferId) ∧
    ((∃ id, s.InferIdGet s.m_infer = some id ∧ id ≠ -1) →
      inferLookups (runGates s calls).log ≤ inferLookups s.log + 1) := by
  induction calls with
  | nil =>
    intro s
    exact ⟨fun _ => ⟨rfl, rfl⟩, fun _ => Nat.le_succ _⟩
  | cons c rest ih =>
    intro s
    have hs := (stepGate_steps s c).2
    obtain ⟨ih1, ih2⟩ := ih (stepGate s c)
    refine ⟨?_, ?_⟩
    · intro hres
      rcases hs.lookup with ⟨a, b⟩ | ⟨a, -, -⟩
      · obtain ⟨j1, j2⟩ := ih1 (by rw [a]; exact hres)
        exact ⟨j1.trans b, j2.trans a⟩
      · exact absurd a hres
    · rintro ⟨id, hid, hne⟩
      rcases hs.lookup with ⟨a, b⟩ | ⟨-, b, hc⟩
      · have := ih2 ⟨id, by rw [hs.service, hs.name]; exact hid, hne⟩
        show inferLookups (runGates (stepGate s c) rest).log ≤ _
        omega
      · rw [hid] at b
        obtain ⟨j1, -⟩ := ih1 (by rw [b]; exact hne)
        show inferLookups (runGates (stepGate s c) rest).log ≤ _
        omega

/-- With a source name set and the source id unresolved, `CheckForSourceId` makes the
lookup. -/
theorem CheckForSourceId_of_unresolved (s : OdeTrigger) (x : Int)
    (hn : s.m_source.length ≠ 0) (hu : s.m_sourceId = -1) :
    (CheckForSourceId s x).2 = { s with
      m_sourceId := (s.SourceIdGet s.m_source).getD s.m_sourceId
      log := s.log ++ [Effect.SourceIdGet s.m_source] } := by
  unfold CheckForSourceId
  dsimp only
  rw [if_pos hn, if_pos hu]
  split_ifs <;> rfl

/-- With a component name set and the component id unresolved, `CheckForInferId` makes
the lookup. -/
theorem CheckForInferId_of_unresolved (s : OdeTrigger) (x : Int)
    (hn : s.m_infer.length ≠ 0) (hu : s.m_inferId = -1) :
    (CheckForInferId s x).2 = { s with
      m_inferId := (s.InferIdGet s.m_infer).getD s.m_inferId
      log := s.log ++ [Effect.InferIdGet s.m_infer] } := by
  unfold CheckForInferId
  dsimp only
  rw [if_pos hn, if_pos hu]
  split_ifs <;> rfl

/-- One more `SourceIdGet` in the log is one more source lookup. -/
theorem sourceLookups_append_SourceIdGet (log : List Effect) (name : String) :
    sourceLookups (log ++ [Effect.SourceIdGet name]) = sourceLookups log + 1 := by
  simp [sourceLookups, List.countP_append]

/-- One more `InferIdGet` in the log is one more component lookup. -/
theorem inferLookups_append_InferIdGet (log : List Effect) (name : String) :
    inferLookups (log ++ [Effect.InferIdGet name]) = inferLookups log + 1 := by
  simp [inferLookups, List.countP_append]

/-- A `CheckForMinCriteria` call that is not returned at the skip-frame or limit test
leaves the state of its `CheckForSourceId` call when that call fails, and the state of
its `CheckForInferId` call otherwise. -/
theorem CheckForMinCriteria_snd_of_reached (s : OdeTrigger) (f : NvDsFrameMeta)
    (o : NvDsObjectMeta) (hs : s.m_skipFrame = false)
    (hl : s.m_limit = 0 ∨ s.m_triggered < s.m_limit) :
    ((CheckForSourceId s f.source_id).1 = false →
      (CheckForMinCriteria s f o).2 = (CheckForSourceId s f.source_id).2) ∧
    ((CheckForSourceId s f.source_id).1 = true →
      (CheckForMinCriteria s f o).2 =
        (CheckForInferId (CheckForSourceId s f.source_id).2 o.unique_component_id).2) := by
  have hl' : ¬ (s.m_limit ≠ 0 ∧ s.m_triggered ≥ s.m_limit) := by
    rintro ⟨h1, h2⟩
    rcases hl with h | h
    · exact h1 h
    · omega
  unfold CheckForMinCriteria
  dsimp only
  rw [hs, if_neg (by decide), if_neg hl']
  constructor
  · intro h
    rw [h]
    rfl
  · intro h
    rw [h, if_neg (by decide)]
    split_ifs <;> rfl

/-- A `CheckForMinCriteria` call on a skipped frame, or when the limit is reached, makes
no lookup: it leaves the state as it is. -/
theorem CheckForMinCriteria_snd_of_returned (s : OdeTrigger) (f : NvDsFrameMeta)
    (o : NvDsObjectMeta)
    (h : s.m_skipFrame = true ∨ (s.m_limit ≠ 0 ∧ s.m_limit ≤ s.m_triggered)) :
    (CheckForMinCriteria s f o).2 = s := by
  unfold CheckForMinCriteria
  dsimp only
  rcases h with h | h
  · rw [h, if_pos rfl]
  · split_ifs <;> rfl

/-- While the name service does not know the source name, every one of a sequence of
`CheckForSourceId` calls makes the lookup. -/
theorem runGates_CheckForSourceId_unknown (xs : List Int) : ∀ (s : OdeTrigger),
    s.m_source.length ≠ 0 → s.m_sourceId = -1 →
    (s.SourceIdGet s.m_source).getD (-1) = -1 →
    sourceLookups (runGates s (xs.map GateCall.CheckForSourceId)).log =
      sourceLookups s.log + xs.length := by
  induction xs with
  | nil => intro s _ _ _; rfl
  | cons x rest ih =>
    intro s hn hu hk
    have e : stepGate s (GateCall.CheckForSourceId x) = { s with
        m_sourceId := (s.SourceIdGet s.m_source).getD s.m_sourceId
        log := s.log ++ [Effect.SourceIdGet s.m_source] } :=
      CheckForSourceId_of_unresolved s x hn hu
    have hu' : (s.SourceIdGet s.m_source).getD s.m_sourceId = -1 := by rw [hu]; exact hk
    have key := ih (stepGate s (GateCall.CheckForSourceId x)) (by rw [e]; exact hn)
      (by rw [e]; exact hu') (by rw [e]; exact hk)
    have hlog : sourceLookups (stepGate s (GateCall.CheckForSourceId x)).log = sourceLookups s.log + 1 := by
      rw [e]
      exact sourceLookups_append_SourceIdGet _ _
    show sourceLookups (runGates (stepGate s (GateCall.CheckForSourceId x))
      (rest.map GateCall.CheckForSourceId)).log = _
    rw [key, hlog, List.length_cons]
    omega

/-- While the name service does not know the component name, every one of a sequence of
`CheckForInferId` calls makes the lookup. -/
theorem runGates_CheckForInferId_unknown (xs : List Int) : ∀ (s : OdeTrigger),
    s.m_infer.length ≠ 0 → s.m_inferId = -1 →
    (s.InferIdGet s.m_infer).getD (-1) = -1 →
    inferLookups (runGates s (xs.map GateCall.CheckForInferId)).log =
      inferLookups s.log + xs.length := by
  induction xs with
  | nil => intro s _ _ _; rfl
  | cons x rest ih =>
    intro s hn hu hk
    have e : stepGate s (GateCall.CheckForInferId x) = { s with
        m_inferId := (s.InferIdGet s.m_infer).getD s.m_inferId
        log := s.log ++ [Effect.InferIdGet s.m_infer] } :=
      CheckForInferId_of_unresolved s x hn hu
    have hu' : (s.InferIdGet s.m_infer).getD s.m_inferId = -1 := by rw [hu]; exact hk
    have key := ih (stepGate s (GateCall.CheckForInferId x)) (by rw [e]; exact hn)
      (by rw [e]; exact hu') (by rw [e]; exact hk)
    have hlog : inferLookups (stepGate s (GateCall.CheckForInferId x)).log = inferLookups s.log + 1 := by
      rw [e]
      exact inferLookups_append_InferIdGet _ _
    show inferLookups (runGates (stepGate s (GateCall.CheckForInferId x))
      (rest.map GateCall.CheckForInferId)).log = _
    rw [key, hlog, List.length_cons]
    omega

/-- C16, counterexample: a trigger filtering on the source `"camera"`, which the name
service does not know, performs the `SourceIdGet` lookup in each of two successive
`CheckForSourceId` calls. -/
theorem lookup_repeated_while_name_unknown :
    sourceLookups (runGates (exampleFiltered exampleHost)
      [GateCall.CheckForSourceId 0, GateCall.CheckForSourceId 0]).log = 2 := by
  decide

/-- C16, as amended: for a trigger whose source name (respectively inference-component
name) is not reassigned, over any sequence of `CheckForSourceId`, `CheckForInferId` and
`CheckForMinCriteria` calls no `SourceIdGet` (respectively `InferIdGet`) lookup is made
once the id is resolved (is not -1), and at most one lookup is made when the name service
resolves the name. While the id is unresolved, with a name set, the lookup is made by
every `CheckForSourceId` (`CheckForInferId`) call and by every `CheckForMinCriteria` call
that reaches the test: one that is not returned at the skip-frame or limit test, where it
makes no lookup, nor, for the component lookup, at a failed source test. So `k` successive
`CheckForSourceId` (`CheckForInferId`) calls make `k` lookups of a name that the name
service does not know. -/
theorem lookup_at_most_once_when_name_resolves (s : OdeTrigger) (calls : List GateCall) :
    (s.m_sourceId ≠ -1 → sourceLookups (runGates s calls).log = sourceLookups s.log) ∧
    ((∃ id, s.SourceIdGet s.m_source = some id ∧ id ≠ -1) →
      sourceLookups (runGates s calls).log ≤ sourceLookups s.log + 1) ∧
    (s.m_inferId ≠ -1 → inferLookups (runGates s calls).log = inferLookups s.log) ∧
    ((∃ id, s.InferIdGet s.m_infer = some id ∧ id ≠ -1) →
      inferLookups (runGates s calls).log ≤ inferLookups s.log + 1) ∧
    (s.m_source.length ≠ 0 → s.m_sourceId = -1 →
      (∀ x, sourceLookups (OdeTrigger.CheckForSourceId s x).2.log =
        sourceLookups s.log + 1) ∧
      (s.m_skipFrame = false → (s.m_limit = 0 ∨ s.m_triggered < s.m_limit) → ∀ f o,
        sourceLookups (OdeTrigger.CheckForMinCriteria s f o).2.log =
          sourceLookups s.log + 1) ∧
      ((s.SourceIdGet s.m_source).getD (-1) = -1 → ∀ xs : List Int,
        sourceLookups (runGates s (xs.map GateCall.CheckForSourceId)).log =
          sourceLookups s.log + xs.length)) ∧
    (s.m_infer.length ≠ 0 → s.m_inferId = -1 →
      (∀ x, inferLookups (OdeTrigger.CheckForInferId s x).2.log =
        inferLookups s.log + 1) ∧
      (s.m_skipFrame = false → (s.m_limit = 0 ∨ s.m_triggered < s.m_limit) → ∀ f o,
        (OdeTrigger.CheckForSourceId s f.source_id).1 = true →
        inferLookups (OdeTrigger.CheckForMinCriteria s f o).2.log =
          inferLookups s.log + 1) ∧
      ((s.InferIdGet s.m_infer).getD (-1) = -1 → ∀ xs : List Int,
        inferLookups (runGates s (xs.map GateCall.CheckForInferId)).log =
          inferLookups s.log + xs.length)) ∧
    ((s.m_skipFrame = true ∨ (s.m_limit ≠ 0 ∧ s.m_limit ≤ s.m_triggered)) → ∀ f o,
      (OdeTrigger.CheckForMinCriteria s f o).2 = s) := by
  refine ⟨fun h => ((runGates_sourceLookups calls s).1 h).1, (runGates_sourceLookups calls s).2,
    fun h => ((runGates_inferLookups calls s).1 h).1, (runGates_inferLookups calls s).2,
    ?_, ?_, fun h f o => CheckForMinCriteria_snd_of_returned s f o h⟩
  · intro hn hu
    have h1 : ∀ x, sourceLookups (OdeTrigger.CheckForSourceId s x).2.log =
        sourceLookups s.log + 1 := by
      intro x
      rw [CheckForSourceId_of_unresolved s x hn hu]
      exact sourceLookups_append_SourceIdGet _ _
    refine ⟨h1, ?_, fun hk xs => runGates_CheckForSourceId_unknown xs s hn hu hk⟩
    intro hs hl f o
    obtain ⟨r1, r2⟩ := CheckForMinCriteria_snd_of_reached s f o hs hl
    cases hr : (CheckForSourceId s f.source_id).1 with
    | false =>
      rw [r1 hr]
      exact h1 _
    | true =>
      rw [r2 hr, (CheckForInferId_SourceStep _ _).2.2.2]
      exact h1 _
  · intro hn hu
    have h1 : ∀ x, inferLookups (OdeTrigger.CheckForInferId s x).2.log =
        inferLookups s.log + 1 := by
      intro x
      rw [CheckForInferId_of_unresolved s x hn hu]
      exact inferLookups_append_InferIdGet _ _
    refine ⟨h1, ?_, fun hk xs => runGates_CheckForInferId_unknown xs s hn hu hk⟩
    intro hs hl f o hr
    obtain ⟨-, r2⟩ := CheckForMinCriteria_snd_of_reached s f o hs hl
    obtain ⟨hi, hi2, hi3⟩ := CheckForSourceId_InferStep s f.source_id
    rw [r2 hr, CheckForInferId_of_unresolved _ _ (by rw [hi.name]; exact hn)
      (by rw [hi2]; exact hu)]
    show inferLookups ((CheckForSourceId s f.source_id).2.log ++ _) = _
    rw [inferLookups_append_InferIdGet, hi3]

/-- Witness for C16 as amended: in a host that knows `"camera"` and `"pgie"` the example
gate calls make one lookup of each name, and none when they are made once more; in a host
that knows neither name, three successive `CheckForSourceId` calls make three lookups. -/
theorem lookup_at_most_once_when_name_resolves_witness :
    sourceLookups (runGates (exampleFiltered exampleResolvingHost) exampleGateCalls).log ≤ 1 ∧
    inferLookups (runGates (exampleFiltered exampleResolvingHost) exampleGateCalls).log ≤ 1 ∧
    sourceLookups (runGates (runGates (exampleFiltered exampleResolvingHost) exampleGateCalls)
      exampleGateCalls).log = 1 ∧
    inferLookups (runGates (runGates (exampleFiltered exampleResolvingHost) exampleGateCalls)
      exampleGateCalls).log = 1 ∧
    sourceLookups (runGates (exampleFiltered exampleHost)
      [GateCall.CheckForSourceId 0, GateCall.CheckForSourceId 1,
       GateCall.CheckForSourceId 0]).log = 3 :=
  ⟨(lookup_at_most_once_when_name_resolves (exampleFiltered exampleResolvingHost)
      exampleGateCalls).2.1 ⟨0, by decide, by decide⟩,
   (lookup_at_most_once_when_name_resolves (exampleFiltered exampleResolvingHost)
      exampleGateCalls).2.2.2.1 ⟨1, by decide, by decide⟩,
   ((lookup_at_most_once_when_name_resolves
      (runGates (exampleFiltered exampleResolvingHost) exampleGateCalls)
      exampleGateCalls).1 (by decide)).trans (by decide),
   ((lookup_at_most_once_when_name_resolves
      (runGates (exampleFiltered exampleResolvingHost) exampleGateCalls)
      exampleGateCalls).2.2.1 (by decide)).trans (by decide),
   ((lookup_at_most_once_when_name_resolves (exampleFiltered exampleHost)
      []).2.2.2.2.1 (by decide) (by decide)).2.2 (by decide) [0, 1, 0]⟩

/-- C17, at a failing input: the source id was resolved for `"camera"` (id 0) and the
client has assigned the source `"backup"` (id 1): the next `CheckForSourceId` makes no
lookup and leaves the state as it is, rejects a frame of source 1, the source now named,
and accepts a frame of source 0; likewise the component id resolved for `"pgie"` (id 1)
stays after `"sgie"` (id 2) is assigned. -/
theorem reassigned_name_not_resolved :
    exampleReassigned.m_source = "backup" ∧
    exampleReassigned.SourceIdGet "backup" = some 1 ∧
    OdeTrigger.CheckForSourceId exampleReassigned 1 = (false, exampleReassigned) ∧
    OdeTrigger.CheckForSourceId exampleReassigned 0 = (true, exampleReassigned) ∧
    exampleReassigned.m_infer = "sgie" ∧
    exampleReassigned.InferIdGet "sgie" = some 2 ∧
    OdeTrigger.CheckForInferId exampleReassigned 2 = (false, exampleReassigned) ∧
    OdeTrigger.CheckForInferId exampleReassigned 1 = (true, exampleReassigned) :=
  ⟨by decide, by decide, rfl, rfl, by decide, by decide, rfl, rfl⟩

/-- What the code does after a name is assigned: after `SetSource` assigns a (non-empty)
name to a trigger whose source id is resolved, `CheckForSourceId` makes no lookup and
compares the frame's source id with the cached id; only when the id is unresolved (-1)
does the next `CheckForSourceId` look the assigned name up and compare with what the
lookup gives. Likewise for `SetInfer` and `CheckForInferId`. -/
theorem resolved_id_kept_when_name_reassigned (s : OdeTrigger) (name : String) (x : Int)
    (hn : name.length ≠ 0) :
    (s.m_sourceId ≠ -1 →
      OdeTrigger.CheckForSourceId (OdeTrigger.SetSource s name) x =
        (decide (s.m_sourceId = x), OdeTrigger.SetSource s name)) ∧
    (s.m_sourceId = -1 →
      OdeTrigger.CheckForSourceId (OdeTrigger.SetSource s name) x =
        (decide ((s.SourceIdGet name).getD (-1) = x),
         { OdeTrigger.SetSource s name with
           m_sourceId := (s.SourceIdGet name).getD (-1)
           log := s.log ++ [Effect.SourceIdGet name] })) ∧
    (s.m_inferId ≠ -1 →
      OdeTrigger.CheckForInferId (OdeTrigger.SetInfer s name) x =
        (decide (s.m_inferId = x), OdeTrigger.SetInfer s name)) ∧
    (s.m_inferId = -1 →
      OdeTrigger.CheckForInferId (OdeTrigger.SetInfer s name) x =
        (decide ((s.InferIdGet name).getD (-1) = x),
         { OdeTrigger.SetInfer s name with
           m_inferId := (s.InferIdGet name).getD (-1)
           log := s.log ++ [Effect.InferIdGet name] })) := by
  refine ⟨?_, ?_, ?_, ?_⟩
  · intro h
    unfold OdeTrigger.CheckForSourceId OdeTrigger.SetSource
    dsimp only
    rw [if_pos hn, if_neg h]
    by_cases hx : s.m_sourceId = x
    · rw [if_neg (by simpa using hx)]; simp [hx]
    · rw [if_pos hx]; simp [hx]
  · intro h
    unfold OdeTrigger.CheckForSourceId OdeTrigger.SetSource
    dsimp only
    rw [if_pos hn, if_pos h, h]
    by_cases hx : (s.SourceIdGet name).getD (-1) = x
    · rw [if_neg (by simpa using hx)]; simp [hx]
    · rw [if_pos hx]; simp [hx]
  · intro h
    unfold OdeTrigger.CheckForInferId OdeTrigger.SetInfer
    dsimp only
    rw [if_pos hn, if_neg h]
    by_cases hx : s.m_inferId = x
    · rw [if_neg (by simpa using hx)]; simp [hx]
    · rw [if_pos hx]; simp [hx]
  · intro h
    unfold OdeTrigger.CheckForInferId OdeTrigger.SetInfer
    dsimp only
    rw [if_pos hn, if_pos h, h]
    by_cases hx : (s.InferIdGet name).getD (-1) = x
    · rw [if_neg (by simpa using hx)]; simp [hx]
    · rw [if_pos hx]; simp [hx]

/-- An instance of the above: with the id of `"camera"` resolved (0), after
`SetSource("backup")` a frame of source 1 is rejected; with the id unresolved the same
call looks `"backup"` up (id 1) and accepts the frame; likewise for the components
`"pgie"` (id 1) and `"sgie"` (id 2). -/
theorem resolved_id_kept_when_name_reassigned_witness :
    (OdeTrigger.CheckForSourceId
      (OdeTrigger.SetSource
        (OdeTrigger.CheckForSourceId (exampleFiltered exampleResolvingHost) 0).2 "backup")
      1).1 = false ∧
    (OdeTrigger.CheckForSourceId
      (OdeTrigger.SetSource (exampleFiltered exampleResolvingHost) "backup") 1).1 = true ∧
    (OdeTrigger.CheckForInferId
      (OdeTrigger.SetInfer
        (OdeTrigger.CheckForInferId (exampleFiltered exampleResolvingHost) 1).2 "sgie")
      2).1 = false ∧
    (OdeTrigger.CheckForInferId
      (OdeTrigger.SetInfer (exampleFiltered exampleResolvingHost) "sgie") 2).1 = true :=
  ⟨(congrArg Prod.fst ((resolved_id_kept_when_name_reassigned
      (OdeTrigger.CheckForSourceId (exampleFiltered exampleResolvingHost) 0).2 "backup" 1
      (by decide)).1 (by decide))).trans (by decide),
   (congrArg Prod.fst ((resolved_id_kept_when_name_reassigned
      (exampleFiltered exampleResolvingHost) "backup" 1 (by decide)).2.1
      (by decide))).trans (by decide),
   (congrArg Prod.fst ((resolved_id_kept_when_name_reassigned
      (OdeTrigger.CheckForInferId (exampleFiltered exampleResolvingHost) 1).2 "sgie" 2
      (by decide)).2.2.1 (by decide))).trans (by decide),
   (congrArg Prod.fst ((resolved_id_kept_when_name_reassigned
      (exampleFiltered exampleResolvingHost) "sgie" 2 (by decide)).2.2.2
      (by decide))).trans (by decide)⟩

/-- The result of `CheckForSourceId` as a function of the three members it reads. -/
theorem CheckForSourceId_fst (s : OdeTrigger) (x : Int) :
    (CheckForSourceId s x).1 = decide (s.m_source.length = 0 ∨
      (if s.m_sourceId = -1 then (s.SourceIdGet s.m_source).getD s.m_sourceId
        else s.m_sourceId) = x) := by
  unfold CheckForSourceId
  by_cases h1 : s.m_source.length = 0
  · simp [h1]
  · by_cases h2 : s.m_sourceId = -1
    · simp only [h1, h2, ne_eq, not_false_eq_true, if_true, false_or]
      split_ifs <;> simp [*]
    · simp only [h1, h2, ne_eq, not_false_eq_true, if_true, if_false, false_or]
      split_ifs <;> simp [*]

/-- The id a check compares with, cached or looked up, is the same once it is cached. -/
theorem effective_id_cached (lookup : Option Int) (id id' : Int)
    (h : id' = id ∨ (id = -1 ∧ id' = lookup.getD (-1))) :
    (if id' = -1 then lookup.getD id' else id') = (if id = -1 then lookup.getD id else id) := by
  rcases h with h | ⟨h1, h2⟩
  · rw [h]
  · subst h1
    rw [if_pos rfl]
    by_cases h3 : id' = -1
    · rw [if_pos h3, h3]
    · rw [if_neg h3, h2]

/-- A state is related to itself. -/
theorem SameFilters_refl (s : OdeTrigger) : SameFilters s s :=
  ⟨rfl, rfl, rfl, rfl, rfl, rfl, rfl, rfl, rfl, rfl, rfl, rfl, rfl, Or.inl rfl, Or.inl rfl⟩

/-- Caching composes. -/
theorem cached_trans (lookup : Option Int) (a b c : Int)
    (h1 : b = a ∨ (a = -1 ∧ b = lookup.getD (-1)))
    (h2 : c = b ∨ (b = -1 ∧ c = lookup.getD (-1))) :
    c = a ∨ (a = -1 ∧ c = lookup.getD (-1)) := by
  rcases h1 with h1 | ⟨h1, h1'⟩
  · rw [h1] at h2; exact h2
  · rcases h2 with h2 | ⟨-, h2'⟩
    · exact Or.inr ⟨h1, h2.trans h1'⟩
    · exact Or.inr ⟨h1, h2'⟩

/-- The relation composes. -/
theorem SameFilters_trans {s t u : OdeTrigger} (h1 : SameFilters s t) (h2 : SameFilters t u) :
    SameFilters s u where
  m_skipFrame := h2.m_skipFrame.trans h1.m_skipFrame
  m_source := h2.m_source.trans h1.m_source
  SourceIdGet := h2.SourceIdGet.trans h1.SourceIdGet
  m_infer := h2.m_infer.trans h1.m_infer
  InferIdGet := h2.InferIdGet.trans h1.InferIdGet
  m_classId := h2.m_classId.trans h1.m_classId
  m_minConfidence := h2.m_minConfidence.trans h1.m_minConfidence
  m_minWidth := h2.m_minWidth.trans h1.m_minWidth
  m_minHeight := h2.m_minHeight.trans h1.m_minHeight
  m_maxWidth := h2.m_maxWidth.trans h1.m_maxWidth
  m_maxHeight := h2.m_maxHeight.trans h1.m_maxHeight
  m_inferDoneOnly := h2.m_inferDoneOnly.trans h1.m_inferDoneOnly
  m_pOdeAreasIndexed := h2.m_pOdeAreasIndexed.trans h1.m_pOdeAreasIndexed
  m_sourceId := by
    have h := h2.m_sourceId
    rw [h1.SourceIdGet, h1.m_source] at h
    exact cached_trans _ _ _ _ h1.m_sourceId h
  m_inferId := by
    have h := h2.m_inferId
    rw [h1.InferIdGet, h1.m_infer] at h
    exact cached_trans _ _ _ _ h1.m_inferId h

/-- In related states the gates, the limit test apart, decide alike. -/
theorem gatesOpen_congr {s s' : OdeTrigger} (h : SameFilters s s') (f : NvDsFrameMeta)
    (o : NvDsObjectMeta) : gatesOpen s' f o ↔ gatesOpen s f o := by
  have e1 : (CheckForSourceId s' f.source_id).1 = (CheckForSourceId s f.source_id).1 := by
    rw [CheckForSourceId_fst, CheckForSourceId_fst, h.m_source, h.SourceIdGet,
      effective_id_cached (s.SourceIdGet s.m_source) s.m_sourceId s'.m_sourceId h.m_sourceId]
  have e2 : (CheckForInferId s' o.unique_component_id).1 =
      (CheckForInferId s o.unique_component_id).1 := by
    rw [CheckForInferId_fst, CheckForInferId_fst, h.m_infer, h.InferIdGet,
      effective_id_cached (s.InferIdGet s.m_infer) s.m_inferId s'.m_inferId h.m_inferId]
  have e3 : CheckForWithin s' o = CheckForWithin s o := by
    unfold CheckForWithin
    rw [h.m_pOdeAreasIndexed]
  unfold gatesOpen
  rw [e1, e2, e3, h.m_skipFrame, h.m_classId, h.m_minConfidence, h.m_minWidth, h.m_minHeight,
    h.m_maxWidth, h.m_maxHeight, h.m_inferDoneOnly]

/-- `CheckForSourceId` keeps the filter settings. -/
theorem CheckForSourceId_SameFilters (s : OdeTrigger) (x : Int) :
    SameFilters s (CheckForSourceId s x).2 := by
  rcases CheckForSourceId_snd_cases s x with h | ⟨h1, h2⟩
  · rw [h]; exact SameFilters_refl s
  · rw [h2]
    exact ⟨rfl, rfl, rfl, rfl, rfl, rfl, rfl, rfl, rfl, rfl, rfl, rfl, rfl,
      Or.inr ⟨h1, by show (s.SourceIdGet s.m_source).getD s.m_sourceId = _; rw [h1]⟩,
      Or.inl rfl⟩

/-- `CheckForInferId` keeps the filter settings. -/
theorem CheckForInferId_SameFilters (s : OdeTrigger) (x : Int) :
    SameFilters s (CheckForInferId s x).2 := by
  rcases CheckForInferId_snd_cases s x with h | ⟨h1, h2⟩
  · rw [h]; exact SameFilters_refl s
  · rw [h2]
    exact ⟨rfl, rfl, rfl, rfl, rfl, rfl, rfl, rfl, rfl, rfl, rfl, rfl, rfl, Or.inl rfl,
      Or.inr ⟨h1, by show (s.InferIdGet s.m_infer).getD s.m_inferId = _; rw [h1]⟩⟩

/-- `CheckForMinCriteria` keeps the filter settings. -/
theorem CheckForMinCriteria_SameFilters (s : OdeTrigger) (f : NvDsFrameMeta)
    (o : NvDsObjectMeta) : SameFilters s (CheckForMinCriteria s f o).2 := by
  rcases CheckForMinCriteria_snd_cases s f o with h | h | h
  · rw [h]; exact SameFilters_refl s
  · rw [h]; exact CheckForSourceId_SameFilters s _
  · rw [h]
    exact SameFilters_trans (CheckForSourceId_SameFilters s _) (CheckForInferId_SameFilters _ _)

/-- The state `CheckGates` leaves is the one its `CheckForSourceId` call leaves or the
one its `CheckForMinCriteria` call leaves after that. -/
theorem CheckGates_snd_cases (s : OdeTrigger) (f : NvDsFrameMeta) (o : NvDsObjectMeta) :
    (CheckGates s f o).2 = (CheckForSourceId s f.source_id).2 ∨
    (CheckGates s f o).2 = (CheckForMinCriteria (CheckForSourceId s f.source_id).2 f o).2 := by
  unfold CheckGates
  dsimp only
  split_ifs
  · exact Or.inl rfl
  · exact Or.inr rfl
  · exact Or.inr rfl

/-- `CheckGates` keeps the filter settings. -/
theorem CheckGates_SameFilters (s : OdeTrigger) (f : NvDsFrameMeta) (o : NvDsObjectMeta) :
    SameFilters s (CheckGates s f o).2 := by
  rcases CheckGates_snd_cases s f o with h | h
  · rw [h]; exact CheckForSourceId_SameFilters s _
  · rw [h]
    exact SameFilters_trans (CheckForSourceId_SameFilters s _)
      (CheckForMinCriteria_SameFilters _ _ _)

/-- `CheckGates` accepts an object exactly when the gates are open for it and the limit
is not reached. -/
theorem CheckGates_fst_iff (s : OdeTrigger) (f : NvDsFrameMeta) (o : NvDsObjectMeta) :
    (CheckGates s f o).1 = true ↔
      gatesOpen s f o ∧ ¬ (s.m_limit > 0 ∧ s.m_triggered ≥ s.m_limit) := by
  have key : (CheckGates s f o).1 = true ↔
      ((CheckForSourceId s f.source_id).1 = true ∧
        (CheckForMinCriteria (CheckForSourceId s f.source_id).2 f o).1 = true ∧
        CheckForWithin s o = true) := by
    have hw : CheckForWithin
        (CheckForMinCriteria (CheckForSourceId s f.source_id).2 f o).2 o =
        CheckForWithin s o := by
      unfold CheckForWithin
      rw [CheckForMinCriteria_m_pOdeAreasIndexed, CheckForSourceId_m_pOdeAreasIndexed]
    unfold CheckGates
    dsimp only
    cases h1 : (CheckForSourceId s f.source_id).1
    · simp
    · cases h2 : (CheckForMinCriteria (CheckForSourceId s f.source_id).2 f o).1
      · simp
      · simp [hw]
  have hsame := CheckForSourceId_SameFilters s f.source_id
  have hg := gatesOpen_congr hsame f o
  rw [key, CheckForMinCriteria_fst_iff, ← hg]
  have hl : (CheckForSourceId s f.source_id).2.m_limit = s.m_limit := by simp
  have ht : (CheckForSourceId s f.source_id).2.m_triggered = s.m_triggered := by simp
  have hw : CheckForWithin (CheckForSourceId s f.source_id).2 o = CheckForWithin s o := by
    unfold CheckForWithin
    rw [CheckForSourceId_m_pOdeAreasIndexed]
  unfold gatesOpen
  rw [hl, ht, hw]
  constructor
  · rintro ⟨a, ⟨b1, b2, b3, b4, b5, b6, b7, b8, b9, b10, b11⟩, c⟩
    exact ⟨⟨b3, b1, b4, b5, b6, b7, b8, b9, b10, b11, c⟩, b2⟩
  · rintro ⟨⟨b3, b1, b4, b5, b6, b7, b8, b9, b10, b11, c⟩, b2⟩
    have a : (CheckForSourceId s f.source_id).1 = true := by
      have := (hg.1 ⟨b3, b1, b4, b5, b6, b7, b8, b9, b10, b11, by rw [hw]; exact c⟩).1
      exact this
    exact ⟨a, ⟨b1, b2, b3, b4, b5, b6, b7, b8, b9, b10, b11⟩, c⟩

/-- The number of Action invocations in a log is the length of its action log. -/
theorem actionCalls_eq_length_actionLog (log : List Effect) :
    actionCalls log = (actionLog log).length := by
  unfold actionCalls actionLog
  exact List.countP_eq_length_filter _ _

/-- The action log of a concatenation. -/
theorem actionLog_append (l l' : List Effect) :
    actionLog (l ++ l') = actionLog l ++ actionLog l' := by
  unfold actionLog
  exact List.filter_append _ _

/-- A log without Action invocations has an empty action log. -/
theorem actionLog_eq_nil_of_actionCalls (l : List Effect) (h : actionCalls l = 0) :
    actionLog l = [] := by
  rw [actionCalls_eq_length_actionLog] at h
  exact List.length_eq_zero.1 h

/-- The action log of the calls `callActions` makes. -/
theorem actionLog_map_HandleOccurrence (acts : List (Nat × OdeAction)) (f : NvDsFrameMeta)
    (o : Option NvDsObjectMeta) :
    actionLog (acts.map (fun a => Effect.HandleOccurrence a.2.name f o)) =
      acts.map (fun a => Effect.HandleOccurrence a.2.name f o) := by
  unfold actionLog
  rw [List.filter_eq_self]
  intro e he
  obtain ⟨a, -, rfl⟩ := List.mem_map.1 he
  rfl

/-- `CheckForSourceId` invokes no Action. -/
theorem CheckForSourceId_actionLog (s : OdeTrigger) (x : Int) :
    actionLog (CheckForSourceId s x).2.log = actionLog s.log := by
  rcases CheckForSourceId_snd_cases s x with h | ⟨-, h⟩
  · rw [h]
  · rw [h]
    show actionLog (s.log ++ [Effect.SourceIdGet s.m_source]) = _
    rw [actionLog_append]
    simp [actionLog]

/-- `CheckForInferId` invokes no Action. -/
theorem CheckForInferId_actionLog (s : OdeTrigger) (x : Int) :
    actionLog (CheckForInferId s x).2.log = actionLog s.log := by
  rcases CheckForInferId_snd_cases s x with h | ⟨-, h⟩
  · rw [h]
  · rw [h]
    show actionLog (s.log ++ [Effect.InferIdGet s.m_infer]) = _
    rw [actionLog_append]
    simp [actionLog]

/-- `CheckForMinCriteria` invokes no Action. -/
theorem CheckForMinCriteria_actionLog (s : OdeTrigger) (f : NvDsFrameMeta)
    (o : NvDsObjectMeta) : actionLog (CheckForMinCriteria s f o).2.log = actionLog s.log := by
  rcases CheckForMinCriteria_snd_cases s f o with h | h | h
  · rw [h]
  · rw [h, CheckForSourceId_actionLog]
  · rw [h, CheckForInferId_actionLog, CheckForSourceId_actionLog]

/-- `CheckGates` invokes no Action. -/
theorem CheckGates_actionLog (s : OdeTrigger) (f : NvDsFrameMeta) (o : NvDsObjectMeta) :
    actionLog (CheckGates s f o).2.log = actionLog s.log := by
  rcases CheckGates_snd_cases s f o with h | h
  · rw [h, CheckForSourceId_actionLog]
  · rw [h, CheckForMinCriteria_actionLog, CheckForSourceId_actionLog]

/-- An event of a trigger: the count of events goes up by one, the timer may be started,
and nothing else changes but the log, which gets no Action invocation. -/
theorem IncrementAndCheckTriggerCount_SameFilters (s : OdeTrigger) :
    SameFilters s (IncrementAndCheckTriggerCount s) ∧
    actionLog (IncrementAndCheckTriggerCount s).log = actionLog s.log := by
  obtain ⟨tid, tm, lsid, l, h, hl, -⟩ := IncrementAndCheckTriggerCount_form s
  rw [h]
  refine ⟨⟨rfl, rfl, rfl, rfl, rfl, rfl, rfl, rfl, rfl, rfl, rfl, rfl, rfl, Or.inl rfl,
    Or.inl rfl⟩, ?_⟩
  show actionLog (s.log ++ l) = _
  rw [actionLog_append, actionLog_eq_nil_of_actionCalls l hl, List.append_nil]

/-- Counting the occurrence and the event and invoking the Actions keeps the filter
settings. -/
theorem callActions_SameFilters (t : OdeTrigger) (n : Nat) (f : NvDsFrameMeta)
    (o : Option NvDsObjectMeta) :
    SameFilters t (callActions (IncrementEventCount { t with m_occurrences := n }) f o) :=
  ⟨rfl, rfl, rfl, rfl, rfl, rfl, rfl, rfl, rfl, rfl, rfl, rfl, rfl, Or.inl rfl, Or.inl rfl⟩

/-- The members after counting the occurrence and the event and invoking the Actions. -/
theorem callActions_members (t : OdeTrigger) (f : NvDsFrameMeta)
    (o : Option NvDsObjectMeta) :
    (callActions (IncrementEventCount { t with m_occurrences := t.m_occurrences + 1 })
      f o).m_triggered = t.m_triggered ∧
    (callActions (IncrementEventCount { t with m_occurrences := t.m_occurrences + 1 })
      f o).m_occurrences = t.m_occurrences + 1 ∧
    (callActions (IncrementEventCount { t with m_occurrences := t.m_occurrences + 1 })
      f o).m_limit = t.m_limit ∧
    (callActions (IncrementEventCount { t with m_occurrences := t.m_occurrences + 1 })
      f o).m_enabled = t.m_enabled ∧
    (callActions (IncrementEventCount { t with m_occurrences := t.m_occurrences + 1 })
      f o).variant = t.variant ∧
    (callActions (IncrementEventCount { t with m_occurrences := t.m_occurrences + 1 })
      f o).m_pOdeActionsIndexed = t.m_pOdeActionsIndexed ∧
    (callActions (IncrementEventCount { t with m_occurrences := t.m_occurrences + 1 })
      f o).log = t.log ++ t.m_pOdeActionsIndexed.map
        (fun a => Effect.HandleOccurrence a.2.name f o) :=
  ⟨rfl, rfl, rfl, rfl, rfl, rfl, rfl⟩

/-- `OccurrenceOdeTrigger::CheckForOccurrence` on an enabled trigger for an object the
gates accept: one event, each Action invoked once with the object. -/
theorem OccurrenceOdeTrigger_CheckForOccurrence_fire (s : OdeTrigger) (f : NvDsFrameMeta)
    (o : NvDsObjectMeta) (he : s.m_enabled = true) (hg : (CheckGates s f o).1 = true) :
    (OccurrenceOdeTrigger.CheckForOccurrence s f o).1 = true ∧
    SameFilters s (OccurrenceOdeTrigger.CheckForOccurrence s f o).2 ∧
    (OccurrenceOdeTrigger.CheckForOccurrence s f o).2.m_triggered = s.m_triggered + 1 ∧
    (OccurrenceOdeTrigger.CheckForOccurrence s f o).2.m_occurrences = s.m_occurrences + 1 ∧
    (OccurrenceOdeTrigger.CheckForOccurrence s f o).2.m_limit = s.m_limit ∧
    (OccurrenceOdeTrigger.CheckForOccurrence s f o).2.m_enabled = true ∧
    (OccurrenceOdeTrigger.CheckForOccurrence s f o).2.variant = s.variant ∧
    (OccurrenceOdeTrigger.CheckForOccurrence s f o).2.m_pOdeActionsIndexed =
      s.m_pOdeActionsIndexed ∧
    actionLog (OccurrenceOdeTrigger.CheckForOccurrence s f o).2.log =
      actionLog s.log ++ s.m_pOdeActionsIndexed.map (fun a =>
        Effect.HandleOccurrence a.2.name f
          (some { o with primary_metric := s.m_occurrences + 1 })) := by
  have h1 := CheckGates_SameFilters s f o
  obtain ⟨h2, h3⟩ := IncrementAndCheckTriggerCount_SameFilters (CheckGates s f o).2
  have h4 := CheckGates_actionLog s f o
  have e : OccurrenceOdeTrigger.CheckForOccurrence s f o =
      (true, callActions (IncrementEventCount
        { IncrementAndCheckTriggerCount (CheckGates s f o).2 with
          m_occurrences := (IncrementAndCheckTriggerCount (CheckGates s f o).2).m_occurrences
            + 1 }) f
        (some { o with primary_metric :=
          (IncrementAndCheckTriggerCount (CheckGates s f o).2).m_occurrences + 1 })) := by
    unfold OccurrenceOdeTrigger.CheckForOccurrence
    dsimp only
    rw [he, hg]
    rfl
  have e1 : (IncrementAndCheckTriggerCount (CheckGates s f o).2).m_triggered =
      s.m_triggered + 1 := by simp
  have e2 : (IncrementAndCheckTriggerCount (CheckGates s f o).2).m_occurrences =
      s.m_occurrences := by simp
  have e3 : (IncrementAndCheckTriggerCount (CheckGates s f o).2).m_limit = s.m_limit := by
    simp
  have e4 : (IncrementAndCheckTriggerCount (CheckGates s f o).2).m_enabled = true := by
    simp [he]
  have e5 : (IncrementAndCheckTriggerCount (CheckGates s f o).2).variant = s.variant := by
    simp
  have e6 : (IncrementAndCheckTriggerCount (CheckGates s f o).2).m_pOdeActionsIndexed =
      s.m_pOdeActionsIndexed := by simp
  rw [e]
  generalize IncrementAndCheckTriggerCount (CheckGates s f o).2 = t at *
  obtain ⟨m1, m2, m3, m4, m5, m6, m7⟩ := callActions_members t f
    (some { o with primary_metric := t.m_occurrences + 1 })
  refine ⟨rfl, SameFilters_trans (SameFilters_trans h1 h2) (callActions_SameFilters _ _ _ _),
    m1.trans e1, m2.trans (by rw [e2]), m3.trans e3, m4.trans e4, m5.trans e5, m6.trans e6,
    ?_⟩
  show actionLog (callActions (IncrementEventCount
    { t with m_occurrences := t.m_occurrences + 1 }) f
    (some { o with primary_metric := t.m_occurrences + 1 })).log = _
  rw [m7, actionLog_append, h3, h4, actionLog_map_HandleOccurrence, e6, e2]

/-- `OccurrenceOdeTrigger::CheckForOccurrence` on a disabled trigger or for an object the
gates reject: no event, no Action. -/
theorem OccurrenceOdeTrigger_CheckForOccurrence_reject (s : OdeTrigger) (f : NvDsFrameMeta)
    (o : NvDsObjectMeta) (h : s.m_enabled = false ∨ (CheckGates s f o).1 = false) :
    (OccurrenceOdeTrigger.CheckForOccurrence s f o).1 = false ∧
    SameFilters s (OccurrenceOdeTrigger.CheckForOccurrence s f o).2 ∧
    SameCore s (OccurrenceOdeTrigger.CheckForOccurrence s f o).2 ∧
    actionLog (OccurrenceOdeTrigger.CheckForOccurrence s f o).2.log = actionLog s.log := by
  unfold OccurrenceOdeTrigger.CheckForOccurrence
  dsimp only
  by_cases he : s.m_enabled = true
  · have hg : (CheckGates s f o).1 = false := by
      rcases h with h | h
      · rw [he] at h; exact absurd h (by simp)
      · exact h
    rw [he, hg]
    simp only [Bool.not_true, Bool.false_eq_true, if_false, Bool.not_false, if_true]
    exact ⟨trivial, CheckGates_SameFilters s f o, CheckGates_same s f o,
      CheckGates_actionLog s f o⟩
  · have he' : s.m_enabled = false := by simpa using he
    rw [he']
    simp only [Bool.not_false, if_true]
    exact ⟨trivial, SameFilters_refl s, SameCore_refl s, trivial⟩

/-- The virtual `CheckForOccurrence` of an Occurrence trigger. -/
theorem Trigger_CheckForOccurrence_Occurrence (s : OdeTrigger) (f : NvDsFrameMeta)
    (o : NvDsObjectMeta) (hv : s.variant = Variant.Occurrence) :
    Trigger.CheckForOccurrence s f o = OccurrenceOdeTrigger.CheckForOccurrence s f o := by
  unfold Trigger.CheckForOccurrence
  rw [hv]

/-- An enabled Occurrence trigger with a limit, given objects for all of which the gates
are open: the objects cause events until the limit is reached, each event invoking every
Action once. -/
theorem Occurrence_run_objects (f : NvDsFrameMeta) (os : List NvDsObjectMeta) :
    ∀ (s : OdeTrigger), s.variant = Variant.Occurrence → s.m_enabled = true →
    0 < s.m_limit → s.m_triggered ≤ s.m_limit → (∀ o ∈ os, gatesOpen s f o) →
    (run s (os.map (Call.CheckForOccurrence f))).m_triggered =
      min (s.m_triggered + os.length) s.m_limit ∧
    (run s (os.map (Call.CheckForOccurrence f))).m_limit = s.m_limit ∧
    (run s (os.map (Call.CheckForOccurrence f))).variant = Variant.Occurrence ∧
    actionLog (run s (os.map (Call.CheckForOccurrence f))).log =
      actionLog s.log ++ occurrenceCalls s.m_pOdeActionsIndexed f s.m_occurrences
        (os.take (s.m_limit - s.m_triggered)) := by
  induction os with
  | nil =>
    intro s hv _ _ ht _
    refine ⟨?_, rfl, hv, ?_⟩
    · show s.m_triggered = _
      rw [List.length_nil, Nat.add_zero, Nat.min_eq_left ht]
    · show actionLog s.log = _
      simp [occurrenceCalls]
  | cons o rest ih =>
    intro s hv he hL ht hopen
    have hstep : run s ((o :: rest).map (Call.CheckForOccurrence f)) =
        run (OccurrenceOdeTrigger.CheckForOccurrence s f o).2
          (rest.map (Call.CheckForOccurrence f)) := by
      show run (step s (Call.CheckForOccurrence f o)) _ = _
      show run (Trigger.CheckForOccurrence s f o).2 _ = _
      rw [Trigger_CheckForOccurrence_Occurrence s f o hv]
    rw [hstep]
    by_cases hlt : s.m_triggered < s.m_limit
    · have hg : (CheckGates s f o).1 = true :=
        (CheckGates_fst_iff s f o).2 ⟨hopen o (List.mem_cons_self _ _),
          fun h => absurd h.2 (Nat.not_le.2 hlt)⟩
      obtain ⟨-, k2, k3, k4, k5, k6, k7, k8, k9⟩ :=
        OccurrenceOdeTrigger_CheckForOccurrence_fire s f o he hg
      obtain ⟨i1, i2, i3, i4⟩ := ih (OccurrenceOdeTrigger.CheckForOccurrence s f o).2
        (by rw [k7, hv]) k6 (by rw [k5]; exact hL) (by rw [k3, k5]; exact hlt)
        (fun o' ho' => (gatesOpen_congr k2 f o').2 (hopen o' (List.mem_cons_of_mem _ ho')))
      rw [k3, k5] at i1
      rw [k9, k8, k4, k3, k5] at i4
      refine ⟨?_, i2.trans k5, i3, ?_⟩
      · rw [i1, List.length_cons]
        congr 1
        omega
      · rw [i4]
        have e : s.m_limit - s.m_triggered = (s.m_limit - (s.m_triggered + 1)) + 1 := by
          omega
        rw [e, List.take_succ_cons, occurrenceCalls, List.append_assoc]
    · have hg : (CheckGates s f o).1 = false := by
        cases hc : (CheckGates s f o).1
        · rfl
        · exact absurd ((CheckGates_fst_iff s f o).1 hc).2
            (not_not.2 ⟨hL, Nat.le_of_not_lt hlt⟩)
      obtain ⟨-, k2, k3, k4⟩ :=
        OccurrenceOdeTrigger_CheckForOccurrence_reject s f o (Or.inr hg)
      obtain ⟨i1, i2, i3, i4⟩ := ih (OccurrenceOdeTrigger.CheckForOccurrence s f o).2
        (by rw [k3.variant, hv]) (by rw [k3.m_enabled, he]) (by rw [k3.m_limit]; exact hL)
        (by rw [k3.m_triggered, k3.m_limit]; exact ht)
        (fun o' ho' => (gatesOpen_congr k2 f o').2 (hopen o' (List.mem_cons_of_mem _ ho')))
      rw [k3.m_triggered, k3.m_limit] at i1
      rw [k4, k3.m_pOdeActionsIndexed, k3.m_occurrences, k3.m_triggered, k3.m_limit] at i4
      have hz : s.m_limit - s.m_triggered = 0 := by omega
      refine ⟨?_, i2.trans k3.m_limit, i3, ?_⟩
      · rw [i1, List.length_cons]
        rw [Nat.min_eq_right (by omega), Nat.min_eq_right (by omega)]
      · rw [i4, hz]
        simp

/-- The number of Action invocations for a list of objects that each cause an event. -/
theorem occurrenceCalls_length (acts : List (Nat × OdeAction)) (f : NvDsFrameMeta)
    (os : List NvDsObjectMeta) : ∀ (occ : Nat),
    (occurrenceCalls acts f occ os).length = os.length * acts.length := by
  induction os with
  | nil => intro occ; simp [occurrenceCalls]
  | cons o rest ih =>
    intro occ
    rw [occurrenceCalls, List.length_append, List.length_map, ih, List.length_cons,
      Nat.succ_mul, Nat.add_comm]

/-- A trigger of class Occurrence is an Occurrence trigger. -/
theorem variant_of_kind_Occurrence (v : Variant) (h : v.kind = Kind.Occurrence) :
    v = Variant.Occurrence := by
  cases v <;> first | rfl | exact absurd h (by simp [Variant.kind])

/-- An Occurrence trigger at its limit stays there over the per-frame calls and invokes
no Action. -/
theorem Occurrence_at_limit_quiet (calls : List Call) (t : OdeTrigger)
    (hv : t.variant = Variant.Occurrence) (hL : 0 < t.m_limit)
    (ht : t.m_triggered = t.m_limit) (ha : Admissible frameCallsOnly t calls) :
    (run t calls).m_triggered = t.m_limit ∧ (run t calls).m_limit = t.m_limit ∧
    (run t calls).variant = Variant.Occurrence ∧
    actionCalls (run t calls).log = actionCalls t.log := by
  have fs := run_frameCalls_step calls t ha
  have hk : t.variant.kind = Kind.Occurrence := by rw [hv]; rfl
  have hinv : LimitInv t := by
    intro _
    refine ⟨Nat.le_of_eq ht, fun hp => ?_⟩
    unfold pendingEvent at hp
    rw [hv] at hp
    exact absurd hp (by simp)
  have hinv' := fs.inv (by rw [hk]; rfl) hinv
  have hle : (run t calls).m_triggered ≤ t.m_limit := by
    have := (hinv' (by rw [fs.limit]; exact Nat.ne_of_gt hL)).1
    rw [fs.limit] at this
    exact this
  have hge := fs.mono
  have heq : (run t calls).m_triggered = t.m_limit := by omega
  have hc := fs.calls (by rw [hk]; simp)
  rw [heq, ht] at hc
  refine ⟨heq, fs.limit, ?_, by omega⟩
  exact variant_of_kind_Occurrence _ (fs.kind.trans hk)

/-- C18: an enabled Occurrence trigger with limit `L > 0` and no event yet, given `k`
objects of one frame that all pass the source, min-criteria and area gates: the `k`
`CheckForOccurrence` calls leave `m_triggered = min(k, L)` and invoke every attached
Action exactly `min(k, L)` times, once for each of the first `min(k, L)` objects. Once
`m_triggered = L`, over the per-frame calls of this and later frames every
`CheckForOccurrence` returns false, invokes no Action and leaves the count at `L`. -/
theorem Occurrence_fires_until_limit (s : OdeTrigger) (f : NvDsFrameMeta)
    (os : List NvDsObjectMeta) (t : OdeTrigger) (calls : List Call) (f' : NvDsFrameMeta)
    (o' : NvDsObjectMeta) :
    (s.variant = Variant.Occurrence → s.m_enabled = true → 0 < s.m_limit →
      s.m_triggered = 0 → (∀ o ∈ os, (CheckGates s f o).1 = true) →
      (run s (os.map (Call.CheckForOccurrence f))).m_triggered = min os.length s.m_limit ∧
      actionLog (run s (os.map (Call.CheckForOccurrence f))).log =
        actionLog s.log ++ occurrenceCalls s.m_pOdeActionsIndexed f s.m_occurrences
          (os.take s.m_limit) ∧
      actionCalls (run s (os.map (Call.CheckForOccurrence f))).log =
        actionCalls s.log + min os.length s.m_limit * s.m_pOdeActionsIndexed.length) ∧
    (t.variant = Variant.Occurrence → 0 < t.m_limit → t.m_triggered = t.m_limit →
      Admissible frameCallsOnly t calls →
      (Trigger.CheckForOccurrence (run t calls) f' o').1 = false ∧
      actionCalls (Trigger.CheckForOccurrence (run t calls) f' o').2.log =
        actionCalls t.log ∧
      (Trigger.CheckForOccurrence (run t calls) f' o').2.m_triggered = t.m_limit) := by
  refine ⟨?_, ?_⟩
  · intro hv he hL ht hpass
    obtain ⟨i1, -, -, i4⟩ := Occurrence_run_objects f os s hv he hL (by rw [ht]; omega)
      (fun o ho => ((CheckGates_fst_iff s f o).1 (hpass o ho)).1)
    rw [ht, Nat.zero_add] at i1
    rw [ht, Nat.sub_zero] at i4
    refine ⟨i1, i4, ?_⟩
    rw [actionCalls_eq_length_actionLog, i4, List.length_append, occurrenceCalls_length,
      List.length_take, ← actionCalls_eq_length_actionLog, Nat.min_comm]
  · intro hv hL ht ha
    obtain ⟨q1, q2, q3, q4⟩ := Occurrence_at_limit_quiet calls t hv hL ht ha
    rw [Trigger_CheckForOccurrence_Occurrence _ f' o' q3]
    have hg : (CheckGates (run t calls) f' o').1 = false := by
      cases hc : (CheckGates (run t calls) f' o').1
      · rfl
      · have := (CheckGates_limit _ f' o' hc).2
        rw [q1, q2] at this
        omega
    obtain ⟨k1, -, k3, -⟩ :=
      OccurrenceOdeTrigger_CheckForOccurrence_reject (run t calls) f' o' (Or.inr hg)
    exact ⟨k1, k3.calls.trans q4, k3.m_triggered.trans q1⟩

/-- Witness for C18: the example trigger with limit 3 and one Action, given five matching
objects in one frame, invokes the Action three times and ends with `m_triggered = 3`; in
the next frame it accepts no object. -/
theorem Occurrence_fires_until_limit_witness :
    (run (exampleOccurrence 3)
      (exampleFiveObjects.map (Call.CheckForOccurrence exampleFrame))).m_triggered = 3 ∧
    actionCalls (run (exampleOccurrence 3)
      (exampleFiveObjects.map (Call.CheckForOccurrence exampleFrame))).log = 3 ∧
    (Trigger.CheckForOccurrence
      (run (run (exampleOccurrence 3)
        (exampleFiveObjects.map (Call.CheckForOccurrence exampleFrame)))
        [Call.PostProcessFrame exampleFrame, Call.PreProcessFrame exampleFrame2])
      exampleFrame2 exampleObject).1 = false :=
  ⟨((Occurrence_fires_until_limit (exampleOccurrence 3) exampleFrame exampleFiveObjects
      (exampleOccurrence 3) [] exampleFrame exampleObject).1 rfl rfl (by decide) rfl
      (by decide)).1.trans (by decide),
   ((Occurrence_fires_until_limit (exampleOccurrence 3) exampleFrame exampleFiveObjects
      (exampleOccurrence 3) [] exampleFrame exampleObject).1 rfl rfl (by decide) rfl
      (by decide)).2.2.trans (by decide),
   ((Occurrence_fires_until_limit (exampleOccurrence 3) exampleFrame exampleFiveObjects
      (run (exampleOccurrence 3)
        (exampleFiveObjects.map (Call.CheckForOccurrence exampleFrame)))
      [Call.PostProcessFrame exampleFrame, Call.PreProcessFrame exampleFrame2]
      exampleFrame2 exampleObject).2 rfl (by decide) (by decide)
      ⟨trivial, trivial, trivial⟩).1⟩

/-- C19: for an Absence trigger, `CheckForOccurrence` counts (in `m_occurrences`) every
object that passes the source, min-criteria and area gates, whether or not the trigger is
enabled, and counts no other; `PostProcessFrame` fires (one more event in `m_triggered`,
every Action invoked exactly once with no object, result 1) exactly when the trigger is
enabled, it is not the case that the limit is set and reached, and no object was counted
in this frame; otherwise it returns 0 and does nothing. -/
theorem Absence_counts_when_disabled_fires_on_none (s : OdeTrigger) (f : NvDsFrameMeta)
    (o : NvDsObjectMeta) :
    ((CheckGates s f o).1 = true →
      (AbsenceOdeTrigger.CheckForOccurrence s f o).1 = true ∧
      (AbsenceOdeTrigger.CheckForOccurrence s f o).2.m_occurrences = s.m_occurrences + 1) ∧
    ((CheckGates s f o).1 = false →
      (AbsenceOdeTrigger.CheckForOccurrence s f o).1 = false ∧
      (AbsenceOdeTrigger.CheckForOccurrence s f o).2.m_occurrences = s.m_occurrences) ∧
    actionLog (AbsenceOdeTrigger.CheckForOccurrence s f o).2.log = actionLog s.log ∧
    ((s.m_enabled = true ∧ ¬ (s.m_limit > 0 ∧ s.m_triggered ≥ s.m_limit) ∧
        s.m_occurrences = 0) →
      (AbsenceOdeTrigger.PostProcessFrame s f).1 = 1 ∧
      (AbsenceOdeTrigger.PostProcessFrame s f).2.m_triggered = s.m_triggered + 1 ∧
      actionLog (AbsenceOdeTrigger.PostProcessFrame s f).2.log =
        actionLog s.log ++ s.m_pOdeActionsIndexed.map
          (fun a => Effect.HandleOccurrence a.2.name f none)) ∧
    (¬ (s.m_enabled = true ∧ ¬ (s.m_limit > 0 ∧ s.m_triggered ≥ s.m_limit) ∧
        s.m_occurrences = 0) →
      AbsenceOdeTrigger.PostProcessFrame s f = (0, s)) := by
  refine ⟨?_, ?_, ?_, ?_, ?_⟩
  · intro hg
    unfold AbsenceOdeTrigger.CheckForOccurrence
    dsimp only
    rw [hg]
    simp
  · intro hg
    unfold AbsenceOdeTrigger.CheckForOccurrence
    dsimp only
    rw [hg]
    simp
  · unfold AbsenceOdeTrigger.CheckForOccurrence
    dsimp only
    cases (CheckGates s f o).1
    · simp only [Bool.not_false, if_true]
      exact CheckGates_actionLog s f o
    · simp only [Bool.not_true, Bool.false_eq_true, if_false]
      exact CheckGates_actionLog s f o
  · rintro ⟨he, hl, ho⟩
    have hc : ¬ ((!s.m_enabled) = true ∨ (s.m_limit ≠ 0 ∧ s.m_triggered ≥ s.m_limit) ∨
        s.m_occurrences ≠ 0) := by
      rintro (h | h | h)
      · rw [he] at h; exact absurd h (by simp)
      · exact hl ⟨Nat.pos_of_ne_zero h.1, h.2⟩
      · exact h ho
    obtain ⟨-, h3⟩ := IncrementAndCheckTriggerCount_SameFilters s
    unfold AbsenceOdeTrigger.PostProcessFrame
    rw [if_neg hc]
    refine ⟨rfl, by simp [callActions, IncrementEventCount], ?_⟩
    simp only [callActions, IncrementEventCount]
    rw [actionLog_append, h3, actionLog_map_HandleOccurrence]
    simp
  · intro hn
    have hc : (!s.m_enabled) = true ∨ (s.m_limit ≠ 0 ∧ s.m_triggered ≥ s.m_limit) ∨
        s.m_occurrences ≠ 0 := by
      by_contra h
      push_neg at h
      obtain ⟨h1, h2, h3⟩ := h
      apply hn
      refine ⟨by simpa using h1, ?_, h3⟩
      rintro ⟨a, b⟩
      exact absurd b (Nat.not_le.2 (h2 (Nat.ne_of_gt a)))
    unfold AbsenceOdeTrigger.PostProcessFrame
    rw [if_pos hc]

/-- Witness for C19: the example Absence trigger, disabled, counts a matching object and
does not fire; enabled and with no object counted it fires once. -/
theorem Absence_counts_when_disabled_fires_on_none_witness :
    (AbsenceOdeTrigger.CheckForOccurrence { exampleAbsence with m_enabled := false }
      exampleFrame exampleObject).2.m_occurrences = 1 ∧
    AbsenceOdeTrigger.PostProcessFrame
        (AbsenceOdeTrigger.CheckForOccurrence { exampleAbsence with m_enabled := false }
          exampleFrame exampleObject).2 exampleFrame =
      (0, (AbsenceOdeTrigger.CheckForOccurrence { exampleAbsence with m_enabled := false }
          exampleFrame exampleObject).2) ∧
    (AbsenceOdeTrigger.PostProcessFrame exampleAbsence exampleFrame).1 = 1 ∧
    (AbsenceOdeTrigger.CheckForOccurrence
      { exampleAbsence with m_classId := 5 } exampleFrame exampleObject).1 = false :=
  ⟨((Absence_counts_when_disabled_fires_on_none { exampleAbsence with m_enabled := false }
      exampleFrame exampleObject).1 (by decide)).2,
   (Absence_counts_when_disabled_fires_on_none
      (AbsenceOdeTrigger.CheckForOccurrence { exampleAbsence with m_enabled := false }
        exampleFrame exampleObject).2 exampleFrame exampleObject).2.2.2.2 (by decide),
   ((Absence_counts_when_disabled_fires_on_none exampleAbsence exampleFrame
      exampleObject).2.2.2.1 (by decide)).1,
   ((Absence_counts_when_disabled_fires_on_none { exampleAbsence with m_classId := 5 }
      exampleFrame exampleObject).2.1 (by decide)).1⟩

/-- Initialising the entry of a key does not change the recorded id, taken as 0 when
none is recorded, nor the entries of the other keys. -/
theorem initInstance_find (m : List (String × Nat)) (k k' : String) :
    (mapFind (initInstance m k) k').getD 0 = (mapFind m k').getD 0 := by
  unfold initInstance
  cases h : mapFind m k with
  | none =>
    simp only [Option.isNone_none, if_true]
    by_cases hk : k' = k
    · subst hk
      rw [mapFind_mapInsert_self, h]
      rfl
    · rw [mapFind_mapInsert_ne _ _ _ _ _ hk]
  | some x => simp

/-- The virtual `CheckForOccurrence` of an Instance trigger. -/
theorem Trigger_CheckForOccurrence_Instance (s : OdeTrigger) (v : InstanceState)
    (f : NvDsFrameMeta) (o : NvDsObjectMeta) (hv : s.variant = Variant.Instance v) :
    Trigger.CheckForOccurrence s f o = InstanceOdeTrigger.CheckForOccurrence s v f o := by
  unfold Trigger.CheckForOccurrence
  rw [hv]

/-- The recorded id of a state whose class is given. -/
theorem lastInstance_of_variant (s : OdeTrigger) (m : List (String × Nat))
    (f : NvDsFrameMeta) (o : NvDsObjectMeta) (hv : s.variant = Variant.Instance ⟨m⟩) :
    InstanceOdeTrigger.lastInstance s f o = (mapFind m (sourceAndClassId f o)).getD 0 := by
  unfold InstanceOdeTrigger.lastInstance
  rw [hv]

/-- An event right after the state of the concrete class is assigned: the members after
the event is counted and the Actions are invoked. -/
theorem event_after_variant_update (t0 : OdeTrigger) (w : Variant) (f : NvDsFrameMeta)
    (o : NvDsObjectMeta) :
    (callActions (IncrementEventCount
      { IncrementAndCheckTriggerCount { t0 with variant := w } with
        m_occurrences :=
          (IncrementAndCheckTriggerCount { t0 with variant := w }).m_occurrences + 1 }) f
      (some { o with primary_metric :=
        (IncrementAndCheckTriggerCount { t0 with variant := w }).m_occurrences + 1
          })).m_triggered = t0.m_triggered + 1 ∧
    (callActions (IncrementEventCount
      { IncrementAndCheckTriggerCount { t0 with variant := w } with
        m_occurrences :=
          (IncrementAndCheckTriggerCount { t0 with variant := w }).m_occurrences + 1 }) f
      (some { o with primary_metric :=
        (IncrementAndCheckTriggerCount { t0 with variant := w }).m_occurrences + 1
          })).m_occurrences = t0.m_occurrences + 1 ∧
    (callActions (IncrementEventCount
      { IncrementAndCheckTriggerCount { t0 with variant := w } with
        m_occurrences :=
          (IncrementAndCheckTriggerCount { t0 with variant := w }).m_occurrences + 1 }) f
      (some { o with primary_metric :=
        (IncrementAndCheckTriggerCount { t0 with variant := w }).m_occurrences + 1
          })).variant = w ∧
    actionLog (callActions (IncrementEventCount
      { IncrementAndCheckTriggerCount { t0 with variant := w } with
        m_occurrences :=
          (IncrementAndCheckTriggerCount { t0 with variant := w }).m_occurrences + 1 }) f
      (some { o with primary_metric :=
        (IncrementAndCheckTriggerCount { t0 with variant := w }).m_occurrences + 1
          })).log =
      actionLog t0.log ++ t0.m_pOdeActionsIndexed.map (fun a =>
        Effect.HandleOccurrence a.2.name f
          (some { o with primary_metric := t0.m_occurrences + 1 })) := by
  obtain ⟨-, h3⟩ := IncrementAndCheckTriggerCount_SameFilters { t0 with variant := w }
  have e1 : (IncrementAndCheckTriggerCount { t0 with variant := w }).m_triggered =
      t0.m_triggered + 1 := by simp
  have e2 : (IncrementAndCheckTriggerCount { t0 with variant := w }).m_occurrences =
      t0.m_occurrences := by simp
  have e5 : (IncrementAndCheckTriggerCount { t0 with variant := w }).variant = w := by simp
  have e6 : (IncrementAndCheckTriggerCount { t0 with variant := w }).m_pOdeActionsIndexed =
      t0.m_pOdeActionsIndexed := by simp
  have h3' : actionLog (IncrementAndCheckTriggerCount { t0 with variant := w }).log =
      actionLog t0.log := h3
  generalize IncrementAndCheckTriggerCount { t0 with variant := w } = t at *
  obtain ⟨m1, m2, -, -, m5, -, m7⟩ := callActions_members t f
    (some { o with primary_metric := t.m_occurrences + 1 })
  refine ⟨m1.trans e1, m2.trans (by rw [e2]), m5.trans e5, ?_⟩
  rw [m7, actionLog_append, h3', actionLog_map_HandleOccurrence, e6, e2]

/-- `InstanceOdeTrigger::CheckForOccurrence` on an enabled trigger for an object the
gates accept whose id is above the recorded one; `m` is the map of instances after the
call. -/
theorem InstanceOdeTrigger_CheckForOccurrence_fire (s : OdeTrigger) (v : InstanceState)
    (f : NvDsFrameMeta) (o : NvDsObjectMeta) (m : List (String × Nat))
    (hm : m = mapInsert stringLt (initInstance v.m_instances (sourceAndClassId f o))
      (sourceAndClassId f o) o.object_id)
    (he : s.m_enabled = true) (hg : (CheckGates s f o).1 = true)
    (hid : (mapFind v.m_instances (sourceAndClassId f o)).getD 0 < o.object_id) :
    (InstanceOdeTrigger.CheckForOccurrence s v f o).1 = true ∧
    (InstanceOdeTrigger.CheckForOccurrence s v f o).2.m_triggered = s.m_triggered + 1 ∧
    (InstanceOdeTrigger.CheckForOccurrence s v f o).2.m_occurrences = s.m_occurrences + 1 ∧
    (InstanceOdeTrigger.CheckForOccurrence s v f o).2.variant = Variant.Instance ⟨m⟩ ∧
    actionLog (InstanceOdeTrigger.CheckForOccurrence s v f o).2.log =
      actionLog s.log ++ s.m_pOdeActionsIndexed.map (fun a =>
        Effect.HandleOccurrence a.2.name f
          (some { o with primary_metric := s.m_occurrences + 1 })) := by
  have hid' : (mapFind (initInstance v.m_instances (sourceAndClassId f o))
      (sourceAndClassId f o)).getD 0 < o.object_id := by
    rw [initInstance_find]; exact hid
  have h4 := CheckGates_actionLog s f o
  obtain ⟨k1, k2, k3, k4⟩ :=
    event_after_variant_update (CheckGates s f o).2 (Variant.Instance ⟨m⟩) f o
  have e : InstanceOdeTrigger.CheckForOccurrence s v f o =
      (true, callActions (IncrementEventCount
        { IncrementAndCheckTriggerCount
            { (CheckGates s f o).2 with variant := Variant.Instance ⟨m⟩ } with
          m_occurrences := (IncrementAndCheckTriggerCount
            { (CheckGates s f o).2 with variant := Variant.Instance ⟨m⟩ }).m_occurrences
              + 1 }) f
        (some { o with primary_metric := (IncrementAndCheckTriggerCount
            { (CheckGates s f o).2 with variant := Variant.Instance ⟨m⟩ }).m_occurrences
              + 1 })) := by
    subst hm
    unfold InstanceOdeTrigger.CheckForOccurrence
    dsimp only
    rw [he, hg, if_pos hid']
    rfl
  rw [e]
  refine ⟨rfl, k1.trans (by simp), k2.trans (by simp), k3, k4.trans ?_⟩
  rw [h4]
  simp

/-- `InstanceOdeTrigger::CheckForOccurrence` on an enabled trigger for an object the
gates accept whose id is not above the recorded one. -/
theorem InstanceOdeTrigger_CheckForOccurrence_same_instance (s : OdeTrigger)
    (v : InstanceState) (f : NvDsFrameMeta) (o : NvDsObjectMeta) (he : s.m_enabled = true)
    (hg : (CheckGates s f o).1 = true)
    (hid : ¬ (mapFind v.m_instances (sourceAndClassId f o)).getD 0 < o.object_id) :
    (InstanceOdeTrigger.CheckForOccurrence s v f o).1 = false ∧
    (InstanceOdeTrigger.CheckForOccurrence s v f o).2.m_triggered = s.m_triggered ∧
    (InstanceOdeTrigger.CheckForOccurrence s v f o).2.m_occurrences = s.m_occurrences ∧
    (InstanceOdeTrigger.CheckForOccurrence s v f o).2.variant =
      Variant.Instance ⟨initInstance v.m_instances (sourceAndClassId f o)⟩ ∧
    actionLog (InstanceOdeTrigger.CheckForOccurrence s v f o).2.log = actionLog s.log := by
  have hid' : ¬ (mapFind (initInstance v.m_instances (sourceAndClassId f o))
      (sourceAndClassId f o)).getD 0 < o.object_id := by
    rw [initInstance_find]; exact hid
  have h4 := CheckGates_actionLog s f o
  unfold InstanceOdeTrigger.CheckForOccurrence
  dsimp only
  rw [he, hg, if_neg hid']
  exact ⟨rfl, by simp, by simp, rfl, h4⟩

/-- The decimal digit characters denote their digits. -/
theorem digitValue_digitChar (k : Nat) (h : k < 10) : digitValue (Nat.digitChar k) = k := by
  interval_cases k <;> rfl

/-- A decimal digit character is neither the separator nor the minus sign of a key. -/
theorem digitChar_ne_separator (k : Nat) (h : k < 10) :
    Nat.digitChar k ≠ '_' ∧ Nat.digitChar k ≠ '-' := by
  interval_cases k <;> exact ⟨by decide, by decide⟩

/-- The digits are put in front of the accumulator. -/
theorem toDigitsCore_append (fuel : Nat) : ∀ (n : Nat) (ds : List Char),
    Nat.toDigitsCore 10 fuel n ds = Nat.toDigitsCore 10 fuel n [] ++ ds := by
  induction fuel with
  | zero => intro n ds; rfl
  | succ fuel ih =>
    intro n ds
    unfold Nat.toDigitsCore
    dsimp only
    by_cases h : n / 10 = 0
    · rw [if_pos h, if_pos h]; rfl
    · rw [if_neg h, if_neg h, ih (n / 10) (Nat.digitChar (n % 10) :: ds),
        ih (n / 10) [Nat.digitChar (n % 10)]]
      simp

/-- The value of digits followed by one more digit. -/
theorem digitsValue_append_singleton (l : List Char) (c : Char) :
    digitsValue (l ++ [c]) = digitsValue l * 10 + digitValue c := by
  unfold digitsValue
  rw [List.foldl_append]
  rfl

/-- The decimal digits of a number denote it. -/
theorem digitsValue_toDigitsCore (fuel : Nat) : ∀ (n : Nat), n < fuel →
    digitsValue (Nat.toDigitsCore 10 fuel n []) = n := by
  induction fuel with
  | zero => intro n h; exact absurd h (Nat.not_lt_zero n)
  | succ fuel ih =>
    intro n h
    unfold Nat.toDigitsCore
    dsimp only
    by_cases h0 : n / 10 = 0
    · rw [if_pos h0]
      have hn : n < 10 := by omega
      have : digitsValue [Nat.digitChar (n % 10)] = digitValue (Nat.digitChar (n % 10)) := by
        simp [digitsValue]
      rw [this, digitValue_digitChar _ (Nat.mod_lt _ (by decide)), Nat.mod_eq_of_lt hn]
    · rw [if_neg h0, toDigitsCore_append, digitsValue_append_singleton,
        ih (n / 10) (by omega), digitValue_digitChar _ (Nat.mod_lt _ (by decide))]
      omega

/-- Every character produced is a decimal digit or comes from the accumulator. -/
theorem mem_toDigitsCore (fuel : Nat) : ∀ (n : Nat) (ds : List Char) (c : Char),
    c ∈ Nat.toDigitsCore 10 fuel n ds → c ∈ ds ∨ ∃ k, k < 10 ∧ c = Nat.digitChar k := by
  induction fuel with
  | zero => intro n ds c h; exact Or.inl h
  | succ fuel ih =>
    intro n ds c h
    unfold Nat.toDigitsCore at h
    dsimp only at h
    by_cases h0 : n / 10 = 0
    · rw [if_pos h0] at h
      rcases List.mem_cons.1 h with h | h
      · exact Or.inr ⟨n % 10, Nat.mod_lt _ (by decide), h⟩
      · exact Or.inl h
    · rw [if_neg h0] at h
      rcases ih _ _ c h with h | h
      · rcases List.mem_cons.1 h with h | h
        · exact Or.inr ⟨n % 10, Nat.mod_lt _ (by decide), h⟩
        · exact Or.inl h
      · exact Or.inr h

/-- The characters of the decimal form of a natural number. -/
theorem toString_nat_data (n : Nat) : (toString n).data = Nat.toDigits 10 n := rfl

/-- The decimal form of a natural number has no separator and no minus sign. -/
theorem toString_nat_chars (n : Nat) (c : Char) (h : c ∈ (toString n).data) :
    c ≠ '_' ∧ c ≠ '-' := by
  rw [toString_nat_data] at h
  rcases mem_toDigitsCore _ _ _ c h with h | ⟨k, hk, rfl⟩
  · simp at h
  · exact digitChar_ne_separator k hk

/-- Different natural numbers have different decimal forms. -/
theorem toString_nat_injective (n m : Nat) (h : (toString n).data = (toString m).data) :
    n = m := by
  rw [toString_nat_data, toString_nat_data] at h
  have hn := digitsValue_toDigitsCore (n + 1) n (Nat.lt_succ_self n)
  have hm := digitsValue_toDigitsCore (m + 1) m (Nat.lt_succ_self m)
  unfold Nat.toDigits at h
  rw [h, hm] at hn
  exact hn.symm

/-- The decimal form of a natural number is not empty. -/
theorem toString_nat_ne_nil (n : Nat) : (toString n).data ≠ [] := by
  rw [toString_nat_data]
  unfold Nat.toDigits Nat.toDigitsCore
  dsimp only
  split_ifs
  · simp
  · rw [toDigitsCore_append]
    simp

/-- The characters of the decimal form of an integer. -/
theorem toString_int_data (i : Int) :
    (toString i).data =
      match i with
      | Int.ofNat m => (toString m).data
      | Int.negSucc m => '-' :: (toString (m + 1)).data := by
  cases i <;> rfl

/-- The decimal form of an integer has no separator. -/
theorem toString_int_chars (i : Int) (c : Char) (h : c ∈ (toString i).data) : c ≠ '_' := by
  rw [toString_int_data] at h
  cases i with
  | ofNat m => exact (toString_nat_chars m c h).1
  | negSucc m =>
    rcases List.mem_cons.1 h with rfl | h
    · decide
    · exact (toString_nat_chars _ c h).1

/-- Different integers have different decimal forms. -/
theorem toString_int_injective (i j : Int) (h : (toString i).data = (toString j).data) :
    i = j := by
  rw [toString_int_data, toString_int_data] at h
  cases i with
  | ofNat m =>
    cases j with
    | ofNat m' => rw [toString_nat_injective m m' h]
    | negSucc m' =>
      exfalso
      have hne := toString_nat_ne_nil m
      have hmem : '-' ∈ (toString m).data := by
        have : (toString m).data = '-' :: (toString (m' + 1)).data := h
        rw [this]; simp
      exact (toString_nat_chars m _ hmem).2 rfl
  | negSucc m =>
    cases j with
    | ofNat m' =>
      exfalso
      have hmem : '-' ∈ (toString m').data := by
        have : '-' :: (toString (m + 1)).data = (toString m').data := h
        rw [← this]; simp
      exact (toString_nat_chars m' _ hmem).2 rfl
    | negSucc m' =>
      have : (toString (m + 1)).data = (toString (m' + 1)).data := by
        have h' : '-' :: (toString (m + 1)).data = '-' :: (toString (m' + 1)).data := h
        exact (List.cons.inj h').2
      have := toString_nat_injective _ _ this
      have e : m = m' := by omega
      rw [e]

/-- Two lists split at the first occurrence of a separator that the parts before it do
not contain have equal parts. -/
theorem split_at_separator (a : Char) : ∀ (d1 d2 e1 e2 : List Char),
    a ∉ d1 → a ∉ d2 → d1 ++ a :: e1 = d2 ++ a :: e2 → d1 = d2 ∧ e1 = e2 := by
  intro d1
  induction d1 with
  | nil =>
    intro d2 e1 e2 _ h2 h
    cases d2 with
    | nil => exact ⟨rfl, (List.cons.inj h).2⟩
    | cons x d2 =>
      exfalso
      have : a = x := (List.cons.inj h).1
      exact h2 (by rw [this]; simp)
  | cons y d1 ih =>
    intro d2 e1 e2 h1 h2 h
    cases d2 with
    | nil =>
      exfalso
      have : y = a := (List.cons.inj h).1
      exact h1 (by rw [this]; simp)
    | cons x d2 =>
      obtain ⟨hxy, hrest⟩ := List.cons.inj h
      obtain ⟨i1, i2⟩ := ih d2 e1 e2 (fun hm => h1 (List.mem_cons_of_mem _ hm))
        (fun hm => h2 (List.mem_cons_of_mem _ hm)) hrest
      exact ⟨by rw [hxy, i1], i2⟩

/-- The key of the instance maps identifies the source and the class: two objects have
the same key exactly when their frames have the same source id and they have the same
class id. -/
theorem sourceAndClassId_eq_iff (f f' : NvDsFrameMeta) (o o' : NvDsObjectMeta) :
    sourceAndClassId f o = sourceAndClassId f' o' ↔
      f.source_id = f'.source_id ∧ o.class_id = o'.class_id := by
  constructor
  · intro h
    have hd : (toString f.source_id).data ++ '_' :: (toString o.class_id).data =
        (toString f'.source_id).data ++ '_' :: (toString o'.class_id).data := by
      have := congrArg String.data h
      simpa [sourceAndClassId, String.data_append] using this
    obtain ⟨h1, h2⟩ := split_at_separator '_' _ _ _ _
      (fun hm => toString_int_chars _ _ hm rfl) (fun hm => toString_int_chars _ _ hm rfl) hd
    exact ⟨toString_int_injective _ _ h1, toString_nat_injective _ _ h2⟩
  · rintro ⟨h1, h2⟩
    unfold sourceAndClassId
    rw [h1, h2]

/-- C20: for an enabled Instance trigger and an object that passes the source,
min-criteria and area gates, `CheckForOccurrence` fires (returns true, one more event in
`m_triggered`, one more occurrence, every Action invoked once with the object) exactly
when the object's id is strictly greater than the last id recorded for the object's
source and class, taken as 0 when none is recorded, and then records the object's id for
that source and class; otherwise it returns false, invokes no Action, and the recorded id
stays. The record is per source and class: objects of the same source and class share
it, and the ids recorded for other sources or classes stay. -/
theorem Instance_fires_on_greater_object_id (s : OdeTrigger) (v : InstanceState)
    (f : NvDsFrameMeta) (o : NvDsObjectMeta) (f' : NvDsFrameMeta) (o' : NvDsObjectMeta)
    (hv : s.variant = Variant.Instance v) (he : s.m_enabled = true)
    (hg : (CheckGates s f o).1 = true) :
    ((Trigger.CheckForOccurrence s f o).1 = true ↔
      InstanceOdeTrigger.lastInstance s f o < o.object_id) ∧
    (InstanceOdeTrigger.lastInstance s f o < o.object_id →
      (Trigger.CheckForOccurrence s f o).2.m_triggered = s.m_triggered + 1 ∧
      (Trigger.CheckForOccurrence s f o).2.m_occurrences = s.m_occurrences + 1 ∧
      actionLog (Trigger.CheckForOccurrence s f o).2.log =
        actionLog s.log ++ s.m_pOdeActionsIndexed.map (fun a =>
          Effect.HandleOccurrence a.2.name f
            (some { o with primary_metric := s.m_occurrences + 1 })) ∧
      InstanceOdeTrigger.lastInstance (Trigger.CheckForOccurrence s f o).2 f o =
        o.object_id) ∧
    (¬ InstanceOdeTrigger.lastInstance s f o < o.object_id →
      (Trigger.CheckForOccurrence s f o).2.m_triggered = s.m_triggered ∧
      (Trigger.CheckForOccurrence s f o).2.m_occurrences = s.m_occurrences ∧
      actionLog (Trigger.CheckForOccurrence s f o).2.log = actionLog s.log ∧
      InstanceOdeTrigger.lastInstance (Trigger.CheckForOccurrence s f o).2 f o =
        InstanceOdeTrigger.lastInstance s f o) ∧
    (f'.source_id = f.source_id → o'.class_id = o.class_id →
      InstanceOdeTrigger.lastInstance s f' o' = InstanceOdeTrigger.lastInstance s f o) ∧
    (¬ (f'.source_id = f.source_id ∧ o'.class_id = o.class_id) →
      InstanceOdeTrigger.lastInstance (Trigger.CheckForOccurrence s f o).2 f' o' =
        InstanceOdeTrigger.lastInstance s f' o') := by
  have hkey : ¬ (f'.source_id = f.source_id ∧ o'.class_id = o.class_id) →
      sourceAndClassId f' o' ≠ sourceAndClassId f o :=
    fun hne he => hne ((sourceAndClassId_eq_iff f' f o' o).1 he)
  have hsame : f'.source_id = f.source_id → o'.class_id = o.class_id →
      InstanceOdeTrigger.lastInstance s f' o' = InstanceOdeTrigger.lastInstance s f o := by
    intro h1 h2
    unfold InstanceOdeTrigger.lastInstance
    rw [(sourceAndClassId_eq_iff f' f o' o).2 ⟨h1, h2⟩]
  have hlast : ∀ (g : NvDsFrameMeta) (p : NvDsObjectMeta),
      InstanceOdeTrigger.lastInstance s g p =
        (mapFind v.m_instances (sourceAndClassId g p)).getD 0 :=
    fun g p => lastInstance_of_variant s v.m_instances g p hv
  have hsame' := hsame
  rw [hlast f' o', hlast f o] at hsame'
  rw [Trigger_CheckForOccurrence_Instance s v f o hv, hlast f o, hlast f' o']
  by_cases hid : (mapFind v.m_instances (sourceAndClassId f o)).getD 0 < o.object_id
  · obtain ⟨k1, k2, k3, k4, k5⟩ :=
      InstanceOdeTrigger_CheckForOccurrence_fire s v f o _ rfl he hg hid
    refine ⟨⟨fun _ => hid, fun _ => k1⟩, fun _ => ⟨k2, k3, k5, ?_⟩,
      fun h => absurd hid h, hsame', fun hk => ?_⟩
    · rw [lastInstance_of_variant _ _ f o k4, mapFind_mapInsert_self]
      rfl
    · rw [lastInstance_of_variant _ _ f' o' k4, mapFind_mapInsert_ne _ _ _ _ _ (hkey hk),
        initInstance_find]
  · obtain ⟨k1, k2, k3, k4, k5⟩ :=
      InstanceOdeTrigger_CheckForOccurrence_same_instance s v f o he hg hid
    refine ⟨⟨fun h => ?_, fun h => absurd h hid⟩, fun h => absurd h hid,
      fun _ => ⟨k2, k3, k5, ?_⟩, hsame', fun _ => ?_⟩
    · rw [k1] at h; exact absurd h (by simp)
    · rw [lastInstance_of_variant _ _ f o k4, initInstance_find]
    · rw [lastInstance_of_variant _ _ f' o' k4, initInstance_find]

/-- Witness for C20: the example Instance trigger, with nothing recorded, fires for the
example object (id 7) and records 7; it then does not fire for the same object again, and
fires for the second example object (id 8). -/
theorem Instance_fires_on_greater_object_id_witness :
    (Trigger.CheckForOccurrence exampleInstance exampleFrame exampleObject).1 = true ∧
    InstanceOdeTrigger.lastInstance
      (Trigger.CheckForOccurrence exampleInstance exampleFrame exampleObject).2
      exampleFrame exampleObject = 7 ∧
    (Trigger.CheckForOccurrence
      (Trigger.CheckForOccurrence exampleInstance exampleFrame exampleObject).2
      exampleFrame exampleObject).1 = false ∧
    (Trigger.CheckForOccurrence
      (Trigger.CheckForOccurrence exampleInstance exampleFrame exampleObject).2
      exampleFrame exampleObject2).1 = true :=
  ⟨(Instance_fires_on_greater_object_id exampleInstance ⟨[]⟩ exampleFrame exampleObject
      exampleFrame exampleObject rfl rfl (by decide)).1.2 (by decide),
   ((Instance_fires_on_greater_object_id exampleInstance ⟨[]⟩ exampleFrame exampleObject
      exampleFrame exampleObject rfl rfl (by decide)).2.1 (by decide)).2.2.2,
   by decide,
   (Instance_fires_on_greater_object_id
      (Trigger.CheckForOccurrence exampleInstance exampleFrame exampleObject).2
      ⟨[("0_2", 7)]⟩ exampleFrame exampleObject2 exampleFrame exampleObject rfl rfl
      (by decide)).1.2 (by decide)⟩

/-- The virtual `CheckForOccurrence` of a Count trigger. -/
theorem Trigger_CheckForOccurrence_Count (s : OdeTrigger) (v : CountState)
    (f : NvDsFrameMeta) (o : NvDsObjectMeta) (hv : s.variant = Variant.Count v) :
    Trigger.CheckForOccurrence s f o = CountOdeTrigger.CheckForOccurrence s f o := by
  unfold Trigger.CheckForOccurrence
  rw [hv]

/-- The virtual `PostProcessFrame` of a Count trigger. -/
theorem Trigger_PostProcessFrame_Count (s : OdeTrigger) (v : CountState)
    (f : NvDsFrameMeta) (hv : s.variant = Variant.Count v) :
    Trigger.PostProcessFrame s f = CountOdeTrigger.PostProcessFrame s v f := by
  unfold Trigger.PostProcessFrame
  rw [hv]

/-- `CountOdeTrigger::PostProcessFrame` on an enabled trigger whose count of matches is
within the range: the result is the count, and the state is that of one event with every
Action invoked once, without an object. -/
theorem CountOdeTrigger_PostProcessFrame_fire (s : OdeTrigger) (v : CountState)
    (f : NvDsFrameMeta) (he : s.m_enabled = true) (h1 : v.m_minimum ≤ s.m_occurrences)
    (h2 : s.m_occurrences ≤ v.m_maximum) :
    CountOdeTrigger.PostProcessFrame s v f =
      (s.m_occurrences,
        callActions (IncrementEventCount (IncrementAndCheckTriggerCount s)) f none) := by
  unfold CountOdeTrigger.PostProcessFrame
  dsimp only
  rw [if_neg (by rw [he]; simp; omega)]
  rw [IncrementEventCount_m_occurrences, IncrementAndCheckTriggerCount_m_occurrences]

/-- `CountOdeTrigger::PostProcessFrame` on a trigger whose count of matches is outside the
range: nothing happens. -/
theorem CountOdeTrigger_PostProcessFrame_quiet (s : OdeTrigger) (v : CountState)
    (f : NvDsFrameMeta)
    (h : s.m_enabled = false ∨ s.m_occurrences < v.m_minimum ∨ v.m_maximum < s.m_occurrences) :
    CountOdeTrigger.PostProcessFrame s v f = (0, s) := by
  unfold CountOdeTrigger.PostProcessFrame
  dsimp only
  rw [if_pos]
  rcases h with h | h | h
  · left; rw [h]; rfl
  · right; left; exact h
  · right; right; exact h

/-- The state after one event whose Actions are invoked without an object: the count of
events is one more, and every Action was invoked once, in the order of the by-index
map. -/
theorem event_without_object (s : OdeTrigger) (f : NvDsFrameMeta)
    (o : Option NvDsObjectMeta) :
    (callActions (IncrementEventCount (IncrementAndCheckTriggerCount s)) f o).m_triggered =
      s.m_triggered + 1 ∧
    actionLog (callActions (IncrementEventCount (IncrementAndCheckTriggerCount s)) f o).log =
      actionLog s.log ++ s.m_pOdeActionsIndexed.map
        (fun a => Effect.HandleOccurrence a.2.name f o) ∧
    actionCalls (callActions (IncrementEventCount (IncrementAndCheckTriggerCount s)) f o).log =
      actionCalls s.log + s.m_pOdeActionsIndexed.length := by
  have h1 : (IncrementAndCheckTriggerCount s).m_triggered = s.m_triggered + 1 :=
    IncrementAndCheckTriggerCount_m_triggered s
  have h2 := (IncrementAndCheckTriggerCount_SameFilters s).2
  have h3 : (IncrementAndCheckTriggerCount s).m_pOdeActionsIndexed = s.m_pOdeActionsIndexed :=
    IncrementAndCheckTriggerCount_m_pOdeActionsIndexed s
  generalize IncrementAndCheckTriggerCount s = t at *
  have hlog : (callActions (IncrementEventCount t) f o).log =
      t.log ++ t.m_pOdeActionsIndexed.map (fun a => Effect.HandleOccurrence a.2.name f o) :=
    rfl
  have hA : actionLog (callActions (IncrementEventCount t) f o).log =
      actionLog s.log ++ s.m_pOdeActionsIndexed.map
        (fun a => Effect.HandleOccurrence a.2.name f o) := by
    rw [hlog, actionLog_append, actionLog_map_HandleOccurrence, h2, h3]
  refine ⟨h1, hA, ?_⟩
  rw [actionCalls_eq_length_actionLog, hA, List.length_append, List.length_map,
    ← actionCalls_eq_length_actionLog]

/-- C22: for an enabled Count trigger with range `[m_minimum, m_maximum]` and `c` matches
counted in the frame (`m_occurrences` at post-process time, which `CheckForOccurrence`
raises by one for every object that passes the gates and for no other),
`PostProcessFrame` fires exactly once (one more event in `m_triggered`, every Action
invoked exactly once, without an object, in the order of the by-index map) if and only if
`m_minimum ≤ c ≤ m_maximum`; otherwise it invokes no Action and changes no state. -/
theorem Count_fires_once_iff_count_in_range (s : OdeTrigger) (v : CountState)
    (f : NvDsFrameMeta) (o : NvDsObjectMeta) (hv : s.variant = Variant.Count v)
    (he : s.m_enabled = true) :
    ((Trigger.PostProcessFrame s f).2.m_triggered = s.m_triggered + 1 ↔
      (v.m_minimum ≤ s.m_occurrences ∧ s.m_occurrences ≤ v.m_maximum)) ∧
    ((v.m_minimum ≤ s.m_occurrences ∧ s.m_occurrences ≤ v.m_maximum) →
      actionLog (Trigger.PostProcessFrame s f).2.log =
        actionLog s.log ++ s.m_pOdeActionsIndexed.map
          (fun a => Effect.HandleOccurrence a.2.name f none) ∧
      actionCalls (Trigger.PostProcessFrame s f).2.log =
        actionCalls s.log + s.m_pOdeActionsIndexed.length) ∧
    (¬ (v.m_minimum ≤ s.m_occurrences ∧ s.m_occurrences ≤ v.m_maximum) →
      Trigger.PostProcessFrame s f = (0, s)) ∧
    (Trigger.CheckForOccurrence s f o).2.m_occurrences =
      (if (CheckGates s f o).1 = true then s.m_occurrences + 1 else s.m_occurrences) ∧
    actionLog (Trigger.CheckForOccurrence s f o).2.log = actionLog s.log := by
  rw [Trigger_PostProcessFrame_Count s v f hv, Trigger_CheckForOccurrence_Count s v f o hv]
  have hq : ¬ (v.m_minimum ≤ s.m_occurrences ∧ s.m_occurrences ≤ v.m_maximum) →
      CountOdeTrigger.PostProcessFrame s v f = (0, s) := by
    intro h
    apply CountOdeTrigger_PostProcessFrame_quiet
    right
    omega
  refine ⟨?_, ?_, hq, ?_, ?_⟩
  · constructor
    · intro h
      by_contra hn
      rw [hq hn] at h
      simp at h
    · rintro ⟨h1, h2⟩
      rw [CountOdeTrigger_PostProcessFrame_fire s v f he h1 h2]
      exact (event_without_object s f none).1
  · rintro ⟨h1, h2⟩
    rw [CountOdeTrigger_PostProcessFrame_fire s v f he h1 h2]
    exact (event_without_object s f none).2
  · unfold CountOdeTrigger.CheckForOccurrence
    dsimp only
    cases hg : (CheckGates s f o).1
    · simp [CheckGates_m_occurrences]
    · simp [CheckGates_m_occurrences]
  · unfold CountOdeTrigger.CheckForOccurrence
    dsimp only
    cases hg : (CheckGates s f o).1
    · simp [CheckGates_actionLog]
    · simp only [Bool.not_true, Bool.false_eq_true, if_false]
      exact CheckGates_actionLog s f o

/-- Witness for C22: the example Count trigger with range 1 to 5 fires once on a frame
with the two example objects, and the one with range 3 to 5 does not. -/
theorem Count_fires_once_iff_count_in_range_witness :
    actionCalls (Trigger.PostProcessFrame (run (exampleCount 1 5)
      [Call.PreProcessFrame exampleFrame, Call.CheckForOccurrence exampleFrame exampleObject,
       Call.CheckForOccurrence exampleFrame exampleObject2]) exampleFrame).2.log = 1 ∧
    Trigger.PostProcessFrame (run (exampleCount 3 5)
      [Call.PreProcessFrame exampleFrame, Call.CheckForOccurrence exampleFrame exampleObject,
       Call.CheckForOccurrence exampleFrame exampleObject2]) exampleFrame =
      (0, run (exampleCount 3 5)
      [Call.PreProcessFrame exampleFrame, Call.CheckForOccurrence exampleFrame exampleObject,
       Call.CheckForOccurrence exampleFrame exampleObject2]) :=
  ⟨((Count_fires_once_iff_count_in_range _ { m_minimum := 1, m_maximum := 5 } exampleFrame
      exampleObject rfl rfl).2.1 (by decide)).2.trans (by decide),
   (Count_fires_once_iff_count_in_range _ { m_minimum := 3, m_maximum := 5 } exampleFrame
      exampleObject rfl rfl).2.2.1 (by decide)⟩

/-- C23, at a failing input: the example Count trigger with range 1 to 5, on a frame with
the two example objects, emits one event (one more in `m_triggered`, the Action invoked
once) and `PostProcessFrame` returns 2, the count of matches; the one with range 0 to 5,
on a frame without objects, emits one event and `PostProcessFrame` returns 0. -/
theorem Count_PostProcessFrame_returns_match_count :
    (Trigger.PostProcessFrame (run (exampleCount 1 5)
      [Call.PreProcessFrame exampleFrame, Call.CheckForOccurrence exampleFrame exampleObject,
       Call.CheckForOccurrence exampleFrame exampleObject2]) exampleFrame).1 = 2 ∧
    (Trigger.PostProcessFrame (run (exampleCount 1 5)
      [Call.PreProcessFrame exampleFrame, Call.CheckForOccurrence exampleFrame exampleObject,
       Call.CheckForOccurrence exampleFrame exampleObject2]) exampleFrame).2.m_triggered = 1 ∧
    actionCalls (Trigger.PostProcessFrame (run (exampleCount 1 5)
      [Call.PreProcessFrame exampleFrame, Call.CheckForOccurrence exampleFrame exampleObject,
       Call.CheckForOccurrence exampleFrame exampleObject2]) exampleFrame).2.log = 1 ∧
    (Trigger.PostProcessFrame (run (exampleCount 0 5)
      [Call.PreProcessFrame exampleFrame]) exampleFrame).1 = 0 ∧
    (Trigger.PostProcessFrame (run (exampleCount 0 5)
      [Call.PreProcessFrame exampleFrame]) exampleFrame).2.m_triggered = 1 ∧
    actionCalls (Trigger.PostProcessFrame (run (exampleCount 0 5)
      [Call.PreProcessFrame exampleFrame]) exampleFrame).2.log = 1 := by
  decide

/-- C21, at a failing input: the example Accumulation trigger accepts one new instance in
frame 1, so that its running total is 1, and gets no object in frame 2. In frame 1
`PostProcessFrame` hands the Action a frame whose occurrences entry is 1. In frame 2 it
fires again, returns the running total 1, and hands the Action a frame whose occurrences
entry is 0. -/
theorem Accumulation_writes_zero_on_frame_without_match :
    AccumulationOdeTrigger.total (run exampleAccumulation
      [Call.PreProcessFrame exampleFrame, Call.CheckForOccurrence exampleFrame exampleObject,
       Call.PostProcessFrame exampleFrame, Call.PreProcessFrame exampleFrame2]) = 1 ∧
    (Trigger.PostProcessFrame (run exampleAccumulation
      [Call.PreProcessFrame exampleFrame, Call.CheckForOccurrence exampleFrame exampleObject,
       Call.PostProcessFrame exampleFrame, Call.PreProcessFrame exampleFrame2])
      exampleFrame2).1 = 1 ∧
    (Trigger.PostProcessFrame (run exampleAccumulation
      [Call.PreProcessFrame exampleFrame, Call.CheckForOccurrence exampleFrame exampleObject,
       Call.PostProcessFrame exampleFrame, Call.PreProcessFrame exampleFrame2])
      exampleFrame2).2.m_triggered = 2 ∧
    actionLog (Trigger.PostProcessFrame (run exampleAccumulation
      [Call.PreProcessFrame exampleFrame, Call.CheckForOccurrence exampleFrame exampleObject,
       Call.PostProcessFrame exampleFrame, Call.PreProcessFrame exampleFrame2])
      exampleFrame2).2.log =
      [Effect.HandleOccurrence "print" { exampleFrame with occurrences := 1 } none,
       Effect.HandleOccurrence "print" { exampleFrame2 with occurrences := 0 } none] := by
  decide

/-- The base `PreProcessFrame` keeps the class, its members and the enabled flag. -/
theorem PreProcessFrame_variant (s : OdeTrigger) (f : NvDsFrameMeta) :
    (OdeTrigger.PreProcessFrame s f).variant = s.variant ∧
    (OdeTrigger.PreProcessFrame s f).m_enabled = s.m_enabled := by
  unfold OdeTrigger.PreProcessFrame
  dsimp only
  split_ifs <;> exact ⟨by simp, by simp⟩

/-- The `CheckForOccurrence` of the counting triggers (Summation, New-Low, New-High)
keeps the class, its members and the enabled flag. -/
theorem SummationOdeTrigger_CheckForOccurrence_variant (s : OdeTrigger) (f : NvDsFrameMeta)
    (o : NvDsObjectMeta) :
    (SummationOdeTrigger.CheckForOccurrence s f o).2.variant = s.variant ∧
    (SummationOdeTrigger.CheckForOccurrence s f o).2.m_enabled = s.m_enabled := by
  unfold SummationOdeTrigger.CheckForOccurrence
  dsimp only
  split_ifs <;> exact ⟨by simp, by simp⟩

/-- The `PostProcessFrame` calls of a run that starts with a `PostProcessFrame` call. -/
theorem postProcessCalls_cons_post (s : OdeTrigger) (f : NvDsFrameMeta) (rest : List Call) :
    postProcessCalls s (Call.PostProcessFrame f :: rest) =
      (s, f) :: postProcessCalls (step s (Call.PostProcessFrame f)) rest := rfl

/-- `NewHighOdeTrigger::PostProcessFrame` on an enabled trigger whose count of matches is
above the current high. -/
theorem NewHighOdeTrigger_PostProcessFrame_fire (s : OdeTrigger) (v : NewExtremeState)
    (f : NvDsFrameMeta) (he : s.m_enabled = true) (h : v.m_current < s.m_occurrences) :
    NewHighOdeTrigger.PostProcessFrame s v f =
      (1, callActions (IncrementEventCount (IncrementAndCheckTriggerCount { s with
        variant := Variant.NewHigh { v with m_current := s.m_occurrences } }))
        { f with occurrences := s.m_occurrences } none) := by
  unfold NewHighOdeTrigger.PostProcessFrame
  dsimp only
  rw [if_neg (by rw [he]; simp; omega)]
  rw [IncrementEventCount_m_occurrences, IncrementAndCheckTriggerCount_m_occurrences]

/-- `NewHighOdeTrigger::PostProcessFrame` on a trigger whose count of matches is not above
the current high. -/
theorem NewHighOdeTrigger_PostProcessFrame_quiet (s : OdeTrigger) (v : NewExtremeState)
    (f : NvDsFrameMeta) (h : s.m_occurrences ≤ v.m_current) :
    NewHighOdeTrigger.PostProcessFrame s v f = (0, s) := by
  unfold NewHighOdeTrigger.PostProcessFrame
  dsimp only
  rw [if_pos (Or.inr h)]

/-- `NewLowOdeTrigger::PostProcessFrame` on an enabled trigger whose count of matches is
below the current low. -/
theorem NewLowOdeTrigger_PostProcessFrame_fire (s : OdeTrigger) (v : NewExtremeState)
    (f : NvDsFrameMeta) (he : s.m_enabled = true) (h : s.m_occurrences < v.m_current) :
    NewLowOdeTrigger.PostProcessFrame s v f =
      (1, callActions (IncrementEventCount (IncrementAndCheckTriggerCount { s with
        variant := Variant.NewLow { v with m_current := s.m_occurrences } }))
        { f with occurrences := s.m_occurrences } none) := by
  unfold NewLowOdeTrigger.PostProcessFrame
  dsimp only
  rw [if_neg (by rw [he]; simp; omega)]
  rw [IncrementEventCount_m_occurrences, IncrementAndCheckTriggerCount_m_occurrences]

/-- `NewLowOdeTrigger::PostProcessFrame` on a trigger whose count of matches is not below
the current low. -/
theorem NewLowOdeTrigger_PostProcessFrame_quiet (s : OdeTrigger) (v : NewExtremeState)
    (f : NvDsFrameMeta) (h : v.m_current ≤ s.m_occurrences) :
    NewLowOdeTrigger.PostProcessFrame s v f = (0, s) := by
  unfold NewLowOdeTrigger.PostProcessFrame
  dsimp only
  rw [if_pos (Or.inr h)]

/-- After `PostProcessFrame` an enabled New-High trigger is enabled and its current high
is the larger of the current high and the count of matches. -/
theorem NewHighOdeTrigger_PostProcessFrame_variant (s : OdeTrigger) (v : NewExtremeState)
    (f : NvDsFrameMeta) (he : s.m_enabled = true) (hv : s.variant = Variant.NewHigh v) :
    (NewHighOdeTrigger.PostProcessFrame s v f).2.variant =
      Variant.NewHigh { v with m_current := max v.m_current s.m_occurrences } ∧
    (NewHighOdeTrigger.PostProcessFrame s v f).2.m_enabled = true := by
  by_cases h : v.m_current < s.m_occurrences
  · rw [NewHighOdeTrigger_PostProcessFrame_fire s v f he h]
    refine ⟨?_, by simpa using he⟩
    simp only [callActions_variant, IncrementEventCount_variant,
      IncrementAndCheckTriggerCount_variant]
    rw [Nat.max_eq_right (Nat.le_of_lt h)]
  · rw [NewHighOdeTrigger_PostProcessFrame_quiet s v f (Nat.le_of_not_lt h)]
    refine ⟨?_, he⟩
    rw [Nat.max_eq_left (Nat.le_of_not_lt h)]
    exact hv

/-- After `PostProcessFrame` an enabled New-Low trigger is enabled and its current low is
the smaller of the current low and the count of matches. -/
theorem NewLowOdeTrigger_PostProcessFrame_variant (s : OdeTrigger) (v : NewExtremeState)
    (f : NvDsFrameMeta) (he : s.m_enabled = true) (hv : s.variant = Variant.NewLow v) :
    (NewLowOdeTrigger.PostProcessFrame s v f).2.variant =
      Variant.NewLow { v with m_current := min v.m_current s.m_occurrences } ∧
    (NewLowOdeTrigger.PostProcessFrame s v f).2.m_enabled = true := by
  by_cases h : s.m_occurrences < v.m_current
  · rw [NewLowOdeTrigger_PostProcessFrame_fire s v f he h]
    refine ⟨?_, by simpa using he⟩
    simp only [callActions_variant, IncrementEventCount_variant,
      IncrementAndCheckTriggerCount_variant]
    rw [Nat.min_eq_right (Nat.le_of_lt h)]
  · rw [NewLowOdeTrigger_PostProcessFrame_quiet s v f (Nat.le_of_not_lt h)]
    refine ⟨?_, he⟩
    rw [Nat.min_eq_left (Nat.le_of_not_lt h)]
    exact hv

/-- A per-frame call other than `PostProcessFrame` leaves a New-High trigger with its
members and its enabled flag. -/
theorem NewHigh_step_other (s : OdeTrigger) (v : NewExtremeState) (c : Call)
    (hv : s.variant = Variant.NewHigh v) (hc : frameCallsOnly s c)
    (hp : ∀ f, c ≠ Call.PostProcessFrame f) :
    (step s c).variant = Variant.NewHigh v ∧ (step s c).m_enabled = s.m_enabled ∧
    ∀ rest, postProcessCalls s (c :: rest) = postProcessCalls (step s c) rest := by
  cases c with
  | PreProcessFrame f =>
    have h : step s (Call.PreProcessFrame f) = OdeTrigger.PreProcessFrame s f := by
      show Trigger.PreProcessFrame s f = _
      unfold Trigger.PreProcessFrame
      rw [hv]
    refine ⟨?_, ?_, fun _ => rfl⟩
    · rw [h]
      exact (PreProcessFrame_variant s f).1.trans hv
    · rw [h]
      exact (PreProcessFrame_variant s f).2
  | CheckForOccurrence f o =>
    have h : step s (Call.CheckForOccurrence f o) =
        (SummationOdeTrigger.CheckForOccurrence s f o).2 := by
      show (Trigger.CheckForOccurrence s f o).2 = _
      unfold Trigger.CheckForOccurrence
      rw [hv]
    refine ⟨?_, ?_, fun _ => rfl⟩
    · rw [h]
      exact (SummationOdeTrigger_CheckForOccurrence_variant s f o).1.trans hv
    · rw [h]
      exact (SummationOdeTrigger_CheckForOccurrence_variant s f o).2
  | PostProcessFrame f => exact absurd rfl (hp f)
  | Tick ms => exact ⟨hv, rfl, fun _ => rfl⟩
  | Reset => exact absurd hc (by simp [frameCallsOnly])
  | SetLimit l => exact absurd hc (by simp [frameCallsOnly])
  | SetResetTimeout t => exact absurd hc (by simp [frameCallsOnly])
  | Timeout id => exact absurd hc (by simp [frameCallsOnly])

/-- A per-frame call other than `PostProcessFrame` leaves a New-Low trigger with its
members and its enabled flag. -/
theorem NewLow_step_other (s : OdeTrigger) (v : NewExtremeState) (c : Call)
    (hv : s.variant = Variant.NewLow v) (hc : frameCallsOnly s c)
    (hp : ∀ f, c ≠ Call.PostProcessFrame f) :
    (step s c).variant = Variant.NewLow v ∧ (step s c).m_enabled = s.m_enabled ∧
    ∀ rest, postProcessCalls s (c :: rest) = postProcessCalls (step s c) rest := by
  cases c with
  | PreProcessFrame f =>
    have h : step s (Call.PreProcessFrame f) = OdeTrigger.PreProcessFrame s f := by
      show Trigger.PreProcessFrame s f = _
      unfold Trigger.PreProcessFrame
      rw [hv]
    refine ⟨?_, ?_, fun _ => rfl⟩
    · rw [h]
      exact (PreProcessFrame_variant s f).1.trans hv
    · rw [h]
      exact (PreProcessFrame_variant s f).2
  | CheckForOccurrence f o =>
    have h : step s (Call.CheckForOccurrence f o) =
        (SummationOdeTrigger.CheckForOccurrence s f o).2 := by
      show (Trigger.CheckForOccurrence s f o).2 = _
      unfold Trigger.CheckForOccurrence
      rw [hv]
    refine ⟨?_, ?_, fun _ => rfl⟩
    · rw [h]
      exact (SummationOdeTrigger_CheckForOccurrence_variant s f o).1.trans hv
    · rw [h]
      exact (SummationOdeTrigger_CheckForOccurrence_variant s f o).2
  | PostProcessFrame f => exact absurd rfl (hp f)
  | Tick ms => exact ⟨hv, rfl, fun _ => rfl⟩
  | Reset => exact absurd hc (by simp [frameCallsOnly])
  | SetLimit l => exact absurd hc (by simp [frameCallsOnly])
  | SetResetTimeout t => exact absurd hc (by simp [frameCallsOnly])
  | Timeout id => exact absurd hc (by simp [frameCallsOnly])

/-- The virtual `PostProcessFrame` of a New-High trigger. -/
theorem Trigger_PostProcessFrame_NewHigh (s : OdeTrigger) (v : NewExtremeState)
    (f : NvDsFrameMeta) (hv : s.variant = Variant.NewHigh v) :
    Trigger.PostProcessFrame s f = NewHighOdeTrigger.PostProcessFrame s v f := by
  unfold Trigger.PostProcessFrame
  rw [hv]

/-- The virtual `PostProcessFrame` of a New-Low trigger. -/
theorem Trigger_PostProcessFrame_NewLow (s : OdeTrigger) (v : NewExtremeState)
    (f : NvDsFrameMeta) (hv : s.variant = Variant.NewLow v) :
    Trigger.PostProcessFrame s f = NewLowOdeTrigger.PostProcessFrame s v f := by
  unfold Trigger.PostProcessFrame
  rw [hv]

/-- Over the per-frame calls of any number of frames, an enabled New-High trigger stays
enabled, and at each `PostProcessFrame` call and at the end its current high is the
largest of the current high it started with and the counts of the frames before. -/
theorem NewHigh_run (calls : List Call) :
    ∀ (s : OdeTrigger) (v : NewExtremeState), s.variant = Variant.NewHigh v →
    s.m_enabled = true → Admissible frameCallsOnly s calls →
    (∀ i t f, (postProcessCalls s calls)[i]? = some (t, f) →
      t.m_enabled = true ∧
      t.variant = Variant.NewHigh { v with
        m_current := ((matchCounts s calls).take i).foldl max v.m_current }) ∧
    (run s calls).variant = Variant.NewHigh { v with
      m_current := (matchCounts s calls).foldl max v.m_current } ∧
    (run s calls).m_enabled = true := by
  induction calls with
  | nil =>
    intro s v hv he _
    exact ⟨fun i t f h => by simp [postProcessCalls] at h, hv, he⟩
  | cons c calls ih =>
    intro s v hv he ha
    obtain ⟨hc, ha'⟩ := ha
    by_cases hp : ∃ f, c = Call.PostProcessFrame f
    · obtain ⟨f, rfl⟩ := hp
      have hstep : step s (Call.PostProcessFrame f) =
          (NewHighOdeTrigger.PostProcessFrame s v f).2 := by
        show (Trigger.PostProcessFrame s f).2 = _
        rw [Trigger_PostProcessFrame_NewHigh s v f hv]
      obtain ⟨q1, q2⟩ := NewHighOdeTrigger_PostProcessFrame_variant s v f he hv
      rw [← hstep] at q1 q2
      obtain ⟨i1, i2, i3⟩ := ih (step s (Call.PostProcessFrame f)) _ q1 q2 ha'
      have hm : matchCounts s (Call.PostProcessFrame f :: calls) =
          s.m_occurrences :: matchCounts (step s (Call.PostProcessFrame f)) calls := rfl
      refine ⟨?_, ?_, i3⟩
      · intro i t g h
        rw [postProcessCalls_cons_post] at h
        cases i with
        | zero =>
          simp only [List.getElem?_cons_zero, Option.some.injEq, Prod.mk.injEq] at h
          obtain ⟨rfl, rfl⟩ := h
          exact ⟨he, hv⟩
        | succ j =>
          rw [List.getElem?_cons_succ] at h
          obtain ⟨k1, k2⟩ := i1 j t g h
          refine ⟨k1, ?_⟩
          rw [k2, hm]
          rfl
      · show (run (step s (Call.PostProcessFrame f)) calls).variant = _
        rw [i2, hm]
        rfl
    · have hp' : ∀ f, c ≠ Call.PostProcessFrame f := fun f h => hp ⟨f, h⟩
      obtain ⟨q1, q2, q3⟩ := NewHigh_step_other s v c hv hc hp'
      obtain ⟨i1, i2, i3⟩ := ih (step s c) v q1 (q2.trans he) ha'
      have hm : matchCounts s (c :: calls) = matchCounts (step s c) calls := by
        unfold matchCounts
        rw [q3]
      refine ⟨?_, ?_, i3⟩
      · intro i t g h
        rw [q3] at h
        rw [hm]
        exact i1 i t g h
      · show (run (step s c) calls).variant = _
        rw [i2, hm]

/-- Over the per-frame calls of any number of frames, an enabled New-Low trigger stays
enabled, and at each `PostProcessFrame` call and at the end its current low is the
smallest of the current low it started with and the counts of the frames before. -/
theorem NewLow_run (calls : List Call) :
    ∀ (s : OdeTrigger) (v : NewExtremeState), s.variant = Variant.NewLow v →
    s.m_enabled = true → Admissible frameCallsOnly s calls →
    (∀ i t f, (postProcessCalls s calls)[i]? = some (t, f) →
      t.m_enabled = true ∧
      t.variant = Variant.NewLow { v with
        m_current := ((matchCounts s calls).take i).foldl min v.m_current }) ∧
    (run s calls).variant = Variant.NewLow { v with
      m_current := (matchCounts s calls).foldl min v.m_current } ∧
    (run s calls).m_enabled = true := by
  induction calls with
  | nil =>
    intro s v hv he _
    exact ⟨fun i t f h => by simp [postProcessCalls] at h, hv, he⟩
  | cons c calls ih =>
    intro s v hv he ha
    obtain ⟨hc, ha'⟩ := ha
    by_cases hp : ∃ f, c = Call.PostProcessFrame f
    · obtain ⟨f, rfl⟩ := hp
      have hstep : step s (Call.PostProcessFrame f) =
          (NewLowOdeTrigger.PostProcessFrame s v f).2 := by
        show (Trigger.PostProcessFrame s f).2 = _
        rw [Trigger_PostProcessFrame_NewLow s v f hv]
      obtain ⟨q1, q2⟩ := NewLowOdeTrigger_PostProcessFrame_variant s v f he hv
      rw [← hstep] at q1 q2
      obtain ⟨i1, i2, i3⟩ := ih (step s (Call.PostProcessFrame f)) _ q1 q2 ha'
      have hm : matchCounts s (Call.PostProcessFrame f :: calls) =
          s.m_occurrences :: matchCounts (step s (Call.PostProcessFrame f)) calls := rfl
      refine ⟨?_, ?_, i3⟩
      · intro i t g h
        rw [postProcessCalls_cons_post] at h
        cases i with
        | zero =>
          simp only [List.getElem?_cons_zero, Option.some.injEq, Prod.mk.injEq] at h
          obtain ⟨rfl, rfl⟩ := h
          exact ⟨he, hv⟩
        | succ j =>
          rw [List.getElem?_cons_succ] at h
          obtain ⟨k1, k2⟩ := i1 j t g h
          refine ⟨k1, ?_⟩
          rw [k2, hm]
          rfl
      · show (run (step s (Call.PostProcessFrame f)) calls).variant = _
        rw [i2, hm]
        rfl
    · have hp' : ∀ f, c ≠ Call.PostProcessFrame f := fun f h => hp ⟨f, h⟩
      obtain ⟨q1, q2, q3⟩ := NewLow_step_other s v c hv hc hp'
      obtain ⟨i1, i2, i3⟩ := ih (step s c) v q1 (q2.trans he) ha'
      have hm : matchCounts s (c :: calls) = matchCounts (step s c) calls := by
        unfold matchCounts
        rw [q3]
      refine ⟨?_, ?_, i3⟩
      · intro i t g h
        rw [q3] at h
        rw [hm]
        exact i1 i t g h
      · show (run (step s c) calls).variant = _
        rw [i2, hm]

/-- A sequence of calls all of which are per-frame calls is admissible in every state. -/
theorem Admissible_frameCallsOnly (calls : List Call) (s0 : OdeTrigger)
    (h : ∀ c ∈ calls, frameCallsOnly s0 c) :
    ∀ s, Admissible frameCallsOnly s calls := by
  induction calls with
  | nil => intro s; trivial
  | cons c calls ih =>
    intro s
    refine ⟨?_, ih (fun c' hc' => h c' (List.mem_cons_of_mem _ hc')) _⟩
    have := h c (List.mem_cons_self _ _)
    cases c <;> exact this

/-- The calls of the example frames are per-frame calls. -/
theorem exampleCountedFrames_admissible (counts : List Nat) (s : OdeTrigger) :
    Admissible frameCallsOnly s (exampleCountedFrames counts) := by
  refine Admissible_frameCallsOnly _ s ?_ s
  intro c hc
  unfold exampleCountedFrames at hc
  obtain ⟨k, -, hk⟩ := List.mem_flatMap.1 hc
  rcases List.mem_cons.1 hk with rfl | hk
  · trivial
  · rcases List.mem_append.1 hk with hk | hk
    · rw [(List.mem_replicate.1 hk).2]
      trivial
    · rw [List.mem_singleton.1 hk]
      trivial

/-- The state after the members of the class are updated and one event is counted with
its Actions invoked: the count of events is one more, and every Action was invoked once,
in the order of the by-index map. -/
theorem event_after_variant_change (t : OdeTrigger) (w : Variant) (f : NvDsFrameMeta)
    (o : Option NvDsObjectMeta) :
    (callActions (IncrementEventCount (IncrementAndCheckTriggerCount
      { t with variant := w })) f o).m_triggered = t.m_triggered + 1 ∧
    actionLog (callActions (IncrementEventCount (IncrementAndCheckTriggerCount
      { t with variant := w })) f o).log =
      actionLog t.log ++ t.m_pOdeActionsIndexed.map
        (fun a => Effect.HandleOccurrence a.2.name f o) ∧
    actionCalls (callActions (IncrementEventCount (IncrementAndCheckTriggerCount
      { t with variant := w })) f o).log =
      actionCalls t.log + t.m_pOdeActionsIndexed.length :=
  event_without_object { t with variant := w } f o

/-- C24: an enabled New-High trigger whose current high is its preset `p` (as
constructed, or after `Reset`), over the per-frame calls of any number of frames with the
counts of matches `c1..cn` (`m_occurrences` at the `PostProcessFrame` calls):
`PostProcessFrame` fires on frame `i` (result 1, one more event, every Action invoked once
with the count in the frame's occurrences entry) if and only if `ci` is strictly greater
than `max(p, c1, ..., c(i-1))`, and otherwise returns 0 and changes nothing; after the
frames the current high is `max(p, c1, ..., cn)`; `Reset` restores the current high to
`p`. Symmetrically a New-Low trigger fires if and only if `ci` is strictly less than
`min(p, c1, ..., c(i-1))`, keeps the current low at `min(p, c1, ..., cn)`, and `Reset`
restores it to `p`. -/
theorem NewHigh_NewLow_fire_on_new_extreme (s : OdeTrigger) (v : NewExtremeState)
    (calls : List Call) (he : s.m_enabled = true) (hp : v.m_current = v.m_preset)
    (ha : Admissible frameCallsOnly s calls) :
    (s.variant = Variant.NewHigh v →
      (∀ i t f, (postProcessCalls s calls)[i]? = some (t, f) →
        (((matchCounts s calls).take i).foldl max v.m_preset < t.m_occurrences →
          (Trigger.PostProcessFrame t f).1 = 1 ∧
          (Trigger.PostProcessFrame t f).2.m_triggered = t.m_triggered + 1 ∧
          actionLog (Trigger.PostProcessFrame t f).2.log =
            actionLog t.log ++ t.m_pOdeActionsIndexed.map (fun a =>
              Effect.HandleOccurrence a.2.name { f with occurrences := t.m_occurrences }
                none)) ∧
        (¬ ((matchCounts s calls).take i).foldl max v.m_preset < t.m_occurrences →
          Trigger.PostProcessFrame t f = (0, t))) ∧
      currentExtreme (run s calls) = (matchCounts s calls).foldl max v.m_preset ∧
      currentExtreme (Trigger.Reset (run s calls)) = v.m_preset) ∧
    (s.variant = Variant.NewLow v →
      (∀ i t f, (postProcessCalls s calls)[i]? = some (t, f) →
        (t.m_occurrences < ((matchCounts s calls).take i).foldl min v.m_preset →
          (Trigger.PostProcessFrame t f).1 = 1 ∧
          (Trigger.PostProcessFrame t f).2.m_triggered = t.m_triggered + 1 ∧
          actionLog (Trigger.PostProcessFrame t f).2.log =
            actionLog t.log ++ t.m_pOdeActionsIndexed.map (fun a =>
              Effect.HandleOccurrence a.2.name { f with occurrences := t.m_occurrences }
                none)) ∧
        (¬ t.m_occurrences < ((matchCounts s calls).take i).foldl min v.m_preset →
          Trigger.PostProcessFrame t f = (0, t))) ∧
      currentExtreme (run s calls) = (matchCounts s calls).foldl min v.m_preset ∧
      currentExtreme (Trigger.Reset (run s calls)) = v.m_preset) := by
  refine ⟨?_, ?_⟩
  · intro hv
    obtain ⟨r1, r2, -⟩ := NewHigh_run calls s v hv he ha
    rw [hp] at r1 r2
    refine ⟨?_, ?_, ?_⟩
    · intro i t f hi
      obtain ⟨te, tv⟩ := r1 i t f hi
      rw [Trigger_PostProcessFrame_NewHigh t _ f tv]
      refine ⟨?_, ?_⟩
      · intro hlt
        rw [NewHighOdeTrigger_PostProcessFrame_fire t _ f te hlt]
        have hev := event_after_variant_change t (Variant.NewHigh
          { v with m_current := t.m_occurrences }) { f with occurrences := t.m_occurrences }
          none
        exact ⟨rfl, hev.1, hev.2.1⟩
      · intro hlt
        exact NewHighOdeTrigger_PostProcessFrame_quiet t _ f (Nat.le_of_not_lt hlt)
    · unfold currentExtreme
      rw [r2]
    · unfold currentExtreme Trigger.Reset
      rw [r2]
      rfl
  · intro hv
    obtain ⟨r1, r2, -⟩ := NewLow_run calls s v hv he ha
    rw [hp] at r1 r2
    refine ⟨?_, ?_, ?_⟩
    · intro i t f hi
      obtain ⟨te, tv⟩ := r1 i t f hi
      rw [Trigger_PostProcessFrame_NewLow t _ f tv]
      refine ⟨?_, ?_⟩
      · intro hlt
        rw [NewLowOdeTrigger_PostProcessFrame_fire t _ f te hlt]
        have hev := event_after_variant_change t (Variant.NewLow
          { v with m_current := t.m_occurrences }) { f with occurrences := t.m_occurrences }
          none
        exact ⟨rfl, hev.1, hev.2.1⟩
      · intro hlt
        exact NewLowOdeTrigger_PostProcessFrame_quiet t _ f (Nat.le_of_not_lt hlt)
    · unfold currentExtreme
      rw [r2]
    · unfold currentExtreme Trigger.Reset
      rw [r2]
      rfl

/-- Witness for C24: the example New-High trigger with preset 5, over six frames with 3,
4, 5, 6, 5 and 7 matching objects: the counts at the `PostProcessFrame` calls are those
numbers, the calls return 0, 0, 0, 1, 0, 1 (events on frames 4 and 6 only), the current
high ends at 7, and `Reset` restores it to 5. The example New-Low trigger with preset 5,
over five frames with 7, 5, 4, 6 and 3 matching objects, fires on frames 3 and 5 only and
ends with the current low 3. -/
theorem NewHigh_NewLow_fire_on_new_extreme_witness :
    matchCounts exampleNewHigh (exampleCountedFrames [3, 4, 5, 6, 5, 7]) =
      [3, 4, 5, 6, 5, 7] ∧
    (postProcessCalls exampleNewHigh (exampleCountedFrames [3, 4, 5, 6, 5, 7])).map
      (fun p => (Trigger.PostProcessFrame p.1 p.2).1) = [0, 0, 0, 1, 0, 1] ∧
    currentExtreme (run exampleNewHigh (exampleCountedFrames [3, 4, 5, 6, 5, 7])) = 7 ∧
    currentExtreme
      (Trigger.Reset (run exampleNewHigh (exampleCountedFrames [3, 4, 5, 6, 5, 7]))) = 5 ∧
    (postProcessCalls exampleNewLow (exampleCountedFrames [7, 5, 4, 6, 3])).map
      (fun p => (Trigger.PostProcessFrame p.1 p.2).1) = [0, 0, 1, 0, 1] ∧
    currentExtreme (run exampleNewLow (exampleCountedFrames [7, 5, 4, 6, 3])) = 3 :=
  ⟨by decide, by decide,
   ((NewHigh_NewLow_fire_on_new_extreme exampleNewHigh { m_preset := 5, m_current := 5 }
      (exampleCountedFrames [3, 4, 5, 6, 5, 7]) rfl rfl
      (exampleCountedFrames_admissible _ _)).1 rfl).2.1.trans (by decide),
   ((NewHigh_NewLow_fire_on_new_extreme exampleNewHigh { m_preset := 5, m_current := 5 }
      (exampleCountedFrames [3, 4, 5, 6, 5, 7]) rfl rfl
      (exampleCountedFrames_admissible _ _)).1 rfl).2.2,
   by decide,
   ((NewHigh_NewLow_fire_on_new_extreme exampleNewLow { m_preset := 5, m_current := 5 }
      (exampleCountedFrames [7, 5, 4, 6, 3]) rfl rfl
      (exampleCountedFrames_admissible _ _)).2 rfl).2.1.trans (by decide)⟩

/-- With enough fuel `log2Fuel` gives the position of the leading binary digit. -/
theorem log2Fuel_spec : ∀ (fuel n : Nat), 0 < n → n ≤ fuel →
    2 ^ log2Fuel fuel n ≤ n ∧ n < 2 ^ (log2Fuel fuel n + 1) := by
  intro fuel
  induction fuel with
  | zero => intro n h0 h1; omega
  | succ fuel ih =>
    intro n h0 h1
    unfold log2Fuel
    by_cases h2 : n < 2
    · rw [if_pos h2]
      have : n = 1 := by omega
      subst this
      decide
    · rw [if_neg h2]
      obtain ⟨i1, i2⟩ := ih (n / 2) (by omega) (by omega)
      have e1 : 2 ^ (log2Fuel fuel (n / 2) + 1) = 2 * 2 ^ log2Fuel fuel (n / 2) := by
        rw [Nat.pow_succ, Nat.mul_comm]
      have e2 : 2 ^ (log2Fuel fuel (n / 2) + 1 + 1) =
          2 * 2 ^ (log2Fuel fuel (n / 2) + 1) := by
        rw [Nat.pow_succ, Nat.mul_comm]
      rw [e2, e1]
      rw [e1] at i2
      constructor <;> omega

/-- `pow2` is the power of 2. -/
theorem pow2_eq_zpow (k : Int) : pow2 k = (2 : ℚ) ^ k := by
  unfold pow2
  by_cases h : 0 ≤ k
  · rw [if_pos h]
    obtain ⟨n, rfl⟩ := Int.eq_ofNat_of_zero_le h
    simp
  · rw [if_neg h]
    obtain ⟨n, hn⟩ := Int.exists_eq_neg_ofNat (by omega : k ≤ 0)
    subst hn
    simp

/-- The exponent that `binade` gives is that of the binade of the value. -/
theorem binade_spec (q : ℚ) (hq : q ≠ 0) :
    pow2 (binade q) ≤ |q| ∧ |q| < pow2 (binade q + 1) := by
  have habs : (if q < 0 then -q else q) = |q| := by
    by_cases h : q < 0
    · rw [if_pos h, abs_of_neg h]
    · rw [if_neg h, abs_of_nonneg (not_lt.1 h)]
  have hn0 : 0 < q.num.natAbs := Int.natAbs_pos.2 (Rat.num_ne_zero.2 hq)
  have hd0 : 0 < q.den := q.den_pos
  obtain ⟨n1, n2⟩ := log2Fuel_spec q.num.natAbs q.num.natAbs hn0 (Nat.le_refl _)
  obtain ⟨d1, d2⟩ := log2Fuel_spec q.den q.den hd0 (Nat.le_refl _)
  have hval : |q| = (q.num.natAbs : ℚ) / (q.den : ℚ) := by
    rw [Nat.cast_natAbs, Int.cast_abs]
    conv_lhs => rw [← Rat.num_div_den q]
    rw [abs_div, Nat.abs_cast]
  have hdq : (0 : ℚ) < (q.den : ℚ) := by exact_mod_cast hd0
  generalize hA : log2Fuel q.num.natAbs q.num.natAbs = A at n1 n2
  generalize hB : log2Fuel q.den q.den = B at d1 d2
  have n1' : (2 : ℚ) ^ (A : ℤ) ≤ (q.num.natAbs : ℚ) := by
    rw [zpow_natCast]; exact_mod_cast n1
  have n2' : (q.num.natAbs : ℚ) < (2 : ℚ) ^ ((A : ℤ) + 1) := by
    have : ((A : ℤ) + 1) = ((A + 1 : ℕ) : ℤ) := by push_cast; rfl
    rw [this, zpow_natCast]; exact_mod_cast n2
  have d1' : (2 : ℚ) ^ (B : ℤ) ≤ (q.den : ℚ) := by
    rw [zpow_natCast]; exact_mod_cast d1
  have d2' : (q.den : ℚ) < (2 : ℚ) ^ ((B : ℤ) + 1) := by
    have : ((B : ℤ) + 1) = ((B + 1 : ℕ) : ℤ) := by push_cast; rfl
    rw [this, zpow_natCast]; exact_mod_cast d2
  have h2 : (0 : ℚ) < 2 := by norm_num
  have hlow : (2 : ℚ) ^ ((A : ℤ) - (B : ℤ) - 1) < |q| := by
    rw [hval, lt_div_iff₀ hdq]
    have e : (2 : ℚ) ^ ((A : ℤ) - (B : ℤ) - 1) * (2 : ℚ) ^ ((B : ℤ) + 1) = (2 : ℚ) ^ (A : ℤ) := by
      rw [← zpow_add₀ (ne_of_gt h2)]
      congr 1
      ring
    calc (2 : ℚ) ^ ((A : ℤ) - (B : ℤ) - 1) * (q.den : ℚ)
        < (2 : ℚ) ^ ((A : ℤ) - (B : ℤ) - 1) * (2 : ℚ) ^ ((B : ℤ) + 1) :=
          mul_lt_mul_of_pos_left d2' (zpow_pos h2 _)
      _ = (2 : ℚ) ^ (A : ℤ) := e
      _ ≤ _ := n1'
  have hhigh : |q| < (2 : ℚ) ^ ((A : ℤ) - (B : ℤ) + 1) := by
    rw [hval, div_lt_iff₀ hdq]
    have e : (2 : ℚ) ^ ((A : ℤ) - (B : ℤ) + 1) * (2 : ℚ) ^ (B : ℤ) = (2 : ℚ) ^ ((A : ℤ) + 1) := by
      rw [← zpow_add₀ (ne_of_gt h2)]
      congr 1
      ring
    calc (q.num.natAbs : ℚ) < (2 : ℚ) ^ ((A : ℤ) + 1) := n2'
      _ = (2 : ℚ) ^ ((A : ℤ) - (B : ℤ) + 1) * (2 : ℚ) ^ (B : ℤ) := e.symm
      _ ≤ (2 : ℚ) ^ ((A : ℤ) - (B : ℤ) + 1) * (q.den : ℚ) :=
          mul_le_mul_of_nonneg_left d1' (le_of_lt (zpow_pos h2 _))
  unfold binade
  dsimp only
  rw [hA, hB, habs]
  by_cases hk : pow2 ((A : ℤ) - (B : ℤ)) ≤ |q|
  · rw [if_pos hk]
    exact ⟨hk, by rw [pow2_eq_zpow]; exact hhigh⟩
  · rw [if_neg hk]
    refine ⟨by rw [pow2_eq_zpow]; exact le_of_lt hlow, ?_⟩
    have : (A : ℤ) - (B : ℤ) - 1 + 1 = (A : ℤ) - (B : ℤ) := by ring
    rw [this]
    exact not_le.1 hk

/-- `roundHalfEven` gives an integer at most one half away. -/
theorem roundHalfEven_spec (q : ℚ) : |(roundHalfEven q : ℚ) - q| ≤ 1 / 2 := by
  have h1 : (⌊q⌋ : ℚ) ≤ q := Int.floor_le q
  have h2 : q < (⌊q⌋ : ℚ) + 1 := Int.lt_floor_add_one q
  unfold roundHalfEven
  dsimp only
  rw [abs_le]
  split_ifs with a b c
  · constructor <;> linarith
  · push_cast; constructor <;> linarith
  · constructor <;> linarith
  · push_cast; constructor <;> linarith

/-- `roundHalfEven` keeps an integer. -/
theorem roundHalfEven_intCast (m : ℤ) : roundHalfEven (m : ℚ) = m := by
  unfold roundHalfEven
  dsimp only
  rw [Int.floor_intCast, sub_self, if_pos (by norm_num)]

/-- The value `float32` gives is a multiple of the spacing of the `float` numbers in the
binade of the value, at most half a spacing away from the value, with a significand of at
most 24 binary digits; and a value that is such a multiple is kept. -/
theorem float32_spec (q : ℚ) (hq : q ≠ 0) :
    float32 q =
      (roundHalfEven (q / pow2 (max (binade q) (-126) - 23)) : ℚ) *
        pow2 (max (binade q) (-126) - 23) ∧
    |float32 q - q| ≤ pow2 (max (binade q) (-126) - 23) / 2 ∧
    |roundHalfEven (q / pow2 (max (binade q) (-126) - 23))| ≤ 16777216 ∧
    (∀ m : ℤ, q = (m : ℚ) * pow2 (max (binade q) (-126) - 23) → float32 q = q) := by
  have hf : float32 q =
      (roundHalfEven (q / pow2 (max (binade q) (-126) - 23)) : ℚ) *
        pow2 (max (binade q) (-126) - 23) := by
    unfold float32
    rw [if_neg hq]
  have hu : (0 : ℚ) < pow2 (max (binade q) (-126) - 23) := by
    rw [pow2_eq_zpow]; exact zpow_pos (by norm_num) _
  generalize hU : pow2 (max (binade q) (-126) - 23) = u at hf hu ⊢
  have hr := roundHalfEven_spec (q / u)
  refine ⟨hf, ?_, ?_, ?_⟩
  · rw [hf]
    have e : (roundHalfEven (q / u) : ℚ) * u - q = ((roundHalfEven (q / u) : ℚ) - q / u) * u := by
      field_simp
    rw [e, abs_mul, abs_of_pos hu]
    calc |(roundHalfEven (q / u) : ℚ) - q / u| * u ≤ 1 / 2 * u :=
          mul_le_mul_of_nonneg_right hr (le_of_lt hu)
      _ = u / 2 := by ring
  · obtain ⟨-, b2⟩ := binade_spec q hq
    have hle : pow2 (binade q + 1) ≤ 16777216 * u := by
      rw [← hU, pow2_eq_zpow, pow2_eq_zpow]
      have e : (16777216 : ℚ) = (2 : ℚ) ^ (24 : ℤ) := by norm_num
      rw [e, ← zpow_add₀ (by norm_num : (2 : ℚ) ≠ 0)]
      apply zpow_le_zpow_right₀ (by norm_num)
      have := le_max_left (binade q) (-126)
      omega
    have hx : |q / u| < 16777216 := by
      rw [abs_div, abs_of_pos hu, div_lt_iff₀ hu]
      exact lt_of_lt_of_le b2 hle
    have hx' := abs_lt.1 hx
    have hr' := abs_le.1 hr
    rw [abs_le]
    constructor
    · have : (-16777217 : ℚ) < (roundHalfEven (q / u) : ℚ) := by linarith
      have : (-16777217 : ℤ) < roundHalfEven (q / u) := by exact_mod_cast this
      omega
    · have : (roundHalfEven (q / u) : ℚ) < 16777217 := by linarith
      have : roundHalfEven (q / u) < (16777217 : ℤ) := by exact_mod_cast this
      omega
  · intro m hm
    have e : q / u = (m : ℚ) := by
      rw [hm]
      field_simp
    rw [hf, e, roundHalfEven_intCast, ← hm]

/-- The selection loop of the Largest trigger keeps its candidate over objects that are
not larger. -/
theorem LargestOdeTrigger_select_keep (l : List NvDsObjectMeta) :
    ∀ (acc : Nat × Option NvDsObjectMeta), (∀ o ∈ l, rectArea o ≤ acc.1) →
    l.foldl LargestOdeTrigger.select acc = acc := by
  induction l with
  | nil => intro acc _; rfl
  | cons o l ih =>
    intro acc h
    have ho : ¬ rectArea o > acc.1 := Nat.not_lt.2 (h o (List.mem_cons_self _ _))
    rw [List.foldl_cons]
    have hs : LargestOdeTrigger.select acc o = acc := by
      unfold LargestOdeTrigger.select
      rw [if_neg ho]
    rw [hs]
    exact ih acc (fun o' ho' => h o' (List.mem_cons_of_mem _ ho'))

/-- The largest area is at least the area it starts from. -/
theorem le_foldl_max (l : List Nat) : ∀ m : Nat, m ≤ l.foldl max m := by
  induction l with
  | nil => intro m; exact Nat.le_refl m
  | cons a l ih =>
    intro m
    rw [List.foldl_cons]
    exact Nat.le_trans (Nat.le_max_left m a) (ih _)

/-- The largest area is at least every listed area. -/
theorem mem_le_foldl_max (l : List Nat) : ∀ (m a : Nat), a ∈ l → a ≤ l.foldl max m := by
  induction l with
  | nil => intro m a h; exact absurd h (List.not_mem_nil _)
  | cons b l ih =>
    intro m a h
    rw [List.foldl_cons]
    rcases List.mem_cons.1 h with rfl | h
    · exact Nat.le_trans (Nat.le_max_right m a) (le_foldl_max l _)
    · exact ih _ a h

/-- The largest area when no listed area is above the one it starts from. -/
theorem foldl_max_eq_of_le (l : List Nat) : ∀ m : Nat, (∀ a ∈ l, a ≤ m) → l.foldl max m = m := by
  induction l with
  | nil => intro m _; rfl
  | cons a l ih =>
    intro m h
    rw [List.foldl_cons, Nat.max_eq_left (h a (List.mem_cons_self _ _))]
    exact ih m (fun b hb => h b (List.mem_cons_of_mem _ hb))

/-- The selection loop of the Largest trigger, run over a queue that holds an object
larger than the candidate area: it ends with the largest area of the queue and the first
queued object of that area. -/
theorem LargestOdeTrigger_select_foldl (l : List NvDsObjectMeta) :
    ∀ (m : Nat) (x : Option NvDsObjectMeta), (∃ o ∈ l, m < rectArea o) →
    l.foldl LargestOdeTrigger.select (m, x) =
      ((l.map rectArea).foldl max m,
        l.find? (fun o => decide (rectArea o = (l.map rectArea).foldl max m))) := by
  induction l with
  | nil =>
    intro m x h
    obtain ⟨o, ho, -⟩ := h
    exact absurd ho (List.not_mem_nil _)
  | cons a l ih =>
    intro m x h
    rw [List.foldl_cons, List.map_cons, List.foldl_cons]
    by_cases ha : m < rectArea a
    · have hs : LargestOdeTrigger.select (m, x) a = (rectArea a, some a) := by
        unfold LargestOdeTrigger.select
        rw [if_pos ha]
      rw [hs, Nat.max_eq_right (Nat.le_of_lt ha)]
      by_cases hl : ∃ o ∈ l, rectArea a < rectArea o
      · rw [ih _ _ hl]
        obtain ⟨o, ho, hlt⟩ := hl
        have hne : ¬ rectArea a = (l.map rectArea).foldl max (rectArea a) := by
          have h1 : rectArea o ≤ (l.map rectArea).foldl max (rectArea a) :=
            mem_le_foldl_max _ _ _ (List.mem_map_of_mem _ ho)
          omega
        rw [List.find?_cons_of_neg _ (by simpa using hne)]
      · have hall : ∀ o ∈ l, rectArea o ≤ rectArea a := by
          intro o ho
          by_contra hc
          exact hl ⟨o, ho, Nat.lt_of_not_le hc⟩
        rw [LargestOdeTrigger_select_keep l _ hall]
        rw [foldl_max_eq_of_le _ _ (by
          intro b hb
          obtain ⟨o, ho, rfl⟩ := List.mem_map.1 hb
          exact hall o ho)]
        rw [List.find?_cons_of_pos _ (by simp)]
    · have hs : LargestOdeTrigger.select (m, x) a = (m, x) := by
        unfold LargestOdeTrigger.select
        rw [if_neg ha]
      rw [hs, Nat.max_eq_left (Nat.le_of_not_lt ha)]
      have hl : ∃ o ∈ l, m < rectArea o := by
        obtain ⟨o, ho, hlt⟩ := h
        rcases List.mem_cons.1 ho with rfl | ho
        · exact absurd hlt ha
        · exact ⟨o, ho, hlt⟩
      rw [ih _ _ hl]
      obtain ⟨o, ho, hlt⟩ := hl
      have h1 : rectArea o ≤ (l.map rectArea).foldl max m :=
        mem_le_foldl_max _ _ _ (List.mem_map_of_mem _ ho)
      rw [List.find?_cons_of_neg _ (by simp; omega)]

/-- The selection loop of the Smallest trigger keeps its candidate over objects that are
not smaller. -/
theorem SmallestOdeTrigger_select_keep (l : List NvDsObjectMeta) :
    ∀ (acc : Nat × Option NvDsObjectMeta), (∀ o ∈ l, acc.1 ≤ rectArea o) →
    l.foldl SmallestOdeTrigger.select acc = acc := by
  induction l with
  | nil => intro acc _; rfl
  | cons o l ih =>
    intro acc h
    have ho : ¬ rectArea o < acc.1 := Nat.not_lt.2 (h o (List.mem_cons_self _ _))
    rw [List.foldl_cons]
    have hs : SmallestOdeTrigger.select acc o = acc := by
      unfold SmallestOdeTrigger.select
      rw [if_neg ho]
    rw [hs]
    exact ih acc (fun o' ho' => h o' (List.mem_cons_of_mem _ ho'))

/-- The smallest area is at most the area it starts from. -/
theorem foldl_min_le (l : List Nat) : ∀ m : Nat, l.foldl min m ≤ m := by
  induction l with
  | nil => intro m; exact Nat.le_refl m
  | cons a l ih =>
    intro m
    rw [List.foldl_cons]
    exact Nat.le_trans (ih _) (Nat.min_le_left m a)

/-- The smallest area is at most every listed area. -/
theorem foldl_min_le_mem (l : List Nat) : ∀ (m a : Nat), a ∈ l → l.foldl min m ≤ a := by
  induction l with
  | nil => intro m a h; exact absurd h (List.not_mem_nil _)
  | cons b l ih =>
    intro m a h
    rw [List.foldl_cons]
    rcases List.mem_cons.1 h with rfl | h
    · exact Nat.le_trans (foldl_min_le l _) (Nat.min_le_right m a)
    · exact ih _ a h

/-- The smallest area when no listed area is below the one it starts from. -/
theorem foldl_min_eq_of_ge (l : List Nat) : ∀ m : Nat, (∀ a ∈ l, m ≤ a) → l.foldl min m = m := by
  induction l with
  | nil => intro m _; rfl
  | cons a l ih =>
    intro m h
    rw [List.foldl_cons, Nat.min_eq_left (h a (List.mem_cons_self _ _))]
    exact ih m (fun b hb => h b (List.mem_cons_of_mem _ hb))

/-- The largest area is the one it starts from or a listed one. -/
theorem foldl_max_mem (l : List Nat) : ∀ m : Nat, l.foldl max m = m ∨ l.foldl max m ∈ l := by
  induction l with
  | nil => intro m; exact Or.inl rfl
  | cons a l ih =>
    intro m
    rw [List.foldl_cons]
    rcases ih (max m a) with h | h
    · rw [h]
      rcases Nat.le_total m a with hma | hma
      · rw [Nat.max_eq_right hma]
        exact Or.inr (List.mem_cons_self _ _)
      · rw [Nat.max_eq_left hma]
        exact Or.inl rfl
    · exact Or.inr (List.mem_cons_of_mem _ h)

/-- The smallest area is the one it starts from or a listed one. -/
theorem foldl_min_mem (l : List Nat) : ∀ m : Nat, l.foldl min m = m ∨ l.foldl min m ∈ l := by
  induction l with
  | nil => intro m; exact Or.inl rfl
  | cons a l ih =>
    intro m
    rw [List.foldl_cons]
    rcases ih (min m a) with h | h
    · rw [h]
      rcases Nat.le_total m a with hma | hma
      · rw [Nat.min_eq_left hma]
        exact Or.inl rfl
      · rw [Nat.min_eq_right hma]
        exact Or.inr (List.mem_cons_self _ _)
    · exact Or.inr (List.mem_cons_of_mem _ h)

/-- The selection loop of the Smallest trigger, run over a queue that holds an object
smaller than the candidate area: it ends with the smallest area of the queue and the first
queued object of that area. -/
theorem SmallestOdeTrigger_select_foldl (l : List NvDsObjectMeta) :
    ∀ (m : Nat) (x : Option NvDsObjectMeta), (∃ o ∈ l, rectArea o < m) →
    l.foldl SmallestOdeTrigger.select (m, x) =
      ((l.map rectArea).foldl min m,
        l.find? (fun o => decide (rectArea o = (l.map rectArea).foldl min m))) := by
  induction l with
  | nil =>
    intro m x h
    obtain ⟨o, ho, -⟩ := h
    exact absurd ho (List.not_mem_nil _)
  | cons a l ih =>
    intro m x h
    rw [List.foldl_cons, List.map_cons, List.foldl_cons]
    by_cases ha : rectArea a < m
    · have hs : SmallestOdeTrigger.select (m, x) a = (rectArea a, some a) := by
        unfold SmallestOdeTrigger.select
        rw [if_pos ha]
      rw [hs, Nat.min_eq_right (Nat.le_of_lt ha)]
      by_cases hl : ∃ o ∈ l, rectArea o < rectArea a
      · rw [ih _ _ hl]
        obtain ⟨o, ho, hlt⟩ := hl
        have hne : ¬ rectArea a = (l.map rectArea).foldl min (rectArea a) := by
          have h1 : (l.map rectArea).foldl min (rectArea a) ≤ rectArea o :=
            foldl_min_le_mem _ _ _ (List.mem_map_of_mem _ ho)
          omega
        rw [List.find?_cons_of_neg _ (by simpa using hne)]
      · have hall : ∀ o ∈ l, rectArea a ≤ rectArea o := by
          intro o ho
          by_contra hc
          exact hl ⟨o, ho, Nat.lt_of_not_le hc⟩
        rw [SmallestOdeTrigger_select_keep l _ hall]
        rw [foldl_min_eq_of_ge _ _ (by
          intro b hb
          obtain ⟨o, ho, rfl⟩ := List.mem_map.1 hb
          exact hall o ho)]
        rw [List.find?_cons_of_pos _ (by simp)]
    · have hs : SmallestOdeTrigger.select (m, x) a = (m, x) := by
        unfold SmallestOdeTrigger.select
        rw [if_neg ha]
      rw [hs, Nat.min_eq_left (Nat.le_of_not_lt ha)]
      have hl : ∃ o ∈ l, rectArea o < m := by
        obtain ⟨o, ho, hlt⟩ := h
        rcases List.mem_cons.1 ho with rfl | ho
        · exact absurd hlt ha
        · exact ⟨o, ho, hlt⟩
      rw [ih _ _ hl]
      obtain ⟨o, ho, hlt⟩ := hl
      have h1 : (l.map rectArea).foldl min m ≤ rectArea o :=
        foldl_min_le_mem _ _ _ (List.mem_map_of_mem _ ho)
      rw [List.find?_cons_of_neg _ (by simp; omega)]

/-- The object the selection loop of the Largest trigger ends with, for a queue that
holds an object of non-zero area: the first queued object whose area is the largest. -/
theorem LargestOdeTrigger_selected (l : List NvDsObjectMeta)
    (h : ∃ o ∈ l, 0 < rectArea o) :
    ∃ (o : NvDsObjectMeta) (before after : List NvDsObjectMeta),
      l.foldl LargestOdeTrigger.select (0, none) = (rectArea o, some o) ∧
      l = before ++ o :: after ∧ (∀ p ∈ l, rectArea p ≤ rectArea o) ∧
      (∀ p ∈ before, rectArea p < rectArea o) := by
  rw [LargestOdeTrigger_select_foldl l 0 none h]
  have hM : (l.map rectArea).foldl max 0 ∈ l.map rectArea := by
    rcases foldl_max_mem (l.map rectArea) 0 with h0 | hm
    · obtain ⟨o, ho, hlt⟩ := h
      have := mem_le_foldl_max (l.map rectArea) 0 _ (List.mem_map_of_mem rectArea ho)
      omega
    · exact hm
  have hle : ∀ p ∈ l, rectArea p ≤ (l.map rectArea).foldl max 0 :=
    fun p hp => mem_le_foldl_max _ 0 _ (List.mem_map_of_mem rectArea hp)
  generalize (l.map rectArea).foldl max 0 = M at hM hle ⊢
  obtain ⟨o, ho, hoM⟩ := List.mem_map.1 hM
  cases hf : l.find? (fun o => decide (rectArea o = M)) with
  | none =>
    have := List.find?_eq_none.1 hf o ho
    simp [hoM] at this
  | some b =>
    obtain ⟨hb, before, after, hl, hbefore⟩ := List.find?_eq_some.1 hf
    have hbM : rectArea b = M := by simpa using hb
    refine ⟨b, before, after, by rw [hbM], hl, fun p hp => by rw [hbM]; exact hle p hp, ?_⟩
    intro p hp
    have h1 := hbefore p hp
    have h2 := hle p (by rw [hl]; exact List.mem_append_left _ hp)
    have h3 : rectArea p ≠ M := by simpa using h1
    omega

/-- The object the selection loop of the Smallest trigger ends with, for a queue that
holds an object of an area below `UINT32_MAX`: the first queued object whose area is the
smallest. -/
theorem SmallestOdeTrigger_selected (l : List NvDsObjectMeta)
    (h : ∃ o ∈ l, rectArea o < UINT32_MAX) :
    ∃ (o : NvDsObjectMeta) (before after : List NvDsObjectMeta),
      l.foldl SmallestOdeTrigger.select (UINT32_MAX, none) = (rectArea o, some o) ∧
      l = before ++ o :: after ∧ (∀ p ∈ l, rectArea o ≤ rectArea p) ∧
      (∀ p ∈ before, rectArea o < rectArea p) := by
  rw [SmallestOdeTrigger_select_foldl l UINT32_MAX none h]
  have hM : (l.map rectArea).foldl min UINT32_MAX ∈ l.map rectArea := by
    rcases foldl_min_mem (l.map rectArea) UINT32_MAX with h0 | hm
    · obtain ⟨o, ho, hlt⟩ := h
      have := foldl_min_le_mem (l.map rectArea) UINT32_MAX _ (List.mem_map_of_mem rectArea ho)
      omega
    · exact hm
  have hle : ∀ p ∈ l, (l.map rectArea).foldl min UINT32_MAX ≤ rectArea p :=
    fun p hp => foldl_min_le_mem _ UINT32_MAX _ (List.mem_map_of_mem rectArea hp)
  generalize (l.map rectArea).foldl min UINT32_MAX = M at hM hle ⊢
  obtain ⟨o, ho, hoM⟩ := List.mem_map.1 hM
  cases hf : l.find? (fun o => decide (rectArea o = M)) with
  | none =>
    have := List.find?_eq_none.1 hf o ho
    simp [hoM] at this
  | some b =>
    obtain ⟨hb, before, after, hl, hbefore⟩ := List.find?_eq_some.1 hf
    have hbM : rectArea b = M := by simpa using hb
    refine ⟨b, before, after, by rw [hbM], hl, fun p hp => by rw [hbM]; exact hle p hp, ?_⟩
    intro p hp
    have h1 := hbefore p hp
    have h2 := hle p (by rw [hl]; exact List.mem_append_left _ hp)
    have h3 : rectArea p ≠ M := by simpa using h1
    omega

/-- `LargestOdeTrigger::PostProcessFrame` on an enabled trigger whose selection loop ends
with the object `o` and the area `area`: the call returns, with one event and every Action
invoked once with `o`, its primary metric set to `area`; the result is 1 and the queue is
cleared. -/
theorem LargestOdeTrigger_PostProcessFrame_fire (s : OdeTrigger) (v : ExtremumState)
    (f : NvDsFrameMeta) (he : s.m_enabled = true) (o : NvDsObjectMeta) (area : Nat)
    (hsel : v.m_occurrenceMetaList.foldl LargestOdeTrigger.select (0, none) =
      (area, some o)) :
    ∃ r, LargestOdeTrigger.PostProcessFrame s v f = some r ∧ r.1 = 1 ∧
      r.2.m_triggered = s.m_triggered + 1 ∧
      actionLog r.2.log =
        actionLog s.log ++ s.m_pOdeActionsIndexed.map (fun a =>
          Effect.HandleOccurrence a.2.name f (some { o with primary_metric := area })) ∧
      r.2.variant = Variant.Largest { m_occurrenceMetaList := [] } := by
  have hlen : v.m_occurrenceMetaList.length ≠ 0 := by
    intro h
    rw [List.length_eq_zero.1 h] at hsel
    exact absurd (congrArg Prod.snd hsel) (by simp)
  have hev := event_without_object { s with m_occurrences := 1 } f
    (some { o with primary_metric := area })
  unfold LargestOdeTrigger.PostProcessFrame
  dsimp only
  rw [if_pos ⟨he, hlen⟩, hsel]
  refine ⟨_, rfl, ?_, hev.1, hev.2.1, rfl⟩
  dsimp only
  rw [callActions_m_occurrences, IncrementEventCount_m_occurrences,
    IncrementAndCheckTriggerCount_m_occurrences]

/-- `SmallestOdeTrigger::PostProcessFrame` on an enabled trigger whose selection loop ends
with the object `o` and the area `area`. -/
theorem SmallestOdeTrigger_PostProcessFrame_fire (s : OdeTrigger) (v : ExtremumState)
    (f : NvDsFrameMeta) (he : s.m_enabled = true) (o : NvDsObjectMeta) (area : Nat)
    (hsel : v.m_occurrenceMetaList.foldl SmallestOdeTrigger.select (UINT32_MAX, none) =
      (area, some o)) :
    ∃ r, SmallestOdeTrigger.PostProcessFrame s v f = some r ∧ r.1 = 1 ∧
      r.2.m_triggered = s.m_triggered + 1 ∧
      actionLog r.2.log =
        actionLog s.log ++ s.m_pOdeActionsIndexed.map (fun a =>
          Effect.HandleOccurrence a.2.name f (some { o with primary_metric := area })) ∧
      r.2.variant = Variant.Smallest { m_occurrenceMetaList := [] } := by
  have hlen : v.m_occurrenceMetaList.length ≠ 0 := by
    intro h
    rw [List.length_eq_zero.1 h] at hsel
    exact absurd (congrArg Prod.snd hsel) (by simp)
  have hev := event_without_object { s with m_occurrences := 1 } f
    (some { o with primary_metric := area })
  unfold SmallestOdeTrigger.PostProcessFrame
  dsimp only
  rw [if_pos ⟨he, hlen⟩, hsel]
  refine ⟨_, rfl, ?_, hev.1, hev.2.1, rfl⟩
  dsimp only
  rw [callActions_m_occurrences, IncrementEventCount_m_occurrences,
    IncrementAndCheckTriggerCount_m_occurrences]

/-- `LargestOdeTrigger::PostProcessFrame` on an enabled trigger with a non-empty queue in
which no object has an area above 0: the selection loop selects no object and the call
does not return. -/
theorem LargestOdeTrigger_PostProcessFrame_none (s : OdeTrigger) (v : ExtremumState)
    (f : NvDsFrameMeta) (he : s.m_enabled = true) (hq : v.m_occurrenceMetaList ≠ [])
    (h0 : ∀ o ∈ v.m_occurrenceMetaList, rectArea o = 0) :
    LargestOdeTrigger.PostProcessFrame s v f = none := by
  have hlen : v.m_occurrenceMetaList.length ≠ 0 := fun h => hq (List.length_eq_zero.1 h)
  have hsel := LargestOdeTrigger_select_keep v.m_occurrenceMetaList (0, none)
    (fun o ho => Nat.le_of_eq (h0 o ho))
  unfold LargestOdeTrigger.PostProcessFrame
  dsimp only
  rw [if_pos ⟨he, hlen⟩, hsel]

/-- `SmallestOdeTrigger::PostProcessFrame` on an enabled trigger with a non-empty queue in
which no object has an area below `UINT32_MAX`: the selection loop selects no object and
the call does not return. -/
theorem SmallestOdeTrigger_PostProcessFrame_none (s : OdeTrigger) (v : ExtremumState)
    (f : NvDsFrameMeta) (he : s.m_enabled = true) (hq : v.m_occurrenceMetaList ≠ [])
    (h0 : ∀ o ∈ v.m_occurrenceMetaList, UINT32_MAX ≤ rectArea o) :
    SmallestOdeTrigger.PostProcessFrame s v f = none := by
  have hlen : v.m_occurrenceMetaList.length ≠ 0 := fun h => hq (List.length_eq_zero.1 h)
  have hsel := SmallestOdeTrigger_select_keep v.m_occurrenceMetaList (UINT32_MAX, none) h0
  unfold SmallestOdeTrigger.PostProcessFrame
  dsimp only
  rw [if_pos ⟨he, hlen⟩, hsel]

/-- The virtual `PostProcessFrame` of a Largest trigger. -/
theorem Trigger_PostProcessFrame_Largest (s : OdeTrigger) (v : ExtremumState)
    (f : NvDsFrameMeta) (hv : s.variant = Variant.Largest v) :
    Trigger.PostProcessFrame s f =
      (LargestOdeTrigger.PostProcessFrame s v f).getD (0, s) := by
  unfold Trigger.PostProcessFrame
  rw [hv]

/-- The virtual `PostProcessFrame` of a Smallest trigger. -/
theorem Trigger_PostProcessFrame_Smallest (s : OdeTrigger) (v : ExtremumState)
    (f : NvDsFrameMeta) (hv : s.variant = Variant.Smallest v) :
    Trigger.PostProcessFrame s f =
      (SmallestOdeTrigger.PostProcessFrame s v f).getD (0, s) := by
  unfold Trigger.PostProcessFrame
  rw [hv]

/-- The area of an object is the `float` product of its width and height, converted to
`uint`: 4097 by 4097 gives 16785408, the `float` nearest to 16785409, which is also the
area of 4096 by 4098; and the `float` nearest to 0.7, times 10, gives 7, where the exact
product, just below 7, has the integral part 6. -/
theorem rectArea_is_float_product :
    rectArea exampleObjectSquare = 16785408 ∧
    rectArea exampleObjectOblong = 16785408 ∧
    float32 (7 / 10) = 11744051 / 16777216 ∧
    rectArea { exampleObject with
      rect_params := { left := 0, top := 0, width := 11744051 / 16777216, height := 10 } } =
      7 ∧
    truncToUint ((11744051 / 16777216 : ℚ) * 10) = 6 := by
  decide!

/-- C25, counterexample: of two queued objects with the areas 10.125 and 10.875, in this
order, the first object whose `width*height` is maximal is the second one; the example
Largest trigger invokes its Action with the first one, with the primary metric 10: both
areas are 10 as a `uint`, and the later object is not strictly larger. -/
theorem Largest_compares_areas_as_uint :
    firstOfLargestArea [exampleObjectA, exampleObjectB] = some exampleObjectB ∧
    actionLog (Trigger.PostProcessFrame (run exampleLargest
      [Call.PreProcessFrame exampleFrame, Call.CheckForOccurrence exampleFrame exampleObjectA,
       Call.CheckForOccurrence exampleFrame exampleObjectB]) exampleFrame).2.log =
      [Effect.HandleOccurrence "print" exampleFrame
        (some { exampleObjectA with primary_metric := 10 })] := by
  decide!

/-- With the queue of a 4096 by 4098 object and a 4097 by 4097 object, in this order, the
object whose `width*height` is maximal is the second one; the example Largest trigger
invokes its Action with the first one: the `float` products are the same. -/
theorem Largest_compares_float_products :
    firstOfLargestArea [exampleObjectOblong, exampleObjectSquare] =
      some exampleObjectSquare ∧
    actionLog (Trigger.PostProcessFrame (run exampleLargest
      [Call.PreProcessFrame exampleFrame,
       Call.CheckForOccurrence exampleFrame exampleObjectOblong,
       Call.CheckForOccurrence exampleFrame exampleObjectSquare]) exampleFrame).2.log =
      [Effect.HandleOccurrence "print" exampleFrame
        (some { exampleObjectOblong with primary_metric := 16785408 })] := by
  decide!

/-- C25, as amended: for an enabled Largest trigger and every queue that holds an object
whose area is not 0, the area of an object being the `float` product `width*height`
converted to `uint`, `PostProcessFrame` returns, having selected the first queued object
whose area is the largest of the queue (no queued object has a larger area, those queued
before it have a smaller one) and invoked every Action exactly once with that object, its
primary metric set to the area; it returns 1 and leaves the queue empty. For an enabled
Smallest trigger and every queue that holds an object whose area is below `UINT32_MAX`,
likewise with the first queued object whose area is the smallest. -/
theorem Largest_Smallest_select_first_of_extreme_area (s : OdeTrigger) (v : ExtremumState)
    (f : NvDsFrameMeta) (he : s.m_enabled = true) :
    (s.variant = Variant.Largest v → (∃ o ∈ v.m_occurrenceMetaList, 0 < rectArea o) →
      ∃ (o : NvDsObjectMeta) (before after : List NvDsObjectMeta),
        v.m_occurrenceMetaList = before ++ o :: after ∧
        (∀ p ∈ v.m_occurrenceMetaList, rectArea p ≤ rectArea o) ∧
        (∀ p ∈ before, rectArea p < rectArea o) ∧
        rectArea o = truncToUint (float32 (o.rect_params.width * o.rect_params.height)) ∧
        LargestOdeTrigger.PostProcessFrame s v f = some (Trigger.PostProcessFrame s f) ∧
        (Trigger.PostProcessFrame s f).1 = 1 ∧
        (Trigger.PostProcessFrame s f).2.m_triggered = s.m_triggered + 1 ∧
        actionLog (Trigger.PostProcessFrame s f).2.log =
          actionLog s.log ++ s.m_pOdeActionsIndexed.map (fun a =>
            Effect.HandleOccurrence a.2.name f
              (some { o with primary_metric := rectArea o })) ∧
        (Trigger.PostProcessFrame s f).2.variant =
          Variant.Largest { m_occurrenceMetaList := [] }) ∧
    (s.variant = Variant.Smallest v →
      (∃ o ∈ v.m_occurrenceMetaList, rectArea o < UINT32_MAX) →
      ∃ (o : NvDsObjectMeta) (before after : List NvDsObjectMeta),
        v.m_occurrenceMetaList = before ++ o :: after ∧
        (∀ p ∈ v.m_occurrenceMetaList, rectArea o ≤ rectArea p) ∧
        (∀ p ∈ before, rectArea o < rectArea p) ∧
        rectArea o = truncToUint (float32 (o.rect_params.width * o.rect_params.height)) ∧
        SmallestOdeTrigger.PostProcessFrame s v f = some (Trigger.PostProcessFrame s f) ∧
        (Trigger.PostProcessFrame s f).1 = 1 ∧
        (Trigger.PostProcessFrame s f).2.m_triggered = s.m_triggered + 1 ∧
        actionLog (Trigger.PostProcessFrame s f).2.log =
          actionLog s.log ++ s.m_pOdeActionsIndexed.map (fun a =>
            Effect.HandleOccurrence a.2.name f
              (some { o with primary_metric := rectArea o })) ∧
        (Trigger.PostProcessFrame s f).2.variant =
          Variant.Smallest { m_occurrenceMetaList := [] }) := by
  refine ⟨?_, ?_⟩
  · intro hv hq
    obtain ⟨o, before, after, hsel, hl, hmax, hfirst⟩ :=
      LargestOdeTrigger_selected v.m_occurrenceMetaList hq
    obtain ⟨r, hr, p1, p2, p3, p4⟩ :=
      LargestOdeTrigger_PostProcessFrame_fire s v f he o (rectArea o) hsel
    have hT : Trigger.PostProcessFrame s f = r := by
      rw [Trigger_PostProcessFrame_Largest s v f hv, hr]
      rfl
    rw [hT]
    exact ⟨o, before, after, hl, hmax, hfirst, rfl, hr, p1, p2, p3, p4⟩
  · intro hv hq
    obtain ⟨o, before, after, hsel, hl, hmin, hfirst⟩ :=
      SmallestOdeTrigger_selected v.m_occurrenceMetaList hq
    obtain ⟨r, hr, p1, p2, p3, p4⟩ :=
      SmallestOdeTrigger_PostProcessFrame_fire s v f he o (rectArea o) hsel
    have hT : Trigger.PostProcessFrame s f = r := by
      rw [Trigger_PostProcessFrame_Smallest s v f hv, hr]
      rfl
    rw [hT]
    exact ⟨o, before, after, hl, hmin, hfirst, rfl, hr, p1, p2, p3, p4⟩

/-- Witness for C25: the example Largest trigger, with the queue of a 10 by 10 object, the
40 by 30 example object and a 20 by 60 object, selects an object as the statement says;
evaluated, its Action is invoked once with the example object, the first of area 1200.
The example Smallest trigger, with the queue of the 40 by 30 object, the 10 by 10 object
and the 20 by 60 object, invokes its Action once with the 10 by 10 object. -/
theorem Largest_Smallest_select_first_of_extreme_area_witness :
    (∃ (o : NvDsObjectMeta) (before after : List NvDsObjectMeta),
      [exampleObjectSmall, exampleObject, exampleObjectTall] = before ++ o :: after ∧
      (∀ p ∈ [exampleObjectSmall, exampleObject, exampleObjectTall],
        rectArea p ≤ rectArea o) ∧
      (∀ p ∈ before, rectArea p < rectArea o) ∧
      (Trigger.PostProcessFrame (run exampleLargest
        [Call.PreProcessFrame exampleFrame,
         Call.CheckForOccurrence exampleFrame exampleObjectSmall,
         Call.CheckForOccurrence exampleFrame exampleObject,
         Call.CheckForOccurrence exampleFrame exampleObjectTall]) exampleFrame).1 = 1) ∧
    actionLog (Trigger.PostProcessFrame (run exampleLargest
      [Call.PreProcessFrame exampleFrame,
       Call.CheckForOccurrence exampleFrame exampleObjectSmall,
       Call.CheckForOccurrence exampleFrame exampleObject,
       Call.CheckForOccurrence exampleFrame exampleObjectTall]) exampleFrame).2.log =
      [Effect.HandleOccurrence "print" exampleFrame
        (some { exampleObject with primary_metric := 1200 })] ∧
    actionLog (Trigger.PostProcessFrame (run exampleSmallest
      [Call.PreProcessFrame exampleFrame,
       Call.CheckForOccurrence exampleFrame exampleObject,
       Call.CheckForOccurrence exampleFrame exampleObjectSmall,
       Call.CheckForOccurrence exampleFrame exampleObjectTall]) exampleFrame).2.log =
      [Effect.HandleOccurrence "print" exampleFrame
        (some { exampleObjectSmall with primary_metric := 100 })] :=
  ⟨(((Largest_Smallest_select_first_of_extreme_area (run exampleLargest
        [Call.PreProcessFrame exampleFrame,
         Call.CheckForOccurrence exampleFrame exampleObjectSmall,
         Call.CheckForOccurrence exampleFrame exampleObject,
         Call.CheckForOccurrence exampleFrame exampleObjectTall])
      { m_occurrenceMetaList := [exampleObjectSmall, exampleObject, exampleObjectTall] }
      exampleFrame (by decide)).1 rfl
      ⟨exampleObject, by simp, by decide!⟩).imp fun _ h => h.imp fun _ h => h.imp fun _ h =>
        ⟨h.1, h.2.1, h.2.2.1, h.2.2.2.2.2.1⟩),
   by decide!, by decide!⟩

/-- The example Largest trigger with a queue of one object whose area, 0.75, is 0 as a
`uint`: the selection loop selects no object, and `PostProcessFrame` does not return (the
C++ code writes the primary metric through the null pointer). -/
theorem Largest_selects_nothing_when_areas_zero :
    rectArea exampleSpeck = 0 ∧
    [exampleSpeck].foldl LargestOdeTrigger.select (0, none) = (0, none) ∧
    (LargestOdeTrigger.PostProcessFrame (run exampleLargest
      [Call.PreProcessFrame exampleFrame, Call.CheckForOccurrence exampleFrame exampleSpeck])
      { m_occurrenceMetaList := [exampleSpeck] } exampleFrame).isNone = true ∧
    (run exampleLargest
      [Call.PreProcessFrame exampleFrame,
       Call.CheckForOccurrence exampleFrame exampleSpeck]).variant =
      Variant.Largest { m_occurrenceMetaList := [exampleSpeck] } := by
  refine ⟨by decide!, by decide!, ?_, rfl⟩
  rw [LargestOdeTrigger_PostProcessFrame_none _ _ _ (by decide) (by simp)
    (by intro o ho; rw [List.mem_singleton.1 ho]; decide!)]
  rfl

/-- The percent bounds are computed in `float` arithmetic: for the bound 3 and the
dimension 33.333332 (the `float` 8738133/262144) the `float` product is 100 and the bound
is 1 pixel, where the exact product, just below 100, gives 0; a Distance trigger with the
range 3 to 100 percent of the width of A then reports a pair at the distance 0. -/
theorem percentOf_is_float_quotient :
    float32 (33333332 / 1000000) = 8738133 / 262144 ∧
    float32 (float32 3 * (8738133 / 262144)) = 100 ∧
    DistanceOdeTrigger.percentOf 3 (8738133 / 262144) = 1 ∧
    truncToUint ((3 : ℚ) * (8738133 / 262144) / 100) = 0 ∧
    DistanceOdeTrigger.CheckDistance
      { exampleDistance with GeosRectangleDistance := fun _ _ => 0 }
      { exampleDistanceState with
        m_minimum := 3, m_maximum := 100,
        m_testMethod := DSL_DISTANCE_METHOD_PERCENT_WIDTH_A }
      { exampleObject with
        rect_params := { left := 10, top := 20, width := 8738133 / 262144, height := 30 } }
      exampleObject2 = some true := by
  decide!

/-- The calls made for one pair are Action invocations. -/
theorem actionLog_flatMap_pair (acts : List (Nat × OdeAction)) (f : NvDsFrameMeta)
    (a b : Option NvDsObjectMeta) :
    actionLog (acts.flatMap (fun act =>
      [Effect.HandleOccurrence act.2.name f a, Effect.HandleOccurrence act.2.name f b])) =
    acts.flatMap (fun act =>
      [Effect.HandleOccurrence act.2.name f a, Effect.HandleOccurrence act.2.name f b]) := by
  unfold actionLog
  rw [List.filter_eq_self]
  intro e he
  obtain ⟨act, -, hact⟩ := List.mem_flatMap.1 he
  rcases List.mem_cons.1 hact with rfl | hact
  · rfl
  · rw [List.mem_singleton.1 hact]

/-- The number of calls made for one pair. -/
theorem length_flatMap_pair (acts : List (Nat × OdeAction)) (f : NvDsFrameMeta)
    (x y : Option NvDsObjectMeta) :
    (acts.flatMap (fun act =>
      [Effect.HandleOccurrence act.2.name f x, Effect.HandleOccurrence act.2.name f y])).length
      = 2 * acts.length := by
  induction acts with
  | nil => rfl
  | cons c acts ih =>
    rw [List.flatMap_cons, List.length_append, ih]
    simp only [List.length_cons, List.length_nil]
    omega

/-- The number of calls the pair loop is expected to make. -/
theorem pairCalls_length (acts : List (Nat × OdeAction)) (f : NvDsFrameMeta)
    (pairs : List (NvDsObjectMeta × NvDsObjectMeta)) :
    ∀ n, (pairCalls acts f n pairs).length = 2 * pairs.length * acts.length := by
  induction pairs with
  | nil => intro n; simp [pairCalls]
  | cons p pairs ih =>
    intro n
    obtain ⟨a, b⟩ := p
    unfold pairCalls
    rw [List.length_append, ih, length_flatMap_pair, List.length_cons]
    ring

/-- What the block run for a matching pair does: one more occurrence and one more event,
every Action invoked twice, once with each object of the pair, both stamped with the
count of occurrences; the limit, the Actions and the class stay. -/
theorem handlePair_facts (s : OdeTrigger) (f : NvDsFrameMeta) (a b : NvDsObjectMeta) :
    (ABOdeTrigger.handlePair s f a b).m_triggered = s.m_triggered + 1 ∧
    (ABOdeTrigger.handlePair s f a b).m_occurrences = s.m_occurrences + 1 ∧
    (ABOdeTrigger.handlePair s f a b).m_limit = s.m_limit ∧
    (ABOdeTrigger.handlePair s f a b).m_pOdeActionsIndexed = s.m_pOdeActionsIndexed ∧
    (ABOdeTrigger.handlePair s f a b).variant = s.variant ∧
    actionLog (ABOdeTrigger.handlePair s f a b).log =
      actionLog s.log ++ s.m_pOdeActionsIndexed.flatMap (fun act =>
        [Effect.HandleOccurrence act.2.name f
          (some { a with primary_metric := s.m_occurrences + 1 }),
         Effect.HandleOccurrence act.2.name f
          (some { b with primary_metric := s.m_occurrences + 1 })]) := by
  refine ⟨by simp [ABOdeTrigger.handlePair], by simp [ABOdeTrigger.handlePair],
    by simp [ABOdeTrigger.handlePair], by simp [ABOdeTrigger.handlePair],
    by simp [ABOdeTrigger.handlePair], ?_⟩
  have h1 := (IncrementAndCheckTriggerCount_SameFilters
    { s with m_occurrences := s.m_occurrences + 1 }).2
  have h2 : (IncrementAndCheckTriggerCount
      { s with m_occurrences := s.m_occurrences + 1 }).m_pOdeActionsIndexed =
      s.m_pOdeActionsIndexed := by simp
  have h3 : (IncrementAndCheckTriggerCount
      { s with m_occurrences := s.m_occurrences + 1 }).m_occurrences =
      s.m_occurrences + 1 := by simp
  unfold ABOdeTrigger.handlePair
  dsimp only
  generalize IncrementAndCheckTriggerCount { s with m_occurrences := s.m_occurrences + 1 } = t
    at *
  show actionLog (t.log ++ _) = _
  rw [actionLog_append, h1]
  show actionLog s.log ++ actionLog (t.m_pOdeActionsIndexed.flatMap (fun act =>
      [Effect.HandleOccurrence act.2.name f (some { a with primary_metric := t.m_occurrences }),
       Effect.HandleOccurrence act.2.name f
        (some { b with primary_metric := t.m_occurrences })])) = _
  rw [actionLog_flatMap_pair, h2, h3]

/-- The pairs a pair loop handles: with no limit all the matching pairs, with a limit the
matching pairs up to the one whose event makes the count of events reach the limit. -/
theorem PairLoop_events (test : NvDsObjectMeta → NvDsObjectMeta → Option Bool)
    (f : NvDsFrameMeta) (pairs : List (NvDsObjectMeta × NvDsObjectMeta)) :
    ∀ (s : OdeTrigger), (∀ p ∈ pairs, (test p.1 p.2).isSome = true) →
    ∀ handled, handled =
      (if s.m_limit = 0 then matchingPairs test pairs
        else (matchingPairs test pairs).take (max 1 (s.m_limit - s.m_triggered))) →
    (ABOdeTrigger.PairLoop test f s pairs).m_triggered = s.m_triggered + handled.length ∧
    (ABOdeTrigger.PairLoop test f s pairs).m_occurrences =
      s.m_occurrences + handled.length ∧
    actionLog (ABOdeTrigger.PairLoop test f s pairs).log =
      actionLog s.log ++ pairCalls s.m_pOdeActionsIndexed f s.m_occurrences handled := by
  induction pairs with
  | nil =>
    intro s _ handled hh
    have : handled = [] := by
      rw [hh]
      split_ifs <;> simp [matchingPairs]
    rw [this]
    exact ⟨rfl, rfl, by simp [ABOdeTrigger.PairLoop, pairCalls]⟩
  | cons p pairs ih =>
    intro s htest handled hh
    obtain ⟨a, b⟩ := p
    have hrest : ∀ p ∈ pairs, (test p.1 p.2).isSome = true :=
      fun p hp => htest p (List.mem_cons_of_mem _ hp)
    have hab := htest (a, b) (List.mem_cons_self _ _)
    cases ht : test a b with
    | none =>
      rw [ht] at hab
      exact absurd hab (by simp)
    | some r =>
      cases r with
      | false =>
        have hloop : ABOdeTrigger.PairLoop test f s ((a, b) :: pairs) =
            ABOdeTrigger.PairLoop test f s pairs := by
          rw [ABOdeTrigger.PairLoop]
          simp only [ht]
        have hm : matchingPairs test ((a, b) :: pairs) = matchingPairs test pairs := by
          unfold matchingPairs
          rw [List.filter_cons_of_neg (by simp [ht])]
        rw [hloop]
        rw [hm] at hh
        exact ih s hrest handled hh
      | true =>
        obtain ⟨e1, e2, e3, e4, -, e6⟩ := handlePair_facts s f a b
        have hm : matchingPairs test ((a, b) :: pairs) =
            (a, b) :: matchingPairs test pairs := by
          unfold matchingPairs
          rw [List.filter_cons_of_pos (by simp [ht])]
        rw [hm] at hh
        by_cases hx : (ABOdeTrigger.handlePair s f a b).m_limit ≠ 0 ∧
            (ABOdeTrigger.handlePair s f a b).m_triggered ≥
              (ABOdeTrigger.handlePair s f a b).m_limit
        · have hloop : ABOdeTrigger.PairLoop test f s ((a, b) :: pairs) =
              ABOdeTrigger.handlePair s f a b := by
            rw [ABOdeTrigger.PairLoop]
            simp only [ht]
            rw [if_pos hx]
          rw [hloop]
          rw [e1, e3] at hx
          have hhd : handled = [(a, b)] := by
            rw [hh, if_neg hx.1]
            have : max 1 (s.m_limit - s.m_triggered) = 1 := by omega
            rw [this]
            simp
          rw [hhd]
          refine ⟨e1, e2, ?_⟩
          rw [e6]
          simp [pairCalls]
        · have hloop : ABOdeTrigger.PairLoop test f s ((a, b) :: pairs) =
              ABOdeTrigger.PairLoop test f (ABOdeTrigger.handlePair s f a b) pairs := by
            rw [ABOdeTrigger.PairLoop]
            simp only [ht]
            rw [if_neg hx]
          rw [hloop]
          obtain ⟨i1, i2, i3⟩ := ih (ABOdeTrigger.handlePair s f a b) hrest _ rfl
          rw [e1, e3] at hx i1
          rw [e1, e3, e2] at i2 i3
          rw [e4, e6] at i3
          have hhd : handled = (a, b) ::
              (if s.m_limit = 0 then matchingPairs test pairs
                else (matchingPairs test pairs).take
                  (max 1 (s.m_limit - (s.m_triggered + 1)))) := by
            rw [hh]
            by_cases h0 : s.m_limit = 0
            · rw [if_pos h0, if_pos h0]
            · rw [if_neg h0, if_neg h0]
              have h1 : max 1 (s.m_limit - s.m_triggered) =
                  max 1 (s.m_limit - (s.m_triggered + 1)) + 1 := by omega
              rw [h1, List.take_succ_cons]
          rw [hhd]
          refine ⟨?_, ?_, ?_⟩
          · rw [i1, List.length_cons]; omega
          · rw [i2, List.length_cons]; omega
          · rw [i3, List.append_assoc]
            rfl

/-- The pairs of the nested loops of `PostProcessFrameA` are the pairs of queue entries at
positions `i < j`. -/
theorem mem_pairsA (l : List NvDsObjectMeta) :
    ∀ (a b : NvDsObjectMeta), (a, b) ∈ ABOdeTrigger.pairsA l ↔
      ∃ (i j : Nat), i < j ∧ l[i]? = some a ∧ l[j]? = some b := by
  induction l with
  | nil =>
    intro a b
    simp [ABOdeTrigger.pairsA]
  | cons x rest ih =>
    intro a b
    unfold ABOdeTrigger.pairsA
    rw [List.mem_append]
    constructor
    · rintro (h | h)
      · obtain ⟨c, hc, hab⟩ := List.mem_map.1 h
        obtain ⟨rfl, rfl⟩ := Prod.mk.inj hab
        obtain ⟨j, hj⟩ := List.mem_iff_getElem?.1 hc
        exact ⟨0, j + 1, Nat.succ_pos j, List.getElem?_cons_zero, by
          rw [List.getElem?_cons_succ]; exact hj⟩
      · obtain ⟨i, j, hij, hi, hj⟩ := (ih a b).1 h
        exact ⟨i + 1, j + 1, Nat.succ_lt_succ hij, by rw [List.getElem?_cons_succ]; exact hi,
          by rw [List.getElem?_cons_succ]; exact hj⟩
    · rintro ⟨i, j, hij, hi, hj⟩
      cases j with
      | zero => exact absurd hij (Nat.not_lt_zero i)
      | succ j =>
        rw [List.getElem?_cons_succ] at hj
        cases i with
        | zero =>
          rw [List.getElem?_cons_zero] at hi
          obtain rfl := Option.some.inj hi
          exact Or.inl (List.mem_map.2 ⟨b, List.mem_iff_getElem?.2 ⟨j, hj⟩, rfl⟩)
        | succ i =>
          rw [List.getElem?_cons_succ] at hi
          exact Or.inr ((ih a b).2 ⟨i, j, Nat.lt_of_succ_lt_succ hij, hi, hj⟩)

/-- The nested loops of `PostProcessFrameA` run over `n(n-1)/2` pairs for a queue of `n`
objects. -/
theorem length_pairsA (l : List NvDsObjectMeta) :
    2 * (ABOdeTrigger.pairsA l).length = l.length * (l.length - 1) := by
  induction l with
  | nil => rfl
  | cons x rest ih =>
    unfold ABOdeTrigger.pairsA
    rw [List.length_append, List.length_map, Nat.mul_add, ih, List.length_cons,
      Nat.add_sub_cancel]
    cases rest.length with
    | zero => rfl
    | succ n =>
      rw [Nat.add_sub_cancel]
      ring

/-- With one of the ten test points `CheckDistance` returns a result. -/
theorem CheckDistance_isSome (s : OdeTrigger) (v : DistanceState) (a b : NvDsObjectMeta)
    (hp : v.m_testPoint ≤ DSL_BBOX_POINT_ANY) :
    (DistanceOdeTrigger.CheckDistance s v a b).isSome = true := by
  obtain ⟨mn, mx, tp, tm⟩ := v
  unfold DSL_BBOX_POINT_ANY at hp
  dsimp only at hp
  unfold DistanceOdeTrigger.CheckDistance
  dsimp only
  rw [Option.isSome_map']
  interval_cases tp <;> rfl

/-- The virtual `PostProcessFrame` of a Distance trigger whose two class ids are the
same: the state is that of the pair loop over the pairs of the queue, run from zero
occurrences, with the queue cleared, and the result is the count of occurrences. -/
theorem Trigger_PostProcessFrame_DistanceA (s : OdeTrigger) (ab : ABState)
    (v : DistanceState) (f : NvDsFrameMeta) (hv : s.variant = Variant.Distance ab v)
    (he : s.m_enabled = true) (hA : ab.m_classIdAOnly = true) :
    (Trigger.PostProcessFrame s f).1 =
      (ABOdeTrigger.PairLoop (DistanceOdeTrigger.CheckDistance s v) f
        { s with m_occurrences := 0 }
        (ABOdeTrigger.pairsA ab.m_occurrenceMetaListA)).m_occurrences ∧
    (Trigger.PostProcessFrame s f).2.m_triggered =
      (ABOdeTrigger.PairLoop (DistanceOdeTrigger.CheckDistance s v) f
        { s with m_occurrences := 0 }
        (ABOdeTrigger.pairsA ab.m_occurrenceMetaListA)).m_triggered ∧
    (Trigger.PostProcessFrame s f).2.log =
      (ABOdeTrigger.PairLoop (DistanceOdeTrigger.CheckDistance s v) f
        { s with m_occurrences := 0 }
        (ABOdeTrigger.pairsA ab.m_occurrenceMetaListA)).log ∧
    (Trigger.PostProcessFrame s f).2.variant =
      Variant.Distance { ab with m_occurrenceMetaListA := [] } v := by
  have hd : Trigger.PostProcessFrame s f =
      ABOdeTrigger.PostProcessFrameA (DistanceOdeTrigger.CheckDistance s v)
        (fun ab => Variant.Distance ab v) s ab f := by
    unfold Trigger.PostProcessFrame
    rw [hv]
    dsimp only
    unfold ABOdeTrigger.PostProcessFrame
    rw [if_pos hA]
  rw [hd]
  unfold ABOdeTrigger.PostProcessFrameA
  dsimp only
  by_cases hl : ab.m_occurrenceMetaListA.length > 1
  · rw [if_pos ⟨he, hl⟩]
    exact ⟨rfl, rfl, rfl, rfl⟩
  · rw [if_neg (fun h => hl h.2)]
    have hp : ABOdeTrigger.pairsA ab.m_occurrenceMetaListA = [] := by
      cases hq : ab.m_occurrenceMetaListA with
      | nil => rfl
      | cons x rest =>
        cases rest with
        | nil => rfl
        | cons y rest =>
          rw [hq] at hl
          simp at hl
    rw [hp]
    exact ⟨rfl, rfl, rfl, rfl⟩

/-- C29: for an enabled Distance trigger whose two class ids are the same and whose test
point is one of the ten test points, and every queue of objects accepted in the check
phase: the pairs `PostProcessFrame` tests are the pairs of queue entries at positions
`i < j`, `n(n-1)/2` pairs for `n` objects. With limit 0 it returns the number of those
pairs for which `CheckDistance` holds, counts one event for each, and invokes every
attached Action exactly twice for each, once with each object of the pair. With a limit
`L` above the count of events it does so for the first matching pairs, up to the one whose
event makes the count reach `L`. In either case it leaves the queue empty. -/
theorem Distance_PostProcessFrameA_handles_pairs (s : OdeTrigger) (ab : ABState)
    (v : DistanceState) (f : NvDsFrameMeta) (hv : s.variant = Variant.Distance ab v)
    (he : s.m_enabled = true) (hc : ab.m_classIdA = ab.m_classIdB)
    (hA : ab.m_classIdAOnly = decide (ab.m_classIdA = ab.m_classIdB))
    (hp : v.m_testPoint ≤ DSL_BBOX_POINT_ANY) :
    (∀ a b, (a, b) ∈ ABOdeTrigger.pairsA ab.m_occurrenceMetaListA ↔
      ∃ (i j : Nat), i < j ∧ ab.m_occurrenceMetaListA[i]? = some a ∧
        ab.m_occurrenceMetaListA[j]? = some b) ∧
    2 * (ABOdeTrigger.pairsA ab.m_occurrenceMetaListA).length =
      ab.m_occurrenceMetaListA.length * (ab.m_occurrenceMetaListA.length - 1) ∧
    (s.m_limit = 0 →
      (Trigger.PostProcessFrame s f).1 =
        (matchingPairs (DistanceOdeTrigger.CheckDistance s v)
          (ABOdeTrigger.pairsA ab.m_occurrenceMetaListA)).length ∧
      (Trigger.PostProcessFrame s f).2.m_triggered = s.m_triggered +
        (matchingPairs (DistanceOdeTrigger.CheckDistance s v)
          (ABOdeTrigger.pairsA ab.m_occurrenceMetaListA)).length ∧
      actionLog (Trigger.PostProcessFrame s f).2.log =
        actionLog s.log ++ pairCalls s.m_pOdeActionsIndexed f 0
          (matchingPairs (DistanceOdeTrigger.CheckDistance s v)
            (ABOdeTrigger.pairsA ab.m_occurrenceMetaListA)) ∧
      actionCalls (Trigger.PostProcessFrame s f).2.log =
        actionCalls s.log + 2 *
          (matchingPairs (DistanceOdeTrigger.CheckDistance s v)
            (ABOdeTrigger.pairsA ab.m_occurrenceMetaListA)).length *
          s.m_pOdeActionsIndexed.length) ∧
    (s.m_triggered < s.m_limit →
      (Trigger.PostProcessFrame s f).1 =
        min (matchingPairs (DistanceOdeTrigger.CheckDistance s v)
          (ABOdeTrigger.pairsA ab.m_occurrenceMetaListA)).length
          (s.m_limit - s.m_triggered) ∧
      (Trigger.PostProcessFrame s f).2.m_triggered = s.m_triggered +
        min (matchingPairs (DistanceOdeTrigger.CheckDistance s v)
          (ABOdeTrigger.pairsA ab.m_occurrenceMetaListA)).length
          (s.m_limit - s.m_triggered) ∧
      actionLog (Trigger.PostProcessFrame s f).2.log =
        actionLog s.log ++ pairCalls s.m_pOdeActionsIndexed f 0
          ((matchingPairs (DistanceOdeTrigger.CheckDistance s v)
            (ABOdeTrigger.pairsA ab.m_occurrenceMetaListA)).take
              (s.m_limit - s.m_triggered))) ∧
    (Trigger.PostProcessFrame s f).2.variant =
      Variant.Distance { ab with m_occurrenceMetaListA := [] } v := by
  have hAonly : ab.m_classIdAOnly = true := by rw [hA]; exact decide_eq_true hc
  obtain ⟨r1, r2, r3, r4⟩ := Trigger_PostProcessFrame_DistanceA s ab v f hv he hAonly
  have hsome : ∀ p ∈ ABOdeTrigger.pairsA ab.m_occurrenceMetaListA,
      (DistanceOdeTrigger.CheckDistance s v p.1 p.2).isSome = true :=
    fun p _ => CheckDistance_isSome s v p.1 p.2 hp
  have hloop := PairLoop_events (DistanceOdeTrigger.CheckDistance s v) f
    (ABOdeTrigger.pairsA ab.m_occurrenceMetaListA) { s with m_occurrences := 0 } hsome _ rfl
  rw [r1, r2, r3]
  refine ⟨mem_pairsA _, length_pairsA _, ?_, ?_, r4⟩
  · intro h0
    have hl : ({ s with m_occurrences := 0 } : OdeTrigger).m_limit = 0 := h0
    rw [if_pos hl] at hloop
    obtain ⟨l1, l2, l3⟩ := hloop
    refine ⟨by rw [l2]; exact Nat.zero_add _, l1, l3, ?_⟩
    rw [actionCalls_eq_length_actionLog, l3, List.length_append, pairCalls_length,
      ← actionCalls_eq_length_actionLog]
  · intro hlt
    have hl : ¬ ({ s with m_occurrences := 0 } : OdeTrigger).m_limit = 0 := by
      show ¬ s.m_limit = 0
      omega
    rw [if_neg hl] at hloop
    have hmax : max 1 (({ s with m_occurrences := 0 } : OdeTrigger).m_limit -
        ({ s with m_occurrences := 0 } : OdeTrigger).m_triggered) =
        s.m_limit - s.m_triggered := by
      show max 1 (s.m_limit - s.m_triggered) = _
      omega
    rw [hmax, List.length_take, Nat.min_comm] at hloop
    obtain ⟨l1, l2, l3⟩ := hloop
    exact ⟨by rw [l2]; exact Nat.zero_add _, l1, l3⟩

/-- Witness for C29: with three queued objects that are 80 pixels apart and the range 0 to
50, the example Distance trigger without a limit returns 3, the number of pairs, and
invokes its Action six times; in a host where the objects are 30 pixels apart it returns
0; with limit 1 it stops after the first pair, having invoked the Action twice. -/
theorem Distance_PostProcessFrameA_handles_pairs_witness :
    (Trigger.PostProcessFrame (run exampleDistanceUnlimited exampleThreeObjectCalls)
      exampleFrame).1 = 3 ∧
    actionCalls (Trigger.PostProcessFrame (run exampleDistanceUnlimited
      exampleThreeObjectCalls) exampleFrame).2.log = 6 ∧
    (Trigger.PostProcessFrame (run exampleDistanceNearUnlimited exampleThreeObjectCalls)
      exampleFrame).1 = 0 ∧
    (Trigger.PostProcessFrame (run exampleDistance exampleThreeObjectCalls)
      exampleFrame).1 = 1 ∧
    actionLog (Trigger.PostProcessFrame (run exampleDistance exampleThreeObjectCalls)
      exampleFrame).2.log =
      [Effect.HandleOccurrence "print" exampleFrame
        (some { exampleObject with primary_metric := 1 }),
       Effect.HandleOccurrence "print" exampleFrame
        (some { exampleObject2 with primary_metric := 1 })] :=
  ⟨((Distance_PostProcessFrameA_handles_pairs
      (run exampleDistanceUnlimited exampleThreeObjectCalls)
      { m_classIdA := 2, m_classIdB := 2, m_classIdAOnly := true,
        m_occurrenceMetaListA := [exampleObject, exampleObject2, exampleObjectTall],
        m_occurrenceMetaListB := [] }
      exampleDistanceState exampleFrame rfl rfl rfl rfl (by decide)).2.2.1 rfl).1.trans
      (by decide),
   ((Distance_PostProcessFrameA_handles_pairs
      (run exampleDistanceUnlimited exampleThreeObjectCalls)
      { m_classIdA := 2, m_classIdB := 2, m_classIdAOnly := true,
        m_occurrenceMetaListA := [exampleObject, exampleObject2, exampleObjectTall],
        m_occurrenceMetaListB := [] }
      exampleDistanceState exampleFrame rfl rfl rfl rfl (by decide)).2.2.1 rfl).2.2.2.trans
      (by decide),
   ((Distance_PostProcessFrameA_handles_pairs
      (run exampleDistanceNearUnlimited exampleThreeObjectCalls)
      { m_classIdA := 2, m_classIdB := 2, m_classIdAOnly := true,
        m_occurrenceMetaListA := [exampleObject, exampleObject2, exampleObjectTall],
        m_occurrenceMetaListB := [] }
      exampleDistanceState exampleFrame rfl rfl rfl rfl (by decide)).2.2.1 rfl).1.trans
      (by decide),
   ((Distance_PostProcessFrameA_handles_pairs
      (run exampleDistance exampleThreeObjectCalls)
      { m_classIdA := 2, m_classIdB := 2, m_classIdAOnly := true,
        m_occurrenceMetaListA := [exampleObject, exampleObject2, exampleObjectTall],
        m_occurrenceMetaListB := [] }
      exampleDistanceState exampleFrame rfl rfl rfl rfl (by decide)).2.2.2.1
      (by decide)).1.trans (by decide),
   ((Distance_PostProcessFrameA_handles_pairs
      (run exampleDistance exampleThreeObjectCalls)
      { m_classIdA := 2, m_classIdB := 2, m_classIdAOnly := true,
        m_occurrenceMetaListA := [exampleObject, exampleObject2, exampleObjectTall],
        m_occurrenceMetaListB := [] }
      exampleDistanceState exampleFrame rfl rfl rfl rfl (by decide)).2.2.2.1
      (by decide)).2.2.trans (by decide)⟩

/-- In states with the same filter settings the source filter decides alike. -/
theorem sourceAccepts_congr {s s' : OdeTrigger} (h : SameFilters s s') (f : NvDsFrameMeta) :
    sourceAccepts s' f = sourceAccepts s f := by
  unfold sourceAccepts
  rw [CheckForSourceId_fst, CheckForSourceId_fst, h.m_source, h.SourceIdGet,
    effective_id_cached (s.SourceIdGet s.m_source) s.m_sourceId s'.m_sourceId h.m_sourceId]

/-- Invoking the Actions keeps the filter settings. -/
theorem callActions_SameFilters_self (t : OdeTrigger) (f : NvDsFrameMeta)
    (o : Option NvDsObjectMeta) : SameFilters t (callActions t f o) :=
  ⟨rfl, rfl, rfl, rfl, rfl, rfl, rfl, rfl, rfl, rfl, rfl, rfl, rfl, Or.inl rfl, Or.inl rfl⟩

/-- The members of a trigger after its Actions are invoked. -/
theorem callActions_facts (t : OdeTrigger) (f : NvDsFrameMeta) (o : Option NvDsObjectMeta) :
    (callActions t f o).variant = t.variant ∧ (callActions t f o).m_enabled = t.m_enabled ∧
    (callActions t f o).m_skipFrame = t.m_skipFrame ∧
    (callActions t f o).m_pOdeActionsIndexed = t.m_pOdeActionsIndexed ∧
    actionLog (callActions t f o).log =
      actionLog t.log ++ t.m_pOdeActionsIndexed.map
        (fun a => Effect.HandleOccurrence a.2.name f o) := by
  refine ⟨rfl, rfl, rfl, rfl, ?_⟩
  show actionLog (t.log ++ _) = _
  rw [actionLog_append, actionLog_map_HandleOccurrence]

/-- `AlwaysOdeTrigger::PreProcessFrame` on an enabled trigger whose source filter accepts
the frame: with `when` PRE every Action is invoked once, without an object, and otherwise
none is; the trigger stays as it is, an id that gets cached apart. -/
theorem AlwaysOdeTrigger_PreProcessFrame_accepted (s : OdeTrigger) (w : Nat)
    (f : NvDsFrameMeta) (he : s.m_enabled = true) (ha : sourceAccepts s f = true) :
    SameFilters s (AlwaysOdeTrigger.PreProcessFrame s w f) ∧
    (AlwaysOdeTrigger.PreProcessFrame s w f).variant = s.variant ∧
    (AlwaysOdeTrigger.PreProcessFrame s w f).m_enabled = true ∧
    (AlwaysOdeTrigger.PreProcessFrame s w f).m_pOdeActionsIndexed = s.m_pOdeActionsIndexed ∧
    actionLog (AlwaysOdeTrigger.PreProcessFrame s w f).log =
      actionLog s.log ++
        (if w = DSL_ODE_PRE_OCCURRENCE_CHECK then
          s.m_pOdeActionsIndexed.map (fun a => Effect.HandleOccurrence a.2.name f none)
        else []) := by
  have h1 := CheckForSourceId_SameFilters s f.source_id
  have h2 : (CheckForSourceId s f.source_id).2.variant = s.variant := by simp
  have h3 : (CheckForSourceId s f.source_id).2.m_enabled = s.m_enabled := by simp
  have h4 : (CheckForSourceId s f.source_id).2.m_pOdeActionsIndexed =
      s.m_pOdeActionsIndexed := by simp
  have h5 := CheckForSourceId_actionLog s f.source_id
  have hacc : (CheckForSourceId s f.source_id).1 = true := ha
  unfold AlwaysOdeTrigger.PreProcessFrame
  rw [if_neg (by rw [he]; simp)]
  dsimp only
  rw [hacc]
  generalize (CheckForSourceId s f.source_id).2 = t at *
  by_cases hw : w = DSL_ODE_PRE_OCCURRENCE_CHECK
  · rw [if_neg (by simp [hw]), if_pos hw]
    obtain ⟨c1, c2, c3, c4, c5⟩ := callActions_facts t f none
    exact ⟨SameFilters_trans h1 (callActions_SameFilters_self t f none), c1.trans h2,
      (c2.trans h3).trans he, c4.trans h4, by rw [c5, h5, h4]⟩
  · rw [if_pos (Or.inr hw), if_neg hw, List.append_nil]
    exact ⟨h1, h2, h3.trans he, h4, h5⟩

/-- `AlwaysOdeTrigger::PostProcessFrame` on an enabled trigger whose source filter accepts
the frame, on a frame that is not skipped: with `when` POST every Action is invoked once,
without an object, and the result is 1; otherwise no Action is invoked and the result
is 0. -/
theorem AlwaysOdeTrigger_PostProcessFrame_accepted (s : OdeTrigger) (w : Nat)
    (f : NvDsFrameMeta) (he : s.m_enabled = true) (hs : s.m_skipFrame = false)
    (ha : sourceAccepts s f = true) :
    (AlwaysOdeTrigger.PostProcessFrame s w f).1 =
      (if w = DSL_ODE_POST_OCCURRENCE_CHECK then 1 else 0) ∧
    actionLog (AlwaysOdeTrigger.PostProcessFrame s w f).2.log =
      actionLog s.log ++
        (if w = DSL_ODE_POST_OCCURRENCE_CHECK then
          s.m_pOdeActionsIndexed.map (fun a => Effect.HandleOccurrence a.2.name f none)
        else []) := by
  have h4 : (CheckForSourceId s f.source_id).2.m_pOdeActionsIndexed =
      s.m_pOdeActionsIndexed := by simp
  have h5 := CheckForSourceId_actionLog s f.source_id
  have hacc : (CheckForSourceId s f.source_id).1 = true := ha
  unfold AlwaysOdeTrigger.PostProcessFrame
  rw [if_neg (by rw [he, hs]; simp)]
  dsimp only
  rw [hacc]
  generalize (CheckForSourceId s f.source_id).2 = t at *
  by_cases hw : w = DSL_ODE_POST_OCCURRENCE_CHECK
  · rw [if_neg (by simp [hw]), if_pos hw, if_pos hw]
    obtain ⟨-, -, -, -, c5⟩ := callActions_facts t f none
    exact ⟨rfl, by rw [c5, h5, h4]⟩
  · rw [if_pos (Or.inr hw), if_neg hw, if_neg hw, List.append_nil]
    exact ⟨rfl, h5⟩

/-- The `CheckForOccurrence` calls of a frame leave an Always trigger as it is. -/
theorem Always_run_checks (f : NvDsFrameMeta) (os : List NvDsObjectMeta) (s : OdeTrigger)
    (w : Nat) (hv : s.variant = Variant.Always w) :
    run s (os.map (Call.CheckForOccurrence f)) = s := by
  induction os with
  | nil => rfl
  | cons o os ih =>
    have h : step s (Call.CheckForOccurrence f o) = s := by
      show (Trigger.CheckForOccurrence s f o).2 = s
      unfold Trigger.CheckForOccurrence
      rw [hv]
      rfl
    show run (step s (Call.CheckForOccurrence f o)) (os.map (Call.CheckForOccurrence f)) = s
    rw [h]
    exact ih

/-- Every call leaves an Always trigger an Always trigger with the same `when`, and leaves
its skip-frame flag clear: the flag is set by the base `PreProcessFrame` only, which the
Always trigger overrides. -/
theorem Always_step_keeps_skipFrame_clear (s : OdeTrigger) (w : Nat) (c : Call)
    (hv : s.variant = Variant.Always w) (hs : s.m_skipFrame = false) :
    (step s c).variant = Variant.Always w ∧ (step s c).m_skipFrame = false := by
  cases c with
  | PreProcessFrame f =>
    have h : step s (Call.PreProcessFrame f) = AlwaysOdeTrigger.PreProcessFrame s w f := by
      show Trigger.PreProcessFrame s f = _
      unfold Trigger.PreProcessFrame
      rw [hv]
    rw [h]
    unfold AlwaysOdeTrigger.PreProcessFrame
    dsimp only
    split_ifs
    · exact ⟨hv, hs⟩
    · exact ⟨by simpa using hv, by simpa using hs⟩
    · exact ⟨by simpa using hv, by simpa using hs⟩
  | CheckForOccurrence f o =>
    have h : step s (Call.CheckForOccurrence f o) = s := by
      show (Trigger.CheckForOccurrence s f o).2 = s
      unfold Trigger.CheckForOccurrence
      rw [hv]
      rfl
    rw [h]
    exact ⟨hv, hs⟩
  | PostProcessFrame f =>
    have h : step s (Call.PostProcessFrame f) =
        (AlwaysOdeTrigger.PostProcessFrame s w f).2 := by
      show (Trigger.PostProcessFrame s f).2 = _
      unfold Trigger.PostProcessFrame
      rw [hv]
    rw [h]
    unfold AlwaysOdeTrigger.PostProcessFrame
    dsimp only
    split_ifs
    · exact ⟨hv, hs⟩
    · exact ⟨by simpa using hv, by simpa using hs⟩
    · exact ⟨by simpa using hv, by simpa using hs⟩
  | Reset =>
    have h : step s Call.Reset = OdeTrigger.Reset s := by
      show Trigger.Reset s = _
      unfold Trigger.Reset
      rw [hv]
    rw [h]
    exact ⟨by simpa using hv, by simpa using hs⟩
  | SetLimit l =>
    show (OdeTrigger.SetLimit s l).variant = _ ∧ (OdeTrigger.SetLimit s l).m_skipFrame = _
    exact ⟨by simpa using hv, by simpa using hs⟩
  | SetResetTimeout t =>
    show (OdeTrigger.SetResetTimeout s t).variant = _ ∧
      (OdeTrigger.SetResetTimeout s t).m_skipFrame = _
    unfold OdeTrigger.SetResetTimeout
    dsimp only
    split_ifs <;> exact ⟨by simpa using hv, by simpa using hs⟩
  | Timeout id =>
    show (TriggerResetTimeoutHandler s id).variant = _ ∧
      (TriggerResetTimeoutHandler s id).m_skipFrame = _
    unfold TriggerResetTimeoutHandler
    split_ifs
    · have h : OdeTrigger.HandleResetTimeout s = OdeTrigger.Reset { s with m_resetTimerId := 0 } := by
        unfold OdeTrigger.HandleResetTimeout Trigger.Reset
        dsimp only
        rw [hv]
      dsimp only
      rw [h]
      exact ⟨by simpa using hv, by simpa using hs⟩
    · exact ⟨hv, hs⟩
  | Tick ms => exact ⟨hv, hs⟩

/-- Every call that changes the children leaves the class of a trigger and its skip-frame
flag as they are. -/
theorem stepChild_keeps_variant (s : OdeTrigger) (c : ChildCall) :
    (stepChild s c).variant = s.variant ∧ (stepChild s c).m_skipFrame = s.m_skipFrame := by
  cases c with
  | AddAction p =>
    show (OdeTrigger.AddAction s p).2.1.variant = _ ∧ (OdeTrigger.AddAction s p).2.1.m_skipFrame = _
    unfold OdeTrigger.AddAction
    dsimp only
    split_ifs <;> exact ⟨rfl, rfl⟩
  | RemoveAction p =>
    show (OdeTrigger.RemoveAction s p).2.1.variant = _ ∧
      (OdeTrigger.RemoveAction s p).2.1.m_skipFrame = _
    unfold OdeTrigger.RemoveAction
    split_ifs <;> exact ⟨rfl, rfl⟩
  | RemoveAllActions => exact ⟨rfl, rfl⟩
  | AddArea p =>
    show (OdeTrigger.AddArea s p).2.1.variant = _ ∧ (OdeTrigger.AddArea s p).2.1.m_skipFrame = _
    unfold OdeTrigger.AddArea
    dsimp only
    split_ifs <;> exact ⟨rfl, rfl⟩
  | RemoveArea p =>
    show (OdeTrigger.RemoveArea s p).2.1.variant = _ ∧
      (OdeTrigger.RemoveArea s p).2.1.m_skipFrame = _
    unfold OdeTrigger.RemoveArea
    split_ifs <;> exact ⟨rfl, rfl⟩
  | RemoveAllAreas => exact ⟨rfl, rfl⟩

/-- The state after the per-frame calls of one frame. -/
theorem run_frameCalls (s : OdeTrigger) (f : NvDsFrameMeta) (os : List NvDsObjectMeta) :
    run s (frameCalls f os) =
      (Trigger.PostProcessFrame
        (run (Trigger.PreProcessFrame s f) (os.map (Call.CheckForOccurrence f))) f).2 := by
  unfold frameCalls run
  rw [List.foldl_cons, List.foldl_append]
  rfl

/-- C30: for an enabled Always trigger whose source filter accepts the frame and whose
`when` is PRE_OCCURRENCE_CHECK or POST_OCCURRENCE_CHECK, over the calls of one frame
(`PreProcessFrame`, `CheckForOccurrence` for each object, `PostProcessFrame`) each
attached Action is invoked exactly once, without an object, in the order of the by-index
map: with `when` PRE in `PreProcessFrame` and in no later call, with `when` POST in
`PostProcessFrame`, which returns 1, and in no earlier call. The skip-frame flag, which
`PostProcessFrame` tests, is clear in every Always trigger: the constructor clears it and
every call on an Always trigger leaves it clear. -/
theorem Always_invokes_each_action_once_per_frame (s : OdeTrigger) (w : Nat)
    (f : NvDsFrameMeta) (os : List NvDsObjectMeta) (hv : s.variant = Variant.Always w)
    (he : s.m_enabled = true) (hs : s.m_skipFrame = false)
    (ha : sourceAccepts s f = true)
    (hw : w = DSL_ODE_PRE_OCCURRENCE_CHECK ∨ w = DSL_ODE_POST_OCCURRENCE_CHECK) :
    actionLog (run s (frameCalls f os)).log =
      actionLog s.log ++ s.m_pOdeActionsIndexed.map
        (fun a => Effect.HandleOccurrence a.2.name f none) ∧
    (w = DSL_ODE_PRE_OCCURRENCE_CHECK →
      actionLog (Trigger.PreProcessFrame s f).log =
        actionLog s.log ++ s.m_pOdeActionsIndexed.map
          (fun a => Effect.HandleOccurrence a.2.name f none) ∧
      actionLog (run s (frameCalls f os)).log = actionLog (Trigger.PreProcessFrame s f).log) ∧
    (w = DSL_ODE_POST_OCCURRENCE_CHECK →
      actionLog (run s (Call.PreProcessFrame f :: os.map (Call.CheckForOccurrence f))).log =
        actionLog s.log ∧
      (Trigger.PostProcessFrame
        (run s (Call.PreProcessFrame f :: os.map (Call.CheckForOccurrence f))) f).1 = 1) ∧
    (∀ host name source when,
      (AlwaysOdeTrigger.new host name source when).m_skipFrame = false) ∧
    (∀ c : Call, (step s c).variant = Variant.Always w ∧ (step s c).m_skipFrame = false) ∧
    (∀ c : ChildCall,
      (stepChild s c).variant = Variant.Always w ∧ (stepChild s c).m_skipFrame = false) := by
  have hpre : Trigger.PreProcessFrame s f = AlwaysOdeTrigger.PreProcessFrame s w f := by
    unfold Trigger.PreProcessFrame
    rw [hv]
  obtain ⟨p1, p2, p3, p4, p5⟩ := AlwaysOdeTrigger_PreProcessFrame_accepted s w f he ha
  rw [← hpre] at p1 p2 p3 p4 p5
  have hchecks := Always_run_checks f os (Trigger.PreProcessFrame s f) w (p2.trans hv)
  have hpost : Trigger.PostProcessFrame (Trigger.PreProcessFrame s f) f =
      AlwaysOdeTrigger.PostProcessFrame (Trigger.PreProcessFrame s f) w f := by
    unfold Trigger.PostProcessFrame
    rw [p2.trans hv]
  obtain ⟨q1, q2⟩ := AlwaysOdeTrigger_PostProcessFrame_accepted (Trigger.PreProcessFrame s f)
    w f p3 (p1.m_skipFrame.trans hs) ((sourceAccepts_congr p1 f).trans ha)
  rw [← hpost, p4] at q2
  rw [← hpost] at q1
  have hrun : run s (Call.PreProcessFrame f :: os.map (Call.CheckForOccurrence f)) =
      Trigger.PreProcessFrame s f := hchecks
  have hne : DSL_ODE_PRE_OCCURRENCE_CHECK ≠ DSL_ODE_POST_OCCURRENCE_CHECK := by decide
  rw [run_frameCalls, hchecks, hrun]
  refine ⟨?_, ?_, ?_, fun _ _ _ _ => rfl,
    fun c => Always_step_keeps_skipFrame_clear s w c hv hs,
    fun c => ⟨(stepChild_keeps_variant s c).1.trans hv,
      (stepChild_keeps_variant s c).2.trans hs⟩⟩
  · rcases hw with hw | hw
    · rw [q2, p5, if_pos hw, if_neg (by rw [hw]; exact hne), List.append_nil]
    · rw [q2, p5, if_pos hw, if_neg (by rw [hw]; exact hne.symm), List.append_nil]
  · intro hw'
    rw [q2, p5, if_pos hw', if_neg (by rw [hw']; exact hne), List.append_nil]
    exact ⟨rfl, rfl⟩
  · intro hw'
    rw [p5, if_neg (by rw [hw']; exact hne.symm), List.append_nil, q1, if_pos hw']
    exact ⟨rfl, rfl⟩

/-- Witness for C30: the example Always trigger with the Actions `"print"` and `"log"`,
added in this order, over a frame with the two example objects: with `when` PRE and with
`when` POST each Action is invoked once, `"print"` first. -/
theorem Always_invokes_each_action_once_per_frame_witness :
    actionLog (run (exampleAlways DSL_ODE_PRE_OCCURRENCE_CHECK)
      (frameCalls exampleFrame [exampleObject, exampleObject2])).log =
      [Effect.HandleOccurrence "print" exampleFrame none,
       Effect.HandleOccurrence "log" exampleFrame none] ∧
    actionLog (run (exampleAlways DSL_ODE_POST_OCCURRENCE_CHECK)
      (frameCalls exampleFrame [exampleObject, exampleObject2])).log =
      [Effect.HandleOccurrence "print" exampleFrame none,
       Effect.HandleOccurrence "log" exampleFrame none] :=
  ⟨(Always_invokes_each_action_once_per_frame (exampleAlways DSL_ODE_PRE_OCCURRENCE_CHECK)
      DSL_ODE_PRE_OCCURRENCE_CHECK exampleFrame [exampleObject, exampleObject2] rfl rfl rfl
      (by decide) (Or.inl rfl)).1.trans (by decide),
   (Always_invokes_each_action_once_per_frame (exampleAlways DSL_ODE_POST_OCCURRENCE_CHECK)
      DSL_ODE_POST_OCCURRENCE_CHECK exampleFrame [exampleObject, exampleObject2] rfl rfl rfl
      (by decide) (Or.inr rfl)).1.trans (by decide)⟩

/-- The state after one event that counts an occurrence and invokes the Actions with an
object: one more event, one more occurrence, every Action invoked once, in the order of
the by-index map; the class and its members stay. -/
theorem event_with_occurrence (t : OdeTrigger) (f : NvDsFrameMeta)
    (o : Option NvDsObjectMeta) :
    (callActions (IncrementEventCount { IncrementAndCheckTriggerCount t with
      m_occurrences := (IncrementAndCheckTriggerCount t).m_occurrences + 1 }) f o).m_triggered
      = t.m_triggered + 1 ∧
    (callActions (IncrementEventCount { IncrementAndCheckTriggerCount t with
      m_occurrences := (IncrementAndCheckTriggerCount t).m_occurrences + 1 }) f
      o).m_occurrences = t.m_occurrences + 1 ∧
    (callActions (IncrementEventCount { IncrementAndCheckTriggerCount t with
      m_occurrences := (IncrementAndCheckTriggerCount t).m_occurrences + 1 }) f o).variant
      = t.variant ∧
    actionLog (callActions (IncrementEventCount { IncrementAndCheckTriggerCount t with
      m_occurrences := (IncrementAndCheckTriggerCount t).m_occurrences + 1 }) f o).log =
      actionLog t.log ++ t.m_pOdeActionsIndexed.map
        (fun a => Effect.HandleOccurrence a.2.name f o) := by
  have e1 : (IncrementAndCheckTriggerCount t).m_triggered = t.m_triggered + 1 := by simp
  have e2 : (IncrementAndCheckTriggerCount t).m_occurrences = t.m_occurrences := by simp
  have e5 : (IncrementAndCheckTriggerCount t).variant = t.variant := by simp
  have e6 : (IncrementAndCheckTriggerCount t).m_pOdeActionsIndexed =
      t.m_pOdeActionsIndexed := by simp
  have h3 := (IncrementAndCheckTriggerCount_SameFilters t).2
  generalize IncrementAndCheckTriggerCount t = u at *
  obtain ⟨m1, m2, -, -, m5, -, m7⟩ := callActions_members u f o
  refine ⟨m1.trans e1, m2.trans (by rw [e2]), m5.trans e5, ?_⟩
  rw [m7, actionLog_append, h3, actionLog_map_HandleOccurrence, e6]

/-- An object is tracked exactly when the store has a tracked object for it. -/
theorem IsTracked_eq_isSome_GetObject (st : TrackedObjects) (sourceId : Int)
    (objectId : Nat) :
    st.IsTracked sourceId objectId = (st.GetObject sourceId objectId).isSome := by
  unfold TrackedObjects.IsTracked TrackedObjects.GetObject
  induction st.objects with
  | nil => rfl
  | cons t rest ih =>
    rw [List.any_cons, List.find?_cons]
    by_cases h : t.sourceId = sourceId ∧ t.objectId = objectId
    · simp [h]
    · simp only [h, decide_False, Bool.false_or]
      exact ih

/-- The virtual `CheckForOccurrence` of a Persistence trigger. -/
theorem Trigger_CheckForOccurrence_Persistence (s : OdeTrigger) (v : PersistenceState)
    (f : NvDsFrameMeta) (o : NvDsObjectMeta) (hv : s.variant = Variant.Persistence v) :
    Trigger.CheckForOccurrence s f o = PersistenceOdeTrigger.CheckForOccurrence s v f o := by
  unfold Trigger.CheckForOccurrence
  rw [hv]

/-- `PersistenceOdeTrigger::CheckForOccurrence` for an object that passes the gates and is
seen for the first time: the object is added to the store and nothing else happens. -/
theorem PersistenceOdeTrigger_CheckForOccurrence_first (s : OdeTrigger)
    (v : PersistenceState) (f : NvDsFrameMeta) (o : NvDsObjectMeta)
    (hg : (CheckGates s f o).1 = true)
    (ht : v.m_pTrackedObjectsPerSource.IsTracked f.source_id o.object_id = false) :
    PersistenceOdeTrigger.CheckForOccurrence s v f o =
      (true, { (CheckGates s f o).2 with
        variant := PersistenceOdeTrigger.withStore v
          (v.m_pTrackedObjectsPerSource.Track f o (CheckGates s f o).2.nowMs) }) := by
  unfold PersistenceOdeTrigger.CheckForOccurrence
  dsimp only
  rw [hg, ht]
  rfl

/-- `PersistenceOdeTrigger::CheckForOccurrence` for a tracked object that passes the
gates, in terms of the tracked object `u` after the update, its tracked time, and the
members `w` with `u` put back into the store. -/
theorem PersistenceOdeTrigger_CheckForOccurrence_tracked (s : OdeTrigger)
    (v : PersistenceState) (f : NvDsFrameMeta) (o : NvDsObjectMeta) (t0 u : TrackedObject)
    (w : Variant) (hg : (CheckGates s f o).1 = true)
    (ht : v.m_pTrackedObjectsPerSource.GetObject f.source_id o.object_id = some t0)
    (hu : u = t0.Update f.frame_num o.rect_params (CheckGates s f o).2.nowMs)
    (hw : w = PersistenceOdeTrigger.withStore v (v.m_pTrackedObjectsPerSource.Put u)) :
    PersistenceOdeTrigger.CheckForOccurrence s v f o =
      (if u.GetDurationMs ≥ (v.m_minimumMs : Int) ∧ u.GetDurationMs ≤ (v.m_maximumMs : Int) then
        (true, callActions (IncrementEventCount
          { IncrementAndCheckTriggerCount { (CheckGates s f o).2 with variant := w } with
            m_occurrences := (IncrementAndCheckTriggerCount
              { (CheckGates s f o).2 with variant := w }).m_occurrences + 1 }) f
          (some { o with
            persistence := (u.GetDurationMs / 1000).toNat
            primary_metric := (u.GetDurationMs / 1000).toNat }))
      else (true, { (CheckGates s f o).2 with variant := w })) := by
  have hi : v.m_pTrackedObjectsPerSource.IsTracked f.source_id o.object_id = true := by
    rw [IsTracked_eq_isSome_GetObject, ht]
    rfl
  subst hu hw
  unfold PersistenceOdeTrigger.CheckForOccurrence
  dsimp only
  rw [hg, hi, ht]
  rfl

/-- Whole seconds of a duration in milliseconds: the integer quotient by 1000 is the
floor of the quotient. -/
theorem floor_div_thousand (d : Int) : Int.floor ((d : ℚ) / 1000) = d / 1000 := by
  have h := Rat.floor_intCast_div_natCast d 1000
  simpa using h

/-- An object is tracked once `Track` has added it. -/
theorem IsTracked_Track (st : TrackedObjects) (f : NvDsFrameMeta) (o : NvDsObjectMeta)
    (nowMs : Nat) : (st.Track f o nowMs).IsTracked f.source_id o.object_id = true := by
  unfold TrackedObjects.IsTracked TrackedObjects.Track
  simp

/-- C26: for a Persistence trigger with the range `[minimum, maximum]` seconds and an
object that passes the gates. If the object is tracked, with `u` its track after the
update for this frame and `d` the duration of `u` in milliseconds, `CheckForOccurrence`
fires (one more event) if and only if `minimum*1000 ≤ d ≤ maximum*1000`; when it fires
every Action is invoked once with the object, `floor(d/1000)` stamped into both its
persistence and its primary metric; when it does not, no Action is invoked. If the object
is seen for the first time it is added to the store, so that it is tracked afterwards, no
event is counted and no Action is invoked. -/
theorem Persistence_fires_iff_duration_in_range (s : OdeTrigger) (v : PersistenceState)
    (f : NvDsFrameMeta) (o : NvDsObjectMeta) (minimum maximum : Nat)
    (hv : s.variant = Variant.Persistence v) (hmin : v.m_minimumMs = minimum * 1000)
    (hmax : v.m_maximumMs = maximum * 1000) (hg : (CheckGates s f o).1 = true) :
    (∀ t0 u, v.m_pTrackedObjectsPerSource.GetObject f.source_id o.object_id = some t0 →
      u = t0.Update f.frame_num o.rect_params s.nowMs →
      ((Trigger.CheckForOccurrence s f o).2.m_triggered = s.m_triggered + 1 ↔
        ((minimum : Int) * 1000 ≤ u.GetDurationMs ∧
          u.GetDurationMs ≤ (maximum : Int) * 1000)) ∧
      (((minimum : Int) * 1000 ≤ u.GetDurationMs ∧
          u.GetDurationMs ≤ (maximum : Int) * 1000) →
        actionLog (Trigger.CheckForOccurrence s f o).2.log =
          actionLog s.log ++ s.m_pOdeActionsIndexed.map (fun a =>
            Effect.HandleOccurrence a.2.name f (some { o with
              persistence := (Int.floor ((u.GetDurationMs : ℚ) / 1000)).toNat
              primary_metric := (Int.floor ((u.GetDurationMs : ℚ) / 1000)).toNat }))) ∧
      (¬ ((minimum : Int) * 1000 ≤ u.GetDurationMs ∧
          u.GetDurationMs ≤ (maximum : Int) * 1000) →
        (Trigger.CheckForOccurrence s f o).2.m_triggered = s.m_triggered ∧
        actionLog (Trigger.CheckForOccurrence s f o).2.log = actionLog s.log)) ∧
    (v.m_pTrackedObjectsPerSource.IsTracked f.source_id o.object_id = false →
      (Trigger.CheckForOccurrence s f o).2.m_triggered = s.m_triggered ∧
      actionLog (Trigger.CheckForOccurrence s f o).2.log = actionLog s.log ∧
      (Trigger.CheckForOccurrence s f o).2.variant =
        PersistenceOdeTrigger.withStore v (v.m_pTrackedObjectsPerSource.Track f o s.nowMs) ∧
      (v.m_pTrackedObjectsPerSource.Track f o s.nowMs).IsTracked f.source_id o.object_id =
        true) := by
  have g1 : (CheckGates s f o).2.m_triggered = s.m_triggered := CheckGates_m_triggered s f o
  have g2 := CheckGates_actionLog s f o
  have g3 : (CheckGates s f o).2.m_pOdeActionsIndexed = s.m_pOdeActionsIndexed :=
    CheckGates_m_pOdeActionsIndexed s f o
  have g4 : (CheckGates s f o).2.nowMs = s.nowMs := CheckGates_nowMs s f o
  rw [Trigger_CheckForOccurrence_Persistence s v f o hv]
  refine ⟨?_, ?_⟩
  · intro t0 u ht hu
    have hform := PersistenceOdeTrigger_CheckForOccurrence_tracked s v f o t0 u _ hg ht
      (by rw [g4]; exact hu) rfl
    generalize PersistenceOdeTrigger.withStore v (v.m_pTrackedObjectsPerSource.Put u) = w
      at hform
    have hcond : (u.GetDurationMs ≥ (v.m_minimumMs : Int) ∧
        u.GetDurationMs ≤ (v.m_maximumMs : Int)) ↔
        ((minimum : Int) * 1000 ≤ u.GetDurationMs ∧
          u.GetDurationMs ≤ (maximum : Int) * 1000) := by
      rw [hmin, hmax]
      push_cast
      exact Iff.rfl
    have hfire : ((minimum : Int) * 1000 ≤ u.GetDurationMs ∧
        u.GetDurationMs ≤ (maximum : Int) * 1000) →
        (PersistenceOdeTrigger.CheckForOccurrence s v f o).2.m_triggered =
          s.m_triggered + 1 ∧
        actionLog (PersistenceOdeTrigger.CheckForOccurrence s v f o).2.log =
          actionLog s.log ++ s.m_pOdeActionsIndexed.map (fun a =>
            Effect.HandleOccurrence a.2.name f (some { o with
              persistence := (Int.floor ((u.GetDurationMs : ℚ) / 1000)).toNat
              primary_metric := (Int.floor ((u.GetDurationMs : ℚ) / 1000)).toNat })) := by
      intro hin
      rw [hform, if_pos (hcond.2 hin), floor_div_thousand]
      generalize (CheckGates s f o).2 = t at *
      obtain ⟨m1, -, -, m4⟩ := event_with_occurrence { t with variant := w } f
        (some { o with
          persistence := (u.GetDurationMs / 1000).toNat
          primary_metric := (u.GetDurationMs / 1000).toNat })
      refine ⟨m1.trans (by rw [← g1]), ?_⟩
      rw [← g2, ← g3]
      exact m4
    have hquiet : ¬ ((minimum : Int) * 1000 ≤ u.GetDurationMs ∧
        u.GetDurationMs ≤ (maximum : Int) * 1000) →
        (PersistenceOdeTrigger.CheckForOccurrence s v f o).2.m_triggered = s.m_triggered ∧
        actionLog (PersistenceOdeTrigger.CheckForOccurrence s v f o).2.log =
          actionLog s.log := by
      intro hout
      rw [hform, if_neg (fun h => hout (hcond.1 h))]
      exact ⟨g1, g2⟩
    refine ⟨⟨?_, fun h => (hfire h).1⟩, fun h => (hfire h).2, hquiet⟩
    intro h
    by_contra hn
    rw [(hquiet hn).1] at h
    omega
  · intro ht
    rw [PersistenceOdeTrigger_CheckForOccurrence_first s v f o hg ht, g4]
    exact ⟨g1, g2, rfl, IsTracked_Track _ f o s.nowMs⟩

/-- Witness for C26: the example Persistence trigger with the range 2 to 10 seconds sees
the example object in frame 1, which only adds it to the store, and again 2.5 seconds
later: the second check invokes the Action with the object, 2 stamped into its persistence
and its primary metric. -/
theorem Persistence_fires_iff_duration_in_range_witness :
    actionLog (run examplePersistence examplePersistenceCalls).log = [] ∧
    actionLog (Trigger.CheckForOccurrence (run examplePersistence examplePersistenceCalls)
      exampleFrame2 exampleObject).2.log =
      [Effect.HandleOccurrence "print" exampleFrame2
        (some { exampleObject with persistence := 2, primary_metric := 2 })] :=
  ⟨by decide,
   (((Persistence_fires_iff_duration_in_range
      (run examplePersistence examplePersistenceCalls)
      { m_pTrackedObjectsPerSource := { maxHistory := 0, objects := [
          { sourceId := 0, objectId := 7, creationTimeMs := 0,
            trace := [{ frame_num := 1, rect := exampleObject.rect_params, timeMs := 0 }],
            frameNumber := 1, triggered := false, maxHistory := 0 }] }
        m_minimumMs := 2 * 1000
        m_maximumMs := 10 * 1000 }
      exampleFrame2 exampleObject 2 10 rfl rfl rfl (by decide)).1 _ _ rfl rfl).2.1
      (by decide)).trans (by decide!)⟩

/-- The object `GetObject` finds is one of the store, kept for the source and the object
id asked for. -/
theorem GetObject_some (st : TrackedObjects) (sourceId : Int) (objectId : Nat)
    (t : TrackedObject) (h : st.GetObject sourceId objectId = some t) :
    t ∈ st.objects ∧ t.sourceId = sourceId ∧ t.objectId = objectId := by
  unfold TrackedObjects.GetObject at h
  have h1 := List.mem_of_find?_eq_some h
  have h2 := List.find?_some h
  simp only [decide_eq_true_eq] at h2
  exact ⟨h1, h2.1, h2.2⟩

/-- `Put` writes the object back over every entry kept for its source and object id and
leaves the other entries. -/
theorem mem_Put (st : TrackedObjects) (u t : TrackedObject) (h : t ∈ (st.Put u).objects) :
    t = u ∨ (t ∈ st.objects ∧ ¬ (t.sourceId = u.sourceId ∧ t.objectId = u.objectId)) := by
  unfold TrackedObjects.Put at h
  dsimp only at h
  obtain ⟨t', ht', rfl⟩ := List.mem_map.1 h
  by_cases hk : t'.sourceId = u.sourceId ∧ t'.objectId = u.objectId
  · rw [if_pos hk]
    exact Or.inl rfl
  · rw [if_neg hk]
    exact Or.inr ⟨ht', hk⟩

/-- The object written back by `Put` is found afterwards, if one was kept for its source
and object id. -/
theorem GetObject_Put (st : TrackedObjects) (u t0 : TrackedObject)
    (h : st.GetObject u.sourceId u.objectId = some t0) :
    (st.Put u).GetObject u.sourceId u.objectId = some u := by
  unfold TrackedObjects.GetObject at h ⊢
  unfold TrackedObjects.Put
  dsimp only
  revert h
  generalize st.objects = l
  intro h
  induction l with
  | nil => simp at h
  | cons a rest ih =>
    rw [List.map_cons]
    by_cases hk : a.sourceId = u.sourceId ∧ a.objectId = u.objectId
    · rw [if_pos hk, List.find?_cons_of_pos _ (by simp)]
    · rw [if_neg hk, List.find?_cons_of_neg _ (by simpa using hk)]
      rw [List.find?_cons_of_neg _ (by simpa using hk)] at h
      exact ih h

/-- The latches of an object stay set when a latched object, or an object kept for
another source or object id, is written back. -/
theorem latched_Put (st : TrackedObjects) (u : TrackedObject) (sourceId : Int)
    (objectId : Nat)
    (h1 : u.sourceId = sourceId → u.objectId = objectId → u.triggered = true)
    (h2 : ¬ (u.sourceId = sourceId ∧ u.objectId = objectId) →
      latched st.objects sourceId objectId) :
    latched (st.Put u).objects sourceId objectId := by
  intro t ht hs ho
  rcases mem_Put st u t ht with rfl | ⟨hm, hk⟩
  · exact h1 hs ho
  · refine h2 (fun hu => hk ⟨hs.trans hu.1.symm, ho.trans hu.2.symm⟩) t hm hs ho

/-- The latches of an object stay set when another object starts being tracked. -/
theorem latched_Track (st : TrackedObjects) (f : NvDsFrameMeta) (o : NvDsObjectMeta)
    (nowMs : Nat) (sourceId : Int) (objectId : Nat)
    (h : latched st.objects sourceId objectId)
    (hk : ¬ (f.source_id = sourceId ∧ o.object_id = objectId)) :
    latched (st.Track f o nowMs).objects sourceId objectId := by
  intro t ht hs ho
  unfold TrackedObjects.Track at ht
  dsimp only at ht
  rcases List.mem_append.1 ht with ht | ht
  · exact h t ht hs ho
  · rw [List.mem_singleton.1 ht] at hs ho
    exact absurd ⟨hs, ho⟩ hk

/-- The latches of an object stay set when the store is purged. -/
theorem latched_Purge (st : TrackedObjects) (n : Nat) (sourceId : Int) (objectId : Nat)
    (h : latched st.objects sourceId objectId) :
    latched (st.Purge n).objects sourceId objectId := by
  intro t ht hs ho
  unfold TrackedObjects.Purge at ht
  exact h t (List.mem_of_mem_filter ht) hs ho

/-- The Area loop of the Cross trigger, for the tracked object `u` just updated: either
no Area fires, and nothing changes but the display calls logged, or an Area fires, which
takes a trace of at least `m_minTracePoints` points, a clear latch and a cross reported by
an Area; then one event is counted, every Action is invoked once with the object, and
the object is written back with its latch set. -/
theorem CrossOdeTrigger_AreaLoop_cases (v : CrossState) (u : TrackedObject)
    (f : NvDsFrameMeta) (o : NvDsObjectMeta) (areas : List (Nat × OdeArea)) :
    ∀ (s : OdeTrigger),
    ((CrossOdeTrigger.AreaLoop v u f o s areas).1 = false ∧
      (CrossOdeTrigger.AreaLoop v u f o s areas).2.variant = s.variant ∧
      (CrossOdeTrigger.AreaLoop v u f o s areas).2.m_triggered = s.m_triggered ∧
      actionLog (CrossOdeTrigger.AreaLoop v u f o s areas).2.log = actionLog s.log) ∨
    ((CrossOdeTrigger.AreaLoop v u f o s areas).1 = true ∧
      v.m_minTracePoints ≤ u.Size ∧ u.GetTriggered = false ∧
      (∃ a ∈ areas,
        a.2.CheckForCross (u.GetTrace a.2.bboxTestPoint v.m_testMethod) = true) ∧
      (CrossOdeTrigger.AreaLoop v u f o s areas).2.variant =
        CrossOdeTrigger.withStore v (v.m_pTrackedObjectsPerSource.Put u.SetTriggered) ∧
      (CrossOdeTrigger.AreaLoop v u f o s areas).2.m_triggered = s.m_triggered + 1 ∧
      actionLog (CrossOdeTrigger.AreaLoop v u f o s areas).2.log =
        actionLog s.log ++ s.m_pOdeActionsIndexed.map
          (fun a => Effect.HandleOccurrence a.2.name f (some o))) := by
  induction areas with
  | nil =>
    intro s
    exact Or.inl ⟨rfl, rfl, rfl, rfl⟩
  | cons a areas ih =>
    intro s
    obtain ⟨i, pOdeArea⟩ := a
    rw [CrossOdeTrigger.AreaLoop]
    dsimp only
    have hs1 : ∃ s1 : OdeTrigger,
        (if v.m_traceEnabled = true then
          { s with log := s.log ++ [Effect.MultiLineAddMeta
            (u.GetTrace pOdeArea.bboxTestPoint v.m_testMethod)] }
        else s) = s1 ∧ s1.variant = s.variant ∧ s1.m_triggered = s.m_triggered ∧
        s1.m_pOdeActionsIndexed = s.m_pOdeActionsIndexed ∧
        actionLog s1.log = actionLog s.log := by
      by_cases hte : v.m_traceEnabled = true
      · rw [if_pos hte]
        refine ⟨_, rfl, rfl, rfl, rfl, ?_⟩
        show actionLog (s.log ++ _) = _
        rw [actionLog_append]
        simp [actionLog]
      · rw [if_neg hte]
        exact ⟨s, rfl, rfl, rfl, rfl, rfl⟩
    obtain ⟨s1, e, k1, k2, k3, k4⟩ := hs1
    rw [e]
    by_cases hc : u.Size ≥ v.m_minTracePoints ∧ (!u.GetTriggered) = true ∧
        pOdeArea.CheckForCross (u.GetTrace pOdeArea.bboxTestPoint v.m_testMethod) = true
    · rw [if_pos hc]
      obtain ⟨m1, -, -, m4⟩ := event_with_occurrence s1 f (some o)
      refine Or.inr ⟨rfl, hc.1, by simpa using hc.2.1,
        ⟨(i, pOdeArea), List.mem_cons_self _ _, hc.2.2⟩, rfl, m1.trans (by rw [k2]), ?_⟩
      rw [← k4, ← k3]
      exact m4
    · rw [if_neg hc]
      rcases ih s1 with ⟨p1, p2, p3, p4⟩ | ⟨p1, p2, p3, ⟨b, hb, hbc⟩, p5, p6, p7⟩
      · exact Or.inl ⟨p1, p2.trans k1, p3.trans k2, p4.trans k4⟩
      · refine Or.inr ⟨p1, p2, p3, ⟨b, List.mem_cons_of_mem _ hb, hbc⟩, p5,
          p6.trans (by rw [k2]), ?_⟩
        rw [p7, k4, k3]

/-- The virtual `CheckForOccurrence` of a Cross trigger. -/
theorem Trigger_CheckForOccurrence_Cross (s : OdeTrigger) (v : CrossState)
    (f : NvDsFrameMeta) (o : NvDsObjectMeta) (hv : s.variant = Variant.Cross v) :
    Trigger.CheckForOccurrence s f o = CrossOdeTrigger.CheckForOccurrence s v f o := by
  unfold Trigger.CheckForOccurrence
  rw [hv]

/-- `CrossOdeTrigger::CheckForOccurrence`, case by case. Either it returns false, counts
no event and invokes no Action, and the store is as it was, or has the object added (seen
for the first time), or has the object's track updated; or it returns true, which takes at
least one Area, a tracked object whose updated track `u` has at least `m_minTracePoints`
points and a clear latch, and an Area that reports a cross for the trace of `u`; then one
event is counted, every Action is invoked once with the object, and `u` is written back
with its latch set. -/
theorem CrossOdeTrigger_CheckForOccurrence_cases (s : OdeTrigger) (v : CrossState)
    (f : NvDsFrameMeta) (o : NvDsObjectMeta) (hv : s.variant = Variant.Cross v) :
    ((CrossOdeTrigger.CheckForOccurrence s v f o).1 = false ∧
      (CrossOdeTrigger.CheckForOccurrence s v f o).2.m_triggered = s.m_triggered ∧
      actionLog (CrossOdeTrigger.CheckForOccurrence s v f o).2.log = actionLog s.log ∧
      ((CrossOdeTrigger.CheckForOccurrence s v f o).2.variant = Variant.Cross v ∨
        (v.m_pTrackedObjectsPerSource.IsTracked f.source_id o.object_id = false ∧
          (CrossOdeTrigger.CheckForOccurrence s v f o).2.variant =
            CrossOdeTrigger.withStore v (v.m_pTrackedObjectsPerSource.Track f o s.nowMs)) ∨
        (∃ t0, v.m_pTrackedObjectsPerSource.GetObject f.source_id o.object_id = some t0 ∧
          (CrossOdeTrigger.CheckForOccurrence s v f o).2.variant =
            CrossOdeTrigger.withStore v (v.m_pTrackedObjectsPerSource.Put
              (t0.Update f.frame_num o.rect_params s.nowMs))))) ∨
    ((CrossOdeTrigger.CheckForOccurrence s v f o).1 = true ∧
      s.m_pOdeAreasIndexed ≠ [] ∧
      ∃ t0 u, v.m_pTrackedObjectsPerSource.GetObject f.source_id o.object_id = some t0 ∧
        u = t0.Update f.frame_num o.rect_params s.nowMs ∧
        v.m_minTracePoints ≤ u.Size ∧ u.GetTriggered = false ∧
        (∃ a ∈ s.m_pOdeAreasIndexed,
          a.2.CheckForCross (u.GetTrace a.2.bboxTestPoint v.m_testMethod) = true) ∧
        (CrossOdeTrigger.CheckForOccurrence s v f o).2.variant =
          CrossOdeTrigger.withStore v
            ((v.m_pTrackedObjectsPerSource.Put u).Put u.SetTriggered) ∧
        (CrossOdeTrigger.CheckForOccurrence s v f o).2.m_triggered = s.m_triggered + 1 ∧
        actionLog (CrossOdeTrigger.CheckForOccurrence s v f o).2.log =
          actionLog s.log ++ s.m_pOdeActionsIndexed.map
            (fun a => Effect.HandleOccurrence a.2.name f (some o))) := by
  have hs1 := CheckForSourceId_same s f.source_id
  have hs2 := SameCore_trans hs1
    (CheckForMinCriteria_same (CheckForSourceId s f.source_id).2 f o)
  have ha1 := CheckForSourceId_actionLog s f.source_id
  have ha2 := (CheckForMinCriteria_actionLog (CheckForSourceId s f.source_id).2 f o).trans ha1
  unfold CrossOdeTrigger.CheckForOccurrence
  dsimp only
  by_cases h0 : s.m_pOdeAreasIndexed.length = 0
  · rw [if_pos h0]
    exact Or.inl ⟨rfl, rfl, rfl, Or.inl hv⟩
  rw [if_neg h0]
  have hne : s.m_pOdeAreasIndexed ≠ [] := fun h => h0 (by rw [h]; rfl)
  by_cases h1 : (!(CheckForSourceId s f.source_id).1) = true
  · rw [if_pos h1]
    exact Or.inl ⟨rfl, hs1.m_triggered, ha1, Or.inl (hs1.variant.trans hv)⟩
  rw [if_neg h1]
  by_cases h2 : (!(CheckForMinCriteria (CheckForSourceId s f.source_id).2 f o).1) = true
  · rw [if_pos h2]
    exact Or.inl ⟨rfl, hs2.m_triggered, ha2, Or.inl (hs2.variant.trans hv)⟩
  rw [if_neg h2]
  have g1 := hs2.m_triggered
  have g2 := hs2.variant
  have g3 := hs2.m_pOdeActionsIndexed
  have g4 := hs2.m_pOdeAreasIndexed
  have g5 := hs2.nowMs
  generalize (CheckForMinCriteria (CheckForSourceId s f.source_id).2 f o).2 = g at *
  by_cases h3 : (!v.m_pTrackedObjectsPerSource.IsTracked f.source_id o.object_id) = true
  · rw [if_pos h3]
    refine Or.inl ⟨rfl, g1, ha2, Or.inr (Or.inl ⟨by simpa using h3, ?_⟩)⟩
    rw [← g5]
    rfl
  rw [if_neg h3]
  cases hget : v.m_pTrackedObjectsPerSource.GetObject f.source_id o.object_id with
  | none =>
    exact Or.inl ⟨rfl, g1, ha2, Or.inl (g2.trans hv)⟩
  | some t0 =>
    dsimp only
    generalize hu : t0.Update f.frame_num o.rect_params g.nowMs = u
    have hu' : u = t0.Update f.frame_num o.rect_params s.nowMs := by rw [← hu, g5]
    generalize hw : Variant.Cross { v with
      m_pTrackedObjectsPerSource := v.m_pTrackedObjectsPerSource.Put u } = w
    have hloop := CrossOdeTrigger_AreaLoop_cases
      { v with m_pTrackedObjectsPerSource := v.m_pTrackedObjectsPerSource.Put u } u f o
      g.m_pOdeAreasIndexed { g with variant := w }
    rcases hloop with ⟨p1, p2, p3, p4⟩ | ⟨p1, p2, p3, p4, p5, p6, p7⟩
    · refine Or.inl ⟨p1, p3.trans g1, p4.trans ha2, Or.inr (Or.inr ⟨t0, rfl, ?_⟩)⟩
      rw [p2, ← hw, ← hu']
      rfl
    · rw [g4] at p4
      exact Or.inr ⟨p1, hne, t0, u, rfl, hu', p2, p3, p4, p5, p6.trans (by rw [← g1]),
        by rw [p7]; show actionLog g.log ++ List.map _ g.m_pOdeActionsIndexed = _; rw [ha2, g3]⟩

/-- The virtual `PostProcessFrame` of a Cross trigger. -/
theorem Trigger_PostProcessFrame_Cross (s : OdeTrigger) (v : CrossState)
    (f : NvDsFrameMeta) (hv : s.variant = Variant.Cross v) :
    Trigger.PostProcessFrame s f = CrossOdeTrigger.PostProcessFrame s v f := by
  unfold Trigger.PostProcessFrame
  rw [hv]

/-- What a `CheckForOccurrence` call does to the latches of the object `objectId` of the
source `sourceId`, for a Cross trigger. The trigger stays a Cross trigger. If the object is
tracked with its latches set, the latches stay set and a call for that object returns
false. If a call for that object returns true, the object is tracked with its latches set
afterwards. -/
theorem Cross_check_latches (s : OdeTrigger) (v : CrossState) (f : NvDsFrameMeta)
    (o : NvDsObjectMeta) (sourceId : Int) (objectId : Nat)
    (hv : s.variant = Variant.Cross v) :
    ∃ v', (Trigger.CheckForOccurrence s f o).2.variant = Variant.Cross v' ∧
      (latched v.m_pTrackedObjectsPerSource.objects sourceId objectId →
        (v.m_pTrackedObjectsPerSource.GetObject sourceId objectId).isSome = true →
        latched v'.m_pTrackedObjectsPerSource.objects sourceId objectId ∧
        (f.source_id = sourceId → o.object_id = objectId →
          (Trigger.CheckForOccurrence s f o).1 = false)) ∧
      (f.source_id = sourceId → o.object_id = objectId →
        (Trigger.CheckForOccurrence s f o).1 = true →
        latched v'.m_pTrackedObjectsPerSource.objects sourceId objectId ∧
        (v'.m_pTrackedObjectsPerSource.GetObject sourceId objectId).isSome = true) := by
  rw [Trigger_CheckForOccurrence_Cross s v f o hv]
  rcases CrossOdeTrigger_CheckForOccurrence_cases s v f o hv with
    ⟨r1, -, -, hcase⟩ | ⟨r1, -, t0, u, hget, hu, -, hlatch, -, hvar, -, -⟩
  · have hno : f.source_id = sourceId → o.object_id = objectId →
        (CrossOdeTrigger.CheckForOccurrence s v f o).1 = true → False := by
      intro _ _ h
      rw [r1] at h
      exact absurd h (by simp)
    rcases hcase with hvar | ⟨hnt, hvar⟩ | ⟨t0, hget, hvar⟩
    · exact ⟨v, hvar, fun hl _ => ⟨hl, fun _ _ => r1⟩,
        fun h1 h2 h3 => (hno h1 h2 h3).elim⟩
    · refine ⟨_, hvar, fun hl ht => ⟨?_, fun _ _ => r1⟩,
        fun h1 h2 h3 => (hno h1 h2 h3).elim⟩
      refine latched_Track _ f o s.nowMs sourceId objectId hl ?_
      rintro ⟨h1, h2⟩
      rw [IsTracked_eq_isSome_GetObject, h1, h2, ht] at hnt
      exact absurd hnt (by simp)
    · obtain ⟨hm, hk1, hk2⟩ := GetObject_some _ _ _ _ hget
      refine ⟨_, hvar, fun hl _ => ⟨?_, fun _ _ => r1⟩,
        fun h1 h2 h3 => (hno h1 h2 h3).elim⟩
      refine latched_Put _ _ sourceId objectId ?_ (fun _ => hl)
      intro h1 h2
      exact hl t0 hm h1 h2
  · obtain ⟨hm, hk1, hk2⟩ := GetObject_some _ _ _ _ hget
    have hus : u.sourceId = f.source_id := by rw [hu]; exact hk1
    have huo : u.objectId = o.object_id := by rw [hu]; exact hk2
    have hut : u.triggered = t0.triggered := by rw [hu]; rfl
    refine ⟨_, hvar, ?_, ?_⟩
    · intro hl _
      have hkey : ¬ (f.source_id = sourceId ∧ o.object_id = objectId) := by
        rintro ⟨h1, h2⟩
        have := hl t0 hm (hk1.trans h1) (hk2.trans h2)
        rw [← hut] at this
        have hl' : u.triggered = false := hlatch
        rw [this] at hl'
        exact absurd hl' (by simp)
      refine ⟨?_, fun h1 h2 => absurd ⟨h1, h2⟩ hkey⟩
      have hku : ¬ (u.sourceId = sourceId ∧ u.objectId = objectId) := by
        rw [hus, huo]
        exact hkey
      refine latched_Put _ _ sourceId objectId (fun h1 h2 => absurd ⟨h1, h2⟩ hku) ?_
      intro _
      exact latched_Put _ _ sourceId objectId (fun h1 h2 => absurd ⟨h1, h2⟩ hku)
        (fun _ => hl)
    · intro h1 h2 _
      refine ⟨latched_Put _ _ sourceId objectId (fun _ _ => rfl) ?_, ?_⟩
      · intro hn
        exact absurd ⟨hus.trans h1, huo.trans h2⟩ hn
      · have e1 : (v.m_pTrackedObjectsPerSource.Put u).GetObject u.sourceId u.objectId =
            some u := GetObject_Put _ u t0 (by rw [hus, huo]; exact hget)
        have e2 := GetObject_Put (v.m_pTrackedObjectsPerSource.Put u) u.SetTriggered u e1
        have e3 : ((v.m_pTrackedObjectsPerSource.Put u).Put u.SetTriggered).GetObject
            sourceId objectId = some u.SetTriggered := by
          rw [← h1, ← h2, ← hus, ← huo]
          exact e2
        show (((v.m_pTrackedObjectsPerSource.Put u).Put u.SetTriggered).GetObject
          sourceId objectId).isSome = true
        rw [e3]
        rfl

/-- A per-frame call other than `CheckForOccurrence` leaves a Cross trigger a Cross
trigger and the latches of an object set. -/
theorem Cross_step_other (s : OdeTrigger) (v : CrossState) (c : Call) (sourceId : Int)
    (objectId : Nat) (hv : s.variant = Variant.Cross v) (hc : frameCallsOnly s c)
    (hn : ∀ f o, c ≠ Call.CheckForOccurrence f o) :
    ∃ v', (step s c).variant = Variant.Cross v' ∧
      (latched v.m_pTrackedObjectsPerSource.objects sourceId objectId →
        latched v'.m_pTrackedObjectsPerSource.objects sourceId objectId) := by
  cases c with
  | PreProcessFrame f =>
    have h : step s (Call.PreProcessFrame f) = OdeTrigger.PreProcessFrame s f := by
      show Trigger.PreProcessFrame s f = _
      unfold Trigger.PreProcessFrame
      rw [hv]
    exact ⟨v, by rw [h]; exact (PreProcessFrame_variant s f).1.trans hv, fun hl => hl⟩
  | CheckForOccurrence f o => exact absurd rfl (hn f o)
  | PostProcessFrame f =>
    have h : step s (Call.PostProcessFrame f) = (CrossOdeTrigger.PostProcessFrame s v f).2 := by
      show (Trigger.PostProcessFrame s f).2 = _
      rw [Trigger_PostProcessFrame_Cross s v f hv]
    rw [h]
    unfold CrossOdeTrigger.PostProcessFrame
    split_ifs
    · exact ⟨v, hv, fun hl => hl⟩
    · exact ⟨v, hv, fun hl => hl⟩
    · exact ⟨_, rfl, fun hl => latched_Purge _ _ sourceId objectId hl⟩
  | Tick ms => exact ⟨v, hv, fun hl => hl⟩
  | Reset => exact absurd hc (by simp [frameCallsOnly])
  | SetLimit l => exact absurd hc (by simp [frameCallsOnly])
  | SetResetTimeout t => exact absurd hc (by simp [frameCallsOnly])
  | Timeout id => exact absurd hc (by simp [frameCallsOnly])

/-- The tracked object of a Cross trigger is the one its store finds. -/
theorem CrossOdeTrigger_tracked_eq (s : OdeTrigger) (v : CrossState) (sourceId : Int)
    (objectId : Nat) (hv : s.variant = Variant.Cross v) :
    CrossOdeTrigger.tracked s sourceId objectId =
      v.m_pTrackedObjectsPerSource.GetObject sourceId objectId := by
  unfold CrossOdeTrigger.tracked
  rw [hv]

/-- The events of a run that starts with a call other than `CheckForOccurrence`. -/
theorem CrossOdeTrigger_events_other (s : OdeTrigger) (c : Call) (rest : List Call)
    (sourceId : Int) (objectId : Nat) (hn : ∀ f o, c ≠ Call.CheckForOccurrence f o) :
    CrossOdeTrigger.events sourceId objectId s (c :: rest) =
      CrossOdeTrigger.events sourceId objectId (step s c) rest := by
  cases c with
  | CheckForOccurrence f o => exact absurd rfl (hn f o)
  | PreProcessFrame f => rfl
  | PostProcessFrame f => rfl
  | Tick ms => rfl
  | Reset => rfl
  | SetLimit l => rfl
  | SetResetTimeout t => rfl
  | Timeout id => rfl

/-- Over the per-frame calls of any number of frames, a Cross trigger produces no event
for an object that is tracked with its latches set and stays tracked, and at most one
event for an object that stays tracked once it is. -/
theorem Cross_run_events (sourceId : Int) (objectId : Nat) (calls : List Call) :
    ∀ (s : OdeTrigger) (v : CrossState), s.variant = Variant.Cross v →
    Admissible frameCallsOnly s calls →
    CrossOdeTrigger.staysTracked sourceId objectId s calls →
    (latched v.m_pTrackedObjectsPerSource.objects sourceId objectId →
      (v.m_pTrackedObjectsPerSource.GetObject sourceId objectId).isSome = true →
      CrossOdeTrigger.events sourceId objectId s calls = 0) ∧
    CrossOdeTrigger.events sourceId objectId s calls ≤ 1 := by
  induction calls with
  | nil =>
    intro s v _ _ _
    exact ⟨fun _ _ => rfl, Nat.zero_le 1⟩
  | cons c calls ih =>
    intro s v hv ha hst
    obtain ⟨hc, ha'⟩ := ha
    obtain ⟨hkeep, hst'⟩ := hst
    rw [CrossOdeTrigger_tracked_eq s v sourceId objectId hv] at hkeep
    by_cases hchk : ∃ f o, c = Call.CheckForOccurrence f o
    · obtain ⟨f, o, rfl⟩ := hchk
      obtain ⟨v', hv', k1, k2⟩ := Cross_check_latches s v f o sourceId objectId hv
      have hv'' : (step s (Call.CheckForOccurrence f o)).variant = Variant.Cross v' := hv'
      rw [CrossOdeTrigger_tracked_eq _ v' sourceId objectId hv''] at hkeep
      obtain ⟨i1, i2⟩ := ih _ v' hv'' ha' hst'
      have hev : CrossOdeTrigger.events sourceId objectId s
          (Call.CheckForOccurrence f o :: calls) =
          (if f.source_id = sourceId ∧ o.object_id = objectId ∧
            (Trigger.CheckForOccurrence s f o).1 = true then 1 else 0) +
          CrossOdeTrigger.events sourceId objectId (step s (Call.CheckForOccurrence f o))
            calls := rfl
      rw [hev]
      refine ⟨?_, ?_⟩
      · intro hl ht
        obtain ⟨l1, l2⟩ := k1 hl ht
        rw [if_neg, i1 l1 (hkeep ht)]
        rintro ⟨h1, h2, h3⟩
        rw [l2 h1 h2] at h3
        exact absurd h3 (by simp)
      · by_cases hcond : f.source_id = sourceId ∧ o.object_id = objectId ∧
            (Trigger.CheckForOccurrence s f o).1 = true
        · rw [if_pos hcond]
          obtain ⟨l1, l2⟩ := k2 hcond.1 hcond.2.1 hcond.2.2
          rw [i1 l1 l2]
        · rw [if_neg hcond, Nat.zero_add]
          exact i2
    · have hn : ∀ f o, c ≠ Call.CheckForOccurrence f o := fun f o h => hchk ⟨f, o, h⟩
      obtain ⟨v', hv', k1⟩ := Cross_step_other s v c sourceId objectId hv hc hn
      rw [CrossOdeTrigger_tracked_eq _ v' sourceId objectId hv'] at hkeep
      obtain ⟨i1, i2⟩ := ih _ v' hv' ha' hst'
      rw [CrossOdeTrigger_events_other s c calls sourceId objectId hn]
      exact ⟨fun hl ht => i1 (k1 hl) (hkeep ht), i2⟩

/-- The calls of any number of frames are per-frame calls. -/
theorem Admissible_frames (frames : List (NvDsFrameMeta × List NvDsObjectMeta))
    (s : OdeTrigger) :
    Admissible frameCallsOnly s (frames.flatMap (fun p => frameCalls p.1 p.2)) := by
  refine Admissible_frameCallsOnly _ s ?_ s
  intro c hc
  obtain ⟨p, -, hp⟩ := List.mem_flatMap.1 hc
  unfold frameCalls at hp
  rcases List.mem_cons.1 hp with rfl | hp
  · trivial
  · rcases List.mem_append.1 hp with hp | hp
    · obtain ⟨o, -, rfl⟩ := List.mem_map.1 hp
      trivial
    · rw [List.mem_singleton.1 hp]
      trivial

/-- C27: for a Cross trigger. `CheckForOccurrence` returns true only when at least one
Area is attached, the object is tracked, its track `u`, updated for the frame, has at least
`m_minTracePoints` points, its latch is clear, and an Area reports a cross for the trace of
`u`; it then counts one event, invokes every Action once with the object, and leaves the
object tracked with its latch set. Hence over the per-frame calls of any number of frames
an object produces at most one event for as long as it stays tracked once it is (it is not
purged and the store is not cleared), whatever its trace does. With no Area attached
`CheckForOccurrence` returns false and changes no state. -/
theorem Cross_fires_once_per_tracked_object (s : OdeTrigger) (v : CrossState)
    (f : NvDsFrameMeta) (o : NvDsObjectMeta) (sourceId : Int) (objectId : Nat)
    (calls : List Call) (hv : s.variant = Variant.Cross v) :
    ((Trigger.CheckForOccurrence s f o).1 = true →
      s.m_pOdeAreasIndexed ≠ [] ∧
      ∃ t0 u, v.m_pTrackedObjectsPerSource.GetObject f.source_id o.object_id = some t0 ∧
        u = t0.Update f.frame_num o.rect_params s.nowMs ∧
        v.m_minTracePoints ≤ u.Size ∧ t0.GetTriggered = false ∧ u.GetTriggered = false ∧
        (∃ a ∈ s.m_pOdeAreasIndexed,
          a.2.CheckForCross (u.GetTrace a.2.bboxTestPoint v.m_testMethod) = true) ∧
        CrossOdeTrigger.tracked (Trigger.CheckForOccurrence s f o).2 f.source_id
          o.object_id = some u.SetTriggered ∧
        u.SetTriggered.GetTriggered = true ∧
        (Trigger.CheckForOccurrence s f o).2.m_triggered = s.m_triggered + 1 ∧
        actionLog (Trigger.CheckForOccurrence s f o).2.log =
          actionLog s.log ++ s.m_pOdeActionsIndexed.map
            (fun a => Effect.HandleOccurrence a.2.name f (some o))) ∧
    (Admissible frameCallsOnly s calls →
      CrossOdeTrigger.staysTracked sourceId objectId s calls →
      CrossOdeTrigger.events sourceId objectId s calls ≤ 1) ∧
    (s.m_pOdeAreasIndexed = [] → Trigger.CheckForOccurrence s f o = (false, s)) := by
  refine ⟨?_, fun ha hst => (Cross_run_events sourceId objectId calls s v hv ha hst).2, ?_⟩
  · intro hfire
    rw [Trigger_CheckForOccurrence_Cross s v f o hv] at hfire ⊢
    rcases CrossOdeTrigger_CheckForOccurrence_cases s v f o hv with
      ⟨r1, -⟩ | ⟨-, hne, t0, u, hget, hu, hsize, hlatch, hcross, hvar, htrig, hlog⟩
    · rw [r1] at hfire
      exact absurd hfire (by simp)
    · obtain ⟨-, hk1, hk2⟩ := GetObject_some _ _ _ _ hget
      have hus : u.sourceId = f.source_id := by rw [hu]; exact hk1
      have huo : u.objectId = o.object_id := by rw [hu]; exact hk2
      have hut : t0.GetTriggered = u.GetTriggered := by rw [hu]; rfl
      have e1 : (v.m_pTrackedObjectsPerSource.Put u).GetObject u.sourceId u.objectId =
          some u := GetObject_Put _ u t0 (by rw [hus, huo]; exact hget)
      have e2 := GetObject_Put (v.m_pTrackedObjectsPerSource.Put u) u.SetTriggered u e1
      have e3 : CrossOdeTrigger.tracked (CrossOdeTrigger.CheckForOccurrence s v f o).2
          f.source_id o.object_id = some u.SetTriggered := by
        rw [CrossOdeTrigger_tracked_eq _ _ _ _ hvar, ← hus, ← huo]
        exact e2
      exact ⟨hne, t0, u, hget, hu, hsize, hut.trans hlatch, hlatch, hcross, e3, rfl, htrig,
        hlog⟩
  · intro h0
    rw [Trigger_CheckForOccurrence_Cross s v f o hv]
    unfold CrossOdeTrigger.CheckForOccurrence
    rw [if_pos (by rw [h0]; rfl)]

/-- Witness for C27: the example Cross trigger with one line Area and at least 3 trace
points, given the example object in the frames 1 to 6, its trace crossing the line from
the fourth frame on: no event up to the third frame, one event with the check of the
fourth frame, which counts one event, and one event in all after the sixth frame. Without
the Area the check of an object changes nothing. -/
theorem Cross_fires_once_per_tracked_object_witness :
    CrossOdeTrigger.events 0 7 exampleCross (exampleCrossCalls.take 10) = 0 ∧
    CrossOdeTrigger.events 0 7 exampleCross (exampleCrossCalls.take 11) = 1 ∧
    CrossOdeTrigger.events 0 7 exampleCross exampleCrossCalls = 1 ∧
    CrossOdeTrigger.events 0 7 exampleCross exampleCrossCalls ≤ 1 ∧
    (Trigger.CheckForOccurrence (run exampleCross (exampleCrossCalls.take 10))
      (exampleFrameAt 4) exampleObject).2.m_triggered = 1 ∧
    Trigger.CheckForOccurrence (OdeTrigger.RemoveAllAreas exampleCross) exampleFrame
      exampleObject = (false, OdeTrigger.RemoveAllAreas exampleCross) :=
  ⟨by decide!, by decide!, by decide!,
   (Cross_fires_once_per_tracked_object exampleCross
      { m_pTrackedObjectsPerSource := { maxHistory := 10, objects := [] }
        m_minTracePoints := 3
        m_maxTracePoints := 10
        m_traceEnabled := false
        m_testMethod := 1
        m_traceLineWidth := 0 }
      exampleFrame exampleObject 0 7 exampleCrossCalls rfl).2.1
      (Admissible_frames _ _) (by decide!),
   (match (Cross_fires_once_per_tracked_object
      (run exampleCross (exampleCrossCalls.take 10))
      { m_pTrackedObjectsPerSource := { maxHistory := 10, objects := [
          { sourceId := 0, objectId := 7, creationTimeMs := 0,
            trace := [{ frame_num := 1, rect := exampleObject.rect_params, timeMs := 0 },
              { frame_num := 2, rect := exampleObject.rect_params, timeMs := 0 },
              { frame_num := 3, rect := exampleObject.rect_params, timeMs := 0 }],
            frameNumber := 3, triggered := false, maxHistory := 10 }] }
        m_minTracePoints := 3
        m_maxTracePoints := 10
        m_traceEnabled := false
        m_testMethod := 1
        m_traceLineWidth := 0 }
      (exampleFrameAt 4) exampleObject 0 7 [] rfl).1 (by decide!) with
    | ⟨_, _, _, _, _, _, _, _, _, _, _, ht, _⟩ => ht.trans (by decide!)),
   (Cross_fires_once_per_tracked_object (OdeTrigger.RemoveAllAreas exampleCross)
      { m_pTrackedObjectsPerSource := { maxHistory := 10, objects := [] }
        m_minTracePoints := 3
        m_maxTracePoints := 10
        m_traceEnabled := false
        m_testMethod := 1
        m_traceLineWidth := 0 }
      exampleFrame exampleObject 0 7 [] rfl).2.2 rfl⟩

/-- C31, at a failing input: the example heat mapper handles two occurrences of the
example object. The counters of the heat map then sum to 2, the number of occurrences
handled, and `m_totalOccurrences` is still 0, as the constructor set it. -/
theorem HeatMapper_totalOccurrences_stays_zero :
    runHeat exampleHeatMapper
      [HeatCall.HandleOccurrence exampleFrame exampleObject,
       HeatCall.HandleOccurrence exampleFrame exampleObject] =
      some { exampleHeatMapper with
        m_gridRectWidth := 640, m_gridRectHeight := 360,
        m_heatMap := [[2, 0], [0, 0]], m_mostOccurrences := 2, m_totalOccurrences := 0 } ∧
    OdeHeatMapper.heatSum { exampleHeatMapper with
        m_gridRectWidth := 640, m_gridRectHeight := 360,
        m_heatMap := [[2, 0], [0, 0]], m_mostOccurrences := 2, m_totalOccurrences := 0 } =
      2 := by
  decide!

/-- C32, at a failing input: the example heat mapper handles two occurrences of the
example object and is then reset. `Reset` zeroes every counter and keeps the dimensions
of the grid, and `m_mostOccurrences` is still 2 while the greatest counter is 0. -/
theorem HeatMapper_Reset_keeps_mostOccurrences :
    runHeat exampleHeatMapper
      [HeatCall.HandleOccurrence exampleFrame exampleObject,
       HeatCall.HandleOccurrence exampleFrame exampleObject,
       HeatCall.Reset] =
      some { exampleHeatMapper with
        m_gridRectWidth := 640, m_gridRectHeight := 360,
        m_heatMap := [[0, 0], [0, 0]], m_mostOccurrences := 2 } ∧
    OdeHeatMapper.heatMax { exampleHeatMapper with
        m_gridRectWidth := 640, m_gridRectHeight := 360,
        m_heatMap := [[0, 0], [0, 0]], m_mostOccurrences := 2 } = 0 := by
  decide!

/-- C33, at a failing input: the example heat mapper (2 columns, 2 rows) gets the example
frame (1280 by 720, so that the grid rectangles are 640 by 360) and the object whose
south-east point is the corner `(1280, 720)` of the frame. The column and the row
computed are 2 and 2, one past the last column and row, there is no counter at that
position, and `HandleOccurrence` writes outside the heat map. -/
theorem HeatMapper_HandleOccurrence_indexes_past_grid :
    getCoordinate exampleHeatMapper.m_bboxTestPoint exampleCornerObject.rect_params =
      some { x := 1280, y := 720 } ∧
    OdeHeatMapper.initGrid exampleHeatMapper exampleFrame =
      some { exampleHeatMapper with m_gridRectWidth := 640, m_gridRectHeight := 360 } ∧
    OdeHeatMapper.position
      { exampleHeatMapper with m_gridRectWidth := 640, m_gridRectHeight := 360 }
      { x := 1280, y := 720 } = some (2, 2) ∧
    OdeHeatMapper.cell exampleHeatMapper 2 2 = none ∧
    OdeHeatMapper.HandleOccurrence exampleHeatMapper exampleFrame exampleCornerObject =
      none := by
  decide!

/-- The initialization of the grid changes the two grid dimensions only. -/
theorem initGrid_some (s g : OdeHeatMapper) (f : NvDsFrameMeta)
    (h : OdeHeatMapper.initGrid s f = some g) :
    g.m_heatMap = s.m_heatMap ∧ g.m_rows = s.m_rows ∧ g.m_cols = s.m_cols ∧
    g.m_mostOccurrences = s.m_mostOccurrences ∧
    g.m_totalOccurrences = s.m_totalOccurrences ∧
    g.m_bboxTestPoint = s.m_bboxTestPoint := by
  unfold OdeHeatMapper.initGrid at h
  split_ifs at h with h1 h2
  · rw [← Option.some.inj h]
    exact ⟨rfl, rfl, rfl, rfl, rfl, rfl⟩
  · rw [← Option.some.inj h]
    exact ⟨rfl, rfl, rfl, rfl, rfl, rfl⟩

/-- What a `HandleOccurrence` call that returns has done: the counter at the computed
position, which is inside the heat map, is one higher, and `m_mostOccurrences` is the
greater of its old value and the new count. -/
theorem HandleOccurrence_some (s s' : OdeHeatMapper) (f : NvDsFrameMeta) (o : NvDsObjectMeta)
    (h : OdeHeatMapper.HandleOccurrence s f o = some s') :
    ∃ (g : OdeHeatMapper) (c : dsl_coordinate) (col row : Nat) (cells : List Nat)
        (count : Nat),
      OdeHeatMapper.initGrid s f = some g ∧
      getCoordinate g.m_bboxTestPoint o.rect_params = some c ∧
      OdeHeatMapper.position g c = some (col, row) ∧
      g.m_heatMap[row]? = some cells ∧ cells[col]? = some count ∧
      s' = { g with
        m_heatMap := g.m_heatMap.set row (cells.set col (count + 1))
        m_mostOccurrences := max g.m_mostOccurrences (count + 1) } := by
  unfold OdeHeatMapper.HandleOccurrence at h
  split at h
  · exact absurd h (by simp)
  · rename_i g hg
    split at h
    · exact absurd h (by simp)
    · rename_i c hc
      split at h
      · exact absurd h (by simp)
      · rename_i col row hp
        split at h
        · exact absurd h (by simp)
        · rename_i cells hcells
          split at h
          · exact absurd h (by simp)
          · rename_i count hcount
            refine ⟨g, c, col, row, cells, count, hg, hc, hp, hcells, hcount, ?_⟩
            dsimp only at h
            split_ifs at h with hm
            · rw [← Option.some.inj h, max_eq_right (Nat.le_of_lt hm)]
            · rw [← Option.some.inj h, max_eq_left (Nat.le_of_not_lt hm)]

/-- The constructor establishes the invariant. -/
theorem HeatInv_new (name : String) (cols rows bboxTestPoint : Nat) :
    HeatInv (OdeHeatMapper.new name cols rows bboxTestPoint) := by
  refine ⟨?_, ?_, ?_, rfl⟩
  · exact List.length_replicate _ _
  · intro cells hc
    rw [(List.mem_replicate.1 hc).2]
    exact List.length_replicate _ _
  · intro cells hc count hn
    rw [(List.mem_replicate.1 hc).2] at hn
    rw [(List.mem_replicate.1 hn).2]
    exact Nat.zero_le _

/-- `HandleOccurrence` keeps the invariant. -/
theorem HeatInv_HandleOccurrence (s s' : OdeHeatMapper) (f : NvDsFrameMeta)
    (o : NvDsObjectMeta) (hi : HeatInv s)
    (h : OdeHeatMapper.HandleOccurrence s f o = some s') : HeatInv s' := by
  obtain ⟨g, c, col, row, cells, count, hg, _, _, hcells, hcount, rfl⟩ :=
    HandleOccurrence_some s s' f o h
  obtain ⟨g1, g2, g3, g4, g5, _⟩ := initGrid_some s g f hg
  have hmem : cells ∈ s.m_heatMap := by
    rw [← g1]
    exact List.getElem?_mem hcells
  refine ⟨?_, ?_, ?_, ?_⟩
  · show (g.m_heatMap.set row (cells.set col (count + 1))).length = g.m_rows
    rw [List.length_set, g1, g2]
    exact hi.rows
  · intro cells' hc
    show cells'.length = g.m_cols
    rw [g3]
    rcases List.mem_or_eq_of_mem_set hc with hc | hc
    · rw [g1] at hc
      exact hi.cols cells' hc
    · rw [hc, List.length_set]
      exact hi.cols cells hmem
  · intro cells' hc count' hn
    show count' ≤ max g.m_mostOccurrences (count + 1)
    rw [g4]
    rcases List.mem_or_eq_of_mem_set hc with hc | hc
    · rw [g1] at hc
      exact Nat.le_trans (hi.most cells' hc count' hn) (le_max_left _ _)
    · rw [hc] at hn
      rcases List.mem_or_eq_of_mem_set hn with hn | hn
      · exact Nat.le_trans (hi.most cells hmem count' hn) (le_max_left _ _)
      · rw [hn]
        exact le_max_right _ _
  · show g.m_totalOccurrences = 0
    rw [g5]
    exact hi.total

/-- `Reset` keeps the invariant. -/
theorem HeatInv_Reset (s : OdeHeatMapper) (hi : HeatInv s) :
    HeatInv (OdeHeatMapper.Reset s) := by
  refine ⟨?_, ?_, ?_, hi.total⟩
  · show (s.m_heatMap.map (fun row => row.map (fun _ => 0))).length = s.m_rows
    rw [List.length_map]
    exact hi.rows
  · intro cells hc
    obtain ⟨old, ho, rfl⟩ := List.mem_map.1 hc
    show (old.map (fun _ => 0)).length = s.m_cols
    rw [List.length_map]
    exact hi.cols old ho
  · intro cells hc count hn
    obtain ⟨old, _, rfl⟩ := List.mem_map.1 hc
    obtain ⟨_, _, rfl⟩ := List.mem_map.1 hn
    exact Nat.zero_le _

/-- The invariant holds in every state a heat mapper reaches from one in which it
holds. -/
theorem HeatInv_runHeat (calls : List HeatCall) :
    ∀ (s s' : OdeHeatMapper), HeatInv s → runHeat s calls = some s' → HeatInv s' := by
  induction calls with
  | nil =>
    intro s s' hi h
    rw [← Option.some.inj h]
    exact hi
  | cons c rest ih =>
    intro s s' hi h
    unfold runHeat at h
    split at h
    · exact absurd h (by simp)
    · rename_i t ht
      refine ih t s' ?_ h
      cases c with
      | HandleOccurrence f o => exact HeatInv_HandleOccurrence s t f o hi ht
      | Reset =>
        rw [← Option.some.inj ht]
        exact HeatInv_Reset s hi

/-- Under the invariant no counter of the heat map is above `m_mostOccurrences`. -/
theorem cell_le_mostOccurrences (s : OdeHeatMapper) (hi : HeatInv s) (i j count : Nat)
    (h : OdeHeatMapper.cell s i j = some count) : count ≤ s.m_mostOccurrences := by
  unfold OdeHeatMapper.cell at h
  split at h
  · exact absurd h (by simp)
  · rename_i cells hc
    exact hi.most cells (List.getElem?_mem hc) count (List.getElem?_mem h)

/-- Under the invariant every position of the grid is inside the heat map. -/
theorem cell_isSome (s : OdeHeatMapper) (hi : HeatInv s) (i j : Nat) (hr : i < s.m_rows)
    (hc : j < s.m_cols) : (OdeHeatMapper.cell s i j).isSome = true := by
  unfold OdeHeatMapper.cell
  have h1 : i < s.m_heatMap.length := by rw [hi.rows]; exact hr
  rw [List.getElem?_eq_getElem h1]
  have h2 : j < (s.m_heatMap[i]).length := by
    rw [hi.cols _ (List.getElem_mem h1)]
    exact hc
  show ((s.m_heatMap[i])[j]?).isSome = true
  rw [List.getElem?_eq_getElem h2]
  rfl

/-- A count of at least 2 read with default 0 is the count of a counter. -/
theorem cell_getD_ge_two (s : OdeHeatMapper) (i j : Nat)
    (h : 2 ≤ (OdeHeatMapper.cell s i j).getD 0) :
    ∃ count, OdeHeatMapper.cell s i j = some count ∧ 2 ≤ count := by
  cases hc : OdeHeatMapper.cell s i j with
  | none =>
    rw [hc] at h
    exact absurd h (by decide)
  | some count =>
    rw [hc] at h
    exact ⟨count, rfl, h⟩

/-- The palette index of a count that is not above a non-zero `m_mostOccurrences` is at
most 10. -/
theorem paletteIndex_le_ten (count most : Nat) (h : count ≤ most) (hm : most ≠ 0) :
    roundToUint ((count : ℚ) * 10 / (most : ℚ)) ≤ 10 := by
  unfold roundToUint
  have hpos : (0 : ℚ) < (most : ℚ) := by exact_mod_cast Nat.pos_of_ne_zero hm
  have hle : (count : ℚ) ≤ (most : ℚ) := by exact_mod_cast h
  have hq : (count : ℚ) * 10 / (most : ℚ) ≤ 10 := by
    rw [div_le_iff₀ hpos]
    linarith
  have h0 : (0 : ℚ) ≤ (count : ℚ) * 10 / (most : ℚ) := by positivity
  rw [if_pos h0, Int.toNat_le]
  have hlt : ⌊(count : ℚ) * 10 / (most : ℚ) + 1 / 2⌋ < 11 :=
    Int.floor_lt.2 (by push_cast; linarith)
  have hge : 0 ≤ ⌊(count : ℚ) * 10 / (most : ℚ) + 1 / 2⌋ :=
    Int.floor_nonneg.2 (by linarith)
  have : ((10 : ℕ) : ℤ) = 10 := rfl
  omega

/-- A `filterMap` that keeps the elements satisfying `p`, mapped by `f`. -/
theorem filterMap_eq_map_filter {α β : Type} (p : α → Bool) (f : α → β) (g : α → Option β) :
    ∀ l : List α, (∀ a ∈ l, p a = true → g a = some (f a)) →
      (∀ a ∈ l, p a = false → g a = none) → l.filterMap g = (l.filter p).map f := by
  intro l
  induction l with
  | nil => intro _ _; rfl
  | cons a l ih =>
    intro h1 h2
    have ih := ih (fun b hb => h1 b (List.mem_cons_of_mem _ hb))
      (fun b hb => h2 b (List.mem_cons_of_mem _ hb))
    cases hp : p a with
    | true =>
      rw [List.filterMap_cons_some (h1 a (List.mem_cons_self _ _) hp),
        List.filter_cons_of_pos hp, List.map_cons, ih]
    | false =>
      rw [List.filterMap_cons_none (h2 a (List.mem_cons_self _ _) hp),
        List.filter_cons_of_neg (by rw [hp]; exact Bool.false_ne_true), ih]

/-- The cells drawn are those of the grid with a count of at least 2. -/
theorem mem_drawnCells (s : OdeHeatMapper) (i j : Nat) :
    (i, j) ∈ OdeHeatMapper.drawnCells s ↔
      i < s.m_rows ∧ j < s.m_cols ∧ 2 ≤ (OdeHeatMapper.cell s i j).getD 0 := by
  unfold OdeHeatMapper.drawnCells
  rw [List.mem_flatMap]
  constructor
  · rintro ⟨i', hi', hm⟩
    obtain ⟨j', hj', he⟩ := List.mem_map.1 hm
    have e1 : i' = i := congrArg Prod.fst he
    have e2 : j' = j := congrArg Prod.snd he
    subst e1 e2
    obtain ⟨hj1, hj2⟩ := List.mem_filter.1 hj'
    exact ⟨List.mem_range.1 hi', List.mem_range.1 hj1, of_decide_eq_true hj2⟩
  · rintro ⟨hr, hc, h2⟩
    exact ⟨i, List.mem_range.2 hr, List.mem_map.2
      ⟨j, List.mem_filter.2 ⟨List.mem_range.2 hc, decide_eq_true h2⟩, rfl⟩⟩

/-- No cell is drawn twice. -/
theorem drawnCells_nodup (s : OdeHeatMapper) : (OdeHeatMapper.drawnCells s).Nodup := by
  unfold OdeHeatMapper.drawnCells
  rw [List.nodup_flatMap]
  constructor
  · intro i _
    refine List.Nodup.map ?_ (List.Nodup.filter _ (List.nodup_range _))
    intro a b hab
    exact congrArg Prod.snd hab
  · refine List.Pairwise.imp ?_ (List.nodup_range s.m_rows)
    intro a b hab p hpa hpb
    obtain ⟨_, _, rfl⟩ := List.mem_map.1 hpa
    obtain ⟨_, _, he⟩ := List.mem_map.1 hpb
    exact hab (congrArg Prod.fst he).symm

/-- C34: in every state a heat mapper reaches from its construction through
`HandleOccurrence` and `Reset` calls, `AddDisplayMeta` adds exactly the filled rectangles
of the cells drawn, row by row, each at `(j*gridRectWidth, i*gridRectHeight)` with size
`gridRectWidth` by `gridRectHeight` and with the palette index
`round(count*10 / mostOccurrences)`; no cell is drawn twice; the cells drawn are the cells
of the grid with a count of at least 2 (every position of the grid is inside the heat
map); and for every cell drawn `mostOccurrences` is not 0 and the palette index is at
most 10. -/
theorem AddDisplayMeta_draws_cells_with_count_of_two (name : String)
    (cols rows bboxTestPoint : Nat) (calls : List HeatCall) (s : OdeHeatMapper)
    (h : runHeat (OdeHeatMapper.new name cols rows bboxTestPoint) calls = some s) :
    OdeHeatMapper.AddDisplayMeta s =
      (OdeHeatMapper.drawnCells s).map (OdeHeatMapper.cellRectangle s) ∧
    (OdeHeatMapper.drawnCells s).Nodup ∧
    (∀ i j, (i, j) ∈ OdeHeatMapper.drawnCells s ↔
      i < s.m_rows ∧ j < s.m_cols ∧
        ∃ count, OdeHeatMapper.cell s i j = some count ∧ 2 ≤ count) ∧
    (∀ i j, i < s.m_rows → j < s.m_cols → (OdeHeatMapper.cell s i j).isSome = true) ∧
    ∀ p ∈ OdeHeatMapper.drawnCells s,
      s.m_mostOccurrences ≠ 0 ∧
      ∃ k, (OdeHeatMapper.cellRectangle s p).index = some k ∧ k ≤ 10 := by
  have hi : HeatInv s := HeatInv_runHeat calls _ s (HeatInv_new name cols rows bboxTestPoint) h
  have hmost : ∀ i j, 2 ≤ (OdeHeatMapper.cell s i j).getD 0 →
      (OdeHeatMapper.cell s i j).getD 0 ≤ s.m_mostOccurrences ∧ s.m_mostOccurrences ≠ 0 := by
    intro i j h2
    obtain ⟨count, hc, hc2⟩ := cell_getD_ge_two s i j h2
    have hle := cell_le_mostOccurrences s hi i j count hc
    rw [hc]
    exact ⟨hle, by show s.m_mostOccurrences ≠ 0; omega⟩
  refine ⟨?_, drawnCells_nodup s, ?_, fun i j hr hc => cell_isSome s hi i j hr hc, ?_⟩
  · unfold OdeHeatMapper.AddDisplayMeta OdeHeatMapper.drawnCells
    rw [List.map_flatMap]
    refine List.flatMap_congr ?_
    intro i _
    rw [List.map_map]
    refine filterMap_eq_map_filter
      (fun j => decide (2 ≤ (OdeHeatMapper.cell s i j).getD 0)) _ _ _ ?_ ?_
    · intro j _ hp
      have h2 : 2 ≤ (OdeHeatMapper.cell s i j).getD 0 := of_decide_eq_true hp
      have hm := (hmost i j h2).2
      dsimp only
      rw [if_pos (show (OdeHeatMapper.cell s i j).getD 0 > 1 from h2)]
      unfold OdeHeatMapper.paletteIndex
      rw [if_neg hm]
      rfl
    · intro j _ hp
      have h2 : ¬ 2 ≤ (OdeHeatMapper.cell s i j).getD 0 := of_decide_eq_false hp
      dsimp only
      rw [if_neg (show ¬ (OdeHeatMapper.cell s i j).getD 0 > 1 from h2)]
  · intro i j
    rw [mem_drawnCells]
    constructor
    · rintro ⟨hr, hc, h2⟩
      exact ⟨hr, hc, cell_getD_ge_two s i j h2⟩
    · rintro ⟨hr, hc, count, he, h2⟩
      refine ⟨hr, hc, ?_⟩
      rw [he]
      exact h2
  · rintro ⟨i, j⟩ hp
    have h2 := ((mem_drawnCells s i j).1 hp).2.2
    obtain ⟨hle, hm⟩ := hmost i j h2
    exact ⟨hm, _, rfl, paletteIndex_le_ten _ _ hle hm⟩

/-- C34, witness: the example heat mapper after four occurrences in the top left cell, a
`Reset`, three occurrences in the top left cell and two in the top right cell. The counts
are 3 and 2 with 4 as most occurrences, and `AddDisplayMeta` adds two rectangles of 640 by
360, at `(0, 0)` with palette index `round(30/4) = 8` and at `(640, 0)` with palette
index `round(20/4) = 5`. -/
theorem AddDisplayMeta_draws_cells_with_count_of_two_witness :
    runHeat (OdeHeatMapper.new "map" 2 2 DSL_BBOX_POINT_SOUTH_EAST) exampleHeatCalls =
      some exampleHeated ∧
    OdeHeatMapper.AddDisplayMeta exampleHeated =
      [{ index := some 8, left := 0, top := 0, width := 640, height := 360,
         hasBgColor := true },
       { index := some 5, left := 640, top := 0, width := 640, height := 360,
         hasBgColor := true }] ∧
    OdeHeatMapper.drawnCells exampleHeated = [(0, 0), (0, 1)] :=
  ⟨by decide!,
   (AddDisplayMeta_draws_cells_with_count_of_two "map" 2 2 DSL_BBOX_POINT_SOUTH_EAST
      exampleHeatCalls exampleHeated (by decide!)).1.trans (by decide!),
   by decide⟩

/-- C35, at a failing input: the Actions `"print"` and `"log"` are attached to the
trigger `"one"` (indices 1 and 2) and then to the trigger `"two"` in the other order,
which gives `"log"` the index 1 and `"print"` the index 2; then `"print"` is removed from
`"one"`. The trigger `"one"` erases the name `"print"` from its by-name map and the index
2, the one `"print"` now carries, from its by-index map: its by-name map holds `"log"`
and its by-index map holds `"print"`, the child just removed, which the next event still
invokes. The maps of the trigger `"two"` agree. -/
theorem RemoveAction_of_shared_child_splits_maps :
    (mapFind (runRegistry exampleRegistry exampleRegistryCalls).triggers "one").map
      (fun s => (attachedActionNames s, indexedActionNames s)) =
      some (["log"], ["print"]) ∧
    (mapFind (runRegistry exampleRegistry exampleRegistryCalls).triggers "one").map
      (fun s => actionLog
        (OccurrenceOdeTrigger.CheckForOccurrence s exampleFrame exampleObject).2.log) =
      some [Effect.HandleOccurrence "print" exampleFrame
        (some { exampleObject with primary_metric := 1 })] ∧
    (mapFind (runRegistry exampleRegistry exampleRegistryCalls).triggers "two").map
      (fun s => (attachedActionNames s, indexedActionNames s)) =
      some (["log", "print"], ["log", "print"]) := by
  decide

/-- From a trigger without children, when each `RemoveAction` and `RemoveArea` call is
handed the attached child (carrying the index the trigger gave it), the names of the
children in the by-index maps, which the per-frame code iterates, are pairwise
distinct. -/
theorem indexed_names_unique_when_attached_child_removed (s0 : OdeTrigger)
    (calls : List ChildCall) (h1 : s0.m_pOdeActions = []) (h2 : s0.m_pOdeActionsIndexed = [])
    (h3 : s0.m_pOdeAreas = []) (h4 : s0.m_pOdeAreasIndexed = [])
    (hadm : AdmissibleChildren removesAttachedChild s0 calls) :
    (indexedActionNames (runChildren s0 calls)).Nodup ∧
    ((runChildren s0 calls).m_pOdeAreasIndexed.map (fun p => p.2.name)).Nodup := by
  have ha0 : ChildrenInv OdeAction.name OdeAction.index s0.m_pOdeActions
      s0.m_pOdeActionsIndexed s0.m_nextActionIndex [] := by
    rw [h1, h2]; exact ChildrenInv_nil _ _ _
  have hr0 : ChildrenInv OdeArea.name OdeArea.index s0.m_pOdeAreas
      s0.m_pOdeAreasIndexed s0.m_nextAreaIndex [] := by
    rw [h3, h4]; exact ChildrenInv_nil _ _ _
  obtain ⟨ha, hr⟩ := runChildren_ChildrenInv calls s0 [] [] ha0 hr0 hadm
  constructor
  · have e := ha.order
    have n := ha.nodup
    rw [← e] at n
    exact n
  · have e := hr.order
    have n := hr.nodup
    rw [← e] at n
    exact n

/-- C13, at a failing input: the Action `"print"` is attached to the triggers `"one"`
(index 1) and `"two"`, removed from `"two"`, which sets its index to 0, and then from
`"one"`, which erases the name `"print"` from its by-name map and the index 0 from its
by-index map, where `"print"` stays under the index 1; then `"print"` is attached to
`"one"` again, under the index 2. The by-name map of `"one"` holds `"print"` once; its
by-index map, which the per-frame code iterates, holds `"print"` twice, and one event
invokes the Action twice. -/
theorem shared_child_attached_twice :
    (mapFind (runRegistry exampleRegistry exampleReattachCalls).triggers "one").map
      (fun s => (attachedActionNames s, indexedActionNames s,
        s.m_pOdeActionsIndexed.map Prod.fst)) =
      some (["print"], ["print", "print"], [1, 2]) ∧
    ¬ (indexedActionNames ((mapFind (runRegistry exampleRegistry
      exampleReattachCalls).triggers "one").getD (exampleOccurrence 1))).Nodup ∧
    (mapFind (runRegistry exampleRegistry exampleReattachCalls).triggers "one").map
      (fun s => actionLog
        (OccurrenceOdeTrigger.CheckForOccurrence s exampleFrame exampleObject).2.log) =
      some [Effect.HandleOccurrence "print" exampleFrame
              (some { exampleObject with primary_metric := 1 }),
            Effect.HandleOccurrence "print" exampleFrame
              (some { exampleObject with primary_metric := 1 })] := by
  refine ⟨by decide, ?_, by decide⟩
  have e : indexedActionNames ((mapFind (runRegistry exampleRegistry
      exampleReattachCalls).triggers "one").getD (exampleOccurrence 1)) =
      ["print", "print"] := by decide
  rw [e]
  decide

/-- In states with the same filter settings, limit and count of events,
`CheckForMinCriteria` decides alike. -/
theorem CheckForMinCriteria_congr {s t : OdeTrigger} (h : SameFilters s t)
    (hl : t.m_limit = s.m_limit) (ht : t.m_triggered = s.m_triggered) (f : NvDsFrameMeta)
    (o : NvDsObjectMeta) :
    (CheckForMinCriteria t f o).1 = (CheckForMinCriteria s f o).1 := by
  have e1 := sourceAccepts_congr h f
  unfold sourceAccepts at e1
  have e2 : (CheckForInferId t o.unique_component_id).1 =
      (CheckForInferId s o.unique_component_id).1 := by
    rw [CheckForInferId_fst, CheckForInferId_fst, h.m_infer, h.InferIdGet,
      effective_id_cached (s.InferIdGet s.m_infer) s.m_inferId t.m_inferId h.m_inferId]
  rw [Bool.eq_iff_iff, CheckForMinCriteria_fst_iff, CheckForMinCriteria_fst_iff, e1, e2, hl,
    ht, h.m_skipFrame, h.m_classId, h.m_minConfidence, h.m_minWidth, h.m_minHeight,
    h.m_maxWidth, h.m_maxHeight, h.m_inferDoneOnly]

/-- Assigning the same class id to two states with the same filter settings gives states
with the same filter settings. -/
theorem SameFilters_setClassId {s t : OdeTrigger} (h : SameFilters s t) (c : Nat) :
    SameFilters { s with m_classId := c } { t with m_classId := c } :=
  ⟨h.m_skipFrame, h.m_source, h.SourceIdGet, h.m_infer, h.InferIdGet, rfl, h.m_minConfidence,
   h.m_minWidth, h.m_minHeight, h.m_maxWidth, h.m_maxHeight, h.m_inferDoneOnly,
   h.m_pOdeAreasIndexed, h.m_sourceId, h.m_inferId⟩

/-- A class id assigned before another one is discarded. -/
theorem SameFilters_of_setClassId {s t : OdeTrigger} (c d : Nat)
    (h : SameFilters { s with m_classId := c } t) :
    SameFilters { s with m_classId := d } { t with m_classId := d } :=
  ⟨h.m_skipFrame, h.m_source, h.SourceIdGet, h.m_infer, h.InferIdGet, rfl, h.m_minConfidence,
   h.m_minWidth, h.m_minHeight, h.m_maxWidth, h.m_maxHeight, h.m_inferDoneOnly,
   h.m_pOdeAreasIndexed, h.m_sourceId, h.m_inferId⟩

/-- The gates of `ABOdeTrigger::CheckForOccurrence` for a class id, evaluated in a state
with the filter settings, the limit and the count of events of `s`. -/
theorem ABOdeTrigger_passes_congr (s t : OdeTrigger) (c : Nat) (f : NvDsFrameMeta)
    (o : NvDsObjectMeta) (h : SameFilters { s with m_classId := c } t)
    (hl : t.m_limit = s.m_limit) (ht : t.m_triggered = s.m_triggered) :
    ((CheckForMinCriteria t f o).1 = true ∧ CheckForWithin (CheckForMinCriteria t f o).2 o = true)
      ↔ ABOdeTrigger.passes s c f o = true := by
  have e1 := CheckForMinCriteria_congr h hl ht f o
  have e2 : CheckForWithin (CheckForMinCriteria t f o).2 o = CheckForWithin s o := by
    unfold CheckForWithin
    rw [CheckForMinCriteria_m_pOdeAreasIndexed, h.m_pOdeAreasIndexed]
  unfold ABOdeTrigger.passes
  rw [e1, e2, Bool.and_eq_true]

/-- Replacing the members of the concrete class keeps the filter settings. -/
theorem SameFilters_setVariant {s t : OdeTrigger} (h : SameFilters s t) (w : Variant) :
    SameFilters s { t with variant := w } :=
  ⟨h.m_skipFrame, h.m_source, h.SourceIdGet, h.m_infer, h.InferIdGet, h.m_classId,
   h.m_minConfidence, h.m_minWidth, h.m_minHeight, h.m_maxWidth, h.m_maxHeight,
   h.m_inferDoneOnly, h.m_pOdeAreasIndexed, h.m_sourceId, h.m_inferId⟩

/-- The four outcomes of `ABOdeTrigger::CheckForOccurrence` on an enabled trigger whose
source filter accepts the frame: the object passes the gates under class id A and is
queued in list A; or it fails them and only class id A is tested; or it passes the gates
under class id B and is queued in list B; or it fails them too. The state left has the
filter settings of `s` with the class id last assigned. -/
theorem ABOdeTrigger_CheckForOccurrence_cases (s : OdeTrigger) (ab : ABState)
    (put : ABState → Variant) (f : NvDsFrameMeta) (o : NvDsObjectMeta)
    (he : s.m_enabled = true) (ha : sourceAccepts s f = true) :
    (ABOdeTrigger.passes s ab.m_classIdA f o = true →
      (ABOdeTrigger.CheckForOccurrence s ab put f o).1 = true ∧
      (ABOdeTrigger.CheckForOccurrence s ab put f o).2.variant =
        put { ab with m_occurrenceMetaListA := ab.m_occurrenceMetaListA ++ [o] } ∧
      SameFilters { s with m_classId := ab.m_classIdA }
        (ABOdeTrigger.CheckForOccurrence s ab put f o).2) ∧
    (ABOdeTrigger.passes s ab.m_classIdA f o = false → ab.m_classIdAOnly = true →
      (ABOdeTrigger.CheckForOccurrence s ab put f o).1 = false ∧
      (ABOdeTrigger.CheckForOccurrence s ab put f o).2.variant = s.variant ∧
      SameFilters { s with m_classId := ab.m_classIdA }
        (ABOdeTrigger.CheckForOccurrence s ab put f o).2) ∧
    (ABOdeTrigger.passes s ab.m_classIdA f o = false → ab.m_classIdAOnly = false →
      ABOdeTrigger.passes s ab.m_classIdB f o = true →
      (ABOdeTrigger.CheckForOccurrence s ab put f o).1 = true ∧
      (ABOdeTrigger.CheckForOccurrence s ab put f o).2.variant =
        put { ab with m_occurrenceMetaListB := ab.m_occurrenceMetaListB ++ [o] } ∧
      SameFilters { s with m_classId := ab.m_classIdB }
        (ABOdeTrigger.CheckForOccurrence s ab put f o).2) ∧
    (ABOdeTrigger.passes s ab.m_classIdA f o = false → ab.m_classIdAOnly = false →
      ABOdeTrigger.passes s ab.m_classIdB f o = false →
      (ABOdeTrigger.CheckForOccurrence s ab put f o).1 = false ∧
      (ABOdeTrigger.CheckForOccurrence s ab put f o).2.variant = s.variant ∧
      SameFilters { s with m_classId := ab.m_classIdB }
        (ABOdeTrigger.CheckForOccurrence s ab put f o).2) := by
  unfold sourceAccepts at ha
  unfold ABOdeTrigger.CheckForOccurrence
  dsimp only
  rw [if_neg (by rw [he]; simp), if_neg (by rw [ha]; simp)]
  have hst := CheckForSourceId_SameFilters s f.source_id
  have hl : (CheckForSourceId s f.source_id).2.m_limit = s.m_limit := by simp
  have ht : (CheckForSourceId s f.source_id).2.m_triggered = s.m_triggered := by simp
  have hv : (CheckForSourceId s f.source_id).2.variant = s.variant := by simp
  generalize (CheckForSourceId s f.source_id).2 = t at *
  -- the state in which the gates are evaluated under class id A
  have h1 := SameFilters_setClassId hst ab.m_classIdA
  have hl1 : ({ t with m_classId := ab.m_classIdA } : OdeTrigger).m_limit = s.m_limit := hl
  have ht1 : ({ t with m_classId := ab.m_classIdA } : OdeTrigger).m_triggered =
      s.m_triggered := ht
  have hv1 : ({ t with m_classId := ab.m_classIdA } : OdeTrigger).variant = s.variant := hv
  generalize ({ t with m_classId := ab.m_classIdA } : OdeTrigger) = s1 at *
  have pA := ABOdeTrigger_passes_congr s s1 ab.m_classIdA f o h1 hl1 ht1
  have h1' := SameFilters_trans h1 (CheckForMinCriteria_SameFilters s1 f o)
  have hl1' : (CheckForMinCriteria s1 f o).2.m_limit = s.m_limit := by simp [hl1]
  have ht1' : (CheckForMinCriteria s1 f o).2.m_triggered = s.m_triggered := by simp [ht1]
  have hv1' : (CheckForMinCriteria s1 f o).2.variant = s.variant := by simp [hv1]
  generalize CheckForMinCriteria s1 f o = r1 at *
  -- the state in which the gates are evaluated under class id B
  have h2 := SameFilters_of_setClassId ab.m_classIdA ab.m_classIdB h1'
  have hl2 : ({ r1.2 with m_classId := ab.m_classIdB } : OdeTrigger).m_limit = s.m_limit :=
    hl1'
  have ht2 : ({ r1.2 with m_classId := ab.m_classIdB } : OdeTrigger).m_triggered =
      s.m_triggered := ht1'
  have hv2 : ({ r1.2 with m_classId := ab.m_classIdB } : OdeTrigger).variant = s.variant :=
    hv1'
  generalize ({ r1.2 with m_classId := ab.m_classIdB } : OdeTrigger) = s2 at *
  have pB := ABOdeTrigger_passes_congr s s2 ab.m_classIdB f o h2 hl2 ht2
  have h2' := SameFilters_trans h2 (CheckForMinCriteria_SameFilters s2 f o)
  have hv2' : (CheckForMinCriteria s2 f o).2.variant = s.variant := by simp [hv2]
  generalize CheckForMinCriteria s2 f o = r2 at *
  refine ⟨?_, ?_, ?_, ?_⟩
  · intro hp
    rw [if_pos (pA.2 hp)]
    exact ⟨rfl, rfl, SameFilters_setVariant h1' _⟩
  · intro hp hA
    rw [if_neg (fun h => by rw [pA.1 h] at hp; exact Bool.noConfusion hp),
      if_neg (by rw [hA]; simp)]
    exact ⟨rfl, hv1', h1'⟩
  · intro hp hA hq
    rw [if_neg (fun h => by rw [pA.1 h] at hp; exact Bool.noConfusion hp),
      if_pos (by rw [hA]; simp), if_pos (pB.2 hq)]
    exact ⟨rfl, rfl, SameFilters_setVariant h2' _⟩
  · intro hp hA hq
    rw [if_neg (fun h => by rw [pA.1 h] at hp; exact Bool.noConfusion hp),
      if_pos (by rw [hA]; simp),
      if_neg (fun h => by rw [pB.1 h] at hq; exact Bool.noConfusion hq)]
    exact ⟨rfl, hv2', h2'⟩

/-- A list is not itself with one more element. -/
theorem ne_append_singleton {α : Type} (l : List α) (a : α) : l ≠ l ++ [a] := by
  intro h
  have := congrArg List.length h
  rw [List.length_append, List.length_singleton] at this
  omega

/-- What `ABOdeTrigger::CheckForOccurrence` does to the two lists of an enabled trigger
whose source filter accepts the frame (for any concrete class `put`). -/
theorem ABOdeTrigger_CheckForOccurrence_lists (s : OdeTrigger) (ab : ABState)
    (put : ABState → Variant) (f : NvDsFrameMeta) (o : NvDsObjectMeta)
    (hput : ∀ x, (put x).abMembers = some x) (hv : s.variant = put ab)
    (he : s.m_enabled = true) (ha : sourceAccepts s f = true)
    (hA : ab.m_classIdAOnly = decide (ab.m_classIdA = ab.m_classIdB)) :
    ∃ ab', ABOdeTrigger.members (ABOdeTrigger.CheckForOccurrence s ab put f o).2 = some ab' ∧
      ab'.m_classIdA = ab.m_classIdA ∧ ab'.m_classIdB = ab.m_classIdB ∧
      ab'.m_classIdAOnly = ab.m_classIdAOnly ∧
      ab'.m_occurrenceMetaListA = ab.m_occurrenceMetaListA ++
        (if ABOdeTrigger.passes s ab.m_classIdA f o = true then [o] else []) ∧
      ab'.m_occurrenceMetaListB = ab.m_occurrenceMetaListB ++
        (if ab.m_classIdA ≠ ab.m_classIdB ∧ ABOdeTrigger.passes s ab.m_classIdA f o = false ∧
            ABOdeTrigger.passes s ab.m_classIdB f o = true then [o] else []) ∧
      (ab'.m_occurrenceMetaListA = ab.m_occurrenceMetaListA ∨
        ab'.m_occurrenceMetaListB = ab.m_occurrenceMetaListB) ∧
      (ab.m_classIdA = ab.m_classIdB →
        ab'.m_occurrenceMetaListB = ab.m_occurrenceMetaListB) ∧
      ((ABOdeTrigger.CheckForOccurrence s ab put f o).1 = true ↔
        (ab'.m_occurrenceMetaListA = ab.m_occurrenceMetaListA ++ [o] ∨
         ab'.m_occurrenceMetaListB = ab.m_occurrenceMetaListB ++ [o])) := by
  obtain ⟨c1, c2, c3, c4⟩ := ABOdeTrigger_CheckForOccurrence_cases s ab put f o he ha
  have hAB : ab.m_classIdAOnly = true ↔ ab.m_classIdA = ab.m_classIdB := by
    rw [hA, decide_eq_true_iff]
  unfold ABOdeTrigger.members
  cases hp : ABOdeTrigger.passes s ab.m_classIdA f o with
  | true =>
    obtain ⟨r1, r2, -⟩ := c1 hp
    rw [r1, r2, hput]
    refine ⟨_, rfl, rfl, rfl, rfl, ?_, ?_, Or.inr rfl, fun _ => rfl, ?_⟩
    · rw [if_pos rfl]
    · rw [if_neg (fun h => Bool.noConfusion h.2.1), List.append_nil]
    · exact ⟨fun _ => Or.inl rfl, fun _ => rfl⟩
  | false =>
    cases hO : ab.m_classIdAOnly with
    | true =>
      obtain ⟨r1, r2, -⟩ := c2 hp hO
      rw [r1, r2, hv, hput]
      refine ⟨_, rfl, rfl, rfl, hO, ?_, ?_, Or.inl rfl, fun _ => rfl, ?_⟩
      · rw [if_neg Bool.false_ne_true, List.append_nil]
      · rw [if_neg (fun h => h.1 (hAB.1 hO)), List.append_nil]
      · constructor
        · intro h; exact Bool.noConfusion h
        · rintro (h | h)
          · exact absurd h (ne_append_singleton _ _)
          · exact absurd h (ne_append_singleton _ _)
    | false =>
      have hne : ab.m_classIdA ≠ ab.m_classIdB := by
        intro h
        rw [hAB.2 h] at hO
        exact Bool.noConfusion hO
      cases hq : ABOdeTrigger.passes s ab.m_classIdB f o with
      | true =>
        obtain ⟨r1, r2, -⟩ := c3 hp hO hq
        rw [r1, r2, hput]
        refine ⟨_, rfl, rfl, rfl, hO, ?_, ?_, Or.inl rfl, fun h => absurd h hne, ?_⟩
        · rw [if_neg Bool.false_ne_true, List.append_nil]
        · rw [if_pos ⟨hne, rfl, rfl⟩]
        · exact ⟨fun _ => Or.inr rfl, fun _ => rfl⟩
      | false =>
        obtain ⟨r1, r2, -⟩ := c4 hp hO hq
        rw [r1, r2, hv, hput]
        refine ⟨_, rfl, rfl, rfl, hO, ?_, ?_, Or.inl rfl, fun _ => rfl, ?_⟩
        · rw [if_neg Bool.false_ne_true, List.append_nil]
        · rw [if_neg (fun h => Bool.noConfusion h.2.2), List.append_nil]
        · constructor
          · intro h; exact Bool.noConfusion h
          · rintro (h | h)
            · exact absurd h (ne_append_singleton _ _)
            · exact absurd h (ne_append_singleton _ _)

/-- The virtual `CheckForOccurrence` of a Distance or Intersection trigger is
`ABOdeTrigger::CheckForOccurrence`. -/
theorem Trigger_CheckForOccurrence_AB (s : OdeTrigger) (ab : ABState)
    (hv : ABOdeTrigger.members s = some ab) (f : NvDsFrameMeta) (o : NvDsObjectMeta) :
    ∃ put : ABState → Variant, (∀ x, (put x).abMembers = some x) ∧ s.variant = put ab ∧
      Trigger.CheckForOccurrence s f o = ABOdeTrigger.CheckForOccurrence s ab put f o := by
  unfold ABOdeTrigger.members at hv
  unfold Trigger.CheckForOccurrence
  cases hs : s.variant with
  | Distance ab0 v =>
    rw [hs] at hv
    have e : ab0 = ab := Option.some.inj hv
    subst e
    exact ⟨fun x => Variant.Distance x v, fun _ => rfl, rfl, rfl⟩
  | Intersection ab0 =>
    rw [hs] at hv
    have e : ab0 = ab := Option.some.inj hv
    subst e
    exact ⟨Variant.Intersection, fun _ => rfl, rfl, rfl⟩
  | _ =>
    rw [hs] at hv
    exact absurd hv (by simp [Variant.abMembers])

/-- C36: for an enabled Distance or Intersection trigger whose source filter accepts the
frame (`m_classIdAOnly` being, as the constructor and `SetClassIdAB` compute it, whether
the two class ids are equal), `CheckForOccurrence` appends the object to list A iff it
passes the min-criteria and area gates with the class filter set to class id A, and to
list B iff the class ids differ, it fails those gates under class id A and passes them
under class id B; it is never appended to both, list B stays as it was when the class ids
are equal, and the call returns true iff the object was appended to a list. -/
theorem AB_CheckForOccurrence_partitions_objects_by_class (s : OdeTrigger) (ab : ABState)
    (f : NvDsFrameMeta) (o : NvDsObjectMeta)
    (hv : ABOdeTrigger.members s = some ab) (he : s.m_enabled = true)
    (ha : sourceAccepts s f = true)
    (hA : ab.m_classIdAOnly = decide (ab.m_classIdA = ab.m_classIdB)) :
    ∃ ab', ABOdeTrigger.members (Trigger.CheckForOccurrence s f o).2 = some ab' ∧
      ab'.m_classIdA = ab.m_classIdA ∧ ab'.m_classIdB = ab.m_classIdB ∧
      ab'.m_classIdAOnly = ab.m_classIdAOnly ∧
      ab'.m_occurrenceMetaListA = ab.m_occurrenceMetaListA ++
        (if ABOdeTrigger.passes s ab.m_classIdA f o = true then [o] else []) ∧
      ab'.m_occurrenceMetaListB = ab.m_occurrenceMetaListB ++
        (if ab.m_classIdA ≠ ab.m_classIdB ∧ ABOdeTrigger.passes s ab.m_classIdA f o = false ∧
            ABOdeTrigger.passes s ab.m_classIdB f o = true then [o] else []) ∧
      (ab'.m_occurrenceMetaListA = ab.m_occurrenceMetaListA ∨
        ab'.m_occurrenceMetaListB = ab.m_occurrenceMetaListB) ∧
      (ab.m_classIdA = ab.m_classIdB →
        ab'.m_occurrenceMetaListB = ab.m_occurrenceMetaListB) ∧
      ((Trigger.CheckForOccurrence s f o).1 = true ↔
        (ab'.m_occurrenceMetaListA = ab.m_occurrenceMetaListA ++ [o] ∨
         ab'.m_occurrenceMetaListB = ab.m_occurrenceMetaListB ++ [o])) := by
  obtain ⟨put, hput, hs, e⟩ := Trigger_CheckForOccurrence_AB s ab hv f o
  rw [e]
  exact ABOdeTrigger_CheckForOccurrence_lists s ab put f o hput hs he ha hA

/-- C36, witness: the example Distance trigger for class ids 2 and 3 gets an object of
class 3, which fails the gates under class id 2 and passes them under class id 3: it is
appended to list B, list A stays empty and the call returns true. -/
theorem AB_CheckForOccurrence_partitions_objects_by_class_witness :
    sourceAccepts exampleDistanceAB exampleFrame = true ∧
    ABOdeTrigger.passes exampleDistanceAB 2 exampleFrame exampleObjectClass3 = false ∧
    ABOdeTrigger.passes exampleDistanceAB 3 exampleFrame exampleObjectClass3 = true ∧
    ∃ ab', ABOdeTrigger.members
        (Trigger.CheckForOccurrence exampleDistanceAB exampleFrame exampleObjectClass3).2 =
        some ab' ∧
      ab'.m_occurrenceMetaListA = [] ∧ ab'.m_occurrenceMetaListB = [exampleObjectClass3] ∧
      (Trigger.CheckForOccurrence exampleDistanceAB exampleFrame exampleObjectClass3).1 =
        true :=
  ⟨by decide, by decide, by decide,
   (AB_CheckForOccurrence_partitions_objects_by_class exampleDistanceAB
      { m_classIdA := 2, m_classIdB := 3, m_classIdAOnly := false,
        m_occurrenceMetaListA := [], m_occurrenceMetaListB := [] }
      exampleFrame exampleObjectClass3 rfl rfl (by decide) rfl).imp
     (fun _ h => ⟨h.1, h.2.2.2.2.1.trans (by decide), h.2.2.2.2.2.1.trans (by decide),
       h.2.2.2.2.2.2.2.2.2 (Or.inr (h.2.2.2.2.2.1.trans (by decide)))⟩)⟩

/-- The source filter does not read the class id. -/
theorem sourceAccepts_SetClassId (s : OdeTrigger) (c : Nat) (f : NvDsFrameMeta) :
    sourceAccepts (OdeTrigger.SetClassId s c) f = sourceAccepts s f := by
  unfold sourceAccepts
  rw [CheckForSourceId_fst, CheckForSourceId_fst]
  rfl

/-- The class id `ABOdeTrigger::CheckForOccurrence` leaves in an enabled trigger whose
source filter accepts the frame, with the other filter settings as they were. -/
theorem ABOdeTrigger_CheckForOccurrence_classId (s : OdeTrigger) (ab : ABState)
    (put : ABState → Variant) (f : NvDsFrameMeta) (o : NvDsObjectMeta)
    (he : s.m_enabled = true) (ha : sourceAccepts s f = true)
    (hA : ab.m_classIdAOnly = decide (ab.m_classIdA = ab.m_classIdB)) :
    ∃ classId : Nat,
      classId = (if ABOdeTrigger.passes s ab.m_classIdA f o = true ∨
          ab.m_classIdA = ab.m_classIdB then ab.m_classIdA else ab.m_classIdB) ∧
      (ABOdeTrigger.CheckForOccurrence s ab put f o).2.m_classId = classId ∧
      SameFilters { s with m_classId := classId }
        (ABOdeTrigger.CheckForOccurrence s ab put f o).2 := by
  obtain ⟨c1, c2, c3, c4⟩ := ABOdeTrigger_CheckForOccurrence_cases s ab put f o he ha
  have hAB : ab.m_classIdAOnly = true ↔ ab.m_classIdA = ab.m_classIdB := by
    rw [hA, decide_eq_true_iff]
  cases hp : ABOdeTrigger.passes s ab.m_classIdA f o with
  | true =>
    obtain ⟨-, -, r3⟩ := c1 hp
    exact ⟨ab.m_classIdA, by rw [if_pos (Or.inl rfl)], r3.m_classId, r3⟩
  | false =>
    cases hO : ab.m_classIdAOnly with
    | true =>
      obtain ⟨-, -, r3⟩ := c2 hp hO
      exact ⟨ab.m_classIdA, by rw [if_pos (Or.inr (hAB.1 hO))], r3.m_classId, r3⟩
    | false =>
      have hne : ab.m_classIdA ≠ ab.m_classIdB := by
        intro h
        rw [hAB.2 h] at hO
        exact Bool.noConfusion hO
      have hif : ¬ (false = true ∨ ab.m_classIdA = ab.m_classIdB) := by
        rintro (h | h)
        · exact Bool.noConfusion h
        · exact hne h
      cases hq : ABOdeTrigger.passes s ab.m_classIdB f o with
      | true =>
        obtain ⟨-, -, r3⟩ := c3 hp hO hq
        exact ⟨ab.m_classIdB, by rw [if_neg hif], r3.m_classId, r3⟩
      | false =>
        obtain ⟨-, -, r3⟩ := c4 hp hO hq
        exact ⟨ab.m_classIdB, by rw [if_neg hif], r3.m_classId, r3⟩

/-- C40: for an enabled Distance or Intersection trigger whose source filter accepts the
frame, whatever class id `c` was set through `SetClassId` before, after
`CheckForOccurrence` the class id of the trigger is class id A if the object passed the
gates under class id A or the two class ids are equal, and class id B otherwise, and the
other filter settings are as they were (an id may have been cached). -/
theorem AB_CheckForOccurrence_overwrites_classId (s : OdeTrigger) (ab : ABState)
    (f : NvDsFrameMeta) (o : NvDsObjectMeta) (c : Nat)
    (hv : ABOdeTrigger.members s = some ab) (he : s.m_enabled = true)
    (ha : sourceAccepts s f = true)
    (hA : ab.m_classIdAOnly = decide (ab.m_classIdA = ab.m_classIdB)) :
    ∃ classId : Nat,
      classId = (if ABOdeTrigger.passes s ab.m_classIdA f o = true ∨
          ab.m_classIdA = ab.m_classIdB then ab.m_classIdA else ab.m_classIdB) ∧
      (Trigger.CheckForOccurrence (OdeTrigger.SetClassId s c) f o).2.m_classId = classId ∧
      SameFilters { s with m_classId := classId }
        (Trigger.CheckForOccurrence (OdeTrigger.SetClassId s c) f o).2 := by
  obtain ⟨put, -, -, e⟩ := Trigger_CheckForOccurrence_AB (OdeTrigger.SetClassId s c) ab hv f o
  rw [e]
  have ha' : sourceAccepts (OdeTrigger.SetClassId s c) f = true := by
    rw [sourceAccepts_SetClassId]
    exact ha
  obtain ⟨classId, h1, h2, h3⟩ :=
    ABOdeTrigger_CheckForOccurrence_classId (OdeTrigger.SetClassId s c) ab put f o he ha' hA
  exact ⟨classId, h1, h2, h3⟩

/-- C40, witness: the example Distance trigger for class ids 2 and 3, with the class id 7
set through `SetClassId`, gets an object of class 3: after the call its class id is 3. -/
theorem AB_CheckForOccurrence_overwrites_classId_witness :
    sourceAccepts exampleDistanceAB exampleFrame = true ∧
    (OdeTrigger.SetClassId exampleDistanceAB 7).m_classId = 7 ∧
    (Trigger.CheckForOccurrence (OdeTrigger.SetClassId exampleDistanceAB 7) exampleFrame
      exampleObjectClass3).2.m_classId = 3 :=
  ⟨by decide, rfl,
   (AB_CheckForOccurrence_overwrites_classId exampleDistanceAB
      { m_classIdA := 2, m_classIdB := 3, m_classIdAOnly := false,
        m_occurrenceMetaListA := [], m_occurrenceMetaListB := [] }
      exampleFrame exampleObjectClass3 7 rfl rfl (by decide) rfl).elim
     (fun _ h => h.2.1.trans (h.1.trans (by decide)))⟩

/-- The timer `IncrementAndCheckTriggerCount` schedules when the incremented count has
reached the limit: with a reset timeout set, one new timer whose handle is stored;
without one, none. -/
theorem IncrementAndCheckTriggerCount_timers (s : OdeTrigger)
    (h : s.m_limit ≤ s.m_triggered + 1) :
    (s.m_resetTimeout ≠ 0 →
      (IncrementAndCheckTriggerCount s).timers =
        s.timers ++ [(s.lastSourceId + 1, 1000 * s.m_resetTimeout % 2 ^ 32)] ∧
      (IncrementAndCheckTriggerCount s).m_resetTimerId = s.lastSourceId + 1) ∧
    (s.m_resetTimeout = 0 →
      (IncrementAndCheckTriggerCount s).timers = s.timers ∧
      (IncrementAndCheckTriggerCount s).m_resetTimerId = s.m_resetTimerId) ∧
    (IncrementAndCheckTriggerCount s).m_limitEventListeners = s.m_limitEventListeners := by
  unfold IncrementAndCheckTriggerCount
  dsimp only
  rw [if_pos (show s.m_triggered + 1 ≥ s.m_limit from h)]
  have e1 : ({ s with m_triggered := s.m_triggered + 1 } : OdeTrigger).m_resetTimeout =
      s.m_resetTimeout := rfl
  have e2 : ({ s with m_triggered := s.m_triggered + 1 } : OdeTrigger).timers = s.timers :=
    rfl
  have e3 : ({ s with m_triggered := s.m_triggered + 1 } : OdeTrigger).lastSourceId =
      s.lastSourceId := rfl
  have e4 : ({ s with m_triggered := s.m_triggered + 1 } : OdeTrigger).m_resetTimerId =
      s.m_resetTimerId := rfl
  have e5 : ({ s with m_triggered := s.m_triggered + 1 } : OdeTrigger).m_limitEventListeners =
      s.m_limitEventListeners := rfl
  generalize ({ s with m_triggered := s.m_triggered + 1 } : OdeTrigger) = t at *
  rw [← e1, ← e2, ← e3, ← e4, ← e5]
  by_cases ht : t.m_resetTimeout ≠ 0
  · rw [if_pos (show (callLimitEventListeners t
      DSL_ODE_TRIGGER_LIMIT_EVENT_LIMIT_REACHED).m_resetTimeout ≠ 0 from ht)]
    exact ⟨fun _ => ⟨rfl, rfl⟩, fun h0 => absurd h0 ht, rfl⟩
  · rw [if_neg (show ¬ (callLimitEventListeners t
      DSL_ODE_TRIGGER_LIMIT_EVENT_LIMIT_REACHED).m_resetTimeout ≠ 0 from ht)]
    exact ⟨fun h0 => absurd h0 ht, fun _ => ⟨rfl, rfl⟩, rfl⟩

/-- C37: for a trigger without a limit (`m_limit` is 0), `IncrementAndCheckTriggerCount`
counts the event, calls every registered listener once with `LIMIT_REACHED` (and the
limit, 0), in the order of the listener map, and then, when a reset timeout is set,
schedules a reset timer and stores its handle; the limit, the listeners and the timeout
stay, so that the same holds for every further call. -/
theorem IncrementAndCheckTriggerCount_notifies_when_unlimited (s : OdeTrigger)
    (h0 : s.m_limit = 0) :
    (IncrementAndCheckTriggerCount s).m_triggered = s.m_triggered + 1 ∧
    (IncrementAndCheckTriggerCount s).log =
      s.log ++ s.m_limitEventListeners.map
        (fun l => Effect.LimitEventListener l.1 DSL_ODE_TRIGGER_LIMIT_EVENT_LIMIT_REACHED
          0 l.2) ++
      (if s.m_resetTimeout ≠ 0 then
        [Effect.g_timeout_add (1000 * s.m_resetTimeout % 2 ^ 32) (s.lastSourceId + 1)]
       else []) ∧
    (s.m_resetTimeout ≠ 0 →
      (IncrementAndCheckTriggerCount s).timers =
        s.timers ++ [(s.lastSourceId + 1, 1000 * s.m_resetTimeout % 2 ^ 32)] ∧
      (IncrementAndCheckTriggerCount s).m_resetTimerId = s.lastSourceId + 1) ∧
    (s.m_resetTimeout = 0 →
      (IncrementAndCheckTriggerCount s).timers = s.timers ∧
      (IncrementAndCheckTriggerCount s).m_resetTimerId = s.m_resetTimerId) ∧
    (IncrementAndCheckTriggerCount s).m_limit = 0 ∧
    (IncrementAndCheckTriggerCount s).m_limitEventListeners = s.m_limitEventListeners ∧
    (IncrementAndCheckTriggerCount s).m_resetTimeout = s.m_resetTimeout := by
  have hle : s.m_limit ≤ s.m_triggered + 1 := by rw [h0]; exact Nat.zero_le _
  have hlog := IncrementAndCheckTriggerCount_log s hle
  rw [h0] at hlog
  obtain ⟨t1, t2, t3⟩ := IncrementAndCheckTriggerCount_timers s hle
  refine ⟨IncrementAndCheckTriggerCount_m_triggered s, hlog, t1, t2, ?_, t3,
    IncrementAndCheckTriggerCount_m_resetTimeout s⟩
  rw [IncrementAndCheckTriggerCount_m_limit, h0]

/-- C37, witness: the example trigger without a limit, with two listeners and a reset
timeout of 5 seconds: the first event calls both listeners with `LIMIT_REACHED` and
schedules timer 1 for 5000 ms. -/
theorem IncrementAndCheckTriggerCount_notifies_when_unlimited_witness :
    exampleUnlimited.m_limit = 0 ∧
    (IncrementAndCheckTriggerCount exampleUnlimited).log =
      [Effect.LimitEventListener 100 DSL_ODE_TRIGGER_LIMIT_EVENT_LIMIT_REACHED 0 1,
       Effect.LimitEventListener 200 DSL_ODE_TRIGGER_LIMIT_EVENT_LIMIT_REACHED 0 2,
       Effect.g_timeout_add 5000 1] ∧
    (IncrementAndCheckTriggerCount exampleUnlimited).m_triggered = 1 :=
  ⟨rfl,
   (IncrementAndCheckTriggerCount_notifies_when_unlimited exampleUnlimited rfl).2.1.trans
     (by decide),
   (IncrementAndCheckTriggerCount_notifies_when_unlimited exampleUnlimited rfl).1⟩

/-- On a skipped frame the gates reject every object. -/
theorem CheckGates_of_skipFrame (s : OdeTrigger) (f : NvDsFrameMeta) (o : NvDsObjectMeta)
    (h : s.m_skipFrame = true) : (CheckGates s f o).1 = false := by
  cases hg : (CheckGates s f o).1 with
  | false => rfl
  | true =>
    have h1 := ((CheckGates_fst_iff s f o).1 hg).1.2.1
    rw [h] at h1
    exact Bool.noConfusion h1

/-- The base `PreProcessFrame` clears the frame's count of occurrences, invokes no Action
and keeps the members the events depend on. -/
theorem PreProcessFrame_core (s : OdeTrigger) (f : NvDsFrameMeta) :
    (OdeTrigger.PreProcessFrame s f).m_occurrences = 0 ∧
    (OdeTrigger.PreProcessFrame s f).m_limit = s.m_limit ∧
    (OdeTrigger.PreProcessFrame s f).m_triggered = s.m_triggered ∧
    (OdeTrigger.PreProcessFrame s f).m_pOdeActionsIndexed = s.m_pOdeActionsIndexed ∧
    (OdeTrigger.PreProcessFrame s f).m_interval = s.m_interval ∧
    actionLog (OdeTrigger.PreProcessFrame s f).log = actionLog s.log := by
  have hA : ∀ (l : List Effect) (areas : List (Nat × OdeArea)),
      actionLog (l ++ areas.map (fun a => Effect.AreaAddMeta a.2.name)) = actionLog l := by
    intro l areas
    rw [actionLog_append, actionLog_eq_nil_of_actionCalls _ (actionCalls_map_AreaAddMeta _),
      List.append_nil]
  have hS := CheckForSourceId_actionLog { s with m_occurrences := 0 } f.source_id
  obtain ⟨a, l, h3, -⟩ := CheckForSourceId_snd { s with m_occurrences := 0 } f.source_id
  unfold OdeTrigger.PreProcessFrame
  dsimp only
  split_ifs
  · exact ⟨rfl, rfl, rfl, rfl, rfl, rfl⟩
  · exact ⟨by rw [h3], by rw [h3], by rw [h3], by rw [h3], by rw [h3], hS⟩
  · exact ⟨by rw [h3], by rw [h3], by rw [h3], by rw [h3], by rw [h3], (hA _ _).trans hS⟩
  · exact ⟨by rw [h3], by rw [h3], by rw [h3], by rw [h3], by rw [h3], (hA _ _).trans hS⟩
  · exact ⟨by rw [h3], by rw [h3], by rw [h3], by rw [h3], by rw [h3], (hA _ _).trans hS⟩

/-- On a skipped frame the check phase of an Absence trigger counts no object and
invokes no Action, whatever objects the frame contains. -/
theorem Absence_run_on_skipped_frame (f : NvDsFrameMeta) (os : List NvDsObjectMeta) :
    ∀ (s : OdeTrigger), s.variant = Variant.Absence → s.m_skipFrame = true →
      SameCore s (run s (os.map (Call.CheckForOccurrence f))) ∧
      actionLog (run s (os.map (Call.CheckForOccurrence f))).log = actionLog s.log := by
  induction os with
  | nil =>
    intro s _ _
    exact ⟨SameCore_refl s, rfl⟩
  | cons o os ih =>
    intro s hv hs
    have e : step s (Call.CheckForOccurrence f o) = (CheckGates s f o).2 := by
      show (Trigger.CheckForOccurrence s f o).2 = _
      unfold Trigger.CheckForOccurrence
      rw [hv]
      show (AbsenceOdeTrigger.CheckForOccurrence s f o).2 = _
      unfold AbsenceOdeTrigger.CheckForOccurrence
      dsimp only
      rw [if_pos (by rw [CheckGates_of_skipFrame s f o hs]; rfl)]
    have h1 := CheckGates_same s f o
    have h2 := CheckGates_actionLog s f o
    rw [List.map_cons]
    show SameCore s (run (step s (Call.CheckForOccurrence f o)) _) ∧
      actionLog (run (step s (Call.CheckForOccurrence f o)) _).log = _
    rw [e]
    obtain ⟨i1, i2⟩ := ih (CheckGates s f o).2 (h1.variant.trans hv) (h1.m_skipFrame.trans hs)
    exact ⟨SameCore_trans h1 i1, i2.trans h2⟩

/-- An enabled Absence trigger below its limit that counted no object fires. -/
theorem AbsenceOdeTrigger_PostProcessFrame_fire (s : OdeTrigger) (f : NvDsFrameMeta)
    (hv : s.variant = Variant.Absence) (he : s.m_enabled = true)
    (hl : ¬ (s.m_limit ≠ 0 ∧ s.m_triggered ≥ s.m_limit)) (ho : s.m_occurrences = 0) :
    Trigger.PostProcessFrame s f =
      (1, callActions (IncrementEventCount (IncrementAndCheckTriggerCount s)) f none) := by
  unfold Trigger.PostProcessFrame
  rw [hv]
  show AbsenceOdeTrigger.PostProcessFrame s f = _
  unfold AbsenceOdeTrigger.PostProcessFrame
  dsimp only
  rw [if_neg]
  rintro (h | h | h)
  · rw [he] at h
    exact Bool.noConfusion h
  · exact hl h
  · exact h ho

/-- C38: for an enabled Absence trigger below its limit, on every frame that is skipped
(`m_skipFrame` is true after `PreProcessFrame`, as it is for all but every n-th frame
with an interval `n ≥ 2`), whatever objects the frame contains: the check phase counts
none of them, and `PostProcessFrame` fires: it returns 1, counts one event and invokes
every Action once, without an object. -/
theorem Absence_fires_on_skipped_frame (s : OdeTrigger) (f : NvDsFrameMeta)
    (os : List NvDsObjectMeta) (hv : s.variant = Variant.Absence)
    (he : s.m_enabled = true) (hl : ¬ (s.m_limit ≠ 0 ∧ s.m_triggered ≥ s.m_limit))
    (hs : (Trigger.PreProcessFrame s f).m_skipFrame = true) :
    (run (Trigger.PreProcessFrame s f) (os.map (Call.CheckForOccurrence f))).m_occurrences =
      0 ∧
    (Trigger.PostProcessFrame
      (run (Trigger.PreProcessFrame s f) (os.map (Call.CheckForOccurrence f))) f).1 = 1 ∧
    (Trigger.PostProcessFrame
      (run (Trigger.PreProcessFrame s f) (os.map (Call.CheckForOccurrence f))) f).2.m_triggered =
      s.m_triggered + 1 ∧
    actionLog (Trigger.PostProcessFrame
      (run (Trigger.PreProcessFrame s f) (os.map (Call.CheckForOccurrence f))) f).2.log =
      actionLog s.log ++ s.m_pOdeActionsIndexed.map
        (fun a => Effect.HandleOccurrence a.2.name f none) := by
  have e : Trigger.PreProcessFrame s f = OdeTrigger.PreProcessFrame s f := by
    unfold Trigger.PreProcessFrame
    rw [hv]
  rw [e] at hs ⊢
  obtain ⟨p1, p2, p3, p4, -, p6⟩ := PreProcessFrame_core s f
  obtain ⟨q1, q2⟩ := PreProcessFrame_variant s f
  obtain ⟨r1, r2⟩ := Absence_run_on_skipped_frame f os (OdeTrigger.PreProcessFrame s f)
    (q1.trans hv) hs
  generalize OdeTrigger.PreProcessFrame s f = s1 at *
  have ho : (run s1 (os.map (Call.CheckForOccurrence f))).m_occurrences = 0 :=
    r1.m_occurrences.trans p1
  have hfire := AbsenceOdeTrigger_PostProcessFrame_fire
    (run s1 (os.map (Call.CheckForOccurrence f))) f (r1.variant.trans (q1.trans hv))
    (r1.m_enabled.trans (q2.trans he))
    (by rw [r1.m_limit, r1.m_triggered, p2, p3]; exact hl) ho
  obtain ⟨e1, e2, -⟩ := event_without_object (run s1 (os.map (Call.CheckForOccurrence f))) f
    none
  generalize run s1 (os.map (Call.CheckForOccurrence f)) = s2 at *
  rw [hfire]
  refine ⟨ho, rfl, ?_, ?_⟩
  · rw [e1, r1.m_triggered, p3]
  · rw [e2, r2, p6, r1.m_pOdeActionsIndexed, p4]

/-- C38, witness: the example Absence trigger with the interval 2 gets frame 1, which is
skipped, with the five example objects of class 2: `PostProcessFrame` returns 1 and the
Action is invoked. -/
theorem Absence_fires_on_skipped_frame_witness :
    (Trigger.PreProcessFrame exampleAbsenceEverySecond exampleFrame).m_skipFrame = true ∧
    (Trigger.PostProcessFrame
      (run (Trigger.PreProcessFrame exampleAbsenceEverySecond exampleFrame)
        (exampleFiveObjects.map (Call.CheckForOccurrence exampleFrame))) exampleFrame).1 = 1 ∧
    actionLog (Trigger.PostProcessFrame
      (run (Trigger.PreProcessFrame exampleAbsenceEverySecond exampleFrame)
        (exampleFiveObjects.map (Call.CheckForOccurrence exampleFrame))) exampleFrame).2.log =
      [Effect.HandleOccurrence "print" exampleFrame none] :=
  ⟨by decide,
   (Absence_fires_on_skipped_frame exampleAbsenceEverySecond exampleFrame exampleFiveObjects
      rfl rfl (by decide) (by decide)).2.1,
   (Absence_fires_on_skipped_frame exampleAbsenceEverySecond exampleFrame exampleFiveObjects
      rfl rfl (by decide) (by decide)).2.2.2.trans (by decide)⟩

/-- C39, at a failing input: the disabled example Persistence trigger (range 0 to 10 s)
with the interval 2 gets the example object in the frames 1 to 4, 100 ms apart. The
`PreProcessFrame` of a disabled trigger returns before the interval is counted, so no
frame is skipped, and `CheckForOccurrence`, which does not test `m_enabled`, updates the
object in frame 2 and invokes the Action. The same trigger enabled invokes no Action. -/
theorem Persistence_disabled_with_interval_invokes_action :
    examplePersistenceDisabledEverySecond.m_enabled = false ∧
    examplePersistenceDisabledEverySecond.m_interval = 2 ∧
    actionLog (run examplePersistenceDisabledEverySecond (framesCalls exampleFourFrames)).log =
      [Effect.HandleOccurrence "print" (exampleFrameAt 2) (some exampleObject)] ∧
    actionLog (run examplePersistenceEverySecond (framesCalls exampleFourFrames)).log = [] := by
  decide

/-- `CheckForSourceId` keeps the interval and its counter. -/
theorem CheckForSourceId_interval (s : OdeTrigger) (x : Int) :
    (CheckForSourceId s x).2.m_interval = s.m_interval ∧
    (CheckForSourceId s x).2.m_intervalCounter = s.m_intervalCounter := by
  obtain ⟨a, l, h, -⟩ := CheckForSourceId_snd s x
  rw [h]
  exact ⟨rfl, rfl⟩

/-- `CheckForInferId` keeps the interval and its counter. -/
theorem CheckForInferId_interval (s : OdeTrigger) (x : Int) :
    (CheckForInferId s x).2.m_interval = s.m_interval ∧
    (CheckForInferId s x).2.m_intervalCounter = s.m_intervalCounter := by
  obtain ⟨a, l, h, -⟩ := CheckForInferId_snd s x
  rw [h]
  exact ⟨rfl, rfl⟩

/-- `CheckForMinCriteria` keeps the interval and its counter. -/
theorem CheckForMinCriteria_interval (s : OdeTrigger) (f : NvDsFrameMeta)
    (o : NvDsObjectMeta) :
    (CheckForMinCriteria s f o).2.m_interval = s.m_interval ∧
    (CheckForMinCriteria s f o).2.m_intervalCounter = s.m_intervalCounter := by
  have h1 := CheckForSourceId_interval s f.source_id
  have h2 := CheckForInferId_interval (CheckForSourceId s f.source_id).2 o.unique_component_id
  rcases CheckForMinCriteria_snd_cases s f o with h | h | h
  · rw [h]
    exact ⟨rfl, rfl⟩
  · rw [h]
    exact h1
  · rw [h]
    exact ⟨h2.1.trans h1.1, h2.2.trans h1.2⟩

/-- The gates keep the interval and its counter. -/
theorem CheckGates_interval (s : OdeTrigger) (f : NvDsFrameMeta) (o : NvDsObjectMeta) :
    (CheckGates s f o).2.m_interval = s.m_interval ∧
    (CheckGates s f o).2.m_intervalCounter = s.m_intervalCounter := by
  have h1 := CheckForSourceId_interval s f.source_id
  have h2 := CheckForMinCriteria_interval (CheckForSourceId s f.source_id).2 f o
  rcases CheckGates_snd_cases s f o with h | h
  · rw [h]
    exact h1
  · rw [h]
    exact ⟨h2.1.trans h1.1, h2.2.trans h1.2⟩

/-- On a frame that is skipped or that the source filter rejects, the gates reject every
object. -/
theorem CheckGates_of_dead_frame (s : OdeTrigger) (f : NvDsFrameMeta) (o : NvDsObjectMeta)
    (h : s.m_skipFrame = true ∨ sourceAccepts s f = false) : (CheckGates s f o).1 = false := by
  cases hg : (CheckGates s f o).1 with
  | false => rfl
  | true =>
    obtain ⟨h1, h2, -⟩ := ((CheckGates_fst_iff s f o).1 hg).1
    rcases h with h | h
    · rw [h] at h2
      exact Bool.noConfusion h2
    · unfold sourceAccepts at h
      rw [h] at h1
      exact Bool.noConfusion h1

/-- `PersistenceOdeTrigger::CheckForOccurrence` for an object the gates reject: nothing
happens but what the gates do. -/
theorem PersistenceOdeTrigger_CheckForOccurrence_rejected (s : OdeTrigger)
    (v : PersistenceState) (f : NvDsFrameMeta) (o : NvDsObjectMeta)
    (hg : (CheckGates s f o).1 = false) :
    PersistenceOdeTrigger.CheckForOccurrence s v f o = (false, (CheckGates s f o).2) := by
  unfold PersistenceOdeTrigger.CheckForOccurrence
  dsimp only
  rw [hg]
  rfl

/-- `PersistenceOdeTrigger::PostProcessFrame` keeps the tracked objects last seen in the
frame and takes out the others; it invokes no Action. -/
theorem PersistenceOdeTrigger_PostProcessFrame_facts (s : OdeTrigger) (v : PersistenceState)
    (f : NvDsFrameMeta) (hv : s.variant = Variant.Persistence v) :
    ∃ v', (Trigger.PostProcessFrame s f).2.variant = Variant.Persistence v' ∧
      v'.m_pTrackedObjectsPerSource.objects =
        v.m_pTrackedObjectsPerSource.objects.filter
          (fun t => decide (t.frameNumber = f.frame_num)) ∧
      (Trigger.PostProcessFrame s f).2.m_enabled = s.m_enabled ∧
      (Trigger.PostProcessFrame s f).2.m_interval = s.m_interval ∧
      (Trigger.PostProcessFrame s f).2.m_intervalCounter = s.m_intervalCounter ∧
      (Trigger.PostProcessFrame s f).2.log = s.log := by
  have e : Trigger.PostProcessFrame s f = PersistenceOdeTrigger.PostProcessFrame s v f := by
    unfold Trigger.PostProcessFrame
    rw [hv]
  rw [e]
  unfold PersistenceOdeTrigger.PostProcessFrame
  by_cases h : v.m_pTrackedObjectsPerSource.IsEmpty = true
  · rw [if_pos h]
    refine ⟨v, hv, ?_, rfl, rfl, rfl, rfl⟩
    unfold TrackedObjects.IsEmpty at h
    rw [List.isEmpty_iff.1 h]
    rfl
  · rw [if_neg h]
    exact ⟨_, rfl, rfl, rfl, rfl, rfl, rfl⟩

/-- On a frame that is skipped or that the source filter rejects, the check phase of a
Persistence trigger leaves the store as it is and invokes no Action, whatever objects the
frame contains. -/
theorem Persistence_run_on_dead_frame (f : NvDsFrameMeta) (os : List NvDsObjectMeta) :
    ∀ (s : OdeTrigger) (v : PersistenceState), s.variant = Variant.Persistence v →
      (s.m_skipFrame = true ∨ sourceAccepts s f = false) →
      SameCore s (run s (os.map (Call.CheckForOccurrence f))) ∧
      actionLog (run s (os.map (Call.CheckForOccurrence f))).log = actionLog s.log ∧
      (run s (os.map (Call.CheckForOccurrence f))).m_interval = s.m_interval ∧
      (run s (os.map (Call.CheckForOccurrence f))).m_intervalCounter =
        s.m_intervalCounter := by
  induction os with
  | nil =>
    intro s v _ _
    exact ⟨SameCore_refl s, rfl, rfl, rfl⟩
  | cons o os ih =>
    intro s v hv hd
    have hg := CheckGates_of_dead_frame s f o hd
    have e : step s (Call.CheckForOccurrence f o) = (CheckGates s f o).2 := by
      show (Trigger.CheckForOccurrence s f o).2 = _
      rw [Trigger_CheckForOccurrence_Persistence s v f o hv,
        PersistenceOdeTrigger_CheckForOccurrence_rejected s v f o hg]
    have h1 := CheckGates_same s f o
    have h2 := CheckGates_actionLog s f o
    have h3 := CheckGates_interval s f o
    have h4 := sourceAccepts_congr (CheckGates_SameFilters s f o) f
    rw [List.map_cons]
    show SameCore s (run (step s (Call.CheckForOccurrence f o)) _) ∧
      actionLog (run (step s (Call.CheckForOccurrence f o)) _).log = _ ∧
      (run (step s (Call.CheckForOccurrence f o)) _).m_interval = _ ∧
      (run (step s (Call.CheckForOccurrence f o)) _).m_intervalCounter = _
    rw [e]
    have hd' : (CheckGates s f o).2.m_skipFrame = true ∨
        sourceAccepts (CheckGates s f o).2 f = false := by
      rcases hd with hd | hd
      · exact Or.inl (h1.m_skipFrame.trans hd)
      · exact Or.inr (h4.trans hd)
    obtain ⟨i1, i2, i3, i4⟩ := ih (CheckGates s f o).2 v (h1.variant.trans hv) hd'
    exact ⟨SameCore_trans h1 i1, i2.trans h2, i3.trans h3.1, i4.trans h3.2⟩

/-- An object whose id no tracked object has is not tracked. -/
theorem IsTracked_of_fresh_id (st : TrackedObjects) (sourceId : Int) (objectId : Nat)
    (h : ∀ t ∈ st.objects, t.objectId ≠ objectId) :
    st.IsTracked sourceId objectId = false := by
  unfold TrackedObjects.IsTracked
  rw [List.any_eq_false]
  intro t ht
  rw [decide_eq_true_iff]
  exact fun hc => h t ht hc.2

/-- In a frame whose objects are all seen for the first time (no two of them have the
same id, and the store holds objects of this frame only), the check phase of a
Persistence trigger adds objects to the store and invokes no Action. -/
theorem Persistence_run_on_first_sightings (f : NvDsFrameMeta) (os : List NvDsObjectMeta) :
    ∀ (s : OdeTrigger) (v : PersistenceState) (seen : List Nat),
      s.variant = Variant.Persistence v →
      (∀ t ∈ v.m_pTrackedObjectsPerSource.objects,
        t.frameNumber = f.frame_num ∧ t.objectId ∈ seen) →
      (∀ o ∈ os, o.object_id ∉ seen) → (os.map (fun o => o.object_id)).Nodup →
      ∃ v', (run s (os.map (Call.CheckForOccurrence f))).variant = Variant.Persistence v' ∧
        (∀ t ∈ v'.m_pTrackedObjectsPerSource.objects, t.frameNumber = f.frame_num) ∧
        actionLog (run s (os.map (Call.CheckForOccurrence f))).log = actionLog s.log ∧
        (run s (os.map (Call.CheckForOccurrence f))).m_enabled = s.m_enabled ∧
        (run s (os.map (Call.CheckForOccurrence f))).m_interval = s.m_interval ∧
        (run s (os.map (Call.CheckForOccurrence f))).m_intervalCounter =
          s.m_intervalCounter := by
  induction os with
  | nil =>
    intro s v seen hv hq _ _
    exact ⟨v, hv, fun t ht => (hq t ht).1, rfl, rfl, rfl, rfl⟩
  | cons o os ih =>
    intro s v seen hv hq hfresh hnd
    have h1 := CheckGates_same s f o
    have h2 := CheckGates_actionLog s f o
    have h3 := CheckGates_interval s f o
    rw [List.map_cons] at hnd
    obtain ⟨hno, hnd'⟩ := List.nodup_cons.1 hnd
    rw [List.map_cons]
    show ∃ v', (run (step s (Call.CheckForOccurrence f o)) _).variant = _ ∧ _ ∧
      actionLog (run (step s (Call.CheckForOccurrence f o)) _).log = _ ∧
      (run (step s (Call.CheckForOccurrence f o)) _).m_enabled = _ ∧
      (run (step s (Call.CheckForOccurrence f o)) _).m_interval = _ ∧
      (run (step s (Call.CheckForOccurrence f o)) _).m_intervalCounter = _
    have e0 : step s (Call.CheckForOccurrence f o) =
        (PersistenceOdeTrigger.CheckForOccurrence s v f o).2 := by
      show (Trigger.CheckForOccurrence s f o).2 = _
      rw [Trigger_CheckForOccurrence_Persistence s v f o hv]
    rw [e0]
    cases hg : (CheckGates s f o).1 with
    | false =>
      rw [PersistenceOdeTrigger_CheckForOccurrence_rejected s v f o hg]
      obtain ⟨v', i1, i2, i3, i4, i5, i6⟩ := ih (CheckGates s f o).2 v seen
        (h1.variant.trans hv) hq (fun p hp => hfresh p (List.mem_cons_of_mem _ hp)) hnd'
      exact ⟨v', i1, i2, i3.trans h2, i4.trans h1.m_enabled, i5.trans h3.1, i6.trans h3.2⟩
    | true =>
      have hnt : v.m_pTrackedObjectsPerSource.IsTracked f.source_id o.object_id = false := by
        refine IsTracked_of_fresh_id _ _ _ ?_
        intro t ht hc
        exact hfresh o (List.mem_cons_self _ _) (hc ▸ (hq t ht).2)
      rw [PersistenceOdeTrigger_CheckForOccurrence_first s v f o hg hnt]
      have h5 := h1.m_enabled
      generalize (CheckGates s f o).2 = g at *
      have hq' : ∀ t ∈ (v.m_pTrackedObjectsPerSource.Track f o g.nowMs).objects,
          t.frameNumber = f.frame_num ∧ t.objectId ∈ o.object_id :: seen := by
        intro t ht
        unfold TrackedObjects.Track at ht
        rcases List.mem_append.1 ht with ht | ht
        · exact ⟨(hq t ht).1, List.mem_cons_of_mem _ (hq t ht).2⟩
        · rw [List.mem_singleton.1 ht]
          exact ⟨rfl, List.mem_cons_self _ _⟩
      have hfresh' : ∀ p ∈ os, p.object_id ∉ o.object_id :: seen := by
        intro p hp hc
        rcases List.mem_cons.1 hc with hc | hc
        · exact hno (List.mem_map.2 ⟨p, hp, hc⟩)
        · exact hfresh p (List.mem_cons_of_mem _ hp) hc
      generalize hst : v.m_pTrackedObjectsPerSource.Track f o g.nowMs = st at *
      generalize hw : PersistenceOdeTrigger.withStore v st = w
      obtain ⟨v', i1, i2, i3, i4, i5, i6⟩ := ih { g with variant := w }
        { v with m_pTrackedObjectsPerSource := st } (o.object_id :: seen) hw.symm hq' hfresh'
        hnd'
      exact ⟨v', i1, i2, i3.trans h2, i4.trans h5, i5.trans h3.1, i6.trans h3.2⟩

/-- The base `PreProcessFrame` of an enabled trigger on a frame that the source filter
rejects: the filter still rejects the frame afterwards, and the interval counter is as it
was. -/
theorem PreProcessFrame_of_rejected (s : OdeTrigger) (f : NvDsFrameMeta)
    (ha : sourceAccepts s f = false) :
    sourceAccepts (OdeTrigger.PreProcessFrame s f) f = false ∧
    (OdeTrigger.PreProcessFrame s f).m_intervalCounter = s.m_intervalCounter := by
  have h1 := CheckForSourceId_occurrences s 0 f.source_id
  have ha' : (CheckForSourceId s f.source_id).1 = false := ha
  rw [ha'] at h1
  have h2 := sourceAccepts_congr
    (CheckForSourceId_SameFilters { s with m_occurrences := 0 } f.source_id) f
  have h3 := (CheckForSourceId_interval { s with m_occurrences := 0 } f.source_id).2
  have h4 : sourceAccepts { s with m_occurrences := 0 } f = false := h1
  have h5 : ({ s with m_occurrences := 0 } : OdeTrigger).m_intervalCounter =
      s.m_intervalCounter := rfl
  unfold OdeTrigger.PreProcessFrame
  dsimp only
  generalize ({ s with m_occurrences := 0 } : OdeTrigger) = s0 at *
  rw [h1, ← h5]
  cases s.m_enabled with
  | true =>
    simp only [Bool.not_true, Bool.false_eq_true, if_false, Bool.not_false, if_true]
    exact ⟨h2.trans h4, h3⟩
  | false =>
    simp only [Bool.not_false, if_true]
    exact ⟨h4, trivial⟩

/-- A frame that is skipped or rejected by the source filter, processed by a Persistence
trigger: no Action is invoked, and `PostProcessFrame` takes out of the store every object
that was last seen in another frame. -/
theorem Persistence_dead_frame (f : NvDsFrameMeta) (os : List NvDsObjectMeta) (s : OdeTrigger)
    (v : PersistenceState) (hv : s.variant = Variant.Persistence v)
    (hd : s.m_skipFrame = true ∨ sourceAccepts s f = false) :
    ∃ v', (Trigger.PostProcessFrame (run s (os.map (Call.CheckForOccurrence f))) f).2.variant =
        Variant.Persistence v' ∧
      v'.m_pTrackedObjectsPerSource.objects =
        v.m_pTrackedObjectsPerSource.objects.filter
          (fun t => decide (t.frameNumber = f.frame_num)) ∧
      (Trigger.PostProcessFrame (run s (os.map (Call.CheckForOccurrence f))) f).2.m_enabled =
        s.m_enabled ∧
      (Trigger.PostProcessFrame (run s (os.map (Call.CheckForOccurrence f))) f).2.m_interval =
        s.m_interval ∧
      actionLog (Trigger.PostProcessFrame
        (run s (os.map (Call.CheckForOccurrence f))) f).2.log = actionLog s.log := by
  obtain ⟨r1, r2, r3, -⟩ := Persistence_run_on_dead_frame f os s v hv hd
  obtain ⟨v', q1, q2, q3, q4, -, q6⟩ := PersistenceOdeTrigger_PostProcessFrame_facts
    (run s (os.map (Call.CheckForOccurrence f))) v f (r1.variant.trans hv)
  exact ⟨v', q1, q2, q3.trans r1.m_enabled, q4.trans r3, by rw [q6]; exact r2⟩

/-- One frame processed by an enabled Persistence trigger with an interval `n ≥ 2`, from
a state whose store holds no object last seen in a frame of this number and is empty
unless the next accepted frame is skipped: no Action is invoked, and afterwards the store
holds objects last seen in this frame only and is empty unless the next accepted frame is
skipped. -/
theorem Persistence_frame_with_interval (n : Nat) (hn : 2 ≤ n) (s : OdeTrigger)
    (v : PersistenceState) (ms : Nat) (f : NvDsFrameMeta) (os : List NvDsObjectMeta)
    (hv : s.variant = Variant.Persistence v) (he : s.m_enabled = true)
    (hi : s.m_interval = n)
    (hold : ∀ t ∈ v.m_pTrackedObjectsPerSource.objects, t.frameNumber ≠ f.frame_num)
    (hc : v.m_pTrackedObjectsPerSource.objects = [] ∨ (s.m_intervalCounter + 1) % n ≠ 0)
    (hnd : (os.map (fun o => o.object_id)).Nodup) :
    ∃ v', (run s (Call.Tick ms :: frameCalls f os)).variant = Variant.Persistence v' ∧
      (run s (Call.Tick ms :: frameCalls f os)).m_enabled = true ∧
      (run s (Call.Tick ms :: frameCalls f os)).m_interval = n ∧
      (∀ t ∈ v'.m_pTrackedObjectsPerSource.objects, t.frameNumber = f.frame_num) ∧
      (v'.m_pTrackedObjectsPerSource.objects = [] ∨
        ((run s (Call.Tick ms :: frameCalls f os)).m_intervalCounter + 1) % n ≠ 0) ∧
      actionLog (run s (Call.Tick ms :: frameCalls f os)).log = actionLog s.log := by
  have hn0 : n ≠ 0 := by omega
  have hpurged : v.m_pTrackedObjectsPerSource.objects.filter
      (fun t => decide (t.frameNumber = f.frame_num)) = [] := by
    rw [List.filter_eq_nil_iff]
    intro t ht
    rw [decide_eq_true_iff]
    exact hold t ht
  have e : run s (Call.Tick ms :: frameCalls f os) =
      run (step s (Call.Tick ms)) (frameCalls f os) := rfl
  rw [e, run_frameCalls]
  have hv0 : (step s (Call.Tick ms)).variant = Variant.Persistence v := hv
  have he0 : (step s (Call.Tick ms)).m_enabled = true := he
  have hi0 : (step s (Call.Tick ms)).m_interval = n := hi
  have hc0 : v.m_pTrackedObjectsPerSource.objects = [] ∨
      ((step s (Call.Tick ms)).m_intervalCounter + 1) % n ≠ 0 := hc
  have hl0 : actionLog (step s (Call.Tick ms)).log = actionLog s.log := rfl
  generalize step s (Call.Tick ms) = s0 at *
  rw [← hl0]
  have ep : Trigger.PreProcessFrame s0 f = OdeTrigger.PreProcessFrame s0 f := by
    unfold Trigger.PreProcessFrame
    rw [hv0]
  rw [ep]
  obtain ⟨p1, p2⟩ := PreProcessFrame_variant s0 f
  obtain ⟨-, -, -, -, p5, p6⟩ := PreProcessFrame_core s0 f
  have dead : (OdeTrigger.PreProcessFrame s0 f).m_skipFrame = true ∨
      sourceAccepts (OdeTrigger.PreProcessFrame s0 f) f = false →
      ∃ v', (Trigger.PostProcessFrame (run (OdeTrigger.PreProcessFrame s0 f)
          (os.map (Call.CheckForOccurrence f))) f).2.variant = Variant.Persistence v' ∧
        (Trigger.PostProcessFrame (run (OdeTrigger.PreProcessFrame s0 f)
          (os.map (Call.CheckForOccurrence f))) f).2.m_enabled = true ∧
        (Trigger.PostProcessFrame (run (OdeTrigger.PreProcessFrame s0 f)
          (os.map (Call.CheckForOccurrence f))) f).2.m_interval = n ∧
        (∀ t ∈ v'.m_pTrackedObjectsPerSource.objects, t.frameNumber = f.frame_num) ∧
        (v'.m_pTrackedObjectsPerSource.objects = [] ∨
          ((Trigger.PostProcessFrame (run (OdeTrigger.PreProcessFrame s0 f)
            (os.map (Call.CheckForOccurrence f))) f).2.m_intervalCounter + 1) % n ≠ 0) ∧
        actionLog (Trigger.PostProcessFrame (run (OdeTrigger.PreProcessFrame s0 f)
          (os.map (Call.CheckForOccurrence f))) f).2.log = actionLog s0.log := by
    intro hd
    obtain ⟨v', d1, d2, d3, d4, d5⟩ := Persistence_dead_frame f os
      (OdeTrigger.PreProcessFrame s0 f) v (p1.trans hv0) hd
    rw [hpurged] at d2
    refine ⟨v', d1, d3.trans (p2.trans he0), d4.trans (p5.trans hi0), ?_, Or.inl d2,
      d5.trans p6⟩
    intro t ht
    rw [d2] at ht
    exact absurd ht (List.not_mem_nil _)
  cases ha : sourceAccepts s0 f with
  | false => exact dead (Or.inr (PreProcessFrame_of_rejected s0 f ha).1)
  | true =>
    obtain ⟨-, -, -, a4, a5⟩ := PreProcessFrame_of_accepted s0 f he0 ha
    rw [hi0] at a4 a5
    rw [if_pos hn0] at a4
    by_cases hk : (s0.m_intervalCounter + 1) % n ≠ 0
    · refine dead (Or.inl ?_)
      rw [a5, decide_eq_true_iff]
      exact ⟨hn0, hk⟩
    · have hk0 : (s0.m_intervalCounter + 1) % n = 0 := not_not.1 hk
      have hempty : v.m_pTrackedObjectsPerSource.objects = [] := by
        rcases hc0 with h | h
        · exact h
        · exact absurd hk0 h
      obtain ⟨v2, l1, l2, l3, l4, l5, l6⟩ := Persistence_run_on_first_sightings f os
        (OdeTrigger.PreProcessFrame s0 f) v [] (p1.trans hv0)
        (by rw [hempty]; intro t ht; exact absurd ht (List.not_mem_nil _))
        (fun o _ => List.not_mem_nil _) hnd
      obtain ⟨v', q1, q2, q3, q4, q5, q6⟩ := PersistenceOdeTrigger_PostProcessFrame_facts
        (run (OdeTrigger.PreProcessFrame s0 f) (os.map (Call.CheckForOccurrence f))) v2 f l1
      refine ⟨v', q1, q3.trans (l4.trans (p2.trans he0)), q4.trans (l5.trans (p5.trans hi0)),
        ?_, Or.inr ?_, by rw [q6]; exact l3.trans p6⟩
      · intro t ht
        rw [q2] at ht
        exact l2 t (List.mem_filter.1 ht).1
      · rw [q5, l6, a4, hk0, Nat.zero_add, Nat.mod_eq_of_lt (by omega)]
        exact Nat.one_ne_zero

/-- An enabled Persistence trigger with an interval `n ≥ 2` invokes no Action over any
sequence of frames with pairwise distinct frame numbers, each processed as
`PreProcessFrame`, `CheckForOccurrence` for each object, `PostProcessFrame`, with no
object id twice in a frame: from a state whose store holds no object last seen in a frame
with one of these numbers, and is empty (as after construction) unless the next accepted
frame is skipped (as after `SetInterval`). -/
theorem Persistence_with_interval_invokes_no_action (n : Nat) (hn : 2 ≤ n)
    (frames : List (Nat × NvDsFrameMeta × List NvDsObjectMeta)) :
    ∀ (s : OdeTrigger) (v : PersistenceState), s.variant = Variant.Persistence v →
      s.m_enabled = true → s.m_interval = n →
      (∀ t ∈ v.m_pTrackedObjectsPerSource.objects,
        t.frameNumber ∉ frames.map (fun p => p.2.1.frame_num)) →
      (v.m_pTrackedObjectsPerSource.objects = [] ∨ (s.m_intervalCounter + 1) % n ≠ 0) →
      (frames.map (fun p => p.2.1.frame_num)).Nodup →
      (∀ p ∈ frames, (p.2.2.map (fun o => o.object_id)).Nodup) →
      actionLog (run s (framesCalls frames)).log = actionLog s.log := by
  induction frames with
  | nil =>
    intro s v _ _ _ _ _ _ _
    rfl
  | cons p rest ih =>
    intro s v hv he hi hold hc hnd hids
    rw [List.map_cons] at hnd hold
    obtain ⟨hp, hnd'⟩ := List.nodup_cons.1 hnd
    have e : run s (framesCalls (p :: rest)) =
        run (run s (Call.Tick p.1 :: frameCalls p.2.1 p.2.2)) (framesCalls rest) := by
      unfold framesCalls run
      rw [List.flatMap_cons, List.foldl_append]
    rw [e]
    obtain ⟨v', f1, f2, f3, f4, f5, f6⟩ := Persistence_frame_with_interval n hn s v p.1 p.2.1
      p.2.2 hv he hi (fun t ht hc' => hold t ht (hc' ▸ List.mem_cons_self _ _)) hc
      (hids p (List.mem_cons_self _ _))
    rw [ih _ v' f1 f2 f3 (fun t ht hm => hp (f4 t ht ▸ hm)) f5 hnd'
      (fun q hq => hids q (List.mem_cons_of_mem _ hq)), f6]

/-- Replacing an element of a list of naturals changes the sum by the difference. -/
theorem sum_set_add (l : List Nat) : ∀ (i c v : Nat), l[i]? = some c →
    (l.set i v).sum + c = l.sum + v := by
  induction l with
  | nil =>
    intro i c v h
    exact absurd h (by simp)
  | cons a l ih =>
    intro i c v h
    cases i with
    | zero =>
      rw [List.getElem?_cons_zero] at h
      have e : a = c := Option.some.inj h
      rw [List.set_cons_zero, List.sum_cons, List.sum_cons, e]
      omega
    | succ i =>
      rw [List.getElem?_cons_succ] at h
      rw [List.set_cons_succ, List.sum_cons, List.sum_cons]
      have := ih i c v h
      omega

/-- Replacing an element of a list of naturals by a greater one: the greatest element is
the greater of the old greatest element and the new element. -/
theorem foldl_max_set (l : List Nat) (i c v : Nat) (h : l[i]? = some c) (hcv : c ≤ v) :
    (l.set i v).foldl max 0 = max (l.foldl max 0) v := by
  have hi : i < l.length := (List.getElem?_eq_some.1 h).1
  have hv : v ∈ l.set i v := List.mem_iff_getElem?.2 ⟨i, List.getElem?_set_self hi⟩
  apply Nat.le_antisymm
  · rcases foldl_max_mem (l.set i v) 0 with e | e
    · rw [e]
      exact Nat.zero_le _
    · rcases List.mem_or_eq_of_mem_set e with e | e
      · exact Nat.le_trans (mem_le_foldl_max l 0 _ e) (le_max_left _ _)
      · rw [e]
        exact le_max_right _ _
  · refine max_le ?_ (mem_le_foldl_max _ 0 v hv)
    rcases foldl_max_mem l 0 with e | e
    · rw [e]
      exact Nat.zero_le _
    · obtain ⟨k, hk⟩ := List.mem_iff_getElem?.1 e
      by_cases hki : i = k
      · subst hki
        rw [h] at hk
        rw [← Option.some.inj hk]
        exact Nat.le_trans hcv (mem_le_foldl_max _ 0 v hv)
      · refine mem_le_foldl_max _ 0 _ (List.mem_iff_getElem?.2 ⟨k, ?_⟩)
        rw [List.getElem?_set_ne hki]
        exact hk

/-- What `HandleOccurrence` does to the sum and to the greatest of the counters: the sum is
one more, and the greatest counter is the greater of the old one and the new count. -/
theorem HandleOccurrence_sum_max (s s' : OdeHeatMapper) (f : NvDsFrameMeta)
    (o : NvDsObjectMeta) (h : OdeHeatMapper.HandleOccurrence s f o = some s') :
    OdeHeatMapper.heatSum s' = OdeHeatMapper.heatSum s + 1 ∧
    ∃ count, count ≤ OdeHeatMapper.heatMax s ∧
      OdeHeatMapper.heatMax s' = max (OdeHeatMapper.heatMax s) (count + 1) ∧
      s'.m_mostOccurrences = max s.m_mostOccurrences (count + 1) := by
  obtain ⟨g, c, col, row, cells, count, hg, _, _, hcells, hcount, rfl⟩ :=
    HandleOccurrence_some s s' f o h
  obtain ⟨g1, -, -, g4, -, -⟩ := initGrid_some s g f hg
  rw [g1] at hcells
  unfold OdeHeatMapper.heatSum OdeHeatMapper.heatMax
  show ((g.m_heatMap.set row (cells.set col (count + 1))).map List.sum).sum = _ ∧
    ∃ k, _ ∧ ((g.m_heatMap.set row (cells.set col (count + 1))).map
      (fun row => row.foldl max 0)).foldl max 0 = _ ∧ max g.m_mostOccurrences (count + 1) = _
  rw [g1, g4, List.map_set, List.map_set]
  have hs1 : (s.m_heatMap.map List.sum)[row]? = some cells.sum := by
    rw [List.getElem?_map, hcells]
    rfl
  have hm1 : (s.m_heatMap.map (fun row => row.foldl max 0))[row]? =
      some (cells.foldl max 0) := by
    rw [List.getElem?_map, hcells]
    rfl
  have a1 := sum_set_add cells col count (count + 1) hcount
  have a2 := sum_set_add (s.m_heatMap.map List.sum) row cells.sum
    (cells.set col (count + 1)).sum hs1
  have b1 := foldl_max_set cells col count (count + 1) hcount (Nat.le_succ _)
  have b2 := foldl_max_set (s.m_heatMap.map (fun row => row.foldl max 0)) row
    (cells.foldl max 0) ((cells.set col (count + 1)).foldl max 0) hm1
    (by rw [b1]; exact le_max_left _ _)
  have hle1 : count ≤ cells.foldl max 0 := mem_le_foldl_max cells 0 count
    (List.getElem?_mem hcount)
  have hle2 : cells.foldl max 0 ≤ (s.m_heatMap.map (fun row => row.foldl max 0)).foldl max 0 :=
    mem_le_foldl_max _ 0 _ (List.getElem?_mem hm1)
  refine ⟨by omega, count, Nat.le_trans hle1 hle2, ?_, rfl⟩
  rw [b2, b1]
  omega

/-- After `Reset` every counter is 0 and the dimensions of the grid are as they were. -/
theorem Reset_zeroes_counters (s : OdeHeatMapper) :
    (∀ cells ∈ (OdeHeatMapper.Reset s).m_heatMap, ∀ count ∈ cells, count = 0) ∧
    (OdeHeatMapper.Reset s).m_heatMap.length = s.m_heatMap.length ∧
    (OdeHeatMapper.Reset s).m_rows = s.m_rows ∧ (OdeHeatMapper.Reset s).m_cols = s.m_cols ∧
    (OdeHeatMapper.Reset s).m_gridRectWidth = s.m_gridRectWidth ∧
    (OdeHeatMapper.Reset s).m_gridRectHeight = s.m_gridRectHeight ∧
    (OdeHeatMapper.Reset s).m_mostOccurrences = s.m_mostOccurrences := by
  refine ⟨?_, ?_, rfl, rfl, rfl, rfl, rfl⟩
  · intro cells hc count hn
    obtain ⟨old, _, rfl⟩ := List.mem_map.1 hc
    obtain ⟨_, _, rfl⟩ := List.mem_map.1 hn
    rfl
  · exact List.length_map _ _

/-- Over `HandleOccurrence` calls only, from a state whose `m_mostOccurrences` is the
greatest counter: the sum of the counters grows by the number of occurrences handled,
`m_mostOccurrences` is still the greatest counter, and `m_totalOccurrences` is as it
was. -/
theorem HeatMapper_without_Reset (calls : List HeatCall) :
    ∀ (s s' : OdeHeatMapper), runHeat s calls = some s' →
      (∀ c ∈ calls, c ≠ HeatCall.Reset) →
      s.m_mostOccurrences = OdeHeatMapper.heatMax s →
      OdeHeatMapper.heatSum s' = OdeHeatMapper.heatSum s + calls.length ∧
      s'.m_mostOccurrences = OdeHeatMapper.heatMax s' ∧
      s'.m_totalOccurrences = s.m_totalOccurrences := by
  induction calls with
  | nil =>
    intro s s' h _ hm
    rw [← Option.some.inj h]
    exact ⟨rfl, hm, rfl⟩
  | cons c rest ih =>
    intro s s' h hr hm
    unfold runHeat at h
    split at h
    · exact absurd h (by simp)
    · rename_i t ht
      cases c with
      | Reset => exact absurd rfl (hr _ (List.mem_cons_self _ _))
      | HandleOccurrence f o =>
        obtain ⟨e1, count, _, e3, e4⟩ := HandleOccurrence_sum_max s t f o ht
        obtain ⟨g, _, _, _, _, _, hg, _, _, _, _, e5⟩ := HandleOccurrence_some s t f o ht
        obtain ⟨-, -, -, -, g5, -⟩ := initGrid_some s g f hg
        have e6 : t.m_totalOccurrences = s.m_totalOccurrences := by
          rw [e5]
          exact g5
        obtain ⟨i1, i2, i3⟩ := ih t s' h (fun c hc => hr c (List.mem_cons_of_mem _ hc))
          (by rw [e4, e3, hm])
        refine ⟨?_, i2, i3.trans e6⟩
        rw [i1, e1, List.length_cons]
        omega

/-- The heat map of a freshly constructed heat mapper: the counters sum to 0 and the
greatest counter is 0. -/
theorem HeatMapper_new_sum_max (name : String) (cols rows bboxTestPoint : Nat) :
    OdeHeatMapper.heatSum (OdeHeatMapper.new name cols rows bboxTestPoint) = 0 ∧
    OdeHeatMapper.heatMax (OdeHeatMapper.new name cols rows bboxTestPoint) = 0 := by
  unfold OdeHeatMapper.heatSum OdeHeatMapper.heatMax OdeHeatMapper.new
  dsimp only
  constructor
  · rw [List.sum_eq_zero]
    intro x hx
    obtain ⟨cells, hc, rfl⟩ := List.mem_map.1 hx
    rw [(List.mem_replicate.1 hc).2, List.sum_eq_zero]
    intro y hy
    exact (List.mem_replicate.1 hy).2
  · apply foldl_max_eq_of_le
    intro x hx
    obtain ⟨cells, hc, rfl⟩ := List.mem_map.1 hx
    rw [(List.mem_replicate.1 hc).2, foldl_max_eq_of_le]
    intro y hy
    rw [(List.mem_replicate.1 hy).2]

/-- From construction, over `HandleOccurrence` calls that return and no `Reset`: the
counters of the heat map sum to the number of occurrences handled, `m_mostOccurrences` is
the greatest counter, and `m_totalOccurrences` is 0. -/
theorem HeatMapper_counts_occurrences (name : String) (cols rows bboxTestPoint : Nat)
    (calls : List HeatCall) (s : OdeHeatMapper)
    (h : runHeat (OdeHeatMapper.new name cols rows bboxTestPoint) calls = some s)
    (hr : ∀ c ∈ calls, c ≠ HeatCall.Reset) :
    OdeHeatMapper.heatSum s = calls.length ∧
    s.m_mostOccurrences = OdeHeatMapper.heatMax s ∧ s.m_totalOccurrences = 0 := by
  obtain ⟨n1, n2⟩ := HeatMapper_new_sum_max name cols rows bboxTestPoint
  obtain ⟨i1, i2, i3⟩ := HeatMapper_without_Reset calls _ s h hr n2.symm
  rw [n1, Nat.zero_add] at i1
  exact ⟨i1, i2, i3⟩

/-- A `HandleOccurrence` call that returns has incremented by one exactly the counter at
the column `x / gridRectWidth` and the row `y / gridRectHeight` of the test point
`(x, y)`, a position inside the heat map, and has changed no other counter. -/
theorem HandleOccurrence_increments_one_cell (s s' : OdeHeatMapper) (f : NvDsFrameMeta)
    (o : NvDsObjectMeta) (h : OdeHeatMapper.HandleOccurrence s f o = some s') :
    ∃ (c : dsl_coordinate) (count : Nat),
      getCoordinate s.m_bboxTestPoint o.rect_params = some c ∧
      s'.m_gridRectWidth ≠ 0 ∧ s'.m_gridRectHeight ≠ 0 ∧
      OdeHeatMapper.cell s (c.y / s'.m_gridRectHeight) (c.x / s'.m_gridRectWidth) =
        some count ∧
      OdeHeatMapper.cell s' (c.y / s'.m_gridRectHeight) (c.x / s'.m_gridRectWidth) =
        some (count + 1) ∧
      ∀ i j, (i, j) ≠ (c.y / s'.m_gridRectHeight, c.x / s'.m_gridRectWidth) →
        OdeHeatMapper.cell s' i j = OdeHeatMapper.cell s i j := by
  obtain ⟨g, c, col, row, cells, count, hg, hc, hp, hcells, hcount, rfl⟩ :=
    HandleOccurrence_some s s' f o h
  obtain ⟨g1, -, -, -, -, g6⟩ := initGrid_some s g f hg
  rw [g6] at hc
  unfold OdeHeatMapper.position at hp
  split_ifs at hp with h0
  have e := Option.some.inj hp
  have ecol : c.x / g.m_gridRectWidth = col := congrArg Prod.fst e
  have erow : c.y / g.m_gridRectHeight = row := congrArg Prod.snd e
  have hrow : row < g.m_heatMap.length := (List.getElem?_eq_some.1 hcells).1
  have hcol : col < cells.length := (List.getElem?_eq_some.1 hcount).1
  refine ⟨c, count, hc, fun hz => h0 (Or.inl hz), fun hz => h0 (Or.inr hz), ?_, ?_, ?_⟩
  · show OdeHeatMapper.cell s (c.y / g.m_gridRectHeight) (c.x / g.m_gridRectWidth) = _
    rw [ecol, erow]
    unfold OdeHeatMapper.cell
    rw [← g1, hcells]
    exact hcount
  · show OdeHeatMapper.cell _ (c.y / g.m_gridRectHeight) (c.x / g.m_gridRectWidth) = _
    rw [ecol, erow]
    unfold OdeHeatMapper.cell
    dsimp only
    rw [List.getElem?_set_self hrow]
    exact List.getElem?_set_self hcol
  · intro i j hne
    show OdeHeatMapper.cell _ i j = _
    have hne' : (i, j) ≠ (row, col) := by
      rw [← ecol, ← erow]
      exact hne
    unfold OdeHeatMapper.cell
    dsimp only
    rw [← g1]
    by_cases hi : row = i
    · subst hi
      rw [List.getElem?_set_self hrow, hcells]
      dsimp only
      refine List.getElem?_set_ne ?_
      intro hj
      exact hne' (by rw [hj])
    · rw [List.getElem?_set_ne hi]

end DSL
